import Mathlib

/-!
# alfapay: request dispatch and its error contract

A shallow embedding of the request-dispatch layer of the `alfapay` Go client
(`client.go`), of the response envelope (`models.go`) and of the operations of
its services (`orders.go`, `payments.go`, `refunds.go`, `status.go`,
`bindings.go`, `sbp.go` and the wallet files), followed by theorems about them.

Conventions of the embedding

* A Go `string` is a Lean `String`, which covers the Go strings that are valid
  UTF-8; where the Go library works on bytes (query escaping) the UTF-8 bytes of
  each character are computed explicitly. The loop of `AddParams` and the JSON
  decoder are also given on strings held by their bytes, valid UTF-8 or not.
* A Go pointer or interface that may be `nil` is an `Option`.
* A Go `error` returned by dispatch is a value of `Error E`, where `E` is the type
  of the errors produced by the collaborators (JSON codec, HTTP capability).
* The collaborators of dispatch that live outside the repository
  (`json.Marshal`, `json.Unmarshal`, `http.NewRequestWithContext`,
  `http.Client.Do`, `io.ReadAll`) are parameters: `Env` and `HTTPClient`.
  Every call to one of them is recorded in a trace of `Event`s.
-/

namespace Alfapay

/-! ## net/url: `url.Values`, `QueryEscape`, `Values.Encode` -/

/-- A `url.Values` map (`map[string][]string`) as an association list. The entry
that counts for a key is the first one; `Set` keeps at most one entry per key. -/
abbrev Values := List (String × List String)

/-- The value `v[key]` of the map, the empty slice when the key is absent. -/
def Values.lookup : Values → String → List String
  | [], _ => []
  | (k, vs) :: rest, key => if k = key then vs else Values.lookup rest key

/-- Go `Values.Set`: `v[key] = []string{value}`, replacing any existing values. -/
def Values.Set (v : Values) (key value : String) : Values :=
  (key, [value]) :: v.filter (fun e => e.1 ≠ key)

/-- Go `Values.Has`: whether the key is present in the map. -/
def Values.Has (v : Values) (key : String) : Bool :=
  v.any (fun e => e.1 = key)

/-- The keys of the map, each once. -/
def Values.keys (v : Values) : List String :=
  (v.map Prod.fst).dedup

/-- Go `len(v)`: the number of keys of the map. -/
def Values.len (v : Values) : Nat :=
  v.keys.length

/-- The hexadecimal digit used by `QueryEscape` (upper case). -/
def upperhex (n : Nat) : Char :=
  "0123456789ABCDEF".data.getD n '0'

/-- The UTF-8 bytes of a character, as the Go string holds them. -/
def utf8Bytes (c : Char) : List Nat :=
  let n := c.toNat
  if n < 0x80 then [n]
  else if n < 0x800 then [0xC0 + n / 64, 0x80 + n % 64]
  else if n < 0x10000 then [0xE0 + n / 4096, 0x80 + (n / 64) % 64, 0x80 + n % 64]
  else [0xF0 + n / 262144, 0x80 + (n / 4096) % 64, 0x80 + (n / 64) % 64, 0x80 + n % 64]

/-- Go `shouldEscape(c, encodeQueryComponent)` negated: the bytes that
`QueryEscape` leaves as they are (ASCII letters, digits, and the marks - _ . ~). -/
def unreserved (c : Char) : Bool :=
  c.isAlphanum || c = '-' || c = '_' || c = '.' || c = '~'

/-- The escaping of one character by `QueryEscape`: unreserved bytes stay, a space
becomes a plus sign, every other byte becomes a percent sign and two hex digits. -/
def escapeChar (c : Char) : List Char :=
  if unreserved c then [c]
  else if c = ' ' then ['+']
  else (utf8Bytes c).flatMap (fun b => ['%', upperhex (b / 16), upperhex (b % 16)])

/-- Go `url.QueryEscape` on the characters of a string. -/
def escapeChars (s : List Char) : List Char :=
  s.flatMap escapeChar

/-- Go `url.QueryEscape`. -/
def QueryEscape (s : String) : String :=
  String.mk (escapeChars s.data)

/-- The keys of the map in the order `Values.Encode` visits them (sorted, as
`slices.Sorted(maps.Keys(v))` does, by byte-wise comparison). -/
def Values.sortedKeys (v : Values) : List String :=
  v.keys.insertionSort (fun a b => a.data ≤ b.data)

/-- The `key=value` components written by `Values.Encode`, in order, each as a list
of characters. -/
def Values.segments (v : Values) : List (List Char) :=
  v.sortedKeys.flatMap (fun k =>
    (v.lookup k).map (fun x => escapeChars k.data ++ '=' :: escapeChars x.data))

/-- Go `Values.Encode`: the components joined by an ampersand. -/
def Values.Encode (v : Values) : String :=
  String.mk (['&'].intercalate v.segments)

/-! ## net/http: requests, responses and the HTTP capability -/

/-- A `context.Context` handed to a domain operation, identified by a token. -/
structure Context where
  id : Nat
  deriving DecidableEq

/-- An `http.Header` restricted to single-valued keys, as an association list. -/
abbrev Header := List (String × String)

/-- Go `Header.Set`: replaces the values of the key by the single value. -/
def Header.Set (h : Header) (key value : String) : Header :=
  h.filter (fun e => e.1 ≠ key) ++ [(key, value)]

/-- Go `Header.Get` together with presence: `none` when the key is not set. -/
def Header.Get : Header → String → Option String
  | [], _ => none
  | (k, x) :: rest, key => if k = key then some x else Header.Get rest key

/-- The outbound `*http.Request` as dispatch builds it. `Body` is the body reader:
`none` is the nil reader (no body is sent), `some b` a reader over the bytes `b`. -/
structure Request where
  ctx : Context
  Method : String
  URL : String
  Body : Option String
  Header : Header
  deriving DecidableEq

/-- An `*http.Response`: the status code and what `io.ReadAll(resp.Body)` returns
(the complete body, or a read error). -/
structure Response (E : Type) where
  StatusCode : Int
  Body : Except E String

/-- The `*http.Client` of the configuration: its timeout (nanoseconds) and the
capability `Do`, which answers a request with a response or a transport error. -/
structure HTTPClient (E : Type) where
  Timeout : Int
  Do : Request → Except E (Response E)

/-- Go `http.MethodPost`. -/
def MethodPost : String := "POST"

/-! ## client.go -/

/-- The configuration fields of `Client` (the service fields only point back to
the client and hold no data). -/
structure Client (E : Type) where
  baseURL : String
  httpClient : HTTPClient E
  userName : String
  password : String

/-- Go `APIError`: an API error response. -/
structure APIError where
  StatusCode : Int
  Message : String
  deriving DecidableEq

/-- Go `(*APIError).Error`, with the status rendered in decimal. -/
def APIError.Error (e : APIError) : String :=
  "API error (status " ++ toString e.StatusCode ++ "): " ++ e.Message

/-- The `error` values dispatch returns: `wrapError msg err` is the value of
`fmt.Errorf(msg + ": %w", err)`, whose `Unwrap` is `err`; `apiError e` is `&APIError`. -/
inductive Error (E : Type) where
  | wrapError (msg : String) (err : E)
  | apiError (e : APIError)
  deriving DecidableEq

/-- Go `errors.Unwrap`: the cause carried by an error made with `%w`. -/
def Error.Unwrap {E : Type} : Error E → Option E
  | .wrapError _ err => some err
  | .apiError _ => none

/-- Whether the error value is an `*APIError` (a gateway error). -/
def Error.isAPIError {E : Type} : Error E → Bool
  | .wrapError _ _ => false
  | .apiError _ => true

/-- Whether the error value is the one made on line 152 (and 211) of client.go,
`fmt.Errorf("failed to decode response: %w", err)`. -/
def Error.isDecodeFailure {E : Type} : Error E → Bool
  | .wrapError msg _ => msg = "failed to decode response"
  | .apiError _ => false

/-- The calls dispatch makes to its collaborators, in the order it makes them. -/
inductive Event where
  | marshal
  | newRequest (method url : String)
  | httpDo (req : Request)
  | readAll
  | unmarshal (data : String)
  deriving DecidableEq

/-- The library functions dispatch calls, for a body type `B` and a result type `T`.
`Marshal` is `json.Marshal`; `NewRequestErr` is the error, if any, with which
`http.NewRequestWithContext` refuses a context, method and URL; `Unmarshal data t`
is `json.Unmarshal(data, &t)`: the target after the call and the error returned. -/
structure Env (E B T : Type) where
  Marshal : B → Except E String
  NewRequestErr : Context → String → String → Option E
  Unmarshal : String → T → T × Option E

/-- What a dispatch leaves behind: the returned `error` (`none` is `nil`), the value
held by the result target after the call (`none` when the target is `nil`), and
the calls made to the collaborators. -/
structure Outcome (E T : Type) where
  err : Option (Error E)
  result : Option T
  trace : List Event

/-- Lines 113-120 of `doRequest`, repeated verbatim as lines 174-181 of
`doJSONRequestNoAuth`: the body reader. A nil body gives the nil reader without
calling the serializer; otherwise the body is serialized, and the serializer error
is returned. -/
def marshalBody {E B T : Type} (env : Env E B T) (body : Option B) :
    Except E (Option String × List Event) :=
  match body with
  | none => .ok (none, [])
  | some b =>
    match env.Marshal b with
    | .error err => .error err
    | .ok jsonBody => .ok (some jsonBody, [.marshal])

/-- Lines 132-156 of `doRequest`, repeated verbatim as lines 191-215 of
`doJSONRequestNoAuth`: send the request, read the whole body, classify the status,
decode. `trace` holds the calls made before the request is sent. -/
def Client.roundTrip {E B T : Type} (env : Env E B T) (c : Client E) (req : Request)
    (result : Option T) (trace : List Event) : Outcome E T :=
  match c.httpClient.Do req with
  | .error err => ⟨some (.wrapError "request failed" err), result, trace ++ [.httpDo req]⟩
  | .ok resp =>
    match resp.Body with
    | .error err =>
      ⟨some (.wrapError "failed to read response body" err), result,
        trace ++ [.httpDo req, .readAll]⟩
    | .ok respBody =>
      if resp.StatusCode ≥ 400 then
        ⟨some (.apiError ⟨resp.StatusCode, respBody⟩), result, trace ++ [.httpDo req, .readAll]⟩
      else
        match result with
        | none => ⟨none, none, trace ++ [.httpDo req, .readAll]⟩
        | some target =>
          if respBody.length > 0 then
            match env.Unmarshal respBody target with
            | (t, some err) =>
              ⟨some (.wrapError "failed to decode response" err), some t,
                trace ++ [.httpDo req, .readAll, .unmarshal respBody]⟩
            | (t, none) =>
              ⟨none, some t, trace ++ [.httpDo req, .readAll, .unmarshal respBody]⟩
          else ⟨none, some target, trace ++ [.httpDo req, .readAll]⟩

/-- Lines 101-106 of `doRequest`: the query with the credentials set on it (a nil
query becomes an empty one first). -/
def Client.authQuery {E : Type} (c : Client E) (query : Option Values) : Values :=
  let query : Values := match query with
    | none => []
    | some q => q
  let query : Values := query.Set "userName" c.userName
  let query : Values := query.Set "password" c.password
  query

/-- Lines 108-111 of `doRequest`: the URL, in which the encoded query follows a
question mark when the query is not empty. -/
def Client.doRequestURL {E : Type} (c : Client E) (endpoint : String) (query : Option Values) :
    String :=
  let query := c.authQuery query
  let fullURL := c.baseURL ++ endpoint
  if query.len > 0 then fullURL ++ "?" ++ query.Encode else fullURL

/-- Lines 101-130 of `doRequest`: the construction of the outbound request. It ends
with the request and the calls made so far, or with the error returned and the
calls made so far. -/
def Client.doRequestBuild {E B T : Type} (env : Env E B T) (c : Client E) (ctx : Context)
    (method endpoint : String) (query : Option Values) (body : Option B) :
    Except (Error E × List Event) (Request × List Event) :=
  let fullURL := c.doRequestURL endpoint query
  match marshalBody env body with
  | .error err => .error (.wrapError "failed to marshal request body" err, [.marshal])
  | .ok (bodyReader, trace) =>
    match env.NewRequestErr ctx method fullURL with
    | some err =>
      .error (.wrapError "failed to create request" err, trace ++ [.newRequest method fullURL])
    | none =>
      let header : Header := []
      let header : Header :=
        if body.isSome then header.Set "Content-Type" "application/json" else header
      let header : Header := header.Set "Accept" "application/json"
      .ok (⟨ctx, method, fullURL, bodyReader, header⟩, trace ++ [.newRequest method fullURL])

/-- Go `Client.doRequest`: performs an HTTP request and decodes the response. -/
def Client.doRequest {E B T : Type} (env : Env E B T) (c : Client E) (ctx : Context)
    (method endpoint : String) (query : Option Values) (body : Option B)
    (result : Option T) : Outcome E T :=
  match c.doRequestBuild env ctx method endpoint query body with
  | .error (err, trace) => ⟨some err, result, trace⟩
  | .ok (req, trace) => c.roundTrip env req result trace

/-- Go `Client.doJSONRequest`: performs a JSON POST request. -/
def Client.doJSONRequest {E B T : Type} (env : Env E B T) (c : Client E) (ctx : Context)
    (endpoint : String) (body : Option B) (result : Option T) : Outcome E T :=
  c.doRequest env ctx MethodPost endpoint none body result

/-- Go `Client.doFormRequest`: performs a form POST request with query parameters. -/
def Client.doFormRequest {E B T : Type} (env : Env E B T) (c : Client E) (ctx : Context)
    (endpoint : String) (params : Option Values) (result : Option T) : Outcome E T :=
  c.doRequest env ctx MethodPost endpoint params none result

/-- Lines 172-189 of `doJSONRequestNoAuth`: the construction of the outbound
request, without credentials in the query. -/
def Client.doJSONRequestNoAuthBuild {E B T : Type} (env : Env E B T) (c : Client E)
    (ctx : Context) (endpoint : String) (body : Option B) :
    Except (Error E × List Event) (Request × List Event) :=
  let fullURL := c.baseURL ++ endpoint
  match marshalBody env body with
  | .error err => .error (.wrapError "failed to marshal request body" err, [.marshal])
  | .ok (bodyReader, trace) =>
    match env.NewRequestErr ctx MethodPost fullURL with
    | some err =>
      .error
        (.wrapError "failed to create request" err, trace ++ [.newRequest MethodPost fullURL])
    | none =>
      let header : Header := []
      let header : Header := header.Set "Content-Type" "application/json"
      let header : Header := header.Set "Accept" "application/json"
      .ok
        (⟨ctx, MethodPost, fullURL, bodyReader, header⟩,
          trace ++ [.newRequest MethodPost fullURL])

/-- Go `Client.doJSONRequestNoAuth`: performs a JSON POST request without query
auth params. -/
def Client.doJSONRequestNoAuth {E B T : Type} (env : Env E B T) (c : Client E) (ctx : Context)
    (endpoint : String) (body : Option B) (result : Option T) : Outcome E T :=
  match c.doJSONRequestNoAuthBuild env ctx endpoint body with
  | .error (err, trace) => ⟨some err, result, trace⟩
  | .ok (req, trace) => c.roundTrip env req result trace

/-- The two authentication modes of Dispatch named by the specification. -/
inductive AuthMode where
  | queryAuthenticated
  | bodyAuthenticatedOrNone
  deriving DecidableEq

/-- The request construction of Dispatch in either mode: `doRequestBuild` when
query-authenticated, `doJSONRequestNoAuthBuild` (which takes neither a method nor a
query) otherwise. -/
def Client.DispatchBuild {E B T : Type} (env : Env E B T) (c : Client E) (ctx : Context)
    (mode : AuthMode) (method endpoint : String) (query : Option Values) (body : Option B) :
    Except (Error E × List Event) (Request × List Event) :=
  match mode with
  | .queryAuthenticated => c.doRequestBuild env ctx method endpoint query body
  | .bodyAuthenticatedOrNone => c.doJSONRequestNoAuthBuild env ctx endpoint body

/-- Dispatch in either mode: `doRequest` when query-authenticated,
`doJSONRequestNoAuth` (which takes neither a method nor a query) otherwise. -/
def Client.Dispatch {E B T : Type} (env : Env E B T) (c : Client E) (ctx : Context)
    (mode : AuthMode) (method endpoint : String) (query : Option Values) (body : Option B)
    (result : Option T) : Outcome E T :=
  match mode with
  | .queryAuthenticated => c.doRequest env ctx method endpoint query body result
  | .bodyAuthenticatedOrNone => c.doJSONRequestNoAuth env ctx endpoint body result

/-! ## models.go: the response envelope -/

/-- Go `BaseResponse`: the common response fields. -/
structure BaseResponse where
  ErrorCode : String
  ErrorMessage : String
  UserMessage : String
  deriving DecidableEq

/-- Go `BaseResponse.IsSuccess`: true if the response indicates success. -/
def BaseResponse.IsSuccess (r : BaseResponse) : Bool :=
  r.ErrorCode = "" || r.ErrorCode = "0"

/-- Go `RegisterOrderResponse`: the response from order registration, with the
embedded `BaseResponse`. -/
structure RegisterOrderResponse extends BaseResponse where
  OrderID : String
  FormURL : String
  deriving DecidableEq

/-- The zero value of `RegisterOrderResponse` (what `var resp` holds). -/
def RegisterOrderResponse.zero : RegisterOrderResponse :=
  ⟨⟨"", "", ""⟩, "", ""⟩

/-! ## models.go: the order registration request -/

/-- A Go `float64`, carried by its IEEE-754 bit pattern (no arithmetic is done on it). -/
structure Float64 where
  bits : Nat
  deriving DecidableEq

/-- Go `TaxType`: the tax type for fiscal operations. -/
abbrev TaxType := Int

/-- Go `TaxTypeVAT20`. -/
def TaxTypeVAT20 : TaxType := 3

/-- Go `TaxSystem`: the taxation system. -/
abbrev TaxSystem := Int

/-- Go `TaxSystemGeneral`. -/
def TaxSystemGeneral : TaxSystem := 0

/-- Go `DeliveryInfo`. -/
structure DeliveryInfo where
  DeliveryType : String := ""
  Country : String := ""
  City : String := ""
  PostAddress : String := ""
  deriving DecidableEq

/-- Go `CustomerDetails`. -/
structure CustomerDetails where
  Email : String := ""
  Phone : String := ""
  Contact : String := ""
  DeliveryInfo : Option DeliveryInfo := none
  deriving DecidableEq

/-- Go `Quantity`. -/
structure Quantity where
  Value : Float64
  Measure : String
  deriving DecidableEq

/-- Go `Tax`. -/
structure Tax where
  TaxType : TaxType
  TaxSum : Int := 0
  deriving DecidableEq

/-- Go `ItemDetailsParam`. -/
structure ItemDetailsParam where
  Value : String
  Name : String
  deriving DecidableEq

/-- Go `ItemDetails`. -/
structure ItemDetails where
  ItemDetailsParams : List ItemDetailsParam := []
  deriving DecidableEq

/-- Go `ItemAttribute`. -/
structure ItemAttribute where
  Name : String
  Value : String
  deriving DecidableEq

/-- Go `ItemAttributes`. -/
structure ItemAttributes where
  Attributes : List ItemAttribute := []
  deriving DecidableEq

/-- Go `AgentInterest`. -/
structure AgentInterest where
  InterestType : String := ""
  Interest : Float64 := ⟨0⟩
  deriving DecidableEq

/-- Go `Item`: a single cart item. -/
structure Item where
  PositionID : Int := 0
  Name : String := ""
  Quantity : Option Quantity := none
  ItemAmount : Int := 0
  ItemCode : String := ""
  ItemPrice : Int := 0
  Tax : Option Tax := none
  ItemDetails : Option ItemDetails := none
  ItemAttributes : Option ItemAttributes := none
  AgentInterest : Option AgentInterest := none
  deriving DecidableEq

/-- Go `CartItems`. -/
structure CartItems where
  Items : List Item := []
  deriving DecidableEq

/-- Go `OrderBundle`: the shopping cart. -/
structure OrderBundle where
  OrderCreationDate : String := ""
  CustomerDetails : Option CustomerDetails := none
  CartItems : Option CartItems := none
  deriving DecidableEq

/-- A Go `map[string]string`: `none` is the nil map, `some l` a map with the
entries of `l`. -/
abbrev StringMap := Option (List (String × String))

/-- Go `RegisterOrderRequest`: a request to register a new order. Every field
defaults to its Go zero value. -/
structure RegisterOrderRequest where
  OrderNumber : String := ""
  Amount : Int := 0
  ReturnURL : String := ""
  FailURL : String := ""
  Description : String := ""
  Language : String := ""
  PageView : String := ""
  ClientID : String := ""
  MerchantLogin : String := ""
  JSONParams : StringMap := none
  SessionTimeoutSecs : Int := 0
  ExpirationDate : String := ""
  BindingID : String := ""
  Features : String := ""
  Email : String := ""
  Phone : String := ""
  Currency : String := ""
  OrderBundle : Option OrderBundle := none
  TaxSystem : Option TaxSystem := none
  AdditionalParameters : StringMap := none
  DynamicCallbackURL : String := ""
  FeeInput : Int := 0
  deriving DecidableEq

/-! ## orders.go -/

/-- Go `strconv.FormatInt(n, 10)` (and `strconv.Itoa`): the decimal rendering. -/
def FormatInt (n : Int) : String :=
  if n < 0 then "-" ++ Nat.repr n.natAbs else Nat.repr n.natAbs

/-- Go `OrderService`: handles order registration and management operations. -/
structure OrderService (E : Type) where
  client : Client E

/-- The parameter set built by `OrderService.Register` (lines 17-69 of orders.go). -/
def OrderService.RegisterParams (req : RegisterOrderRequest) : Values :=
  let params : Values := []
  let params : Values := params.Set "orderNumber" req.OrderNumber
  let params : Values := params.Set "amount" (FormatInt req.Amount)
  let params : Values := params.Set "returnUrl" req.ReturnURL
  let params : Values := if req.FailURL ≠ "" then params.Set "failUrl" req.FailURL else params
  let params : Values :=
    if req.Description ≠ "" then params.Set "description" req.Description else params
  let params : Values := if req.Language ≠ "" then params.Set "language" req.Language else params
  let params : Values := if req.PageView ≠ "" then params.Set "pageView" req.PageView else params
  let params : Values := if req.ClientID ≠ "" then params.Set "clientId" req.ClientID else params
  let params : Values :=
    if req.MerchantLogin ≠ "" then params.Set "merchantLogin" req.MerchantLogin else params
  let params : Values :=
    if req.SessionTimeoutSecs > 0 then
      params.Set "sessionTimeoutSecs" (FormatInt req.SessionTimeoutSecs)
    else params
  let params : Values :=
    if req.ExpirationDate ≠ "" then params.Set "expirationDate" req.ExpirationDate else params
  let params : Values :=
    if req.BindingID ≠ "" then params.Set "bindingId" req.BindingID else params
  let params : Values := if req.Features ≠ "" then params.Set "features" req.Features else params
  let params : Values := if req.Email ≠ "" then params.Set "email" req.Email else params
  let params : Values := if req.Phone ≠ "" then params.Set "phone" req.Phone else params
  let params : Values := if req.Currency ≠ "" then params.Set "currency" req.Currency else params
  let params : Values :=
    if req.DynamicCallbackURL ≠ "" then
      params.Set "dynamicCallbackUrl" req.DynamicCallbackURL
    else params
  let params : Values :=
    if req.FeeInput > 0 then params.Set "feeInput" (FormatInt req.FeeInput) else params
  let params : Values :=
    match req.TaxSystem with
    | some taxSystem => params.Set "taxSystem" (FormatInt taxSystem)
    | none => params
  params

/-- What a domain operation hands back to its caller: the response pointer (`none`
is `nil`), the error (`none` is `nil`), and the calls dispatch made. -/
structure Reply (E T : Type) where
  resp : Option T
  err : Option (Error E)
  trace : List Event

/-- Go `OrderService.Register`: registers a new single-stage order. The request
pointer is taken non-nil (a nil one panics on its first field access). -/
def OrderService.Register {E B : Type} (env : Env E B RegisterOrderResponse)
    (s : OrderService E) (ctx : Context) (req : RegisterOrderRequest) :
    Reply E RegisterOrderResponse :=
  let params := OrderService.RegisterParams req
  let resp : RegisterOrderResponse := RegisterOrderResponse.zero
  let out := s.client.doFormRequest env ctx "/rest/register.do" (some params) (some resp)
  match out.err with
  | some err => ⟨none, some err, out.trace⟩
  | none => ⟨out.result, none, out.trace⟩

/-! ## encoding/json: the decoder, as documented by the Go standard library

`json.Unmarshal` first checks that the whole input is one well-formed JSON value
(a syntax error leaves the target untouched), then stores the value into the
target. Storing an object into a struct visits the members in the order of the
text; a member whose value does not fit its field is skipped, the first such
mismatch is remembered, the remaining members are still stored, and the remembered
`UnmarshalTypeError` is returned at the end. The nesting limit of the Go decoder
(10000 levels) is not modelled. -/

/-- A parsed JSON value. Object members keep the order and the repetitions of the
text; a number keeps its literal. -/
inductive JSON where
  | null
  | bool (b : Bool)
  | number (lit : String)
  | string (s : String)
  | array (elems : List JSON)
  | object (members : List (String × JSON))

/-- The errors of `json.Unmarshal`: a `SyntaxError`, or an `UnmarshalTypeError` with
the kind of JSON value met and the field it was meant for. -/
inductive JSONError where
  | SyntaxError
  | UnmarshalTypeError (Value : String) (Field : String)
  deriving DecidableEq

/-- Skips JSON white space (space, tab, carriage return, line feed). -/
def skipWS : List Char → List Char
  | [] => []
  | c :: rest => if c = ' ' || c = '\t' || c = '\r' || c = '\n' then skipWS rest else c :: rest

/-- The value of a hexadecimal digit, read off its code point (digits from 48,
upper-case letters from 65, lower-case letters from 97). -/
def hexVal (c : Char) : Option Nat :=
  let n := c.toNat
  if 48 ≤ n && n ≤ 57 then some (n - 48)
  else if 65 ≤ n && n ≤ 70 then some (n - 55)
  else if 97 ≤ n && n ≤ 102 then some (n - 87)
  else none

/-- The value of four hexadecimal digits (Go `getu4`). -/
def hex4 (a b c d : Char) : Option Nat :=
  (hexVal a).bind (fun x => (hexVal b).bind (fun y => (hexVal c).bind (fun z =>
    (hexVal d).map (fun w => ((x * 16 + y) * 16 + z) * 16 + w))))

/-- The character a one-letter escape stands for. -/
def simpleEscape (e : Char) : Option Char :=
  if e = '"' || e = '\\' || e = '/' then some e
  else if e = 'b' then some (Char.ofNat 8)
  else if e = 'f' then some (Char.ofNat 12)
  else if e = 'n' then some '\n'
  else if e = 'r' then some '\r'
  else if e = 't' then some '\t'
  else none

/-- One unit of a JSON string literal: a character, or a UTF-16 code unit written
as a `\u` escape. -/
inductive StrUnit where
  | lit (c : Char)
  | u16 (n : Nat)

/-- Reads a string literal after its opening quote, up to the closing quote.
Control characters and malformed escapes are syntax errors. -/
def scanUnits : List Char → List StrUnit → Option (List StrUnit × List Char)
  | [], _ => none
  | '"' :: rest, acc => some (acc.reverse, rest)
  | '\\' :: 'u' :: a :: b :: c :: d :: rest, acc =>
    match hex4 a b c d with
    | none => none
    | some n => scanUnits rest (.u16 n :: acc)
  | '\\' :: e :: rest, acc =>
    match simpleEscape e with
    | none => none
    | some c => scanUnits rest (.lit c :: acc)
  | c :: rest, acc =>
    if c.toNat < 0x20 || c = '\\' then none else scanUnits rest (.lit c :: acc)

/-- Go `unquote` on the units of a literal: a high surrogate followed by a low one
is one character, any other surrogate becomes U+FFFD. The first argument is a
high surrogate waiting for its partner. -/
def combineUnits : Option Nat → List StrUnit → List Char
  | none, [] => []
  | some _, [] => [Char.ofNat 0xFFFD]
  | none, .lit c :: r => c :: combineUnits none r
  | some _, .lit c :: r => Char.ofNat 0xFFFD :: c :: combineUnits none r
  | none, .u16 x :: r =>
    if 0xD800 ≤ x && x < 0xDC00 then combineUnits (some x) r
    else if 0xDC00 ≤ x && x < 0xE000 then Char.ofNat 0xFFFD :: combineUnits none r
    else Char.ofNat x :: combineUnits none r
  | some hi, .u16 x :: r =>
    if 0xDC00 ≤ x && x < 0xE000 then
      Char.ofNat ((hi - 0xD800) * 1024 + (x - 0xDC00) + 0x10000) :: combineUnits none r
    else if 0xD800 ≤ x && x < 0xDC00 then Char.ofNat 0xFFFD :: combineUnits (some x) r
    else Char.ofNat 0xFFFD :: Char.ofNat x :: combineUnits none r

/-- Reads a string literal after its opening quote: the string and the rest. -/
def scanString (cs : List Char) : Option (String × List Char) :=
  (scanUnits cs []).map (fun p => (String.mk (combineUnits none p.1), p.2))

/-- The longest run of decimal digits at the head, and the rest. -/
def takeDigits : List Char → List Char × List Char
  | [] => ([], [])
  | c :: rest =>
    if c.isDigit then (c :: (takeDigits rest).1, (takeDigits rest).2) else ([], c :: rest)

/-- Reads a JSON number: an optional minus sign, an integer part without a leading
zero, an optional fraction, an optional exponent. -/
def scanNumber (cs : List Char) : Option (List Char × List Char) :=
  let signed : List Char × List Char := match cs with
    | '-' :: r => (['-'], r)
    | r => ([], r)
  let intPart : Option (List Char × List Char) := match signed.2 with
    | '0' :: r => some (['0'], r)
    | c :: r => if c.isDigit then some (c :: (takeDigits r).1, (takeDigits r).2) else none
    | [] => none
  match intPart with
  | none => none
  | some (ds, r1) =>
    let frac : Option (List Char × List Char) := match r1 with
      | '.' :: r =>
        if (takeDigits r).1.isEmpty then none else some ('.' :: (takeDigits r).1, (takeDigits r).2)
      | r => some ([], r)
    match frac with
    | none => none
    | some (fs, r2) =>
      let expo : Option (List Char × List Char) := match r2 with
        | c :: r =>
          if c = 'e' || c = 'E' then
            let mark : List Char × List Char := match r with
              | '+' :: r1 => ([c, '+'], r1)
              | '-' :: r1 => ([c, '-'], r1)
              | r1 => ([c], r1)
            if (takeDigits mark.2).1.isEmpty then none
            else some (mark.1 ++ (takeDigits mark.2).1, (takeDigits mark.2).2)
          else some ([], c :: r)
        | [] => some ([], [])
      match expo with
      | none => none
      | some (es, r3) => some (signed.1 ++ ds ++ fs ++ es, r3)

mutual
/-- Reads one JSON value, with a bound on the recursion. -/
def parseValue : Nat → List Char → Option (JSON × List Char)
  | 0, _ => none
  | fuel + 1, cs =>
    match skipWS cs with
    | '"' :: rest => (scanString rest).map (fun p => (JSON.string p.1, p.2))
    | '\x7b' :: rest =>
      match skipWS rest with
      | '\x7d' :: r => some (JSON.object [], r)
      | r => parseMembers fuel r []
    | '[' :: rest =>
      match skipWS rest with
      | ']' :: r => some (JSON.array [], r)
      | r => parseElements fuel r []
    | 't' :: 'r' :: 'u' :: 'e' :: r => some (JSON.bool true, r)
    | 'f' :: 'a' :: 'l' :: 's' :: 'e' :: r => some (JSON.bool false, r)
    | 'n' :: 'u' :: 'l' :: 'l' :: r => some (JSON.null, r)
    | r => (scanNumber r).map (fun p => (JSON.number (String.mk p.1), p.2))
/-- Reads the members of an object after its opening brace, up to the closing one. -/
def parseMembers : Nat → List Char → List (String × JSON) → Option (JSON × List Char)
  | 0, _, _ => none
  | fuel + 1, cs, acc =>
    match skipWS cs with
    | '"' :: rest =>
      match scanString rest with
      | none => none
      | some (key, r1) =>
        match skipWS r1 with
        | ':' :: r2 =>
          match parseValue fuel r2 with
          | none => none
          | some (v, r3) =>
            match skipWS r3 with
            | ',' :: r4 => parseMembers fuel r4 ((key, v) :: acc)
            | '\x7d' :: r4 => some (JSON.object ((key, v) :: acc).reverse, r4)
            | _ => none
        | _ => none
    | _ => none
/-- Reads the elements of an array after its opening bracket, up to the closing one. -/
def parseElements : Nat → List Char → List JSON → Option (JSON × List Char)
  | 0, _, _ => none
  | fuel + 1, cs, acc =>
    match parseValue fuel cs with
    | none => none
    | some (v, r1) =>
      match skipWS r1 with
      | ',' :: r2 => parseElements fuel r2 (v :: acc)
      | ']' :: r2 => some (JSON.array (v :: acc).reverse, r2)
      | _ => none
end

/-- Parses a whole text as one JSON value (Go `checkValid` followed by the scan of
the value): `none` is a syntax error. The recursion is bounded by twice the length
of the text plus two; every recursive call is made after at least one character of
the text has been consumed. -/
def parseJSON (data : String) : Option JSON :=
  match parseValue (2 * data.data.length + 2) data.data with
  | none => none
  | some (v, rest) => if (skipWS rest).isEmpty then some v else none

/-- The kind of value named by an `UnmarshalTypeError`. -/
def JSON.kindName : JSON → String
  | .null => "null"
  | .bool _ => "bool"
  | .number _ => "number"
  | .string _ => "string"
  | .array _ => "array"
  | .object _ => "object"

/-- Case folding of a member name for the match against ASCII field names: ASCII
upper case to lower case, and the two non-ASCII characters that fold to ASCII
letters (the Kelvin sign and the long s). -/
def foldRune (c : Char) : Char :=
  if 'A' ≤ c && c ≤ 'Z' then Char.ofNat (c.toNat + 32)
  else if c.toNat = 0x212A then 'k'
  else if c.toNat = 0x017F then 's'
  else c

/-- The folded member name. -/
def foldName (s : String) : List Char :=
  s.data.map foldRune

/-- Stores a JSON value into a Go `string` field: a string is stored, `null` leaves
the field as it is, anything else is an `UnmarshalTypeError` and leaves the field
as it is. -/
def storeString (v : JSON) (field : String) (old : String) : String × Option JSONError :=
  match v with
  | .string s => (s, none)
  | .null => (old, none)
  | other => (old, some (.UnmarshalTypeError other.kindName field))

/-- Stores one object member into a `RegisterOrderResponse`: the member name is
matched against the JSON names of the fields (those of the embedded `BaseResponse`
included) without regard to case; an unknown member is skipped. -/
def RegisterOrderResponse.storeMember (t : RegisterOrderResponse) (key : String) (v : JSON) :
    RegisterOrderResponse × Option JSONError :=
  let k := foldName key
  if k = "errorcode".data then
    ({ t with ErrorCode := (storeString v "errorCode" t.ErrorCode).1 },
      (storeString v "errorCode" t.ErrorCode).2)
  else if k = "errormessage".data then
    ({ t with ErrorMessage := (storeString v "errorMessage" t.ErrorMessage).1 },
      (storeString v "errorMessage" t.ErrorMessage).2)
  else if k = "usermessage".data then
    ({ t with UserMessage := (storeString v "userMessage" t.UserMessage).1 },
      (storeString v "userMessage" t.UserMessage).2)
  else if k = "orderid".data then
    ({ t with OrderID := (storeString v "orderId" t.OrderID).1 },
      (storeString v "orderId" t.OrderID).2)
  else if k = "formurl".data then
    ({ t with FormURL := (storeString v "formUrl" t.FormURL).1 },
      (storeString v "formUrl" t.FormURL).2)
  else (t, none)

/-- Stores the members of an object in order, remembering the first error. -/
def RegisterOrderResponse.storeMembers :
    RegisterOrderResponse → List (String × JSON) → Option JSONError →
      RegisterOrderResponse × Option JSONError
  | t, [], saved => (t, saved)
  | t, (key, v) :: rest, saved =>
    RegisterOrderResponse.storeMembers (t.storeMember key v).1 rest
      (match saved with
        | some e => some e
        | none => (t.storeMember key v).2)

/-- Go `json.Unmarshal(data, &t)` for a `RegisterOrderResponse` target: the target
after the call and the error returned. -/
def RegisterOrderResponse.Unmarshal (data : String) (t : RegisterOrderResponse) :
    RegisterOrderResponse × Option JSONError :=
  match parseJSON data with
  | none => (t, some .SyntaxError)
  | some .null => (t, none)
  | some (.object members) => t.storeMembers members none
  | some v => (t, some (.UnmarshalTypeError v.kindName ""))

/-- The library functions for a form-style operation that decodes a
`RegisterOrderResponse`: no body is ever serialized (the body type is empty), the
request constructor accepts every URL, and the decoder is the one above. -/
def registerEnv : Env JSONError Empty RegisterOrderResponse where
  Marshal := fun b => nomatch b
  NewRequestErr := fun _ _ _ => none
  Unmarshal := RegisterOrderResponse.Unmarshal

/-- A client whose HTTP capability answers every request with the given status and
body. -/
def cannedClient (status : Int) (body : String) : Client JSONError where
  baseURL := "https://alfa.rbsuat.com/payment"
  httpClient := ⟨30000000000, fun _ => .ok ⟨status, .ok body⟩⟩
  userName := "your-username"
  password := "your-password"

/-- The library functions for a JSON-style operation whose body is JSON text
already in compact form (a `json.RawMessage`): well-formed text is serialized as
itself, ill-formed text is refused by the serializer. -/
def rawEnv : Env JSONError String RegisterOrderResponse where
  Marshal := fun b => if (parseJSON b).isSome then .ok b else .error .SyntaxError
  NewRequestErr := fun _ _ _ => none
  Unmarshal := RegisterOrderResponse.Unmarshal

/-- The request of `Example_orderWithCart` (example_test.go, lines 274-311). The
quantities 2 and 1 are the float64 bit patterns 0x4000000000000000 and
0x3FF0000000000000. -/
def orderWithCartRequest : RegisterOrderRequest :=
  { OrderNumber := "ORDER-CART-001"
    Amount := 250000
    ReturnURL := "https://your-site.com/payment/success"
    Email := "customer@example.com"
    OrderBundle := some
      { CartItems := some
          { Items :=
              [ { PositionID := 1
                  Name := "Product A"
                  Quantity := some ⟨⟨0x4000000000000000⟩, "pcs"⟩
                  ItemAmount := 100000
                  ItemPrice := 50000
                  Tax := some { TaxType := TaxTypeVAT20 } },
                { PositionID := 2
                  Name := "Product B"
                  Quantity := some ⟨⟨0x3FF0000000000000⟩, "pcs"⟩
                  ItemAmount := 150000
                  ItemPrice := 150000
                  Tax := some { TaxType := TaxTypeVAT20 } } ] } } }

/-! ## orders.go: the parameter map of `Register`, as the specification describes it -/

/-- An optional string parameter as the specification describes it: present with
the field's value when the field is not empty, absent otherwise. -/
def optionalParam (field : String) : List String :=
  if field ≠ "" then [field] else []

/-- The values bound to a key in the parameter map of `Orders.Register` according
to the specification's description of that map: the three required keys, the
thirteen optional string keys, `taxSystem`, and no other key. -/
def registerReference (req : RegisterOrderRequest) (key : String) : List String :=
  if key = "orderNumber" then [req.OrderNumber]
  else if key = "amount" then [FormatInt req.Amount]
  else if key = "returnUrl" then [req.ReturnURL]
  else if key = "failUrl" then optionalParam req.FailURL
  else if key = "description" then optionalParam req.Description
  else if key = "language" then optionalParam req.Language
  else if key = "pageView" then optionalParam req.PageView
  else if key = "clientId" then optionalParam req.ClientID
  else if key = "merchantLogin" then optionalParam req.MerchantLogin
  else if key = "expirationDate" then optionalParam req.ExpirationDate
  else if key = "bindingId" then optionalParam req.BindingID
  else if key = "features" then optionalParam req.Features
  else if key = "email" then optionalParam req.Email
  else if key = "phone" then optionalParam req.Phone
  else if key = "currency" then optionalParam req.Currency
  else if key = "dynamicCallbackUrl" then optionalParam req.DynamicCallbackURL
  else if key = "taxSystem" then
    match req.TaxSystem with
    | some taxSystem => [FormatInt taxSystem]
    | none => []
  else []

/-- An optional numeric parameter: present with the decimal rendering when the
field is positive, absent otherwise. -/
def positiveParam (field : Int) : List String :=
  if field > 0 then [FormatInt field] else []

/-- The description of the parameter map of `Orders.Register` completed with the two
numeric keys `sessionTimeoutSecs` and `feeInput`. -/
def registerReferenceWithNumbers (req : RegisterOrderRequest) (key : String) : List String :=
  if key = "sessionTimeoutSecs" then positiveParam req.SessionTimeoutSecs
  else if key = "feeInput" then positiveParam req.FeeInput
  else registerReference req key

/-! ## client.go: construction -/

/-- Go `DefaultBaseURL`: the default Alfa Payments API base URL. -/
def DefaultBaseURL : String := "https://alfa.rbsuat.com/payment"

/-- Go `DefaultTimeout`: the default HTTP client timeout, 30 seconds in nanoseconds. -/
def DefaultTimeout : Int := 30 * 1000000000

/-- Go `strings.TrimRight(s, cutset)`: `s` without its trailing characters that
belong to `cutset`. -/
def TrimRight (s cutset : String) : String :=
  String.mk (s.data.reverse.dropWhile (fun c => cutset.data.contains c)).reverse

/-- Go `ClientOption`, restricted to the values the three exported constructors
return. `WithHTTPClient` is given a non-nil client. -/
inductive ClientOption (E : Type) where
  | WithBaseURL (baseURL : String)
  | WithHTTPClient (httpClient : HTTPClient E)
  | WithTimeout (timeout : Int)

/-- The effect of an option on the client under construction (the bodies of the
closures returned by `WithBaseURL`, `WithHTTPClient` and `WithTimeout`). -/
def ClientOption.apply {E : Type} (c : Client E) : ClientOption E → Client E
  | .WithBaseURL baseURL => { c with baseURL := TrimRight baseURL "/" }
  | .WithHTTPClient httpClient => { c with httpClient := httpClient }
  | .WithTimeout timeout => { c with httpClient := { c.httpClient with Timeout := timeout } }

/-- Go `NewClient`: the defaults, then the options from left to right. `transport`
is the capability `Do` of the default `http.Client`. -/
def NewClient {E : Type} (transport : Request → Except E (Response E))
    (userName password : String) (opts : List (ClientOption E)) : Client E :=
  opts.foldl ClientOption.apply
    { baseURL := DefaultBaseURL
      userName := userName
      password := password
      httpClient := { Timeout := DefaultTimeout, Do := transport } }

/-! ## The classes of failure -/

/-- The failure classes of section 7 of the specification that an error value of
dispatch can have: request-construction failure, transport failure, gateway error
and decode failure. -/
inductive FailureClass where
  | construction
  | transport
  | gateway
  | decode
  deriving DecidableEq

/-- The class section 7 of the specification gives an error value of dispatch, read
off the Go type (`*APIError`, the gateway error) or the message client.go wrapped
the cause with: the two failures before the exchange (lines 115-118 and 122-125)
are request-construction failures; the two failures of the exchange itself, `Do`
returning an error (lines 132-135) and the body of the response not being readable
(lines 138-141), are transport failures, the capability not having completed the
exchange; the decoder's error (lines 150-154) is the decode failure. -/
def Error.classify {E : Type} : Error E → Option FailureClass
  | .apiError _ => some .gateway
  | .wrapError msg _ =>
    if msg = "failed to marshal request body" then some .construction
    else if msg = "failed to create request" then some .construction
    else if msg = "request failed" then some .transport
    else if msg = "failed to read response body" then some .transport
    else if msg = "failed to decode response" then some .decode
    else none

/-- Whether the error value is one of the two made when the HTTP capability does not
complete the exchange: `fmt.Errorf("request failed: %w", err)` for an error of `Do`
(client.go 132-135 and 191-194), and
`fmt.Errorf("failed to read response body: %w", err)` for an error of reading the
body of the response (client.go 138-141 and 197-200). -/
def Error.isTransportFailure {E : Type} : Error E → Bool
  | .wrapError msg _ => msg = "request failed" || msg = "failed to read response body"
  | .apiError _ => false

/-- The number of calls to the HTTP capability recorded in a trace. -/
def httpCalls (trace : List Event) : Nat :=
  (trace.filter (fun e => match e with
    | .httpDo _ => true
    | _ => false)).length

/-- The library functions for a form-style operation that decodes a
`RegisterOrderResponse`, with errors carried as their messages. -/
def textEnv : Env String Empty RegisterOrderResponse where
  Marshal := fun b => nomatch b
  NewRequestErr := fun _ _ _ => none
  Unmarshal := fun data t =>
    ((RegisterOrderResponse.Unmarshal data t).1,
      (RegisterOrderResponse.Unmarshal data t).2.map (fun e => match e with
        | .SyntaxError => "invalid character"
        | .UnmarshalTypeError value field => "cannot unmarshal " ++ value ++ " into " ++ field))

/-- A client whose HTTP capability answers every request with the given result. -/
def scriptedClient (answer : Except String (Response String)) : Client String where
  baseURL := DefaultBaseURL
  httpClient := ⟨DefaultTimeout, fun _ => answer⟩
  userName := "your-username"
  password := "your-password"

/-! ## The domain operations: helper and endpoint -/

/-- The three helpers of client.go through which every domain operation dispatches. -/
inductive Helper where
  | doFormRequest
  | doJSONRequest
  | doJSONRequestNoAuth
  deriving DecidableEq

/-- A domain operation, by the single dispatch call in its body: the helper it
calls and the endpoint literal it passes. -/
structure Operation where
  service : String
  name : String
  helper : Helper
  endpoint : String
  deriving DecidableEq

/-- Every method of every service of the package, with the helper and the endpoint
of its dispatch call. `Status.GetByOrderID` and `Status.GetByOrderNumber` call
`Status.GetExtended`. -/
def operations : List Operation :=
  [ ⟨"ApplePay", "Payment", .doJSONRequestNoAuth, "/applepay/payment.do"⟩,
    ⟨"Bindings", "GetBindings", .doFormRequest, "/rest/getBindings.do"⟩,
    ⟨"Bindings", "GetAllBindings", .doFormRequest, "/rest/getAllBindings.do"⟩,
    ⟨"Bindings", "Activate", .doFormRequest, "/rest/bindCard.do"⟩,
    ⟨"Bindings", "Deactivate", .doFormRequest, "/rest/unBindCard.do"⟩,
    ⟨"Bindings", "Extend", .doFormRequest, "/rest/extendBinding.do"⟩,
    ⟨"Bindings", "GetByCardOrID", .doFormRequest, "/rest/getBindingsByCardOrId.do"⟩,
    ⟨"GooglePay", "Payment", .doJSONRequestNoAuth, "/google/payment.do"⟩,
    ⟨"MirPay", "Payment", .doJSONRequestNoAuth, "/mir/payment.do"⟩,
    ⟨"MirPay", "DirectPayment", .doJSONRequestNoAuth, "/mir/paymentDirect.do"⟩,
    ⟨"Orders", "Register", .doFormRequest, "/rest/register.do"⟩,
    ⟨"Orders", "RegisterPreAuth", .doFormRequest, "/rest/registerPreAuth.do"⟩,
    ⟨"Orders", "Decline", .doFormRequest, "/rest/decline.do"⟩,
    ⟨"Orders", "AddParams", .doFormRequest, "/rest/addParams.do"⟩,
    ⟨"Payments", "Deposit", .doFormRequest, "/rest/deposit.do"⟩,
    ⟨"Payments", "Reverse", .doFormRequest, "/rest/reverse.do"⟩,
    ⟨"Payments", "PayWithBinding", .doFormRequest, "/rest/paymentOrderBinding.do"⟩,
    ⟨"Payments", "Instant", .doFormRequest, "/rest/instantPayment.do"⟩,
    ⟨"Payments", "Recurrent", .doJSONRequestNoAuth, "/recurrentPayment.do"⟩,
    ⟨"Payments", "Finish3DS", .doFormRequest, "/rest/finish3dsPayment.do"⟩,
    ⟨"Refunds", "Refund", .doFormRequest, "/rest/refund.do"⟩,
    ⟨"Refunds", "InstantRefund", .doFormRequest, "/rest/instantRefund.do"⟩,
    ⟨"SamsungPay", "Payment", .doJSONRequestNoAuth, "/samsung/payment.do"⟩,
    ⟨"SamsungPay", "DirectPayment", .doJSONRequestNoAuth, "/samsung/paymentDirect.do"⟩,
    ⟨"SBP", "GetQR", .doFormRequest, "/rest/sbp/c2b/qr/dynamic/get.do"⟩,
    ⟨"SBP", "GetQRStatus", .doFormRequest, "/rest/sbp/c2b/qr/status.do"⟩,
    ⟨"SBP", "RejectQR", .doFormRequest, "/rest/sbp/c2b/qr/dynamic/reject.do"⟩,
    ⟨"SBP", "Bind", .doFormRequest, "/rest/sbp/c2b/bind.do"⟩,
    ⟨"SBP", "Unbind", .doFormRequest, "/rest/sbp/c2b/unBind.do"⟩,
    ⟨"SBP", "GetBindings", .doFormRequest, "/rest/sbp/c2b/getBindings.do"⟩,
    ⟨"SBP", "B2BGetPayload", .doFormRequest, "/rest/sbp/b2b/getPayload.do"⟩,
    ⟨"SBP", "B2BPerform", .doJSONRequest, "/rest/sbp/b2b/perform.do"⟩,
    ⟨"SBP", "B2CPerformPayout", .doJSONRequest, "/rest/sbp/b2c/performPayout.do"⟩,
    ⟨"SBP", "B2CCheckPayout", .doFormRequest, "/rest/sbp/b2c/checkPayout.do"⟩,
    ⟨"SBP", "B2CGetPayoutStatus", .doFormRequest, "/rest/sbp/b2c/getPayoutStatus.do"⟩,
    ⟨"Status", "GetExtended", .doFormRequest, "/rest/getOrderStatusExtended.do"⟩,
    ⟨"Status", "GetByOrderID", .doFormRequest, "/rest/getOrderStatusExtended.do"⟩,
    ⟨"Status", "GetByOrderNumber", .doFormRequest, "/rest/getOrderStatusExtended.do"⟩,
    ⟨"Status", "GetLastOrders", .doFormRequest, "/rest/getLastOrdersForMerchants.do"⟩,
    ⟨"Status", "VerifyEnrollment", .doFormRequest, "/rest/verifyEnrollment.do"⟩,
    ⟨"YandexPay", "Payment", .doJSONRequestNoAuth, "/yandex/payment.do"⟩,
    ⟨"YandexPay", "DirectPayment", .doJSONRequestNoAuth, "/yandex/paymentDirect.do"⟩,
    ⟨"YandexPay", "InstantPayment", .doJSONRequestNoAuth, "/yandex/instantPayment.do"⟩ ]

/-- The request construction of a helper: `doFormRequest` and `doJSONRequest` call
`doRequest` with `http.MethodPost` (lines 161 and 166), the first with the
parameters and a nil body, the second with a nil query and the body;
`doJSONRequestNoAuth` builds its request itself. -/
def Client.helperBuild {E B T : Type} (env : Env E B T) (c : Client E) (ctx : Context)
    (helper : Helper) (endpoint : String) (params : Option Values) (body : Option B) :
    Except (Error E × List Event) (Request × List Event) :=
  match helper with
  | .doFormRequest => c.doRequestBuild env ctx MethodPost endpoint params none
  | .doJSONRequest => c.doRequestBuild env ctx MethodPost endpoint none body
  | .doJSONRequestNoAuth => c.doJSONRequestNoAuthBuild env ctx endpoint body

/-- The dispatch of a helper. -/
def Client.helperDispatch {E B T : Type} (env : Env E B T) (c : Client E) (ctx : Context)
    (helper : Helper) (endpoint : String) (params : Option Values) (body : Option B)
    (result : Option T) : Outcome E T :=
  match helper with
  | .doFormRequest => c.doFormRequest env ctx endpoint params result
  | .doJSONRequest => c.doJSONRequest env ctx endpoint body result
  | .doJSONRequestNoAuth => c.doJSONRequestNoAuth env ctx endpoint body result

/-- The URL a helper hands to `http.NewRequestWithContext`: `fullURL` of `doRequest`
(client.go 108-111) on the parameters for `doFormRequest` and on a nil query for
`doJSONRequest`, and `fullURL` of `doJSONRequestNoAuth` (client.go 172), the base
address followed by the endpoint. -/
def Client.helperURL {E : Type} (c : Client E) (helper : Helper) (endpoint : String)
    (params : Option Values) : String :=
  match helper with
  | .doFormRequest => c.doRequestURL endpoint params
  | .doJSONRequest => c.doRequestURL endpoint none
  | .doJSONRequestNoAuth => c.baseURL ++ endpoint

/-! ## encoding/json: the encoder, as documented by the Go standard library

`json.Marshal` walks the value by its Go type. A struct becomes an object whose
members are its fields in declaration order, under the names of their `json` tags;
a field tagged `omitempty` is left out when its value is empty (false, 0, a nil
pointer, and any map, slice or string of length zero). A nil pointer, slice or map
becomes `null`. The keys of a map are written in sorted order. A float that is
not finite makes `json.Marshal` fail; how a finite float is written
(`strconv.AppendFloat`, shortest form) is a parameter. -/

/-- A Go type, as far as the request records of models.go need it. A struct is the
list of its fields: the name in the `json` tag, whether the tag has `omitempty`,
and the type. `int` stands for `int`, `int64` and the named integer types. -/
inductive GoType where
  | string
  | int
  | bool
  | float64
  | ptr (elem : GoType)
  | slice (elem : GoType)
  | stringMap
  | struct (fields : List (String × Bool × GoType))

/-- A Go value. `nil` is the nil pointer or the nil slice; `slice` is a non-nil
slice; the nil map is `stringMap none`; a struct is the list of its field values in
declaration order. -/
inductive GoValue where
  | string (s : String)
  | int (n : Int)
  | bool (b : Bool)
  | float64 (f : Float64)
  | nil
  | ptr (v : GoValue)
  | slice (vs : List GoValue)
  | stringMap (m : StringMap)
  | struct (fields : List GoValue)

/-- Go `isEmptyValue`, the test behind `omitempty`: false, 0, a nil pointer, and
any map, slice or string of length zero. A float is empty when it compares equal
to zero, which both zeros do; a struct is never empty. -/
def isEmptyValue : GoValue → Bool
  | .string s => s.data.isEmpty
  | .int n => n = 0
  | .bool b => !b
  | .float64 f => f.bits = 0 || f.bits = 2 ^ 63
  | .nil => true
  | .ptr _ => false
  | .slice vs => vs.isEmpty
  | .stringMap none => true
  | .stringMap (some m) => m.isEmpty
  | .struct _ => false

/-- The entries of a map in the order the encoder writes them: sorted by key. -/
def sortedEntries (m : List (String × String)) : List (String × String) :=
  m.insertionSort (fun a b => a.1.data ≤ b.1.data)

mutual
/-- The JSON value `json.Marshal` writes for a value of a type; `none` when the
value is not of the type or holds a float that cannot be written. `ff` writes a
finite float and is `none` on the others. -/
def encode (ff : Float64 → Option String) : GoType → GoValue → Option JSON
  | .string, .string s => some (JSON.string s)
  | .int, .int n => some (JSON.number (FormatInt n))
  | .bool, .bool b => some (JSON.bool b)
  | .float64, .float64 f => (ff f).map JSON.number
  | .ptr _, .nil => some JSON.null
  | .ptr t, .ptr v => encode ff t v
  | .slice _, .nil => some JSON.null
  | .slice t, .slice vs => (encodeElems ff t vs).map JSON.array
  | .stringMap, .stringMap none => some JSON.null
  | .stringMap, .stringMap (some m) =>
    some (JSON.object ((sortedEntries m).map (fun e => (e.1, JSON.string e.2))))
  | .struct fields, .struct vs => (encodeFields ff fields vs).map JSON.object
  | _, _ => none
/-- The elements of a slice, in order. -/
def encodeElems (ff : Float64 → Option String) : GoType → List GoValue → Option (List JSON)
  | _, [] => some []
  | t, v :: vs =>
    match encode ff t v, encodeElems ff t vs with
    | some j, some js => some (j :: js)
    | _, _ => none
/-- The members written for the fields of a struct, in declaration order, without
the `omitempty` fields whose value is empty. -/
def encodeFields (ff : Float64 → Option String) :
    List (String × Bool × GoType) → List GoValue → Option (List (String × JSON))
  | [], [] => some []
  | (name, omitempty, t) :: fields, v :: vs =>
    if omitempty && isEmptyValue v then encodeFields ff fields vs
    else
      match encode ff t v, encodeFields ff fields vs with
      | some j, some ms => some ((name, j) :: ms)
      | _, _ => none
  | _, _ => none
end

/-- The lower-case hexadecimal digit used by the encoder. -/
def lowerhex (n : Nat) : Char :=
  "0123456789abcdef".data.getD n '0'

/-- The text the encoder writes for one character of a string (with the HTML-safe
escaping `json.Marshal` applies): a backslash before a double quote or a
backslash, the short escapes for backspace, form feed, line feed, carriage return
and tab, `\u00XX` for the other control characters and for `<`, `>` and `&`,
`\u2028` and `\u2029` for the two line separators, and the character itself
otherwise. -/
def escapeJSONChar (c : Char) : List Char :=
  if c = '"' then ['\\', '"']
  else if c = '\\' then ['\\', '\\']
  else if c.toNat = 8 then ['\\', 'b']
  else if c.toNat = 12 then ['\\', 'f']
  else if c = '\n' then ['\\', 'n']
  else if c = '\r' then ['\\', 'r']
  else if c = '\t' then ['\\', 't']
  else if c.toNat < 0x20 || c = '<' || c = '>' || c = '&' then
    ['\\', 'u', '0', '0', lowerhex (c.toNat / 16), lowerhex (c.toNat % 16)]
  else if c.toNat = 0x2028 then ['\\', 'u', '2', '0', '2', '8']
  else if c.toNat = 0x2029 then ['\\', 'u', '2', '0', '2', '9']
  else [c]

/-- The text of a string literal: the escaped characters between double quotes. -/
def renderString (s : String) : List Char :=
  '"' :: s.data.flatMap escapeJSONChar ++ ['"']

mutual
/-- The compact text the encoder writes for a JSON value. -/
def render : JSON → List Char
  | .null => "null".data
  | .bool b => if b then "true".data else "false".data
  | .number lit => lit.data
  | .string s => renderString s
  | .array elems => '[' :: renderElems elems ++ [']']
  | .object members => '\x7b' :: renderMembers members ++ ['\x7d']
/-- The elements of an array, separated by commas. -/
def renderElems : List JSON → List Char
  | [] => []
  | [j] => render j
  | j :: k :: rest => render j ++ ',' :: renderElems (k :: rest)
/-- The members of an object, separated by commas. -/
def renderMembers : List (String × JSON) → List Char
  | [] => []
  | [(key, j)] => renderString key ++ ':' :: render j
  | (key, j) :: m :: rest => renderString key ++ ':' :: render j ++ ',' :: renderMembers (m :: rest)
end

/-- A value handed to `json.Marshal` together with its Go type. -/
structure Typed where
  type : GoType
  value : GoValue

/-- Go `json.Marshal` on a typed value: the text of the encoded value, or an error
when the value cannot be encoded. -/
def Marshal (ff : Float64 → Option String) (b : Typed) : Except String String :=
  match encode ff b.type b.value with
  | some j => .ok (String.mk (render j))
  | none => .error "json: unsupported value"

mutual
/-- The zero value of a type (what a field holds when a composite literal does not
set it). -/
def GoType.zero : GoType → GoValue
  | .string => .string ""
  | .int => .int 0
  | .bool => .bool false
  | .float64 => .float64 ⟨0⟩
  | .ptr _ => .nil
  | .slice _ => .nil
  | .stringMap => .stringMap none
  | .struct fields => .struct (GoType.zeroFields fields)
/-- The zero values of the fields of a struct. -/
def GoType.zeroFields : List (String × Bool × GoType) → List GoValue
  | [] => []
  | (_, _, t) :: fields => t.zero :: GoType.zeroFields fields
end

mutual
/-- Whether a value is a value of the type. An integer fits 64 bits. -/
def hasType : GoType → GoValue → Bool
  | .string, .string _ => true
  | .int, .int n => decide (-9223372036854775808 ≤ n ∧ n ≤ 9223372036854775807)
  | .bool, .bool _ => true
  | .float64, .float64 _ => true
  | .ptr _, .nil => true
  | .ptr t, .ptr v => hasType t v
  | .slice _, .nil => true
  | .slice t, .slice vs => allHaveType t vs
  | .stringMap, .stringMap _ => true
  | .struct fields, .struct vs => fieldsHaveType fields vs
  | _, _ => false
/-- Whether every element of a slice is a value of the element type. -/
def allHaveType : GoType → List GoValue → Bool
  | _, [] => true
  | t, v :: vs => hasType t v && allHaveType t vs
/-- Whether the values are, one by one, values of the fields' types. -/
def fieldsHaveType : List (String × Bool × GoType) → List GoValue → Bool
  | [], [] => true
  | (_, _, t) :: fields, v :: vs => hasType t v && fieldsHaveType fields vs
  | _, _ => false
end

/-- The fields of a struct type. -/
def GoType.fields : GoType → List (String × Bool × GoType)
  | .struct fields => fields
  | _ => []

/-- The field values of a struct value. -/
def GoValue.fields : GoValue → List GoValue
  | .struct vs => vs
  | _ => []

/-- The field values of a composite literal: each field named in the literal holds
the value given for it, every other field its zero value. -/
def literalFields : List (String × Bool × GoType) → List (String × GoValue) → List GoValue
  | [], _ => []
  | (name, _, t) :: fields, set =>
    (match set.lookup name with
      | some v => v
      | none => t.zero) :: literalFields fields set

/-- A Go composite literal `T{name: value, ...}` of a struct type, with the fields
named by their `json` names. -/
def GoType.lit (t : GoType) (set : List (String × GoValue)) : GoValue :=
  .struct (literalFields t.fields set)

namespace Schema

/-- Go `DeliveryInfo` (models.go): the fields with their `json` names and `omitempty` flags. -/
def DeliveryInfo : GoType :=
  .struct
    [ ("deliveryType", true, .string),
      ("country", true, .string),
      ("city", true, .string),
      ("postAddress", true, .string) ]

/-- Go `CustomerDetails` (models.go): the fields with their `json` names and `omitempty` flags. -/
def CustomerDetails : GoType :=
  .struct
    [ ("email", true, .string),
      ("phone", true, .string),
      ("contact", true, .string),
      ("deliveryInfo", true, .ptr DeliveryInfo) ]

/-- Go `Quantity` (models.go): the fields with their `json` names and `omitempty` flags. -/
def Quantity : GoType :=
  .struct
    [ ("value", false, .float64),
      ("measure", false, .string) ]

/-- Go `Tax` (models.go): the fields with their `json` names and `omitempty` flags. -/
def Tax : GoType :=
  .struct
    [ ("taxType", false, .int),
      ("taxSum", true, .int) ]

/-- Go `ItemDetailsParam` (models.go): the fields with their `json` names and `omitempty` flags. -/
def ItemDetailsParam : GoType :=
  .struct
    [ ("value", false, .string),
      ("name", false, .string) ]

/-- Go `ItemDetails` (models.go): the fields with their `json` names and `omitempty` flags. -/
def ItemDetails : GoType :=
  .struct
    [ ("itemDetailsParams", true, .slice ItemDetailsParam) ]

/-- Go `ItemAttribute` (models.go): the fields with their `json` names and `omitempty` flags. -/
def ItemAttribute : GoType :=
  .struct
    [ ("name", false, .string),
      ("value", false, .string) ]

/-- Go `ItemAttributes` (models.go): the fields with their `json` names and `omitempty` flags. -/
def ItemAttributes : GoType :=
  .struct
    [ ("attributes", true, .slice ItemAttribute) ]

/-- Go `AgentInterest` (models.go): the fields with their `json` names and `omitempty` flags. -/
def AgentInterest : GoType :=
  .struct
    [ ("interestType", true, .string),
      ("interest", true, .float64) ]

/-- Go `Item` (models.go): the fields with their `json` names and `omitempty` flags. -/
def Item : GoType :=
  .struct
    [ ("positionId", false, .int),
      ("name", false, .string),
      ("quantity", false, .ptr Quantity),
      ("itemAmount", false, .int),
      ("itemCode", true, .string),
      ("itemPrice", true, .int),
      ("tax", true, .ptr Tax),
      ("itemDetails", true, .ptr ItemDetails),
      ("itemAttributes", true, .ptr ItemAttributes),
      ("agentInterest", true, .ptr AgentInterest) ]

/-- Go `CartItems` (models.go): the fields with their `json` names and `omitempty` flags. -/
def CartItems : GoType :=
  .struct
    [ ("items", false, .slice Item) ]

/-- Go `OrderBundle` (models.go): the fields with their `json` names and `omitempty` flags. -/
def OrderBundle : GoType :=
  .struct
    [ ("orderCreationDate", true, .string),
      ("customerDetails", true, .ptr CustomerDetails),
      ("cartItems", true, .ptr CartItems) ]

/-- Go `RecurrentPaymentRequest` (models.go): the fields with their `json` names and `omitempty` flags. -/
def RecurrentPaymentRequest : GoType :=
  .struct
    [ ("orderNumber", false, .string),
      ("bindingId", false, .string),
      ("amount", false, .int),
      ("currency", true, .string),
      ("language", true, .string),
      ("description", true, .string),
      ("clientId", true, .string),
      ("preAuth", true, .bool),
      ("additionalParameters", true, .stringMap),
      ("orderBundle", true, .ptr OrderBundle),
      ("taxSystem", true, .ptr .int),
      ("dynamicCallbackUrl", true, .string),
      ("feeInput", true, .int),
      ("autocompletionDate", true, .string),
      ("autoReverseDate", true, .string) ]

/-- Go `ApplePayPaymentRequest` (models.go): the fields with their `json` names and `omitempty` flags. -/
def ApplePayPaymentRequest : GoType :=
  .struct
    [ ("merchant", false, .string),
      ("orderNumber", false, .string),
      ("paymentToken", false, .string),
      ("description", true, .string),
      ("language", true, .string),
      ("additionalParameters", true, .stringMap),
      ("clientId", true, .string),
      ("preAuth", true, .bool),
      ("email", true, .string),
      ("phone", true, .string),
      ("failUrl", true, .string),
      ("postAddress", true, .string),
      ("amount", true, .int),
      ("currencyCode", true, .string),
      ("ip", true, .string),
      ("returnUrl", true, .string),
      ("orderBundle", true, .ptr OrderBundle) ]

/-- Go `GooglePayRequest` (models.go): the fields with their `json` names and `omitempty` flags. -/
def GooglePayRequest : GoType :=
  .struct
    [ ("merchant", false, .string),
      ("orderNumber", false, .string),
      ("paymentToken", false, .string),
      ("amount", false, .int),
      ("ip", false, .string),
      ("returnUrl", false, .string),
      ("description", true, .string),
      ("language", true, .string),
      ("additionalParameters", true, .stringMap),
      ("clientId", true, .string),
      ("preAuth", true, .bool),
      ("currencyCode", true, .string),
      ("email", true, .string),
      ("phone", true, .string),
      ("failUrl", true, .string),
      ("postAddress", true, .string),
      ("orderBundle", true, .ptr OrderBundle) ]

/-- Go `SamsungPayPaymentRequest` (models.go): the fields with their `json` names and `omitempty` flags. -/
def SamsungPayPaymentRequest : GoType :=
  .struct
    [ ("merchant", false, .string),
      ("orderNumber", false, .string),
      ("paymentToken", false, .string),
      ("amount", true, .int),
      ("ip", true, .string),
      ("returnUrl", true, .string),
      ("description", true, .string),
      ("language", true, .string),
      ("additionalParameters", true, .stringMap),
      ("clientId", true, .string),
      ("preAuth", true, .bool),
      ("currencyCode", true, .string),
      ("email", true, .string),
      ("phone", true, .string),
      ("failUrl", true, .string),
      ("orderBundle", true, .ptr OrderBundle) ]

/-- Go `MirPayPaymentRequest` (models.go): the fields with their `json` names and `omitempty` flags. -/
def MirPayPaymentRequest : GoType :=
  .struct
    [ ("merchant", false, .string),
      ("orderNumber", false, .string),
      ("amount", false, .int),
      ("returnUrl", false, .string),
      ("description", true, .string),
      ("language", true, .string),
      ("additionalParameters", true, .stringMap),
      ("clientId", true, .string),
      ("preAuth", true, .bool),
      ("currencyCode", true, .string),
      ("email", true, .string),
      ("phone", true, .string),
      ("failUrl", true, .string),
      ("orderBundle", true, .ptr OrderBundle) ]

/-- Go `YandexPayRequest` (models.go): the fields with their `json` names and `omitempty` flags. -/
def YandexPayRequest : GoType :=
  .struct
    [ ("merchant", false, .string),
      ("orderNumber", false, .string),
      ("paymentToken", false, .string),
      ("amount", false, .int),
      ("ip", true, .string),
      ("returnUrl", false, .string),
      ("description", true, .string),
      ("language", true, .string),
      ("additionalParameters", true, .stringMap),
      ("clientId", true, .string),
      ("preAuth", true, .bool),
      ("currencyCode", true, .string),
      ("email", true, .string),
      ("phone", true, .string),
      ("failUrl", true, .string),
      ("orderBundle", true, .ptr OrderBundle) ]

/-- Go `SBPB2BSenderParams` (models.go): the fields with their `json` names and `omitempty` flags. -/
def SBPB2BSenderParams : GoType :=
  .struct
    [ ("bankId", true, .string),
      ("account", true, .string),
      ("legalName", true, .string),
      ("inn", true, .string),
      ("kpp", true, .string) ]

/-- Go `SBPB2BRecipientParams` (models.go): the fields with their `json` names and `omitempty` flags. -/
def SBPB2BRecipientParams : GoType :=
  .struct
    [ ("bankId", true, .string),
      ("account", true, .string),
      ("legalName", true, .string),
      ("inn", true, .string),
      ("kpp", true, .string) ]

/-- Go `SBPB2BPerformRequest` (models.go): the fields with their `json` names and `omitempty` flags. -/
def SBPB2BPerformRequest : GoType :=
  .struct
    [ ("orderId", false, .string),
      ("amount", false, .int),
      ("currency", true, .string),
      ("senderParams", true, .ptr SBPB2BSenderParams),
      ("recipientParams", true, .ptr SBPB2BRecipientParams) ]

/-- Go `SBPB2CRecipientName` (models.go): the fields with their `json` names and `omitempty` flags. -/
def SBPB2CRecipientName : GoType :=
  .struct
    [ ("firstName", true, .string),
      ("middleName", true, .string),
      ("lastName", true, .string) ]

/-- Go `SBPB2CRecipientParams` (models.go): the fields with their `json` names and `omitempty` flags. -/
def SBPB2CRecipientParams : GoType :=
  .struct
    [ ("bankId", true, .string),
      ("phone", true, .string),
      ("account", true, .string),
      ("name", true, .ptr SBPB2CRecipientName) ]

/-- Go `SBPB2CSenderParams` (models.go): the fields with their `json` names and `omitempty` flags. -/
def SBPB2CSenderParams : GoType :=
  .struct
    [ ("bankId", true, .string),
      ("account", true, .string),
      ("legalName", true, .string),
      ("inn", true, .string),
      ("kpp", true, .string) ]

/-- Go `SBPB2CPayoutRequest` (models.go): the fields with their `json` names and `omitempty` flags. -/
def SBPB2CPayoutRequest : GoType :=
  .struct
    [ ("orderNumber", false, .string),
      ("amount", false, .int),
      ("currency", true, .string),
      ("purpose", true, .string),
      ("recipientParams", true, .ptr SBPB2CRecipientParams),
      ("senderParams", true, .ptr SBPB2CSenderParams) ]
end Schema

/-! ## The JSON-style operations -/

/-- The library functions of a JSON-style operation: the body is a typed Go value
serialized by `json.Marshal`, the request constructor accepts every URL, and the
decoder of the response is a parameter. Errors are carried as their messages. -/
def jsonEnv {T : Type} (ff : Float64 → Option String)
    (unmarshal : String → T → T × Option String) : Env String Typed T where
  Marshal := Marshal ff
  NewRequestErr := fun _ _ _ => none
  Unmarshal := unmarshal

/-- Go `ApplePayService`: handles Apple Pay payment operations. -/
structure ApplePayService (E : Type) where
  client : Client E

/-- Go `ApplePayService.Payment`: performs a payment using an Apple Pay token.
`req` is the request pointer (`nil`, or `ptr` of the struct value); `zero` is the
zero value of the response. -/
def ApplePayService.Payment {E T : Type} (env : Env E Typed T) (zero : T)
    (s : ApplePayService E) (ctx : Context) (req : GoValue) : Reply E T :=
  let out := s.client.doJSONRequestNoAuth env ctx "/applepay/payment.do"
    (some ⟨.ptr Schema.ApplePayPaymentRequest, req⟩) (some zero)
  match out.err with
  | some err => ⟨none, some err, out.trace⟩
  | none => ⟨out.result, none, out.trace⟩

/-- Go `PaymentService`: handles payment operations. -/
structure PaymentService (E : Type) where
  client : Client E

/-- The fields `recurrentReqWithAuth` declares after the embedded request pointer
(payments.go 143-144). -/
def recurrentAuthFields : List (String × Bool × GoType) :=
  [("userName", false, .string), ("password", false, .string)]

/-- The body `PaymentService.Recurrent` builds (payments.go 141-151): a pointer to
a value of the local struct type `recurrentReqWithAuth`, which embeds the request
pointer and adds `userName` and `password`. The encoder writes the fields of an
embedded struct as members of the enclosing object, before the fields declared
after it, and skips them when the embedded pointer is nil. -/
def PaymentService.recurrentReqWithAuth {E : Type} (s : PaymentService E) (req : GoValue) :
    Typed :=
  match req with
  | .ptr (.struct vs) =>
    ⟨.ptr (.struct (Schema.RecurrentPaymentRequest.fields ++ recurrentAuthFields)),
      .ptr (.struct (vs ++ [.string s.client.userName, .string s.client.password]))⟩
  | _ =>
    ⟨.ptr (.struct recurrentAuthFields),
      .ptr (.struct [.string s.client.userName, .string s.client.password])⟩

/-- Go `PaymentService.Recurrent`: performs a recurrent payment using a binding.
`req` is the request pointer; `zero` is the zero value of the response. -/
def PaymentService.Recurrent {E T : Type} (env : Env E Typed T) (zero : T)
    (s : PaymentService E) (ctx : Context) (req : GoValue) : Reply E T :=
  let reqBody := s.recurrentReqWithAuth req
  let out := s.client.doJSONRequestNoAuth env ctx "/recurrentPayment.do" (some reqBody)
    (some zero)
  match out.err with
  | some err => ⟨none, some err, out.trace⟩
  | none => ⟨out.result, none, out.trace⟩

/-- The request of `Example_recurrentPayment` (example_test.go 139-144). -/
def recurrentExampleRequest : GoValue :=
  Schema.RecurrentPaymentRequest.lit
    [ ("orderNumber", .string "SUB-12345-202311"),
      ("bindingId", .string "saved-binding-id"),
      ("amount", .int 99900),
      ("description", .string "Monthly subscription payment") ]

/-- The request of `Example_applePayPayment` (example_test.go 179-185). -/
def applePayExampleRequest : GoValue :=
  Schema.ApplePayPaymentRequest.lit
    [ ("merchant", .string "your-merchant-name"),
      ("orderNumber", .string "ORDER-AP-001"),
      ("paymentToken", .string "base64-encoded-apple-pay-token"),
      ("amount", .int 150000),
      ("email", .string "customer@example.com") ]

/-- The request of `Example_applePayPayment` with an order bundle whose cart is set
and whose items are not: `OrderBundle: &OrderBundle{CartItems: &CartItems{}}`. -/
def applePayEmptyCartRequest : GoValue :=
  Schema.ApplePayPaymentRequest.lit
    [ ("merchant", .string "your-merchant-name"),
      ("orderNumber", .string "ORDER-AP-001"),
      ("paymentToken", .string "base64-encoded-apple-pay-token"),
      ("amount", .int 150000),
      ("email", .string "customer@example.com"),
      ("orderBundle",
        .ptr (Schema.OrderBundle.lit [("cartItems", .ptr (Schema.CartItems.lit []))])) ]

/-- A float formatter for values that hold no float other than zero. -/
def zeroFloatOnly (f : Float64) : Option String :=
  if f.bits = 0 then some "0" else none

/-- A response decoder that stores nothing (for calls that never reach it). -/
def ignoreBody (_ : String) (t : Unit) : Unit × Option String := (t, none)

/-! ## orders.go: `AddParams` -/

/-- Go `AddParamsRequest`: a request to add additional parameters to an order. The
entries of `Params` stand in the order in which `range` visits them (Go leaves the
order of a map iteration unspecified, so every order of the entries is a possible
run); the keys of a map are distinct. -/
structure AddParamsRequest where
  OrderID : String := ""
  Params : StringMap := none
  Language : String := ""

/-- Go `len` of a map. -/
def StringMap.len : StringMap → Nat
  | none => 0
  | some m => m.length

/-- The loop of `AddParams` (orders.go 178-184) over the entries still to visit:
`paramsJSON` and `first` are the variables of the loop. -/
def paramsJSONLoop : List (String × String) → String → Bool → String
  | [], paramsJSON, _ => paramsJSON
  | (k, v) :: rest, paramsJSON, first =>
    let paramsJSON := if !first then paramsJSON ++ "," else paramsJSON
    let paramsJSON := paramsJSON ++ ("\"" ++ k ++ "\":\"" ++ v ++ "\"")
    paramsJSONLoop rest paramsJSON false

/-- Lines 175-186 of `AddParams`: the text stored under `params`. -/
def paramsJSON (entries : List (String × String)) : String :=
  paramsJSONLoop entries "\x7b" true ++ "\x7d"

/-- Lines 171-190 of `AddParams`: the parameter map. -/
def OrderService.AddParamsParams (req : AddParamsRequest) : Values :=
  let params : Values := []
  let params := params.Set "orderId" req.OrderID
  let params :=
    if req.Params.len > 0 then
      params.Set "params" (paramsJSON (req.Params.getD []))
    else params
  let params := if req.Language ≠ "" then params.Set "language" req.Language else params
  params

/-- Go `OrderService.AddParams`: adds additional parameters to an existing order. -/
def OrderService.AddParams {E B : Type} (env : Env E B BaseResponse)
    (s : OrderService E) (ctx : Context) (req : AddParamsRequest) : Reply E BaseResponse :=
  let params := OrderService.AddParamsParams req
  let resp : BaseResponse := ⟨"", "", ""⟩
  let out := s.client.doFormRequest env ctx "/rest/addParams.do" (some params) (some resp)
  match out.err with
  | some err => ⟨none, some err, out.trace⟩
  | none => ⟨out.result, none, out.trace⟩

/-- The number of double quotes and backslashes in a text. -/
def quoteCount (cs : List Char) : Nat :=
  (cs.filter (fun c => c = '"' || c = '\\')).length

/-- The weight of a unit of a string literal: a lower bound on the number of
characters of text the unit was read from. -/
def unitWeight : StrUnit → Nat
  | .lit c => if c = '"' || c = '\\' then 2 else 1
  | .u16 _ => 6

/-- The sign of a number literal: the stage `signed` of `scanNumber`. -/
def numberSign (cs : List Char) : List Char × List Char :=
  match cs with
  | '-' :: r => (['-'], r)
  | r => ([], r)

/-- The integer part of a number literal: the stage `intPart` of `scanNumber`. -/
def numberInt (cs : List Char) : Option (List Char × List Char) :=
  match cs with
  | '0' :: r => some (['0'], r)
  | c :: r => if c.isDigit then some (c :: (takeDigits r).1, (takeDigits r).2) else none
  | [] => none

/-- The fraction of a number literal: the stage `frac` of `scanNumber`. -/
def numberFrac (r1 : List Char) : Option (List Char × List Char) :=
  match r1 with
  | '.' :: r =>
    if (takeDigits r).1.isEmpty then none else some ('.' :: (takeDigits r).1, (takeDigits r).2)
  | r => some ([], r)

/-- The exponent of a number literal: the stage `expo` of `scanNumber`. -/
def numberExp (r2 : List Char) : Option (List Char × List Char) :=
  match r2 with
  | c :: r =>
    if c = 'e' || c = 'E' then
      let mark : List Char × List Char := match r with
        | '+' :: r1 => ([c, '+'], r1)
        | '-' :: r1 => ([c, '-'], r1)
        | r1 => ([c], r1)
      if (takeDigits mark.2).1.isEmpty then none
      else some (mark.1 ++ (takeDigits mark.2).1, (takeDigits mark.2).2)
    else some ([], c :: r)
  | [] => some ([], [])

/-- A lower bound on the number of characters a string value is read from: its
characters, its two quotes, and one more for every double quote and backslash. -/
def stringCost : JSON → Nat
  | .string s => 2 + s.data.length + quoteCount s.data
  | _ => 0

/-- A lower bound on the number of characters an object member is read from,
with the comma or brace that follows it. -/
def memberCost (m : String × JSON) : Nat :=
  4 + m.1.data.length + quoteCount m.1.data + stringCost m.2

/-- A lower bound on the number of characters a value is read from. -/
def textCost : JSON → Nat
  | .string s => stringCost (.string s)
  | .object members => 1 + (members.map memberCost).sum
  | _ => 0

/-- What the three readers consume, for a given bound on the recursion. -/
def ParseCostAt (fuel : Nat) : Prop :=
  (∀ cs v rest, parseValue fuel cs = some (v, rest) → rest.length + textCost v ≤ cs.length) ∧
  (∀ cs acc j rest, parseMembers fuel cs acc = some (j, rest) →
    ∃ new, j = .object (acc.reverse ++ new) ∧
      rest.length + (new.map memberCost).sum ≤ cs.length) ∧
  (∀ cs acc j rest, parseElements fuel cs acc = some (j, rest) →
    (∃ elems, j = .array elems) ∧ rest.length ≤ cs.length)

/-- The text the loop of `AddParams` writes for one entry. -/
def entryText (e : String × String) : List Char :=
  '"' :: e.1.data ++ '"' :: ':' :: '"' :: e.2.data ++ ['"']

/-! ## The decoder reads back what the encoder writes -/

/-- The character a unit of a string literal stands for when no surrogate is
involved. -/
def unitChar : StrUnit → Char
  | .lit c => c
  | .u16 n => Char.ofNat n

/-- A unit that is not a surrogate: a character, or a `\u` escape below U+D800 or
from U+E000 on. -/
def StrUnit.plain : StrUnit → Bool
  | .lit _ => true
  | .u16 n => n < 0xD800 || 0xE000 ≤ n

/-- The number a run of decimal digits stands for. -/
def digitsValue (ds : List Char) : Nat :=
  ds.foldl (fun acc c => acc * 10 + (c.toNat - 48)) 0

/-- Go `strconv.ParseInt(lit, 10, 64)` on a number literal: the integer, or `none`
when the literal has a fraction or an exponent or does not fit 64 bits. -/
def parseInt64 (lit : String) : Option Int :=
  match lit.data with
  | '-' :: ds =>
    if ds.isEmpty || !ds.all Char.isDigit then none
    else if digitsValue ds ≤ 2 ^ 63 then some (-(digitsValue ds : Int)) else none
  | ds =>
    if ds.isEmpty || !ds.all Char.isDigit then none
    else if digitsValue ds < 2 ^ 63 then some (digitsValue ds : Int) else none

/-- What may follow a value in the text the encoder writes: the end of the text, a
comma, or a closing brace or bracket. -/
def delimited : List Char → Bool
  | [] => true
  | c :: _ => c = ',' || c = '\x7d' || c = ']'

/-- A number literal as the encoder writes it: it starts with a digit or a minus
sign, and the decoder reads exactly the literal when it is followed by a
delimiter. -/
def NumberText (lit : List Char) : Prop :=
  (∃ c r, lit = c :: r ∧ (c.isDigit = true ∨ c = '-')) ∧
  ∀ rest, delimited rest = true → scanNumber (lit ++ rest) = some (lit, rest)

mutual
/-- The JSON values whose numbers are all number literals as the encoder writes
them. -/
def JSON.Plain : JSON → Prop
  | .number lit => NumberText lit.data
  | .array elems => PlainAll elems
  | .object members => PlainMembers members
  | _ => True
/-- The lists of plain values. -/
def PlainAll : List JSON → Prop
  | [] => True
  | j :: js => j.Plain ∧ PlainAll js
/-- The lists of members with plain values. -/
def PlainMembers : List (String × JSON) → Prop
  | [] => True
  | (_, j) :: ms => j.Plain ∧ PlainMembers ms
end

/-- The characters a value can start with in the text the encoder writes. -/
def valueStarts : List Char :=
  ['"', '\x7b', '[', 't', 'f', 'n', '-', '0', '1', '2', '3', '4', '5', '6', '7', '8', '9']

/-- What the three readers return on the text the encoder writes, for a given
bound on the recursion. -/
def ReadsBackAt (fuel : Nat) : Prop :=
  (∀ j rest, j.Plain → (render j).length ≤ fuel → delimited rest = true →
    parseValue fuel (render j ++ rest) = some (j, rest)) ∧
  (∀ m ms acc rest, PlainMembers (m :: ms) → (renderMembers (m :: ms)).length ≤ fuel →
    parseMembers fuel (renderMembers (m :: ms) ++ '\x7d' :: rest) acc
      = some (.object (acc.reverse ++ m :: ms), rest)) ∧
  (∀ e es acc rest, PlainAll (e :: es) → (renderElems (e :: es)).length + 1 ≤ fuel →
    parseElements fuel (renderElems (e :: es) ++ ']' :: rest) acc
      = some (.array (acc.reverse ++ e :: es), rest))

/-! ## encoding/json: `json.Unmarshal` into a typed value

A value is stored through the pointers of its target: `null` sets a pointer, a
slice or a map to nil and leaves anything else as it is; any other value is stored
into what the pointers lead to, a nil pointer being set to a new zero value first.
A member of an object is stored into the struct field of that name (an exact match
first, then a match without regard to case); members without a field are skipped.
A value that does not fit its target is skipped, the first such mismatch is
returned at the end. A map is held by its entries in the order of the keys. -/

/-- The type a pointer type leads to. -/
def GoType.base : GoType → GoType
  | .ptr t => t.base
  | .string => .string
  | .int => .int
  | .bool => .bool
  | .float64 => .float64
  | .slice t => .slice t
  | .stringMap => .stringMap
  | .struct fields => .struct fields

/-- Go `indirect`: the value the decoder stores into, reached through the pointers
of the target; a nil pointer is set to a new zero value on the way. -/
def indirect : GoType → GoValue → GoValue
  | .ptr t, .ptr v => indirect t v
  | .ptr t, _ => t.base.zero
  | _, v => v

/-- The target once a value has been stored through its pointers. -/
def reference : GoType → GoValue → GoValue
  | .ptr t, v => .ptr (reference t v)
  | _, v => v

/-- Whether the value is `null`. -/
def JSON.isNull : JSON → Bool
  | .null => true
  | _ => false

/-- Stores `null`: a pointer, a slice or a map becomes nil, anything else is left
as it is. -/
def storeNull : GoType → GoValue → GoValue
  | .ptr _, _ => .nil
  | .slice _, _ => .nil
  | .stringMap, _ => .stringMap none
  | _, old => old

/-- The path of a field, as `UnmarshalTypeError.Field` names it. -/
def fieldPath (path name : String) : String :=
  if path = "" then name else path ++ "." ++ name

/-- The field a member name selects: the first with that name, or else the first
whose name is the same without regard to case. -/
def fieldIndex (fields : List (String × Bool × GoType)) (key : String) : Option Nat :=
  match fields.findIdx? (fun f => f.1 = key) with
  | some i => some i
  | none => fields.findIdx? (fun f => foldName f.1 = foldName key)

/-- Sets a key of a map held by its entries in the order of the keys. -/
def mapSet : List (String × String) → String → String → List (String × String)
  | [], k, v => [(k, v)]
  | (k', v') :: rest, k, v =>
    if k = k' then (k, v) :: rest
    else if k.data < k'.data then (k, v) :: (k', v') :: rest
    else (k', v') :: mapSet rest k v

/-- Stores the members of an object into a `map[string]string`: a string is stored
under its key, `null` and a value that is not a string store the empty string, the
latter with an `UnmarshalTypeError`. -/
def decodeEntries (path : String) :
    List (String × JSON) → List (String × String) → Option JSONError →
      List (String × String) × Option JSONError
  | [], m, saved => (m, saved)
  | (key, .string s) :: rest, m, saved => decodeEntries path rest (mapSet m key s) saved
  | (key, .null) :: rest, m, saved => decodeEntries path rest (mapSet m key "") saved
  | (key, other) :: rest, m, saved =>
    decodeEntries path rest (mapSet m key "")
      (match saved with
        | some e => some e
        | none => some (.UnmarshalTypeError other.kindName path))

/-- The elements of a slice value. -/
def GoValue.elems : GoValue → List GoValue
  | .slice vs => vs
  | _ => []

/-- The entries of a map value. -/
def GoValue.entries : GoValue → List (String × String)
  | .stringMap (some m) => m
  | _ => []

mutual
/-- Stores a JSON value other than `null` into a value of a type that is not a
pointer type: the value after the store and the error. -/
def decodeBase (pf : String → Option Float64) :
    String → GoType → JSON → GoValue → GoValue × Option JSONError
  | _, .string, .string s, _ => (.string s, none)
  | _, .bool, .bool b, _ => (.bool b, none)
  | path, .int, .number lit, old =>
    match parseInt64 lit with
    | some n => (.int n, none)
    | none => (old, some (.UnmarshalTypeError ("number " ++ lit) path))
  | path, .float64, .number lit, old =>
    match pf lit with
    | some f => (.float64 f, none)
    | none => (old, some (.UnmarshalTypeError ("number " ++ lit) path))
  | path, .slice t, .array elems, old =>
    (.slice (decodeElems pf path t elems old.elems).1,
      (decodeElems pf path t elems old.elems).2)
  | path, .stringMap, .object members, old =>
    (.stringMap (some (decodeEntries path members old.entries none).1),
      (decodeEntries path members old.entries none).2)
  | path, .struct fields, .object members, old =>
    (.struct (decodeMembers pf path fields members old.fields none).1,
      (decodeMembers pf path fields members old.fields none).2)
  | path, _, j, old => (old, some (.UnmarshalTypeError j.kindName path))
/-- Stores the elements of an array into the elements of a slice: an element the
slice already has is stored into, a new one starts from the zero value. -/
def decodeElems (pf : String → Option Float64) :
    String → GoType → List JSON → List GoValue → List GoValue × Option JSONError
  | _, _, [], _ => ([], none)
  | path, t, j :: js, olds =>
    let r : GoValue × Option JSONError :=
      if j.isNull then (storeNull t (olds.headD t.zero), none)
      else
        (reference t (decodeBase pf path t.base j (indirect t (olds.headD t.zero))).1,
          (decodeBase pf path t.base j (indirect t (olds.headD t.zero))).2)
    (r.1 :: (decodeElems pf path t js olds.tail).1,
      match r.2 with
      | some e => some e
      | none => (decodeElems pf path t js olds.tail).2)
/-- Stores the members of an object into the fields of a struct, in the order of
the text, remembering the first error. -/
def decodeMembers (pf : String → Option Float64) :
    String → List (String × Bool × GoType) → List (String × JSON) → List GoValue →
      Option JSONError → List GoValue × Option JSONError
  | _, _, [], vals, saved => (vals, saved)
  | path, fields, (key, j) :: rest, vals, saved =>
    match fieldIndex fields key with
    | none => decodeMembers pf path fields rest vals saved
    | some i =>
      match fields.get? i, vals.get? i with
      | some f, some old =>
        let r : GoValue × Option JSONError :=
          if j.isNull then (storeNull f.2.2 old, none)
          else
            (reference f.2.2
                (decodeBase pf (fieldPath path f.1) f.2.2.base j (indirect f.2.2 old)).1,
              (decodeBase pf (fieldPath path f.1) f.2.2.base j (indirect f.2.2 old)).2)
        decodeMembers pf path fields rest (vals.set i r.1)
          (match saved with
            | some e => some e
            | none => r.2)
      | _, _ => decodeMembers pf path fields rest vals saved
end

/-- Stores a JSON value into a target of a type, through its pointers. -/
def store (pf : String → Option Float64) (path : String) (t : GoType) (j : JSON)
    (old : GoValue) : GoValue × Option JSONError :=
  if j.isNull then (storeNull t old, none)
  else
    (reference t (decodeBase pf path t.base j (indirect t old)).1,
      (decodeBase pf path t.base j (indirect t old)).2)

/-- Go `json.Unmarshal(data, &target)` for a target of a type: the target after
the call and the error returned. A text that is not valid JSON leaves the target
as it is. -/
def Unmarshal (pf : String → Option Float64) (t : GoType) (data : String) (target : GoValue) :
    GoValue × Option JSONError :=
  match parseJSON data with
  | none => (target, some .SyntaxError)
  | some j => store pf "" t j target

/-- The kinds of type whose values can be nil. -/
def GoType.nullable : GoType → Bool
  | .ptr _ => true
  | .slice _ => true
  | .stringMap => true
  | _ => false

mutual
/-- The types of the request records: in every struct the names of the fields are
distinct, and a pointer leads to a type without a nil value. -/
def GoType.wf : GoType → Bool
  | .ptr t => !t.nullable && t.wf
  | .slice t => t.wf
  | .struct fields => decide (fields.map Prod.fst).Nodup && GoType.wfFields fields
  | _ => true
/-- The types of the fields of a struct are well formed. -/
def GoType.wfFields : List (String × Bool × GoType) → Bool
  | [] => true
  | (_, _, t) :: fields => t.wf && GoType.wfFields fields
end

/-- Whether a value is the zero value of its type, for the kinds of value that
`omitempty` leaves out. -/
def isZeroValue : GoValue → Bool
  | .string s => s.data.isEmpty
  | .int n => n = 0
  | .bool b => !b
  | .float64 f => f.bits = 0
  | .nil => true
  | .stringMap none => true
  | _ => false

/-- Whether the entries of a map stand in the strict order of their keys. -/
def keysAscend : List (String × String) → Bool
  | a :: b :: rest => decide (a.1.data < b.1.data) && keysAscend (b :: rest)
  | _ => true

mutual
/-- The values the encoder writes without loss: every float can be written, a map
is held by its entries in the order of the keys, and a field tagged `omitempty`
that is empty holds the zero value of its type (so it is not an empty map or slice
that is not nil, and not the negative zero). -/
def canonical (ff : Float64 → Option String) : GoType → GoValue → Bool
  | .float64, .float64 f => (ff f).isSome
  | .ptr t, .ptr v => canonical ff t v
  | .slice t, .slice vs => canonicalElems ff t vs
  | .stringMap, .stringMap (some m) => keysAscend m
  | .struct fields, .struct vs => canonicalFields ff fields vs
  | _, _ => true
/-- The elements of a slice are canonical. -/
def canonicalElems (ff : Float64 → Option String) : GoType → List GoValue → Bool
  | _, [] => true
  | t, v :: vs => canonical ff t v && canonicalElems ff t vs
/-- The fields of a struct are canonical. -/
def canonicalFields (ff : Float64 → Option String) :
    List (String × Bool × GoType) → List GoValue → Bool
  | (_, omitempty, t) :: fields, v :: vs =>
    (!(omitempty && isEmptyValue v) || isZeroValue v) && canonical ff t v &&
      canonicalFields ff fields vs
  | _, _ => true
end

/-- A way of writing floats and a way of reading them that agree: what is written
is a number literal, and reading it gives the float back (as
`strconv.AppendFloat` with the shortest form and `strconv.ParseFloat` do for
finite floats). -/
def FloatCodec (ff : Float64 → Option String) (pf : String → Option Float64) : Prop :=
  ∀ f lit, ff f = some lit → NumberText lit.data ∧ pf lit = some f

/-- A float reader for texts that hold no float other than zero. -/
def zeroFloatReader (lit : String) : Option Float64 :=
  if lit = "0" then some ⟨0⟩ else none

/-- A value of a type is written and read back: the encoder writes a JSON value
for it, whose numbers are number literals, and storing that JSON value into the
zero value of the type gives the value, without an error. -/
def RoundTrips (ff : Float64 → Option String) (pf : String → Option Float64) (t : GoType)
    (v : GoValue) : Prop :=
  ∃ j, encode ff t v = some j ∧ j.Plain ∧ ∀ path, store pf path t j t.zero = (v, none)

/-- A field of a struct is written and read back: a field that is left out holds
the zero value of its type, any other field round-trips. -/
def FieldRoundTrips (ff : Float64 → Option String) (pf : String → Option Float64)
    (f : String × Bool × GoType) (v : GoValue) : Prop :=
  if (f.2.1 && isEmptyValue v) = true then v = f.2.2.zero else RoundTrips ff pf f.2.2 v

/-! ## The JSON-style operations and their request records -/

/-- The operations that hand a request record to a JSON helper, each with the type
of its request record (applepay.go, googlepay.go, mirpay.go, payments.go,
samsungpay.go, sbp.go, yandexpay.go). -/
def jsonStyleOperations : List (Operation × GoType) :=
  [ (⟨"ApplePay", "Payment", .doJSONRequestNoAuth, "/applepay/payment.do"⟩,
      Schema.ApplePayPaymentRequest),
    (⟨"GooglePay", "Payment", .doJSONRequestNoAuth, "/google/payment.do"⟩,
      Schema.GooglePayRequest),
    (⟨"MirPay", "Payment", .doJSONRequestNoAuth, "/mir/payment.do"⟩,
      Schema.MirPayPaymentRequest),
    (⟨"MirPay", "DirectPayment", .doJSONRequestNoAuth, "/mir/paymentDirect.do"⟩,
      Schema.MirPayPaymentRequest),
    (⟨"Payments", "Recurrent", .doJSONRequestNoAuth, "/recurrentPayment.do"⟩,
      Schema.RecurrentPaymentRequest),
    (⟨"SamsungPay", "Payment", .doJSONRequestNoAuth, "/samsung/payment.do"⟩,
      Schema.SamsungPayPaymentRequest),
    (⟨"SamsungPay", "DirectPayment", .doJSONRequestNoAuth, "/samsung/paymentDirect.do"⟩,
      Schema.SamsungPayPaymentRequest),
    (⟨"SBP", "B2BPerform", .doJSONRequest, "/rest/sbp/b2b/perform.do"⟩,
      Schema.SBPB2BPerformRequest),
    (⟨"SBP", "B2CPerformPayout", .doJSONRequest, "/rest/sbp/b2c/performPayout.do"⟩,
      Schema.SBPB2CPayoutRequest),
    (⟨"YandexPay", "Payment", .doJSONRequestNoAuth, "/yandex/payment.do"⟩,
      Schema.YandexPayRequest),
    (⟨"YandexPay", "DirectPayment", .doJSONRequestNoAuth, "/yandex/paymentDirect.do"⟩,
      Schema.YandexPayRequest),
    (⟨"YandexPay", "InstantPayment", .doJSONRequestNoAuth, "/yandex/instantPayment.do"⟩,
      Schema.YandexPayRequest) ]

/-- The body a JSON-style operation hands to its helper: the request pointer it
was given, except in `Payments.Recurrent`, which hands over the struct that embeds
the request and the credentials. -/
def Client.jsonBody {E : Type} (c : Client E) (op : Operation) (t : GoType) (req : GoValue) :
    Typed :=
  if op.service = "Payments" ∧ op.name = "Recurrent" then
    (PaymentService.mk c).recurrentReqWithAuth req
  else ⟨.ptr t, req⟩

/-- The dispatch call of a JSON-style operation. -/
def Client.jsonCall {E T : Type} (env : Env E Typed T) (c : Client E) (ctx : Context)
    (op : Operation) (t : GoType) (req : GoValue) (result : Option T) : Outcome E T :=
  c.helperDispatch env ctx op.helper op.endpoint none (some (c.jsonBody op t req)) result

/-- The request of `Example_googlePayPayment` (example_test.go 200-207). -/
def googlePayExampleRequest : GoValue :=
  Schema.GooglePayRequest.lit
    [ ("merchant", .string "your-merchant-name"),
      ("orderNumber", .string "ORDER-GP-001"),
      ("paymentToken", .string "base64-encoded-google-pay-token"),
      ("amount", .int 200000),
      ("ip", .string "192.168.1.1"),
      ("returnUrl", .string "https://your-site.com/payment/success") ]

/-- The request of `Example_googlePayPayment` with
`AdditionalParameters: map[string]string{}`, a map that is empty and not nil. -/
def googlePayEmptyMapRequest : GoValue :=
  Schema.GooglePayRequest.lit
    [ ("merchant", .string "your-merchant-name"),
      ("orderNumber", .string "ORDER-GP-001"),
      ("paymentToken", .string "base64-encoded-google-pay-token"),
      ("amount", .int 200000),
      ("ip", .string "192.168.1.1"),
      ("returnUrl", .string "https://your-site.com/payment/success"),
      ("additionalParameters", .stringMap (some [])) ]

/-! ## The form-style operations of orders.go, refunds.go, payments.go, status.go and sbp.go -/

/-- The parameter set built by `OrderService.RegisterPreAuth` (lines 83-135 of
orders.go). -/
def OrderService.RegisterPreAuthParams (req : RegisterOrderRequest) : Values :=
  let params : Values := []
  let params : Values := params.Set "orderNumber" req.OrderNumber
  let params : Values := params.Set "amount" (FormatInt req.Amount)
  let params : Values := params.Set "returnUrl" req.ReturnURL
  let params : Values := if req.FailURL ≠ "" then params.Set "failUrl" req.FailURL else params
  let params : Values :=
    if req.Description ≠ "" then params.Set "description" req.Description else params
  let params : Values := if req.Language ≠ "" then params.Set "language" req.Language else params
  let params : Values := if req.PageView ≠ "" then params.Set "pageView" req.PageView else params
  let params : Values := if req.ClientID ≠ "" then params.Set "clientId" req.ClientID else params
  let params : Values :=
    if req.MerchantLogin ≠ "" then params.Set "merchantLogin" req.MerchantLogin else params
  let params : Values :=
    if req.SessionTimeoutSecs > 0 then
      params.Set "sessionTimeoutSecs" (FormatInt req.SessionTimeoutSecs)
    else params
  let params : Values :=
    if req.ExpirationDate ≠ "" then params.Set "expirationDate" req.ExpirationDate else params
  let params : Values :=
    if req.BindingID ≠ "" then params.Set "bindingId" req.BindingID else params
  let params : Values := if req.Features ≠ "" then params.Set "features" req.Features else params
  let params : Values := if req.Email ≠ "" then params.Set "email" req.Email else params
  let params : Values := if req.Phone ≠ "" then params.Set "phone" req.Phone else params
  let params : Values := if req.Currency ≠ "" then params.Set "currency" req.Currency else params
  let params : Values :=
    if req.DynamicCallbackURL ≠ "" then
      params.Set "dynamicCallbackUrl" req.DynamicCallbackURL
    else params
  let params : Values :=
    if req.FeeInput > 0 then params.Set "feeInput" (FormatInt req.FeeInput) else params
  let params : Values :=
    match req.TaxSystem with
    | some taxSystem => params.Set "taxSystem" (FormatInt taxSystem)
    | none => params
  params

/-- Go `OrderService.RegisterPreAuth`: registers a new two-stage (pre-authorized)
order. -/
def OrderService.RegisterPreAuth {E B : Type} (env : Env E B RegisterOrderResponse)
    (s : OrderService E) (ctx : Context) (req : RegisterOrderRequest) :
    Reply E RegisterOrderResponse :=
  let params := OrderService.RegisterPreAuthParams req
  let resp : RegisterOrderResponse := RegisterOrderResponse.zero
  let out := s.client.doFormRequest env ctx "/rest/registerPreAuth.do" (some params) (some resp)
  match out.err with
  | some err => ⟨none, some err, out.trace⟩
  | none => ⟨out.result, none, out.trace⟩

/-- The zero value of `BaseResponse` (`var resp BaseResponse`). -/
def BaseResponse.zero : BaseResponse := ⟨"", "", ""⟩

/-- Go `RefundService`: handles refund operations. -/
structure RefundService (E : Type) where
  client : Client E

/-- The parameter set built by `RefundService.InstantRefund` (refunds.go 42-44). -/
def RefundService.InstantRefundParams (orderID : String) (amount : Int) : Values :=
  let params : Values := []
  let params := params.Set "orderId" orderID
  let params := params.Set "amount" (FormatInt amount)
  params

/-- Go `RefundService.InstantRefund`. Its doc comment reads: "InstantRefund performs
an instant refund without requiring an orderId. This is used for quick refunds when
you have the necessary payment details." -/
def RefundService.InstantRefund {E B : Type} (env : Env E B BaseResponse)
    (s : RefundService E) (ctx : Context) (orderID : String) (amount : Int) :
    Reply E BaseResponse :=
  let params := RefundService.InstantRefundParams orderID amount
  let resp : BaseResponse := BaseResponse.zero
  let out := s.client.doFormRequest env ctx "/rest/instantRefund.do" (some params) (some resp)
  match out.err with
  | some err => ⟨none, some err, out.trace⟩
  | none => ⟨out.result, none, out.trace⟩

/-- Go `DepositRequest`: a request to complete a pre-authorized payment. -/
structure DepositRequest where
  OrderID : String := ""
  Amount : Int := 0
  Language : String := ""
  JSONParams : String := ""
  DepositItems : String := ""
  DepositType : Int := 0
  Currency : String := ""
  deriving DecidableEq

/-- The parameter set built by `PaymentService.Deposit` (payments.go 17-35). -/
def PaymentService.DepositParams (req : DepositRequest) : Values :=
  let params : Values := []
  let params := params.Set "orderId" req.OrderID
  let params := params.Set "amount" (FormatInt req.Amount)
  let params := if req.Language ≠ "" then params.Set "language" req.Language else params
  let params := if req.JSONParams ≠ "" then params.Set "jsonParams" req.JSONParams else params
  let params :=
    if req.DepositItems ≠ "" then params.Set "depositItems" req.DepositItems else params
  let params :=
    if req.DepositType > 0 then params.Set "depositType" (FormatInt req.DepositType) else params
  let params := if req.Currency ≠ "" then params.Set "currency" req.Currency else params
  params

/-- Go `PaymentService.Deposit`: completes a pre-authorized payment. -/
def PaymentService.Deposit {E B : Type} (env : Env E B BaseResponse)
    (s : PaymentService E) (ctx : Context) (req : DepositRequest) : Reply E BaseResponse :=
  let params := PaymentService.DepositParams req
  let resp : BaseResponse := BaseResponse.zero
  let out := s.client.doFormRequest env ctx "/rest/deposit.do" (some params) (some resp)
  match out.err with
  | some err => ⟨none, some err, out.trace⟩
  | none => ⟨out.result, none, out.trace⟩

/-- Go `ReverseRequest`: a request to reverse a payment. -/
structure ReverseRequest where
  OrderID : String := ""
  Language : String := ""
  JSONParams : String := ""
  Amount : Int := 0
  deriving DecidableEq

/-- The parameter set built by `PaymentService.Reverse` (payments.go 47-58). -/
def PaymentService.ReverseParams (req : ReverseRequest) : Values :=
  let params : Values := []
  let params := params.Set "orderId" req.OrderID
  let params := if req.Language ≠ "" then params.Set "language" req.Language else params
  let params := if req.JSONParams ≠ "" then params.Set "jsonParams" req.JSONParams else params
  let params := if req.Amount > 0 then params.Set "amount" (FormatInt req.Amount) else params
  params

/-- Go `PaymentService.Reverse`: cancels an authorized payment (before settlement). -/
def PaymentService.Reverse {E B : Type} (env : Env E B BaseResponse)
    (s : PaymentService E) (ctx : Context) (req : ReverseRequest) : Reply E BaseResponse :=
  let params := PaymentService.ReverseParams req
  let resp : BaseResponse := BaseResponse.zero
  let out := s.client.doFormRequest env ctx "/rest/reverse.do" (some params) (some resp)
  match out.err with
  | some err => ⟨none, some err, out.trace⟩
  | none => ⟨out.result, none, out.trace⟩

/-- Go `StatusService`: handles order status operations. -/
structure StatusService (E : Type) where
  client : Client E

/-- Go `GetOrderStatusRequest`: a request to get the status of an order. -/
structure GetOrderStatusRequest where
  OrderID : String := ""
  OrderNumber : String := ""
  Language : String := ""
  MerchantLogin : String := ""
  deriving DecidableEq

/-- The parameter set built by `StatusService.GetExtended` (status.go 17-29). -/
def StatusService.GetExtendedParams (req : GetOrderStatusRequest) : Values :=
  let params : Values := []
  let params := if req.OrderID ≠ "" then params.Set "orderId" req.OrderID else params
  let params := if req.OrderNumber ≠ "" then params.Set "orderNumber" req.OrderNumber else params
  let params := if req.Language ≠ "" then params.Set "language" req.Language else params
  let params :=
    if req.MerchantLogin ≠ "" then params.Set "merchantLogin" req.MerchantLogin else params
  params

/-- Go `StatusService.GetExtended`: retrieves extended order status information.
`zero` is the zero value of `GetOrderStatusExtendedResponse`. -/
def StatusService.GetExtended {E B T : Type} (env : Env E B T) (zero : T)
    (s : StatusService E) (ctx : Context) (req : GetOrderStatusRequest) : Reply E T :=
  let params := StatusService.GetExtendedParams req
  let out := s.client.doFormRequest env ctx "/rest/getOrderStatusExtended.do" (some params)
    (some zero)
  match out.err with
  | some err => ⟨none, some err, out.trace⟩
  | none => ⟨out.result, none, out.trace⟩

/-- Go `StatusService.GetByOrderID`: retrieves extended order status by order ID. -/
def StatusService.GetByOrderID {E B T : Type} (env : Env E B T) (zero : T)
    (s : StatusService E) (ctx : Context) (orderID : String) : Reply E T :=
  s.GetExtended env zero ctx { OrderID := orderID }

/-- Go `StatusService.GetByOrderNumber`: retrieves extended order status by order
number. -/
def StatusService.GetByOrderNumber {E B T : Type} (env : Env E B T) (zero : T)
    (s : StatusService E) (ctx : Context) (orderNumber : String) : Reply E T :=
  s.GetExtended env zero ctx { OrderNumber := orderNumber }

/-- Go `GetLastOrdersRequest`: a request to get the orders of a date range. -/
structure GetLastOrdersRequest where
  FromDate : String := ""
  ToDate : String := ""
  Page : Int := 0
  Size : Int := 0
  TransactionStates : String := ""
  Merchants : String := ""
  Language : String := ""
  deriving DecidableEq

/-- The parameter set built by `StatusService.GetLastOrders` (status.go 52-70). -/
def StatusService.GetLastOrdersParams (req : GetLastOrdersRequest) : Values :=
  let params : Values := []
  let params := params.Set "from" req.FromDate
  let params := params.Set "to" req.ToDate
  let params := if req.Page > 0 then params.Set "page" (FormatInt req.Page) else params
  let params := if req.Size > 0 then params.Set "size" (FormatInt req.Size) else params
  let params :=
    if req.TransactionStates ≠ "" then
      params.Set "transactionStates" req.TransactionStates
    else params
  let params := if req.Merchants ≠ "" then params.Set "merchants" req.Merchants else params
  let params := if req.Language ≠ "" then params.Set "language" req.Language else params
  params

/-- Go `StatusService.GetLastOrders`: retrieves orders for a date range. `zero` is the
zero value of `GetLastOrdersResponse`. -/
def StatusService.GetLastOrders {E B T : Type} (env : Env E B T) (zero : T)
    (s : StatusService E) (ctx : Context) (req : GetLastOrdersRequest) : Reply E T :=
  let params := StatusService.GetLastOrdersParams req
  let out := s.client.doFormRequest env ctx "/rest/getLastOrdersForMerchants.do" (some params)
    (some zero)
  match out.err with
  | some err => ⟨none, some err, out.trace⟩
  | none => ⟨out.result, none, out.trace⟩

/-- Go `SBPService`: handles SBP (Fast Payment System) operations. -/
structure SBPService (E : Type) where
  client : Client E

/-- Go `SBPGetQRRequest`: a request to get an SBP QR code. -/
structure SBPGetQRRequest where
  MDOrder : String := ""
  QRHeight : Int := 0
  QRWidth : Int := 0
  QRFormat : String := ""
  deriving DecidableEq

/-- The parameter set built by `SBPService.GetQR` (sbp.go 16-28). -/
def SBPService.GetQRParams (req : SBPGetQRRequest) : Values :=
  let params : Values := []
  let params := if req.MDOrder ≠ "" then params.Set "mdOrder" req.MDOrder else params
  let params := if req.QRHeight > 0 then params.Set "qrHeight" (FormatInt req.QRHeight) else params
  let params := if req.QRWidth > 0 then params.Set "qrWidth" (FormatInt req.QRWidth) else params
  let params := if req.QRFormat ≠ "" then params.Set "qrFormat" req.QRFormat else params
  params

/-- Go `SBPService.GetQR`: retrieves a QR code for SBP payment. `zero` is the zero
value of `SBPGetQRResponse`. -/
def SBPService.GetQR {E B T : Type} (env : Env E B T) (zero : T)
    (s : SBPService E) (ctx : Context) (req : SBPGetQRRequest) : Reply E T :=
  let params := SBPService.GetQRParams req
  let out := s.client.doFormRequest env ctx "/rest/sbp/c2b/qr/dynamic/get.do" (some params)
    (some zero)
  match out.err with
  | some err => ⟨none, some err, out.trace⟩
  | none => ⟨out.result, none, out.trace⟩

/-- Go `SBPService.B2BPerform`: performs a B2B SBP payment. `req` is the request
pointer; `zero` is the zero value of `SBPB2BPerformResponse`. -/
def SBPService.B2BPerform {E T : Type} (env : Env E Typed T) (zero : T)
    (s : SBPService E) (ctx : Context) (req : GoValue) : Reply E T :=
  let out := s.client.doJSONRequest env ctx "/rest/sbp/b2b/perform.do"
    (some ⟨.ptr Schema.SBPB2BPerformRequest, req⟩) (some zero)
  match out.err with
  | some err => ⟨none, some err, out.trace⟩
  | none => ⟨out.result, none, out.trace⟩

/-- Go `SBPService.B2CPerformPayout`: performs a B2C SBP payout. `req` is the request
pointer; `zero` is the zero value of `SBPB2CPayoutResponse`. -/
def SBPService.B2CPerformPayout {E T : Type} (env : Env E Typed T) (zero : T)
    (s : SBPService E) (ctx : Context) (req : GoValue) : Reply E T :=
  let out := s.client.doJSONRequest env ctx "/rest/sbp/b2c/performPayout.do"
    (some ⟨.ptr Schema.SBPB2CPayoutRequest, req⟩) (some zero)
  match out.err with
  | some err => ⟨none, some err, out.trace⟩
  | none => ⟨out.result, none, out.trace⟩

/-- The statements every domain operation ends with, after it has built its
parameters or body: one call of its helper with the address of a fresh response
(`var resp T`), then `if err != nil { return nil, err }` and `return &resp, nil`. -/
def Client.call {E B T : Type} (env : Env E B T) (c : Client E) (ctx : Context)
    (helper : Helper) (endpoint : String) (params : Option Values) (body : Option B)
    (zero : T) : Reply E T :=
  let out := c.helperDispatch env ctx helper endpoint params body (some zero)
  match out.err with
  | some err => ⟨none, some err, out.trace⟩
  | none => ⟨out.result, none, out.trace⟩

/-- An optional numeric parameter as the form-style operations send it: the key is
in the parameter set exactly when the field is greater than zero; it is then bound
to the decimal rendering of the field and to nothing else, and that rendering
parses back to the field (a Go `int` or `int64`, at most 2^63 - 1). -/
def SentWhenPositive (params : Values) (key : String) (field : Int) : Prop :=
  (params.Has key = true ↔ 0 < field) ∧
  (0 < field → params.lookup key = [FormatInt field]) ∧
  (0 < field → field ≤ 9223372036854775807 → parseInt64 (FormatInt field) = some field)

/-! ## The member names of a JSON text and the field names of a type -/

mutual
/-- Every member name of a JSON value, at any depth. -/
def JSON.names : JSON → List String
  | .array elems => JSON.namesOfElems elems
  | .object members => JSON.namesOfMembers members
  | _ => []
/-- The member names of the elements of an array. -/
def JSON.namesOfElems : List JSON → List String
  | [] => []
  | j :: js => j.names ++ JSON.namesOfElems js
/-- The member names of an object: the names of its members and the names inside
their values. -/
def JSON.namesOfMembers : List (String × JSON) → List String
  | [] => []
  | (k, j) :: ms => k :: (j.names ++ JSON.namesOfMembers ms)
end

mutual
/-- Every `json` field name of a type, at any depth. -/
def GoType.names : GoType → List String
  | .ptr t => t.names
  | .slice t => t.names
  | .struct fields => GoType.namesOfFields fields
  | _ => []
/-- The field names of a list of fields and of their types. -/
def GoType.namesOfFields : List (String × Bool × GoType) → List String
  | [] => []
  | (name, _, t) :: fields => name :: (t.names ++ GoType.namesOfFields fields)
end

mutual
/-- Whether a type has no map at any depth (a map brings member names chosen by
the caller). -/
def GoType.mapFree : GoType → Bool
  | .stringMap => false
  | .ptr t => t.mapFree
  | .slice t => t.mapFree
  | .struct fields => GoType.mapFreeFields fields
  | _ => true
/-- Whether the types of the fields have no map at any depth. -/
def GoType.mapFreeFields : List (String × Bool × GoType) → Bool
  | [] => true
  | (_, _, t) :: fields => t.mapFree && GoType.mapFreeFields fields
end

mutual
/-- Whether a type has no float at any depth (a float is the only value the
encoder can refuse). -/
def GoType.floatFree : GoType → Bool
  | .float64 => false
  | .ptr t => t.floatFree
  | .slice t => t.floatFree
  | .struct fields => GoType.floatFreeFields fields
  | _ => true
/-- Whether the types of the fields have no float at any depth. -/
def GoType.floatFreeFields : List (String × Bool × GoType) → Bool
  | [] => true
  | (_, _, t) :: fields => t.floatFree && GoType.floatFreeFields fields
end

/-- A request for the B2B payment: an order, an amount and the sender. -/
def sbpB2BRequest : GoValue :=
  Schema.SBPB2BPerformRequest.lit
    [ ("orderId", .string "70906e55-7114-41d6-8332-4609dc6590f4"),
      ("amount", .int 150000),
      ("senderParams", .ptr (Schema.SBPB2BSenderParams.lit
        [ ("bankId", .string "100000000008"), ("inn", .string "7728168971") ])) ]

/-- A request for the B2C payout: an order number, an amount and the recipient. -/
def sbpB2CRequest : GoValue :=
  Schema.SBPB2CPayoutRequest.lit
    [ ("orderNumber", .string "PAYOUT-001"),
      ("amount", .int 50000),
      ("recipientParams", .ptr (Schema.SBPB2CRecipientParams.lit
        [ ("phone", .string "0079001234567"),
          ("name", .ptr (Schema.SBPB2CRecipientName.lit
            [ ("firstName", .string "Ivan") ])) ])) ]

/-- A text free of double quotes, backslashes and control characters (the
characters below U+0020, which JSON does not allow inside a string). -/
def cleanText (s : String) : Bool :=
  s.data.all (fun c => c ≠ '"' && c ≠ '\\' && decide (0x20 ≤ c.toNat))

/-! ## The client record as state

The helpers of client.go are methods on `*Client`, and every service holds the same
pointer. Below they are computations on the record behind that pointer: a read of
a field of `c` is a `get`, and an assignment through `c` would be a `set`. The
bodies of the helpers and of the domain operations make none; the closures
returned by `WithBaseURL`, `WithHTTPClient` and `WithTimeout`, which `NewClient`
runs before it returns, are the only code of the package that assigns to a field
of the client. -/

/-- Lines 132-156 of `doRequest` (191-215 of `doJSONRequestNoAuth`) on the client
record: `c.httpClient.Do(req)`, the read of the body, the status, the decoding. -/
def Client.roundTripM {E B T : Type} (env : Env E B T) (req : Request) (result : Option T)
    (trace : List Event) : StateM (Client E) (Outcome E T) := do
  let httpClient := (← get).httpClient
  match httpClient.Do req with
  | .error err =>
    return ⟨some (.wrapError "request failed" err), result, trace ++ [.httpDo req]⟩
  | .ok resp =>
    match resp.Body with
    | .error err =>
      return ⟨some (.wrapError "failed to read response body" err), result,
        trace ++ [.httpDo req, .readAll]⟩
    | .ok respBody =>
      if resp.StatusCode ≥ 400 then
        return ⟨some (.apiError ⟨resp.StatusCode, respBody⟩), result,
          trace ++ [.httpDo req, .readAll]⟩
      else
        match result with
        | none => return ⟨none, none, trace ++ [.httpDo req, .readAll]⟩
        | some target =>
          if respBody.length > 0 then
            match env.Unmarshal respBody target with
            | (t, some err) =>
              return ⟨some (.wrapError "failed to decode response" err), some t,
                trace ++ [.httpDo req, .readAll, .unmarshal respBody]⟩
            | (t, none) =>
              return ⟨none, some t, trace ++ [.httpDo req, .readAll, .unmarshal respBody]⟩
          else return ⟨none, some target, trace ++ [.httpDo req, .readAll]⟩

/-- Go `Client.doRequest` on the client record. -/
def Client.doRequestM {E B T : Type} (env : Env E B T) (ctx : Context)
    (method endpoint : String) (query : Option Values) (body : Option B)
    (result : Option T) : StateM (Client E) (Outcome E T) := do
  let query : Values := match query with
    | none => []
    | some q => q
  let query : Values := query.Set "userName" (← get).userName
  let query : Values := query.Set "password" (← get).password
  let fullURL := (← get).baseURL ++ endpoint
  let fullURL := if query.len > 0 then fullURL ++ "?" ++ query.Encode else fullURL
  match marshalBody env body with
  | .error err =>
    return ⟨some (.wrapError "failed to marshal request body" err), result, [.marshal]⟩
  | .ok (bodyReader, trace) =>
    match env.NewRequestErr ctx method fullURL with
    | some err =>
      return ⟨some (.wrapError "failed to create request" err), result,
        trace ++ [.newRequest method fullURL]⟩
    | none =>
      let header : Header := []
      let header : Header :=
        if body.isSome then header.Set "Content-Type" "application/json" else header
      let header : Header := header.Set "Accept" "application/json"
      Client.roundTripM env ⟨ctx, method, fullURL, bodyReader, header⟩ result
        (trace ++ [.newRequest method fullURL])

/-- Go `Client.doJSONRequest` on the client record. -/
def Client.doJSONRequestM {E B T : Type} (env : Env E B T) (ctx : Context)
    (endpoint : String) (body : Option B) (result : Option T) :
    StateM (Client E) (Outcome E T) :=
  Client.doRequestM env ctx MethodPost endpoint none body result

/-- Go `Client.doFormRequest` on the client record. -/
def Client.doFormRequestM {E B T : Type} (env : Env E B T) (ctx : Context)
    (endpoint : String) (params : Option Values) (result : Option T) :
    StateM (Client E) (Outcome E T) :=
  Client.doRequestM env ctx MethodPost endpoint params none result

/-- Go `Client.doJSONRequestNoAuth` on the client record. -/
def Client.doJSONRequestNoAuthM {E B T : Type} (env : Env E B T) (ctx : Context)
    (endpoint : String) (body : Option B) (result : Option T) :
    StateM (Client E) (Outcome E T) := do
  let fullURL := (← get).baseURL ++ endpoint
  match marshalBody env body with
  | .error err =>
    return ⟨some (.wrapError "failed to marshal request body" err), result, [.marshal]⟩
  | .ok (bodyReader, trace) =>
    match env.NewRequestErr ctx MethodPost fullURL with
    | some err =>
      return ⟨some (.wrapError "failed to create request" err), result,
        trace ++ [.newRequest MethodPost fullURL]⟩
    | none =>
      let header : Header := []
      let header : Header := header.Set "Content-Type" "application/json"
      let header : Header := header.Set "Accept" "application/json"
      Client.roundTripM env ⟨ctx, MethodPost, fullURL, bodyReader, header⟩ result
        (trace ++ [.newRequest MethodPost fullURL])

/-- The dispatch of a helper on the client record. -/
def Client.helperDispatchM {E B T : Type} (env : Env E B T) (ctx : Context)
    (helper : Helper) (endpoint : String) (params : Option Values) (body : Option B)
    (result : Option T) : StateM (Client E) (Outcome E T) :=
  match helper with
  | .doFormRequest => Client.doFormRequestM env ctx endpoint params result
  | .doJSONRequest => Client.doJSONRequestM env ctx endpoint body result
  | .doJSONRequestNoAuth => Client.doJSONRequestNoAuthM env ctx endpoint body result

/-- The statements every domain operation ends with, on the client record its
service points to. -/
def Client.callM {E B T : Type} (env : Env E B T) (ctx : Context) (helper : Helper)
    (endpoint : String) (params : Option Values) (body : Option B) (zero : T) :
    StateM (Client E) (Reply E T) := do
  let out ← Client.helperDispatchM env ctx helper endpoint params body (some zero)
  match out.err with
  | some err => return ⟨none, some err, out.trace⟩
  | none => return ⟨out.result, none, out.trace⟩

/-- Go `PaymentService.Recurrent` on the client record: the one operation that
reads the credentials itself (payments.go 148-149), to put them into the body. -/
def PaymentService.RecurrentM {E T : Type} (env : Env E Typed T) (zero : T) (ctx : Context)
    (req : GoValue) : StateM (Client E) (Reply E T) := do
  let reqBody := (PaymentService.mk (← get)).recurrentReqWithAuth req
  Client.callM env ctx .doJSONRequestNoAuth "/recurrentPayment.do" none (some reqBody) zero

/-! ## The remaining operations of the services -/

/-- Go `BindingService`: handles card binding operations. -/
structure BindingService (E : Type) where
  client : Client E

/-- Go `GetBindingsRequest`: a request to get bindings. -/
structure GetBindingsRequest where
  ClientID : String := ""
  BindingType : String := ""
  ShowExpired : String := ""
  Language : String := ""
  deriving DecidableEq

/-- The parameter set built by `BindingService.GetBindings` (bindings.go 15-26). -/
def BindingService.GetBindingsParams (req : GetBindingsRequest) : Values :=
  let params : Values := []
  let params := params.Set "clientId" req.ClientID
  let params := if req.BindingType ≠ "" then params.Set "bindingType" req.BindingType else params
  let params := if req.ShowExpired ≠ "" then params.Set "showExpired" req.ShowExpired else params
  let params := if req.Language ≠ "" then params.Set "language" req.Language else params
  params

/-- Go `BindingService.GetBindings`: retrieves all bindings for a client. `zero` is the zero
value of `GetBindingsResponse`. -/
def BindingService.GetBindings {E B T : Type} (env : Env E B T) (zero : T)
    (s : BindingService E) (ctx : Context) (req : GetBindingsRequest) : Reply E T :=
  let params := BindingService.GetBindingsParams req
  let out := s.client.doFormRequest env ctx "/rest/getBindings.do" (some params) (some zero)
  match out.err with
  | some err => ⟨none, some err, out.trace⟩
  | none => ⟨out.result, none, out.trace⟩

/-- The parameter set built by `BindingService.GetAllBindings` (bindings.go 38-49). -/
def BindingService.GetAllBindingsParams (req : GetBindingsRequest) : Values :=
  let params : Values := []
  let params := params.Set "clientId" req.ClientID
  let params := if req.BindingType ≠ "" then params.Set "bindingType" req.BindingType else params
  let params := if req.ShowExpired ≠ "" then params.Set "showExpired" req.ShowExpired else params
  let params := if req.Language ≠ "" then params.Set "language" req.Language else params
  params

/-- Go `BindingService.GetAllBindings`: retrieves all bindings including duplicates for a
client. `zero` is the zero value of `GetBindingsResponse`. -/
def BindingService.GetAllBindings {E B T : Type} (env : Env E B T) (zero : T)
    (s : BindingService E) (ctx : Context) (req : GetBindingsRequest) : Reply E T :=
  let params := BindingService.GetAllBindingsParams req
  let out := s.client.doFormRequest env ctx "/rest/getAllBindings.do" (some params) (some zero)
  match out.err with
  | some err => ⟨none, some err, out.trace⟩
  | none => ⟨out.result, none, out.trace⟩

/-- Go `BindingRequest`: a request to activate a binding. -/
structure BindingRequest where
  BindingID : String := ""
  Language : String := ""
  deriving DecidableEq

/-- The parameter set built by `BindingService.Activate` (bindings.go 61-66). -/
def BindingService.ActivateParams (req : BindingRequest) : Values :=
  let params : Values := []
  let params := params.Set "bindingId" req.BindingID
  let params := if req.Language ≠ "" then params.Set "language" req.Language else params
  params

/-- Go `BindingService.Activate`: activates a deactivated binding. -/
def BindingService.Activate {E B : Type} (env : Env E B BaseResponse)
    (s : BindingService E) (ctx : Context) (req : BindingRequest) : Reply E BaseResponse :=
  let params := BindingService.ActivateParams req
  let resp : BaseResponse := BaseResponse.zero
  let out := s.client.doFormRequest env ctx "/rest/bindCard.do" (some params) (some resp)
  match out.err with
  | some err => ⟨none, some err, out.trace⟩
  | none => ⟨out.result, none, out.trace⟩

/-- Go `UnbindRequest`: a request to deactivate a binding. -/
structure UnbindRequest where
  BindingID : String := ""
  Language : String := ""
  deriving DecidableEq

/-- The parameter set built by `BindingService.Deactivate` (bindings.go 78-83). -/
def BindingService.DeactivateParams (req : UnbindRequest) : Values :=
  let params : Values := []
  let params := params.Set "bindingId" req.BindingID
  let params := if req.Language ≠ "" then params.Set "language" req.Language else params
  params

/-- Go `BindingService.Deactivate`: deactivates an active binding. -/
def BindingService.Deactivate {E B : Type} (env : Env E B BaseResponse)
    (s : BindingService E) (ctx : Context) (req : UnbindRequest) : Reply E BaseResponse :=
  let params := BindingService.DeactivateParams req
  let resp : BaseResponse := BaseResponse.zero
  let out := s.client.doFormRequest env ctx "/rest/unBindCard.do" (some params) (some resp)
  match out.err with
  | some err => ⟨none, some err, out.trace⟩
  | none => ⟨out.result, none, out.trace⟩

/-- Go `ExtendBindingRequest`: a request to extend binding expiry (`NewExpiry` in the format
YYYYMM). -/
structure ExtendBindingRequest where
  BindingID : String := ""
  NewExpiry : String := ""
  Language : String := ""
  deriving DecidableEq

/-- The parameter set built by `BindingService.Extend` (bindings.go 96-102). -/
def BindingService.ExtendParams (req : ExtendBindingRequest) : Values :=
  let params : Values := []
  let params := params.Set "bindingId" req.BindingID
  let params := params.Set "newExpiry" req.NewExpiry
  let params := if req.Language ≠ "" then params.Set "language" req.Language else params
  params

/-- Go `BindingService.Extend`: extends the expiry date of a binding. -/
def BindingService.Extend {E B : Type} (env : Env E B BaseResponse)
    (s : BindingService E) (ctx : Context) (req : ExtendBindingRequest) : Reply E BaseResponse :=
  let params := BindingService.ExtendParams req
  let resp : BaseResponse := BaseResponse.zero
  let out := s.client.doFormRequest env ctx "/rest/extendBinding.do" (some params) (some resp)
  match out.err with
  | some err => ⟨none, some err, out.trace⟩
  | none => ⟨out.result, none, out.trace⟩

/-- The parameter set built by `BindingService.GetByCardOrID` (bindings.go 114-120). -/
def BindingService.GetByCardOrIDParams (bindingID pan : String) : Values :=
  let params : Values := []
  let params := if bindingID ≠ "" then params.Set "bindingId" bindingID else params
  let params := if pan ≠ "" then params.Set "pan" pan else params
  params

/-- Go `BindingService.GetByCardOrID`: retrieves bindings by card or binding ID. `zero` is
the zero value of `GetBindingsResponse`. -/
def BindingService.GetByCardOrID {E B T : Type} (env : Env E B T) (zero : T)
    (s : BindingService E) (ctx : Context) (bindingID pan : String) : Reply E T :=
  let params := BindingService.GetByCardOrIDParams bindingID pan
  let out := s.client.doFormRequest env ctx "/rest/getBindingsByCardOrId.do" (some params)
    (some zero)
  match out.err with
  | some err => ⟨none, some err, out.trace⟩
  | none => ⟨out.result, none, out.trace⟩

/-- Go `DeclineRequest`: a request to decline an order. -/
structure DeclineRequest where
  OrderID : String := ""
  OrderNumber : String := ""
  MerchantLogin : String := ""
  Language : String := ""
  deriving DecidableEq

/-- The parameter set built by `OrderService.Decline` (orders.go 147-159). -/
def OrderService.DeclineParams (req : DeclineRequest) : Values :=
  let params : Values := []
  let params := if req.OrderID ≠ "" then params.Set "orderId" req.OrderID else params
  let params := if req.OrderNumber ≠ "" then params.Set "orderNumber" req.OrderNumber else params
  let params :=
    if req.MerchantLogin ≠ "" then params.Set "merchantLogin" req.MerchantLogin else params
  let params := if req.Language ≠ "" then params.Set "language" req.Language else params
  params

/-- Go `OrderService.Decline`: cancels an unpaid order. -/
def OrderService.Decline {E B : Type} (env : Env E B BaseResponse)
    (s : OrderService E) (ctx : Context) (req : DeclineRequest) : Reply E BaseResponse :=
  let params := OrderService.DeclineParams req
  let resp : BaseResponse := BaseResponse.zero
  let out := s.client.doFormRequest env ctx "/rest/decline.do" (some params) (some resp)
  match out.err with
  | some err => ⟨none, some err, out.trace⟩
  | none => ⟨out.result, none, out.trace⟩

/-- Go `PaymentOrderBindingRequest`: a request for payment with binding. -/
structure PaymentOrderBindingRequest where
  MDOrder : String := ""
  BindingID : String := ""
  CVC : String := ""
  Language : String := ""
  IP : String := ""
  Email : String := ""
  deriving DecidableEq

/-- The parameter set built by `PaymentService.PayWithBinding` (payments.go 70-85). -/
def PaymentService.PayWithBindingParams (req : PaymentOrderBindingRequest) : Values :=
  let params : Values := []
  let params := params.Set "mdOrder" req.MDOrder
  let params := params.Set "bindingId" req.BindingID
  let params := if req.CVC ≠ "" then params.Set "cvc" req.CVC else params
  let params := if req.Language ≠ "" then params.Set "language" req.Language else params
  let params := if req.IP ≠ "" then params.Set "ip" req.IP else params
  let params := if req.Email ≠ "" then params.Set "email" req.Email else params
  params

/-- Go `PaymentService.PayWithBinding`: performs payment using a saved card binding. `zero`
is the zero value of `PaymentFormResult`. -/
def PaymentService.PayWithBinding {E B T : Type} (env : Env E B T) (zero : T)
    (s : PaymentService E) (ctx : Context) (req : PaymentOrderBindingRequest) : Reply E T :=
  let params := PaymentService.PayWithBindingParams req
  let out := s.client.doFormRequest env ctx "/rest/paymentOrderBinding.do" (some params) (some zero)
  match out.err with
  | some err => ⟨none, some err, out.trace⟩
  | none => ⟨out.result, none, out.trace⟩

/-- Go `InstantPaymentRequest`: a request for instant payment (register and pay). -/
structure InstantPaymentRequest where
  OrderNumber : String := ""
  Amount : Int := 0
  ReturnURL : String := ""
  FailURL : String := ""
  Description : String := ""
  Language : String := ""
  Email : String := ""
  Phone : String := ""
  Currency : String := ""
  BindingID : String := ""
  CVC : String := ""
  IP : String := ""
  AdditionalParameters : StringMap := none
  OrderBundle : Option OrderBundle := none
  deriving DecidableEq

/-- The parameter set built by `PaymentService.Instant` (payments.go 97-128). -/
def PaymentService.InstantParams (req : InstantPaymentRequest) : Values :=
  let params : Values := []
  let params := params.Set "orderNumber" req.OrderNumber
  let params := params.Set "amount" (FormatInt req.Amount)
  let params := params.Set "returnUrl" req.ReturnURL
  let params := if req.FailURL ≠ "" then params.Set "failUrl" req.FailURL else params
  let params := if req.Description ≠ "" then params.Set "description" req.Description else params
  let params := if req.Language ≠ "" then params.Set "language" req.Language else params
  let params := if req.Email ≠ "" then params.Set "email" req.Email else params
  let params := if req.Phone ≠ "" then params.Set "phone" req.Phone else params
  let params := if req.Currency ≠ "" then params.Set "currency" req.Currency else params
  let params := if req.BindingID ≠ "" then params.Set "bindingId" req.BindingID else params
  let params := if req.CVC ≠ "" then params.Set "cvc" req.CVC else params
  let params := if req.IP ≠ "" then params.Set "ip" req.IP else params
  params

/-- Go `PaymentService.Instant`: registers an order and initiates payment in a single
request. `zero` is the zero value of `InstantPaymentResponse`. -/
def PaymentService.Instant {E B T : Type} (env : Env E B T) (zero : T)
    (s : PaymentService E) (ctx : Context) (req : InstantPaymentRequest) : Reply E T :=
  let params := PaymentService.InstantParams req
  let out := s.client.doFormRequest env ctx "/rest/instantPayment.do" (some params) (some zero)
  match out.err with
  | some err => ⟨none, some err, out.trace⟩
  | none => ⟨out.result, none, out.trace⟩

/-- Go `Finish3DSPaymentRequest`: a request to finish 3DS payment. -/
structure Finish3DSPaymentRequest where
  MDOrder : String := ""
  PaRes : String := ""
  deriving DecidableEq

/-- The parameter set built by `PaymentService.Finish3DS` (payments.go 164-166). -/
def PaymentService.Finish3DSParams (req : Finish3DSPaymentRequest) : Values :=
  let params : Values := []
  let params := params.Set "mdOrder" req.MDOrder
  let params := params.Set "paRes" req.PaRes
  params

/-- Go `PaymentService.Finish3DS`: completes a 3D Secure payment after customer
authentication. `zero` is the zero value of `PaymentFormResult`. -/
def PaymentService.Finish3DS {E B T : Type} (env : Env E B T) (zero : T)
    (s : PaymentService E) (ctx : Context) (req : Finish3DSPaymentRequest) : Reply E T :=
  let params := PaymentService.Finish3DSParams req
  let out := s.client.doFormRequest env ctx "/rest/finish3dsPayment.do" (some params) (some zero)
  match out.err with
  | some err => ⟨none, some err, out.trace⟩
  | none => ⟨out.result, none, out.trace⟩

/-- Go `RefundRequest`: a request to refund a payment. -/
structure RefundRequest where
  OrderID : String := ""
  Amount : Int := 0
  Language : String := ""
  JSONParams : String := ""
  RefundItems : String := ""
  deriving DecidableEq

/-- The parameter set built by `RefundService.Refund` (refunds.go 17-29). -/
def RefundService.RefundParams (req : RefundRequest) : Values :=
  let params : Values := []
  let params := params.Set "orderId" req.OrderID
  let params := params.Set "amount" (FormatInt req.Amount)
  let params := if req.Language ≠ "" then params.Set "language" req.Language else params
  let params := if req.JSONParams ≠ "" then params.Set "jsonParams" req.JSONParams else params
  let params := if req.RefundItems ≠ "" then params.Set "refundItems" req.RefundItems else params
  params

/-- Go `RefundService.Refund`: performs a refund for a completed payment. -/
def RefundService.Refund {E B : Type} (env : Env E B BaseResponse)
    (s : RefundService E) (ctx : Context) (req : RefundRequest) : Reply E BaseResponse :=
  let params := RefundService.RefundParams req
  let resp : BaseResponse := BaseResponse.zero
  let out := s.client.doFormRequest env ctx "/rest/refund.do" (some params) (some resp)
  match out.err with
  | some err => ⟨none, some err, out.trace⟩
  | none => ⟨out.result, none, out.trace⟩

/-- Go `VerifyEnrollmentRequest`: a request to verify 3DS enrollment. -/
structure VerifyEnrollmentRequest where
  PAN : String := ""
  Language : String := ""
  deriving DecidableEq

/-- The parameter set built by `StatusService.VerifyEnrollment` (status.go 82-87). -/
def StatusService.VerifyEnrollmentParams (req : VerifyEnrollmentRequest) : Values :=
  let params : Values := []
  let params := params.Set "pan" req.PAN
  let params := if req.Language ≠ "" then params.Set "language" req.Language else params
  params

/-- Go `StatusService.VerifyEnrollment`: checks if a card is enrolled in 3D Secure. `zero`
is the zero value of `VerifyEnrollmentResponse`. -/
def StatusService.VerifyEnrollment {E B T : Type} (env : Env E B T) (zero : T)
    (s : StatusService E) (ctx : Context) (req : VerifyEnrollmentRequest) : Reply E T :=
  let params := StatusService.VerifyEnrollmentParams req
  let out := s.client.doFormRequest env ctx "/rest/verifyEnrollment.do" (some params) (some zero)
  match out.err with
  | some err => ⟨none, some err, out.trace⟩
  | none => ⟨out.result, none, out.trace⟩

/-- The parameter set built by `SBPService.GetQRStatus` (sbp.go 40-41). -/
def SBPService.GetQRStatusParams (mdOrder : String) : Values :=
  let params : Values := []
  let params := params.Set "mdOrder" mdOrder
  params

/-- Go `SBPService.GetQRStatus`: retrieves the status of an SBP QR payment. `zero` is the
zero value of `SBPQRStatusResponse`. -/
def SBPService.GetQRStatus {E B T : Type} (env : Env E B T) (zero : T)
    (s : SBPService E) (ctx : Context) (mdOrder : String) : Reply E T :=
  let params := SBPService.GetQRStatusParams mdOrder
  let out := s.client.doFormRequest env ctx "/rest/sbp/c2b/qr/status.do" (some params) (some zero)
  match out.err with
  | some err => ⟨none, some err, out.trace⟩
  | none => ⟨out.result, none, out.trace⟩

/-- The parameter set built by `SBPService.RejectQR` (sbp.go 53-54). -/
def SBPService.RejectQRParams (mdOrder : String) : Values :=
  let params : Values := []
  let params := params.Set "mdOrder" mdOrder
  params

/-- Go `SBPService.RejectQR`: rejects/cancels an SBP QR payment. -/
def SBPService.RejectQR {E B : Type} (env : Env E B BaseResponse)
    (s : SBPService E) (ctx : Context) (mdOrder : String) : Reply E BaseResponse :=
  let params := SBPService.RejectQRParams mdOrder
  let resp : BaseResponse := BaseResponse.zero
  let out := s.client.doFormRequest env ctx "/rest/sbp/c2b/qr/dynamic/reject.do" (some params)
    (some resp)
  match out.err with
  | some err => ⟨none, some err, out.trace⟩
  | none => ⟨out.result, none, out.trace⟩

/-- The parameter set built by `SBPService.Bind` (sbp.go 66-67). -/
def SBPService.BindParams (mdOrder : String) : Values :=
  let params : Values := []
  let params := params.Set "mdOrder" mdOrder
  params

/-- Go `SBPService.Bind`: creates an SBP binding for recurring payments. `zero` is the zero
value of `SBPBindResponse`. -/
def SBPService.Bind {E B T : Type} (env : Env E B T) (zero : T)
    (s : SBPService E) (ctx : Context) (mdOrder : String) : Reply E T :=
  let params := SBPService.BindParams mdOrder
  let out := s.client.doFormRequest env ctx "/rest/sbp/c2b/bind.do" (some params) (some zero)
  match out.err with
  | some err => ⟨none, some err, out.trace⟩
  | none => ⟨out.result, none, out.trace⟩

/-- The parameter set built by `SBPService.Unbind` (sbp.go 79-80). -/
def SBPService.UnbindParams (bindingID : String) : Values :=
  let params : Values := []
  let params := params.Set "bindingId" bindingID
  params

/-- Go `SBPService.Unbind`: removes an SBP binding. -/
def SBPService.Unbind {E B : Type} (env : Env E B BaseResponse)
    (s : SBPService E) (ctx : Context) (bindingID : String) : Reply E BaseResponse :=
  let params := SBPService.UnbindParams bindingID
  let resp : BaseResponse := BaseResponse.zero
  let out := s.client.doFormRequest env ctx "/rest/sbp/c2b/unBind.do" (some params) (some resp)
  match out.err with
  | some err => ⟨none, some err, out.trace⟩
  | none => ⟨out.result, none, out.trace⟩

/-- The parameter set built by `SBPService.GetBindings` (sbp.go 92-93). -/
def SBPService.GetBindingsParams (clientID : String) : Values :=
  let params : Values := []
  let params := params.Set "clientId" clientID
  params

/-- Go `SBPService.GetBindings`: retrieves all SBP bindings for a client. `zero` is the zero
value of `SBPGetBindingsResponse`. -/
def SBPService.GetBindings {E B T : Type} (env : Env E B T) (zero : T)
    (s : SBPService E) (ctx : Context) (clientID : String) : Reply E T :=
  let params := SBPService.GetBindingsParams clientID
  let out := s.client.doFormRequest env ctx "/rest/sbp/c2b/getBindings.do" (some params) (some zero)
  match out.err with
  | some err => ⟨none, some err, out.trace⟩
  | none => ⟨out.result, none, out.trace⟩

/-- The parameter set built by `SBPService.B2BGetPayload` (sbp.go 107-108). -/
def SBPService.B2BGetPayloadParams (orderID : String) : Values :=
  let params : Values := []
  let params := params.Set "orderId" orderID
  params

/-- Go `SBPService.B2BGetPayload`: retrieves payload for B2B SBP payment. `zero` is the zero
value of `SBPB2BPayloadResponse`. -/
def SBPService.B2BGetPayload {E B T : Type} (env : Env E B T) (zero : T)
    (s : SBPService E) (ctx : Context) (orderID : String) : Reply E T :=
  let params := SBPService.B2BGetPayloadParams orderID
  let out := s.client.doFormRequest env ctx "/rest/sbp/b2b/getPayload.do" (some params) (some zero)
  match out.err with
  | some err => ⟨none, some err, out.trace⟩
  | none => ⟨out.result, none, out.trace⟩

/-- The parameter set built by `SBPService.B2CCheckPayout` (sbp.go 142-143). -/
def SBPService.B2CCheckPayoutParams (orderID : String) : Values :=
  let params : Values := []
  let params := params.Set "orderId" orderID
  params

/-- Go `SBPService.B2CCheckPayout`: checks the status of a B2C SBP payout. `zero` is the
zero value of `SBPB2CCheckPayoutResponse`. -/
def SBPService.B2CCheckPayout {E B T : Type} (env : Env E B T) (zero : T)
    (s : SBPService E) (ctx : Context) (orderID : String) : Reply E T :=
  let params := SBPService.B2CCheckPayoutParams orderID
  let out := s.client.doFormRequest env ctx "/rest/sbp/b2c/checkPayout.do" (some params) (some zero)
  match out.err with
  | some err => ⟨none, some err, out.trace⟩
  | none => ⟨out.result, none, out.trace⟩

/-- The parameter set built by `SBPService.B2CGetPayoutStatus` (sbp.go 155-156). -/
def SBPService.B2CGetPayoutStatusParams (orderID : String) : Values :=
  let params : Values := []
  let params := params.Set "orderId" orderID
  params

/-- Go `SBPService.B2CGetPayoutStatus`: retrieves the status of a B2C SBP payout. `zero` is
the zero value of `SBPB2CPayoutStatusResponse`. -/
def SBPService.B2CGetPayoutStatus {E B T : Type} (env : Env E B T) (zero : T)
    (s : SBPService E) (ctx : Context) (orderID : String) : Reply E T :=
  let params := SBPService.B2CGetPayoutStatusParams orderID
  let out := s.client.doFormRequest env ctx "/rest/sbp/b2c/getPayoutStatus.do" (some params)
    (some zero)
  match out.err with
  | some err => ⟨none, some err, out.trace⟩
  | none => ⟨out.result, none, out.trace⟩

/-- Go `GooglePayService`: handles Google Pay payment operations. -/
structure GooglePayService (E : Type) where
  client : Client E

/-- Go `GooglePayService.Payment`: performs a payment using Google Pay token. `req` is the
request pointer; `zero` is the zero value of `GooglePayResponse`. -/
def GooglePayService.Payment {E T : Type} (env : Env E Typed T) (zero : T)
    (s : GooglePayService E) (ctx : Context) (req : GoValue) : Reply E T :=
  let out := s.client.doJSONRequestNoAuth env ctx "/google/payment.do"
    (some ⟨.ptr Schema.GooglePayRequest, req⟩) (some zero)
  match out.err with
  | some err => ⟨none, some err, out.trace⟩
  | none => ⟨out.result, none, out.trace⟩

/-- Go `MirPayService`: handles MIR Pay payment operations. -/
structure MirPayService (E : Type) where
  client : Client E

/-- Go `MirPayService.Payment`: performs a payment using MIR Pay. `req` is the request
pointer; `zero` is the zero value of `MirPayResponse`. -/
def MirPayService.Payment {E T : Type} (env : Env E Typed T) (zero : T)
    (s : MirPayService E) (ctx : Context) (req : GoValue) : Reply E T :=
  let out := s.client.doJSONRequestNoAuth env ctx "/mir/payment.do"
    (some ⟨.ptr Schema.MirPayPaymentRequest, req⟩) (some zero)
  match out.err with
  | some err => ⟨none, some err, out.trace⟩
  | none => ⟨out.result, none, out.trace⟩

/-- Go `MirPayService.DirectPayment`: performs a direct payment using MIR Pay without
pre-registration. `req` is the request pointer; `zero` is the zero value of
`MirPayResponse`. -/
def MirPayService.DirectPayment {E T : Type} (env : Env E Typed T) (zero : T)
    (s : MirPayService E) (ctx : Context) (req : GoValue) : Reply E T :=
  let out := s.client.doJSONRequestNoAuth env ctx "/mir/paymentDirect.do"
    (some ⟨.ptr Schema.MirPayPaymentRequest, req⟩) (some zero)
  match out.err with
  | some err => ⟨none, some err, out.trace⟩
  | none => ⟨out.result, none, out.trace⟩

/-- Go `SamsungPayService`: handles Samsung Pay payment operations. -/
structure SamsungPayService (E : Type) where
  client : Client E

/-- Go `SamsungPayService.Payment`: performs a payment using Samsung Pay token. `req` is the
request pointer; `zero` is the zero value of `SamsungPayPaymentResponse`. -/
def SamsungPayService.Payment {E T : Type} (env : Env E Typed T) (zero : T)
    (s : SamsungPayService E) (ctx : Context) (req : GoValue) : Reply E T :=
  let out := s.client.doJSONRequestNoAuth env ctx "/samsung/payment.do"
    (some ⟨.ptr Schema.SamsungPayPaymentRequest, req⟩) (some zero)
  match out.err with
  | some err => ⟨none, some err, out.trace⟩
  | none => ⟨out.result, none, out.trace⟩

/-- Go `SamsungPayService.DirectPayment`: performs a direct payment using Samsung Pay
without pre-registration. `req` is the request pointer; `zero` is the zero value of
`SamsungPayPaymentResponse`. -/
def SamsungPayService.DirectPayment {E T : Type} (env : Env E Typed T) (zero : T)
    (s : SamsungPayService E) (ctx : Context) (req : GoValue) : Reply E T :=
  let out := s.client.doJSONRequestNoAuth env ctx "/samsung/paymentDirect.do"
    (some ⟨.ptr Schema.SamsungPayPaymentRequest, req⟩) (some zero)
  match out.err with
  | some err => ⟨none, some err, out.trace⟩
  | none => ⟨out.result, none, out.trace⟩

/-- Go `YandexPayService`: handles Yandex Pay payment operations. -/
structure YandexPayService (E : Type) where
  client : Client E

/-- Go `YandexPayService.Payment`: performs a payment using Yandex Pay token. `req` is the
request pointer; `zero` is the zero value of `YandexPayResponse`. -/
def YandexPayService.Payment {E T : Type} (env : Env E Typed T) (zero : T)
    (s : YandexPayService E) (ctx : Context) (req : GoValue) : Reply E T :=
  let out := s.client.doJSONRequestNoAuth env ctx "/yandex/payment.do"
    (some ⟨.ptr Schema.YandexPayRequest, req⟩) (some zero)
  match out.err with
  | some err => ⟨none, some err, out.trace⟩
  | none => ⟨out.result, none, out.trace⟩

/-- Go `YandexPayService.DirectPayment`: performs a direct payment using Yandex Pay without
pre-registration. `req` is the request pointer; `zero` is the zero value of
`YandexPayResponse`. -/
def YandexPayService.DirectPayment {E T : Type} (env : Env E Typed T) (zero : T)
    (s : YandexPayService E) (ctx : Context) (req : GoValue) : Reply E T :=
  let out := s.client.doJSONRequestNoAuth env ctx "/yandex/paymentDirect.do"
    (some ⟨.ptr Schema.YandexPayRequest, req⟩) (some zero)
  match out.err with
  | some err => ⟨none, some err, out.trace⟩
  | none => ⟨out.result, none, out.trace⟩

/-- Go `YandexPayService.InstantPayment`: performs instant payment with Yandex Pay (register
and pay). `req` is the request pointer; `zero` is the zero value of `YandexPayResponse`. -/
def YandexPayService.InstantPayment {E T : Type} (env : Env E Typed T) (zero : T)
    (s : YandexPayService E) (ctx : Context) (req : GoValue) : Reply E T :=
  let out := s.client.doJSONRequestNoAuth env ctx "/yandex/instantPayment.do"
    (some ⟨.ptr Schema.YandexPayRequest, req⟩) (some zero)
  match out.err with
  | some err => ⟨none, some err, out.trace⟩
  | none => ⟨out.result, none, out.trace⟩

/-- What the statements every operation ends with (`if err != nil { return nil, err }`
and `return &resp, nil`) make of its dispatch call, stated of the reply `r` of the
operation and of the dispatch of `helper` at `endpoint` with `params` and `body`
into a fresh response `zero`: the response is nil exactly when the error is not;
the error is the one the dispatch returned, and the calls made are those of the
dispatch; with an error of the dispatch the response is nil and the error is that
error; without one the response is not nil and is the target the dispatch left; and
when the request was built and answered with a status below 400 and an empty body,
the response is the zero value and the error is nil. -/
def Client.ReturnsResponseOrError {E B T : Type} (c : Client E) (env : Env E B T)
    (ctx : Context) (helper : Helper) (endpoint : String) (params : Option Values)
    (body : Option B) (zero : T) (r : Reply E T) : Prop :=
  (r.resp = none ↔ r.err ≠ none) ∧
  r.err = (c.helperDispatch env ctx helper endpoint params body (some zero)).err ∧
  r.trace = (c.helperDispatch env ctx helper endpoint params body (some zero)).trace ∧
  (∀ err, (c.helperDispatch env ctx helper endpoint params body (some zero)).err = some err →
    r.resp = none ∧ r.err = some err) ∧
  ((c.helperDispatch env ctx helper endpoint params body (some zero)).err = none →
    ∃ t, r.resp = some t ∧
      (c.helperDispatch env ctx helper endpoint params body (some zero)).result = some t) ∧
  (∀ req trace resp, c.helperBuild env ctx helper endpoint params body = .ok (req, trace) →
    c.httpClient.Do req = .ok resp → resp.Body = .ok "" → resp.StatusCode < 400 →
    r.resp = some zero ∧ r.err = none)

/-! ## Go strings as bytes

A Go string is a sequence of bytes and need not be valid UTF-8. Everywhere else in
this development a Go string is held as a `String`, which covers exactly the Go
strings that are valid UTF-8. The definitions below hold a Go string by its bytes,
for the loop of `AddParams` and for the decoder, which replaces what is not valid
UTF-8. -/

/-- The bytes of a Go string that is valid UTF-8. -/
def goBytes (s : String) : List Nat :=
  s.data.flatMap utf8Bytes

/-- Go `utf8.DecodeRune` on the bytes that remain of a string: the code point and
the number of bytes it takes. A byte that does not start a well-formed sequence
gives `utf8.RuneError` (U+FFFD) and the width 1. The second byte of a sequence that
starts with E0, ED, F0 or F4 has a narrower range (no overlong form, no surrogate,
nothing above U+10FFFF). -/
def decodeRune : List Nat → Nat × Nat
  | [] => (0xFFFD, 0)
  | p0 :: rest =>
    if p0 < 0x80 then (p0, 1)
    else if p0 < 0xC2 then (0xFFFD, 1)
    else if p0 < 0xE0 then
      match rest with
      | b1 :: _ =>
        if b1 < 0x80 ∨ 0xBF < b1 then (0xFFFD, 1)
        else ((p0 % 32) * 64 + b1 % 64, 2)
      | _ => (0xFFFD, 1)
    else if p0 < 0xF0 then
      let lo := if p0 = 0xE0 then 0xA0 else 0x80
      let hi := if p0 = 0xED then 0x9F else 0xBF
      match rest with
      | b1 :: b2 :: _ =>
        if b1 < lo ∨ hi < b1 then (0xFFFD, 1)
        else if b2 < 0x80 ∨ 0xBF < b2 then (0xFFFD, 1)
        else ((p0 % 16) * 4096 + (b1 % 64) * 64 + b2 % 64, 3)
      | _ => (0xFFFD, 1)
    else if p0 < 0xF5 then
      let lo := if p0 = 0xF0 then 0x90 else 0x80
      let hi := if p0 = 0xF4 then 0x8F else 0xBF
      match rest with
      | b1 :: b2 :: b3 :: _ =>
        if b1 < lo ∨ hi < b1 then (0xFFFD, 1)
        else if b2 < 0x80 ∨ 0xBF < b2 then (0xFFFD, 1)
        else if b3 < 0x80 ∨ 0xBF < b3 then (0xFFFD, 1)
        else ((p0 % 8) * 262144 + (b1 % 64) * 4096 + (b2 % 64) * 64 + b3 % 64, 4)
      | _ => (0xFFFD, 1)
    else (0xFFFD, 1)

/-- The runes the decoder reads from a byte text, one `utf8.DecodeRune` after the
other; `skip` is the number of bytes still to pass over, which the rune read last
has taken. -/
def decodeRunes : List Nat → Nat → List Char
  | [], _ => []
  | _ :: rest, skip + 1 => decodeRunes rest skip
  | p0 :: rest, 0 =>
    Char.ofNat (decodeRune (p0 :: rest)).1 :: decodeRunes rest ((decodeRune (p0 :: rest)).2 - 1)

/-- A byte text as the decoder reads it: a sequence that is not valid UTF-8 is read
as U+FFFD (the documentation of `json.Unmarshal`: invalid UTF-8 in a quoted string
is not an error, it is replaced by the Unicode replacement character). -/
def goText (data : List Nat) : String :=
  String.mk (decodeRunes data 0)

/-- Go `json.Unmarshal` on a byte text. The bytes that carry the structure of a JSON
text are ASCII, and `utf8.DecodeRune` reads an ASCII byte as itself wherever it
stands, so the decoder on bytes is the decoder on the text read from them. -/
def UnmarshalBytes (pf : String → Option Float64) (t : GoType) (data : List Nat)
    (target : GoValue) : GoValue × Option JSONError :=
  Unmarshal pf t (goText data) target

/-- Whether a Go string, held by its bytes, has no double quote, no backslash and no
control character (a byte below 0x20). -/
def cleanBytes (s : List Nat) : Bool :=
  s.all (fun b => b ≠ 0x22 && b ≠ 0x5C && decide (0x20 ≤ b))

/-- The loop of `AddParams` (orders.go 178-184) on strings held by their bytes:
`paramsJSON` and `first` are the variables of the loop. -/
def paramsJSONBytesLoop : List (List Nat × List Nat) → List Nat → Bool → List Nat
  | [], paramsJSON, _ => paramsJSON
  | (k, v) :: rest, paramsJSON, first =>
    let paramsJSON := if !first then paramsJSON ++ goBytes "," else paramsJSON
    let paramsJSON := paramsJSON ++ (goBytes "\"" ++ k ++ goBytes "\":\"" ++ v ++ goBytes "\"")
    paramsJSONBytesLoop rest paramsJSON false

/-- Lines 175-186 of `AddParams` on strings held by their bytes: the text stored
under `params`. -/
def paramsJSONBytes (entries : List (List Nat × List Nat)) : List Nat :=
  paramsJSONBytesLoop entries (goBytes "\x7b") true ++ goBytes "\x7d"

/-! ## Dispatch: shared lemmas -/

set_option maxRecDepth 100000

section DispatchLemmas

variable {E B T : Type}

theorem marshalBody_trace (env : Env E B T) (body : Option B) (bodyReader : Option String)
    (trace : List Event) (h : marshalBody env body = .ok (bodyReader, trace)) :
    (trace = [] ∨ trace = [.marshal]) ∧ (bodyReader.isSome = body.isSome) := by
  unfold marshalBody at h
  cases body with
  | none =>
    simp only [Except.ok.injEq, Prod.mk.injEq] at h
    obtain ⟨h1, h2⟩ := h
    subst h1 h2
    simp
  | some b =>
    simp only at h
    cases hm : env.Marshal b with
    | error err => rw [hm] at h; cases h
    | ok jsonBody =>
      rw [hm] at h
      simp only [Except.ok.injEq, Prod.mk.injEq] at h
      obtain ⟨h1, h2⟩ := h
      subst h1 h2
      simp

theorem doRequestBuild_ok (env : Env E B T) (c : Client E) (ctx : Context)
    (method endpoint : String) (query : Option Values) (body : Option B) (req : Request)
    (trace : List Event)
    (h : c.doRequestBuild env ctx method endpoint query body = .ok (req, trace)) :
    ∃ bodyReader pre, marshalBody env body = .ok (bodyReader, pre) ∧
      env.NewRequestErr ctx method (c.doRequestURL endpoint query) = none ∧
      req = ⟨ctx, method, c.doRequestURL endpoint query, bodyReader,
        Header.Set (if body.isSome then Header.Set [] "Content-Type" "application/json" else [])
          "Accept" "application/json"⟩ ∧
      trace = pre ++ [.newRequest method (c.doRequestURL endpoint query)] := by
  unfold Client.doRequestBuild at h
  simp only at h
  cases hm : marshalBody env body with
  | error err => rw [hm] at h; cases h
  | ok p =>
    obtain ⟨bodyReader, pre⟩ := p
    rw [hm] at h
    simp only at h
    cases hn : env.NewRequestErr ctx method (c.doRequestURL endpoint query) with
    | some err => rw [hn] at h; cases h
    | none =>
      rw [hn] at h
      simp only [Except.ok.injEq, Prod.mk.injEq] at h
      exact ⟨bodyReader, pre, rfl, rfl, h.1.symm, h.2.symm⟩

theorem doJSONRequestNoAuthBuild_ok (env : Env E B T) (c : Client E) (ctx : Context)
    (endpoint : String) (body : Option B) (req : Request) (trace : List Event)
    (h : c.doJSONRequestNoAuthBuild env ctx endpoint body = .ok (req, trace)) :
    ∃ bodyReader pre, marshalBody env body = .ok (bodyReader, pre) ∧
      env.NewRequestErr ctx MethodPost (c.baseURL ++ endpoint) = none ∧
      req = ⟨ctx, MethodPost, c.baseURL ++ endpoint, bodyReader,
        Header.Set (Header.Set [] "Content-Type" "application/json")
          "Accept" "application/json"⟩ ∧
      trace = pre ++ [.newRequest MethodPost (c.baseURL ++ endpoint)] := by
  unfold Client.doJSONRequestNoAuthBuild at h
  simp only at h
  cases hm : marshalBody env body with
  | error err => rw [hm] at h; cases h
  | ok p =>
    obtain ⟨bodyReader, pre⟩ := p
    rw [hm] at h
    simp only at h
    cases hn : env.NewRequestErr ctx MethodPost (c.baseURL ++ endpoint) with
    | some err => rw [hn] at h; cases h
    | none =>
      rw [hn] at h
      simp only [Except.ok.injEq, Prod.mk.injEq] at h
      exact ⟨bodyReader, pre, rfl, rfl, h.1.symm, h.2.symm⟩

theorem DispatchBuild_trace_no_unmarshal (env : Env E B T) (c : Client E) (ctx : Context)
    (mode : AuthMode) (method endpoint : String) (query : Option Values) (body : Option B)
    (req : Request) (trace : List Event)
    (h : c.DispatchBuild env ctx mode method endpoint query body = .ok (req, trace)) :
    ∀ data, Event.unmarshal data ∉ trace := by
  intro data
  cases mode with
  | queryAuthenticated =>
    obtain ⟨bodyReader, pre, hm, -, -, ht⟩ :=
      doRequestBuild_ok env c ctx method endpoint query body req trace h
    rcases (marshalBody_trace env body bodyReader pre hm).1 with hp | hp <;>
      simp [ht, hp]
  | bodyAuthenticatedOrNone =>
    obtain ⟨bodyReader, pre, hm, -, -, ht⟩ :=
      doJSONRequestNoAuthBuild_ok env c ctx endpoint body req trace h
    rcases (marshalBody_trace env body bodyReader pre hm).1 with hp | hp <;>
      simp [ht, hp]

theorem Dispatch_eq_roundTrip (env : Env E B T) (c : Client E) (ctx : Context)
    (mode : AuthMode) (method endpoint : String) (query : Option Values) (body : Option B)
    (result : Option T) (req : Request) (trace : List Event)
    (h : c.DispatchBuild env ctx mode method endpoint query body = .ok (req, trace)) :
    c.Dispatch env ctx mode method endpoint query body result =
      c.roundTrip env req result trace := by
  cases mode with
  | queryAuthenticated =>
    simp only [Client.DispatchBuild] at h
    simp only [Client.Dispatch, Client.doRequest, h]
  | bodyAuthenticatedOrNone =>
    simp only [Client.DispatchBuild] at h
    simp only [Client.Dispatch, Client.doJSONRequestNoAuth, h]

theorem Dispatch_of_build_error (env : Env E B T) (c : Client E) (ctx : Context)
    (mode : AuthMode) (method endpoint : String) (query : Option Values) (body : Option B)
    (result : Option T) (err : Error E) (trace : List Event)
    (h : c.DispatchBuild env ctx mode method endpoint query body = .error (err, trace)) :
    c.Dispatch env ctx mode method endpoint query body result = ⟨some err, result, trace⟩ := by
  cases mode with
  | queryAuthenticated =>
    simp only [Client.DispatchBuild] at h
    simp only [Client.Dispatch, Client.doRequest, h]
  | bodyAuthenticatedOrNone =>
    simp only [Client.DispatchBuild] at h
    simp only [Client.Dispatch, Client.doJSONRequestNoAuth, h]

theorem roundTrip_gateway (env : Env E B T) (c : Client E) (req : Request) (result : Option T)
    (trace : List Event) (resp : Response E) (respBody : String)
    (hdo : c.httpClient.Do req = .ok resp) (hread : resp.Body = .ok respBody)
    (hstatus : 400 ≤ resp.StatusCode) :
    c.roundTrip env req result trace =
      ⟨some (.apiError ⟨resp.StatusCode, respBody⟩), result,
        trace ++ [.httpDo req, .readAll]⟩ := by
  simp only [Client.roundTrip, hdo, hread, ge_iff_le, hstatus, if_true]

theorem roundTrip_no_decode (env : Env E B T) (c : Client E) (req : Request)
    (result : Option T) (trace : List Event) (resp : Response E) (respBody : String)
    (hdo : c.httpClient.Do req = .ok resp) (hread : resp.Body = .ok respBody)
    (hstatus : resp.StatusCode < 400) (h : respBody.length = 0 ∨ result = none) :
    c.roundTrip env req result trace = ⟨none, result, trace ++ [.httpDo req, .readAll]⟩ := by
  have hs : ¬ 400 ≤ resp.StatusCode := not_le.mpr hstatus
  cases result with
  | none => simp only [Client.roundTrip, hdo, hread, ge_iff_le, hs, if_false]
  | some target =>
    rcases h with h | h
    · simp only [Client.roundTrip, hdo, hread, ge_iff_le, hs, if_false, h, gt_iff_lt,
        lt_self_iff_false]
    · cases h

theorem roundTrip_decode (env : Env E B T) (c : Client E) (req : Request)
    (target : T) (trace : List Event) (resp : Response E) (respBody : String)
    (hdo : c.httpClient.Do req = .ok resp) (hread : resp.Body = .ok respBody)
    (hstatus : resp.StatusCode < 400) (hlen : 0 < respBody.length) :
    c.roundTrip env req (some target) trace =
      ⟨(env.Unmarshal respBody target).2.map (Error.wrapError "failed to decode response"),
        some (env.Unmarshal respBody target).1,
        trace ++ [.httpDo req, .readAll, .unmarshal respBody]⟩ := by
  have hs : ¬ 400 ≤ resp.StatusCode := not_le.mpr hstatus
  simp only [Client.roundTrip, hdo, hread, ge_iff_le, hs, if_false, gt_iff_lt, hlen, if_true]
  rcases hu : env.Unmarshal respBody target with ⟨t, _ | err⟩ <;> simp

theorem DispatchBuild_error (env : Env E B T) (c : Client E) (ctx : Context)
    (mode : AuthMode) (method endpoint : String) (query : Option Values) (body : Option B)
    (err : Error E) (trace : List Event)
    (h : c.DispatchBuild env ctx mode method endpoint query body = .error (err, trace)) :
    err.isDecodeFailure = false := by
  cases mode with
  | queryAuthenticated =>
    simp only [Client.DispatchBuild, Client.doRequestBuild] at h
    cases hm : marshalBody env body with
    | error e =>
      rw [hm] at h
      simp only [Except.error.injEq, Prod.mk.injEq] at h
      rw [← h.1]
      rfl
    | ok p =>
      obtain ⟨bodyReader, pre⟩ := p
      rw [hm] at h
      simp only at h
      cases hn : env.NewRequestErr ctx method (c.doRequestURL endpoint query) with
      | none => rw [hn] at h; cases h
      | some e =>
        rw [hn] at h
        simp only [Except.error.injEq, Prod.mk.injEq] at h
        rw [← h.1]
        rfl
  | bodyAuthenticatedOrNone =>
    simp only [Client.DispatchBuild, Client.doJSONRequestNoAuthBuild] at h
    cases hm : marshalBody env body with
    | error e =>
      rw [hm] at h
      simp only [Except.error.injEq, Prod.mk.injEq] at h
      rw [← h.1]
      rfl
    | ok p =>
      obtain ⟨bodyReader, pre⟩ := p
      rw [hm] at h
      simp only at h
      cases hn : env.NewRequestErr ctx MethodPost (c.baseURL ++ endpoint) with
      | none => rw [hn] at h; cases h
      | some e =>
        rw [hn] at h
        simp only [Except.error.injEq, Prod.mk.injEq] at h
        rw [← h.1]
        rfl

theorem roundTrip_error (env : Env E B T) (c : Client E) (req : Request) (result : Option T)
    (trace : List Event) (e : Error E) (herr : (c.roundTrip env req result trace).err = some e) :
    (e.isDecodeFailure = false ∧ (c.roundTrip env req result trace).result = result) ∨
    (∃ target respBody cause, result = some target ∧
      Event.unmarshal respBody ∈ (c.roundTrip env req result trace).trace ∧
      (env.Unmarshal respBody target).2 = some cause ∧
      e = Error.wrapError "failed to decode response" cause ∧
      (c.roundTrip env req result trace).result = some (env.Unmarshal respBody target).1) := by
  cases hdo : c.httpClient.Do req with
  | error err =>
    simp only [Client.roundTrip, hdo, Option.some.injEq] at herr ⊢
    left
    rw [← herr]
    exact ⟨rfl, trivial⟩
  | ok resp =>
    cases hread : resp.Body with
    | error err =>
      simp only [Client.roundTrip, hdo, hread, Option.some.injEq] at herr ⊢
      left
      rw [← herr]
      exact ⟨rfl, trivial⟩
    | ok respBody =>
      by_cases hstatus : 400 ≤ resp.StatusCode
      · rw [roundTrip_gateway env c req result trace resp respBody hdo hread hstatus] at herr ⊢
        simp only [Option.some.injEq] at herr
        left
        rw [← herr]
        exact ⟨rfl, rfl⟩
      · have hlt : resp.StatusCode < 400 := not_le.mp hstatus
        cases result with
        | none =>
          rw [roundTrip_no_decode env c req none trace resp respBody hdo hread hlt
            (Or.inr rfl)] at herr
          cases herr
        | some target =>
          rcases Nat.eq_zero_or_pos respBody.length with hlen | hlen
          · rw [roundTrip_no_decode env c req (some target) trace resp respBody hdo hread hlt
              (Or.inl hlen)] at herr
            cases herr
          · rw [roundTrip_decode env c req target trace resp respBody hdo hread hlt hlen]
              at herr ⊢
            cases hu : (env.Unmarshal respBody target).2 with
            | none => rw [hu] at herr; cases herr
            | some cause =>
              rw [hu] at herr
              simp only [Option.map_some', Option.some.injEq] at herr
              right
              exact ⟨target, respBody, cause, rfl, by simp, hu, herr.symm, rfl⟩

end DispatchLemmas

/-! ## Dispatch: the classification of outcomes -/

/-- C1: when the response body was read, Dispatch (in either mode) returns an
`APIError` exactly when the status is at least 400; that error carries the status
code and the raw body as its message, the result target is left alone and the
decoder is never called. -/
theorem dispatch_gateway_error {E B T : Type} (env : Env E B T) (c : Client E) (ctx : Context)
    (mode : AuthMode) (method endpoint : String) (query : Option Values) (body : Option B)
    (result : Option T) (req : Request) (trace : List Event) (resp : Response E)
    (respBody : String)
    (hbuild : c.DispatchBuild env ctx mode method endpoint query body = .ok (req, trace))
    (hdo : c.httpClient.Do req = .ok resp) (hread : resp.Body = .ok respBody) :
    ((∃ e, (c.Dispatch env ctx mode method endpoint query body result).err
        = some (Error.apiError e)) ↔ 400 ≤ resp.StatusCode) ∧
    (400 ≤ resp.StatusCode →
      (c.Dispatch env ctx mode method endpoint query body result).err
        = some (Error.apiError ⟨resp.StatusCode, respBody⟩) ∧
      (c.Dispatch env ctx mode method endpoint query body result).result = result ∧
      ∀ data, Event.unmarshal data ∉
        (c.Dispatch env ctx mode method endpoint query body result).trace) := by
  rw [Dispatch_eq_roundTrip env c ctx mode method endpoint query body result req trace hbuild]
  have hno := DispatchBuild_trace_no_unmarshal env c ctx mode method endpoint query body req
    trace hbuild
  by_cases hstatus : 400 ≤ resp.StatusCode
  · rw [roundTrip_gateway env c req result trace resp respBody hdo hread hstatus]
    refine ⟨⟨fun _ => hstatus, fun _ => ⟨_, rfl⟩⟩, fun _ => ⟨rfl, rfl, ?_⟩⟩
    intro data hmem
    simp only [List.mem_append, List.mem_cons, List.mem_singleton, reduceCtorEq, or_self,
      or_false, List.not_mem_nil] at hmem
    exact hno data hmem
  · have hlt : resp.StatusCode < 400 := not_le.mp hstatus
    refine ⟨⟨?_, fun h => absurd h hstatus⟩, fun h => absurd h hstatus⟩
    rintro ⟨e, he⟩
    cases result with
    | none =>
      rw [roundTrip_no_decode env c req none trace resp respBody hdo hread hlt (Or.inr rfl)]
        at he
      cases he
    | some target =>
      rcases Nat.eq_zero_or_pos respBody.length with hlen | hlen
      · rw [roundTrip_no_decode env c req (some target) trace resp respBody hdo hread hlt
          (Or.inl hlen)] at he
        cases he
      · rw [roundTrip_decode env c req target trace resp respBody hdo hread hlt hlen] at he
        cases hu : (env.Unmarshal respBody target).2 with
        | none => rw [hu] at he; cases he
        | some err => rw [hu] at he; cases he

/-- C1, witness: status 404 with body `not found` yields
`APIError{StatusCode: 404, Message: "not found"}` in both modes, although the body
is not JSON. -/
theorem dispatch_gateway_error_witness :
    ((cannedClient 404 "not found").Dispatch registerEnv ⟨0⟩ .queryAuthenticated MethodPost
        "/rest/register.do" none none (some RegisterOrderResponse.zero)).err
      = some (Error.apiError ⟨404, "not found"⟩) ∧
    ((cannedClient 404 "not found").Dispatch registerEnv ⟨0⟩ .bodyAuthenticatedOrNone MethodPost
        "/applepay/payment.do" none none (some RegisterOrderResponse.zero)).err
      = some (Error.apiError ⟨404, "not found"⟩) :=
  ⟨((dispatch_gateway_error registerEnv (cannedClient 404 "not found") ⟨0⟩ .queryAuthenticated
      MethodPost "/rest/register.do" none none (some RegisterOrderResponse.zero) _ _
      ⟨404, .ok "not found"⟩ "not found" rfl rfl rfl).2 (by decide)).1,
   ((dispatch_gateway_error registerEnv (cannedClient 404 "not found") ⟨0⟩
      .bodyAuthenticatedOrNone MethodPost "/applepay/payment.do" none none
      (some RegisterOrderResponse.zero) _ _
      ⟨404, .ok "not found"⟩ "not found" rfl rfl rfl).2 (by decide)).1⟩

/-- C2: for a status below 400, a non-empty body that the decoder accepts and a
non-nil result target, Dispatch returns no error and the target holds exactly what
the decoder made of that body. -/
theorem dispatch_decodes_valid_body {E B T : Type} (env : Env E B T) (c : Client E)
    (ctx : Context) (mode : AuthMode) (method endpoint : String) (query : Option Values)
    (body : Option B) (target : T) (req : Request) (trace : List Event) (resp : Response E)
    (respBody : String)
    (hbuild : c.DispatchBuild env ctx mode method endpoint query body = .ok (req, trace))
    (hdo : c.httpClient.Do req = .ok resp) (hread : resp.Body = .ok respBody)
    (hstatus : resp.StatusCode < 400) (hlen : 0 < respBody.length)
    (hvalid : (env.Unmarshal respBody target).2 = none) :
    (c.Dispatch env ctx mode method endpoint query body (some target)).err = none ∧
    (c.Dispatch env ctx mode method endpoint query body (some target)).result
      = some (env.Unmarshal respBody target).1 := by
  rw [Dispatch_eq_roundTrip env c ctx mode method endpoint query body (some target) req trace
    hbuild, roundTrip_decode env c req target trace resp respBody hdo hread hstatus hlen, hvalid]
  exact ⟨rfl, rfl⟩

/-- C2, witness: status 200 and a JSON body for `RegisterOrderResponse`. -/
theorem dispatch_decodes_valid_body_witness :
    ((cannedClient 200 "\x7b\"orderId\":\"abc\",\"formUrl\":\"https://pay/form\"\x7d").Dispatch
        registerEnv ⟨0⟩ .queryAuthenticated MethodPost "/rest/register.do" none none
        (some RegisterOrderResponse.zero)).err = none ∧
    ((cannedClient 200 "\x7b\"orderId\":\"abc\",\"formUrl\":\"https://pay/form\"\x7d").Dispatch
        registerEnv ⟨0⟩ .queryAuthenticated MethodPost "/rest/register.do" none none
        (some RegisterOrderResponse.zero)).result
      = some ⟨⟨"", "", ""⟩, "abc", "https://pay/form"⟩ :=
  dispatch_decodes_valid_body registerEnv
    (cannedClient 200 "\x7b\"orderId\":\"abc\",\"formUrl\":\"https://pay/form\"\x7d") ⟨0⟩
    .queryAuthenticated MethodPost "/rest/register.do" none none RegisterOrderResponse.zero _ _
    ⟨200, .ok "\x7b\"orderId\":\"abc\",\"formUrl\":\"https://pay/form\"\x7d"⟩
    "\x7b\"orderId\":\"abc\",\"formUrl\":\"https://pay/form\"\x7d" rfl rfl rfl
    (by decide) (by decide) (by decide)

/-- C3: for a status below 400, when the body has length zero or the result target
is nil, Dispatch returns no error, leaves the target as it was and does not call
the decoder. -/
theorem dispatch_empty_body_or_nil_target {E B T : Type} (env : Env E B T) (c : Client E)
    (ctx : Context) (mode : AuthMode) (method endpoint : String) (query : Option Values)
    (body : Option B) (result : Option T) (req : Request) (trace : List Event)
    (resp : Response E) (respBody : String)
    (hbuild : c.DispatchBuild env ctx mode method endpoint query body = .ok (req, trace))
    (hdo : c.httpClient.Do req = .ok resp) (hread : resp.Body = .ok respBody)
    (hstatus : resp.StatusCode < 400) (h : respBody.length = 0 ∨ result = none) :
    (c.Dispatch env ctx mode method endpoint query body result).err = none ∧
    (c.Dispatch env ctx mode method endpoint query body result).result = result ∧
    ∀ data, Event.unmarshal data ∉
      (c.Dispatch env ctx mode method endpoint query body result).trace := by
  rw [Dispatch_eq_roundTrip env c ctx mode method endpoint query body result req trace hbuild,
    roundTrip_no_decode env c req result trace resp respBody hdo hread hstatus h]
  refine ⟨rfl, rfl, ?_⟩
  intro data hmem
  simp only [List.mem_append, List.mem_cons, List.mem_singleton, reduceCtorEq, or_self,
    or_false, List.not_mem_nil] at hmem
  exact DispatchBuild_trace_no_unmarshal env c ctx mode method endpoint query body req trace
    hbuild data hmem

/-- C3, witness: status 200 with an empty body leaves a target that already holds
data as it is. -/
theorem dispatch_empty_body_or_nil_target_witness :
    ((cannedClient 200 "").Dispatch registerEnv ⟨0⟩ .bodyAuthenticatedOrNone MethodPost
        "/applepay/payment.do" none none (some ⟨⟨"7", "", ""⟩, "kept", ""⟩)).err = none ∧
    ((cannedClient 200 "").Dispatch registerEnv ⟨0⟩ .bodyAuthenticatedOrNone MethodPost
        "/applepay/payment.do" none none (some ⟨⟨"7", "", ""⟩, "kept", ""⟩)).result
      = some ⟨⟨"7", "", ""⟩, "kept", ""⟩ :=
  have h := dispatch_empty_body_or_nil_target registerEnv (cannedClient 200 "") ⟨0⟩
    .bodyAuthenticatedOrNone MethodPost "/applepay/payment.do" none none
    (some ⟨⟨"7", "", ""⟩, "kept", ""⟩) _ _ ⟨200, .ok ""⟩ "" rfl rfl rfl (by decide)
    (Or.inl (by decide))
  ⟨h.1, h.2.1⟩

/-- C4: for a status below 400, a non-empty body and a non-nil target, a decoder
error is returned wrapped as the cause of a decode failure, which is not an
`APIError`; and whenever the status is at least 400 the error returned is an
`APIError`, which wraps nothing. -/
theorem dispatch_decode_failure {E B T : Type} (env : Env E B T) (c : Client E)
    (ctx : Context) (mode : AuthMode) (method endpoint : String) (query : Option Values)
    (body : Option B) (target : T) (req : Request) (trace : List Event) (resp : Response E)
    (respBody : String)
    (hbuild : c.DispatchBuild env ctx mode method endpoint query body = .ok (req, trace))
    (hdo : c.httpClient.Do req = .ok resp) (hread : resp.Body = .ok respBody) :
    (∀ cause, resp.StatusCode < 400 → 0 < respBody.length →
      (env.Unmarshal respBody target).2 = some cause →
      (c.Dispatch env ctx mode method endpoint query body (some target)).err
        = some (Error.wrapError "failed to decode response" cause) ∧
      ((c.Dispatch env ctx mode method endpoint query body (some target)).err.bind
        Error.Unwrap) = some cause ∧
      ((c.Dispatch env ctx mode method endpoint query body (some target)).err.map
        Error.isAPIError) = some false) ∧
    (400 ≤ resp.StatusCode →
      ((c.Dispatch env ctx mode method endpoint query body (some target)).err.map
        Error.isAPIError) = some true ∧
      ((c.Dispatch env ctx mode method endpoint query body (some target)).err.bind
        Error.Unwrap) = none) := by
  rw [Dispatch_eq_roundTrip env c ctx mode method endpoint query body (some target) req trace
    hbuild]
  constructor
  · intro cause hstatus hlen hcause
    rw [roundTrip_decode env c req target trace resp respBody hdo hread hstatus hlen, hcause]
    exact ⟨rfl, rfl, rfl⟩
  · intro hstatus
    rw [roundTrip_gateway env c req (some target) trace resp respBody hdo hread hstatus]
    exact ⟨rfl, rfl⟩

/-- C4, witness: status 200 with a body that is not JSON gives a decode failure
whose cause is the syntax error; status 500 with the same body gives an `APIError`. -/
theorem dispatch_decode_failure_witness :
    ((cannedClient 200 "<html>").Dispatch registerEnv ⟨0⟩ .queryAuthenticated MethodPost
        "/rest/register.do" none none (some RegisterOrderResponse.zero)).err
      = some (Error.wrapError "failed to decode response" JSONError.SyntaxError) ∧
    (((cannedClient 500 "<html>").Dispatch registerEnv ⟨0⟩ .queryAuthenticated MethodPost
        "/rest/register.do" none none (some RegisterOrderResponse.zero)).err.map
      Error.isAPIError) = some true :=
  ⟨((dispatch_decode_failure registerEnv (cannedClient 200 "<html>") ⟨0⟩ .queryAuthenticated
      MethodPost "/rest/register.do" none none RegisterOrderResponse.zero _ _
      ⟨200, .ok "<html>"⟩ "<html>" rfl rfl rfl).1 JSONError.SyntaxError (by decide) (by decide)
      (by decide)).1,
   ((dispatch_decode_failure registerEnv (cannedClient 500 "<html>") ⟨0⟩ .queryAuthenticated
      MethodPost "/rest/register.do" none none RegisterOrderResponse.zero _ _
      ⟨500, .ok "<html>"⟩ "<html>" rfl rfl rfl).2 (by decide)).1⟩

/-- C5, counterexample: status 200 with the body `{"orderId":"abc","errorCode":5}`.
The decoder stores `orderId`, then meets a number where the string field
`errorCode` is expected: Dispatch returns a decode failure, and the result target
no longer holds the zero value it held before the call. -/
theorem dispatch_decode_failure_writes_target :
    ((cannedClient 200 "\x7b\"orderId\":\"abc\",\"errorCode\":5\x7d").Dispatch registerEnv ⟨0⟩
        .queryAuthenticated MethodPost "/rest/register.do" none none
        (some RegisterOrderResponse.zero)).err
      = some (Error.wrapError "failed to decode response"
          (JSONError.UnmarshalTypeError "number" "errorCode")) ∧
    ((cannedClient 200 "\x7b\"orderId\":\"abc\",\"errorCode\":5\x7d").Dispatch registerEnv ⟨0⟩
        .queryAuthenticated MethodPost "/rest/register.do" none none
        (some RegisterOrderResponse.zero)).result
      = some ⟨⟨"", "", ""⟩, "abc", ""⟩ ∧
    ((cannedClient 200 "\x7b\"orderId\":\"abc\",\"errorCode\":5\x7d").Dispatch registerEnv ⟨0⟩
        .queryAuthenticated MethodPost "/rest/register.do" none none
        (some RegisterOrderResponse.zero)).result
      ≠ some RegisterOrderResponse.zero := by
  decide

/-- C5, amended: whenever Dispatch returns an error, either the error is not a
decode failure (it is a construction, transport, body-read or gateway error) and
the result target holds the value it held before the call, or the error is a
decode failure wrapping the decoder error and the target holds what the decoder
left in it. -/
theorem dispatch_error_target {E B T : Type} (env : Env E B T) (c : Client E) (ctx : Context)
    (mode : AuthMode) (method endpoint : String) (query : Option Values) (body : Option B)
    (result : Option T) (e : Error E)
    (herr : (c.Dispatch env ctx mode method endpoint query body result).err = some e) :
    (e.isDecodeFailure = false ∧
      (c.Dispatch env ctx mode method endpoint query body result).result = result) ∨
    (∃ target respBody cause, result = some target ∧
      Event.unmarshal respBody ∈
        (c.Dispatch env ctx mode method endpoint query body result).trace ∧
      (env.Unmarshal respBody target).2 = some cause ∧
      e = Error.wrapError "failed to decode response" cause ∧
      (c.Dispatch env ctx mode method endpoint query body result).result
        = some (env.Unmarshal respBody target).1) := by
  cases hb : c.DispatchBuild env ctx mode method endpoint query body with
  | error p =>
    obtain ⟨err, trace⟩ := p
    rw [Dispatch_of_build_error env c ctx mode method endpoint query body result err trace hb]
      at herr ⊢
    simp only [Option.some.injEq] at herr
    left
    rw [← herr]
    exact ⟨DispatchBuild_error env c ctx mode method endpoint query body err trace hb, rfl⟩
  | ok p =>
    obtain ⟨req, trace⟩ := p
    rw [Dispatch_eq_roundTrip env c ctx mode method endpoint query body result req trace hb]
      at herr ⊢
    exact roundTrip_error env c req result trace e herr

/-- C5, witness: a gateway error (status 500) leaves a target that holds data as it
was. -/
theorem dispatch_error_target_witness :
    ((cannedClient 500 "\x7b\"orderId\":\"abc\"\x7d").Dispatch registerEnv ⟨0⟩
        .queryAuthenticated MethodPost "/rest/register.do" none none
        (some ⟨⟨"7", "", ""⟩, "kept", ""⟩)).result
      = some ⟨⟨"7", "", ""⟩, "kept", ""⟩ :=
  (dispatch_error_target registerEnv (cannedClient 500 "\x7b\"orderId\":\"abc\"\x7d") ⟨0⟩
    .queryAuthenticated MethodPost "/rest/register.do" none none
    (some ⟨⟨"7", "", ""⟩, "kept", ""⟩)
    (Error.apiError ⟨500, "\x7b\"orderId\":\"abc\"\x7d"⟩) rfl).elim (fun h => h.2)
    (fun h => by
      obtain ⟨_, _, _, _, _, _, he, _⟩ := h
      cases he)

/-! ## The success predicate and business failures -/

/-- C7: `IsSuccess` is true exactly when the error code is empty or the literal
`0`; the codes `5`, `00` and ` 0` give false; the result does not depend on the
error message or the user message. -/
theorem isSuccess_iff (r : BaseResponse) :
    (r.IsSuccess = true ↔ (r.ErrorCode = "" ∨ r.ErrorCode = "0")) ∧
    (∀ m u, (BaseResponse.mk "5" m u).IsSuccess = false ∧
      (BaseResponse.mk "00" m u).IsSuccess = false ∧
      (BaseResponse.mk " 0" m u).IsSuccess = false) ∧
    (∀ m u, (BaseResponse.mk r.ErrorCode m u).IsSuccess = r.IsSuccess) := by
  refine ⟨?_, fun m u => ⟨rfl, rfl, rfl⟩, fun m u => rfl⟩
  simp [BaseResponse.IsSuccess]

/-- C8: when the response to `Orders.Register` has a status below 400 and a body
that decodes without error into an envelope whose error code is neither empty nor
`0`, `Register` returns a nil error together with the decoded response, and
`IsSuccess` on that response is false. -/
theorem register_business_failure_is_not_an_error {E B : Type}
    (env : Env E B RegisterOrderResponse) (s : OrderService E) (ctx : Context)
    (req : RegisterOrderRequest) (hreq : Request) (trace : List Event) (resp : Response E)
    (respBody : String) (r : RegisterOrderResponse)
    (hbuild : s.client.doRequestBuild env ctx MethodPost "/rest/register.do"
      (some (OrderService.RegisterParams req)) none = .ok (hreq, trace))
    (hdo : s.client.httpClient.Do hreq = .ok resp) (hread : resp.Body = .ok respBody)
    (hstatus : resp.StatusCode < 400) (hlen : 0 < respBody.length)
    (hdec : env.Unmarshal respBody RegisterOrderResponse.zero = (r, none))
    (hcode : r.ErrorCode ≠ "" ∧ r.ErrorCode ≠ "0") :
    (OrderService.Register env s ctx req).err = none ∧
    (OrderService.Register env s ctx req).resp = some r ∧
    r.IsSuccess = false := by
  have hd := Dispatch_eq_roundTrip env s.client ctx .queryAuthenticated MethodPost
    "/rest/register.do" (some (OrderService.RegisterParams req)) none
    (some RegisterOrderResponse.zero) hreq trace hbuild
  rw [roundTrip_decode env s.client hreq RegisterOrderResponse.zero trace resp respBody hdo
    hread hstatus hlen, hdec] at hd
  simp only [Client.Dispatch] at hd
  refine ⟨?_, ?_, ?_⟩
  · simp only [OrderService.Register, Client.doFormRequest, hd, Option.map_none']
  · simp only [OrderService.Register, Client.doFormRequest, hd, Option.map_none']
  · simp [BaseResponse.IsSuccess, hcode.1, hcode.2]

/-- C8, witness: the gateway answers the registration of the first example order
with status 200 and error code 5. -/
theorem register_business_failure_is_not_an_error_witness :
    (OrderService.Register registerEnv
        ⟨cannedClient 200 "\x7b\"errorCode\":\"5\",\"errorMessage\":\"Access denied\"\x7d"⟩ ⟨0⟩
        { OrderNumber := "ORDER-12345", Amount := 100000,
          ReturnURL := "https://your-site.com/payment/success" }).err = none ∧
    (OrderService.Register registerEnv
        ⟨cannedClient 200 "\x7b\"errorCode\":\"5\",\"errorMessage\":\"Access denied\"\x7d"⟩ ⟨0⟩
        { OrderNumber := "ORDER-12345", Amount := 100000,
          ReturnURL := "https://your-site.com/payment/success" }).resp
      = some ⟨⟨"5", "Access denied", ""⟩, "", ""⟩ ∧
    (RegisterOrderResponse.mk ⟨"5", "Access denied", ""⟩ "" "").IsSuccess = false :=
  register_business_failure_is_not_an_error registerEnv
    ⟨cannedClient 200 "\x7b\"errorCode\":\"5\",\"errorMessage\":\"Access denied\"\x7d"⟩ ⟨0⟩
    { OrderNumber := "ORDER-12345", Amount := 100000,
      ReturnURL := "https://your-site.com/payment/success" } _ _
    ⟨200, .ok "\x7b\"errorCode\":\"5\",\"errorMessage\":\"Access denied\"\x7d"⟩
    "\x7b\"errorCode\":\"5\",\"errorMessage\":\"Access denied\"\x7d"
    ⟨⟨"5", "Access denied", ""⟩, "", ""⟩ rfl rfl rfl (by decide) (by decide) (by decide)
    (by decide)

/-! ## The request that is sent -/

/-- C9, counterexample: `doJSONRequestNoAuth` called with a nil body sends a request
without a body that nevertheless carries `Content-Type: application/json`. -/
theorem noAuth_nil_body_has_content_type :
    ((cannedClient 200 "").Dispatch registerEnv ⟨0⟩ .bodyAuthenticatedOrNone MethodPost
        "/applepay/payment.do" none none (some RegisterOrderResponse.zero)).trace
      = [Event.newRequest "POST" "https://alfa.rbsuat.com/payment/applepay/payment.do",
          Event.httpDo ⟨⟨0⟩, "POST", "https://alfa.rbsuat.com/payment/applepay/payment.do", none,
            [("Content-Type", "application/json"), ("Accept", "application/json")]⟩,
          Event.readAll] ∧
    Header.Get [("Content-Type", "application/json"), ("Accept", "application/json")]
      "Content-Type" = some "application/json" := by
  decide

/-- C9, amended: in either mode the request carries a body exactly when a JSON body
was supplied, and that body is the serialized JSON. In query-authenticated mode the
`Content-Type: application/json` header is set exactly when a JSON body was
supplied; in the other mode it is always set. `Accept: application/json` is set in
both. -/
theorem dispatch_body_and_content_type {E B T : Type} (env : Env E B T) (c : Client E)
    (ctx : Context) (mode : AuthMode) (method endpoint : String) (query : Option Values)
    (body : Option B) (req : Request) (trace : List Event)
    (hbuild : c.DispatchBuild env ctx mode method endpoint query body = .ok (req, trace)) :
    req.Body.isSome = body.isSome ∧
    (∀ b, body = some b → ∃ jsonBody, env.Marshal b = .ok jsonBody ∧ req.Body = some jsonBody) ∧
    (mode = .queryAuthenticated →
      Header.Get req.Header "Content-Type"
        = if body.isSome then some "application/json" else none) ∧
    (mode = .bodyAuthenticatedOrNone →
      Header.Get req.Header "Content-Type" = some "application/json") ∧
    Header.Get req.Header "Accept" = some "application/json" := by
  have hbody : ∀ (bodyReader : Option String) (pre : List Event),
      marshalBody env body = .ok (bodyReader, pre) →
      ∀ b, body = some b → ∃ jsonBody, env.Marshal b = .ok jsonBody ∧
        bodyReader = some jsonBody := by
    intro bodyReader pre hm b hb
    subst hb
    simp only [marshalBody] at hm
    cases hj : env.Marshal b with
    | error err => rw [hj] at hm; cases hm
    | ok jsonBody =>
      rw [hj] at hm
      simp only [Except.ok.injEq, Prod.mk.injEq] at hm
      exact ⟨jsonBody, rfl, hm.1.symm⟩
  cases mode with
  | queryAuthenticated =>
    obtain ⟨bodyReader, pre, hm, -, hreq, -⟩ :=
      doRequestBuild_ok env c ctx method endpoint query body req trace hbuild
    subst hreq
    refine ⟨(marshalBody_trace env body bodyReader pre hm).2, hbody bodyReader pre hm, ?_,
      (fun h => nomatch h), ?_⟩
    · intro _
      cases body <;> rfl
    · cases body <;> rfl
  | bodyAuthenticatedOrNone =>
    obtain ⟨bodyReader, pre, hm, -, hreq, -⟩ :=
      doJSONRequestNoAuthBuild_ok env c ctx endpoint body req trace hbuild
    subst hreq
    exact ⟨(marshalBody_trace env body bodyReader pre hm).2, hbody bodyReader pre hm,
      (fun h => nomatch h), fun _ => rfl, rfl⟩

/-- C9, witness: a form-style call (nil body) builds a request with no body and no
`Content-Type` header; a query-authenticated call with the JSON body `{"a":"b"}`
builds a request with that body and the header. -/
theorem dispatch_body_and_content_type_witness :
    ((cannedClient 200 "").DispatchBuild registerEnv ⟨0⟩ .queryAuthenticated MethodPost
        "/rest/register.do" (some [("orderNumber", ["1"])]) none
      = .ok (⟨⟨0⟩, "POST",
          "https://alfa.rbsuat.com/payment/rest/register.do?orderNumber=1&password=your-password&userName=your-username",
          none, [("Accept", "application/json")]⟩,
        [Event.newRequest "POST"
          "https://alfa.rbsuat.com/payment/rest/register.do?orderNumber=1&password=your-password&userName=your-username"]) ∧
      Header.Get [("Accept", "application/json")] "Content-Type" = none) ∧
    ((cannedClient 200 "").DispatchBuild rawEnv ⟨0⟩ .queryAuthenticated MethodPost
        "/rest/sbp/b2b/perform.do" none (some "\x7b\"a\":\"b\"\x7d")
      = .ok (⟨⟨0⟩, "POST",
          "https://alfa.rbsuat.com/payment/rest/sbp/b2b/perform.do?password=your-password&userName=your-username",
          some "\x7b\"a\":\"b\"\x7d",
          [("Content-Type", "application/json"), ("Accept", "application/json")]⟩,
        [Event.marshal, Event.newRequest "POST"
          "https://alfa.rbsuat.com/payment/rest/sbp/b2b/perform.do?password=your-password&userName=your-username"]) ∧
      Header.Get [("Content-Type", "application/json"), ("Accept", "application/json")]
        "Content-Type" = some "application/json") :=
  ⟨⟨rfl,
    (dispatch_body_and_content_type registerEnv (cannedClient 200 "") ⟨0⟩
      .queryAuthenticated MethodPost "/rest/register.do" (some [("orderNumber", ["1"])]) none
      ⟨⟨0⟩, "POST",
        "https://alfa.rbsuat.com/payment/rest/register.do?orderNumber=1&password=your-password&userName=your-username",
        none, [("Accept", "application/json")]⟩ _ rfl).2.2.1 rfl⟩,
   ⟨rfl,
    (dispatch_body_and_content_type rawEnv (cannedClient 200 "") ⟨0⟩
      .queryAuthenticated MethodPost "/rest/sbp/b2b/perform.do" none
      (some "\x7b\"a\":\"b\"\x7d")
      ⟨⟨0⟩, "POST",
        "https://alfa.rbsuat.com/payment/rest/sbp/b2b/perform.do?password=your-password&userName=your-username",
        some "\x7b\"a\":\"b\"\x7d",
        [("Content-Type", "application/json"), ("Accept", "application/json")]⟩ _ rfl).2.2.1 rfl⟩⟩

/-- C10, the code at the failing input: for the request of the order-with-cart
example, `Orders.Register` sends exactly the keys amount, email, orderNumber,
password, returnUrl and userName; nothing of the order bundle is in the query
string, and no body is sent. In general the parameter set does not depend on
`OrderBundle`, `JSONParams` or `AdditionalParameters`. -/
theorem register_ignores_order_bundle :
    (OrderService.Register registerEnv ⟨cannedClient 200 ""⟩ ⟨0⟩ orderWithCartRequest).trace
      = [Event.newRequest "POST"
          "https://alfa.rbsuat.com/payment/rest/register.do?amount=250000&email=customer%40example.com&orderNumber=ORDER-CART-001&password=your-password&returnUrl=https%3A%2F%2Fyour-site.com%2Fpayment%2Fsuccess&userName=your-username",
         Event.httpDo ⟨⟨0⟩, "POST",
          "https://alfa.rbsuat.com/payment/rest/register.do?amount=250000&email=customer%40example.com&orderNumber=ORDER-CART-001&password=your-password&returnUrl=https%3A%2F%2Fyour-site.com%2Fpayment%2Fsuccess&userName=your-username",
          none, [("Accept", "application/json")]⟩,
         Event.readAll] ∧
    orderWithCartRequest.OrderBundle ≠ none ∧
    (∀ (req : RegisterOrderRequest) (bundle : Option OrderBundle) (jp ap : StringMap),
      OrderService.RegisterParams
          { req with OrderBundle := bundle, JSONParams := jp, AdditionalParameters := ap }
        = OrderService.RegisterParams req) := by
  refine ⟨by decide, by decide, fun req bundle jp ap => rfl⟩

/-! ## The query string -/

section QueryLemmas

theorem upperhex_mem (n : Nat) : upperhex n ∈ "0123456789ABCDEF".data := by
  by_cases h : n < 16
  · interval_cases n <;> decide
  · have hd : upperhex n = '0' := by
      unfold upperhex
      exact List.getD_eq_default _ _ (by simpa using h)
    rw [hd]
    decide

theorem unreserved_not_sep (x : Char) (h : unreserved x = true) :
    x ≠ '&' ∧ x ≠ '=' ∧ x ≠ '%' ∧ x ≠ '+' := by
  refine ⟨?_, ?_, ?_, ?_⟩ <;>
  · rintro rfl
    revert h
    decide

theorem utf8Bytes_ne_nil (c : Char) : utf8Bytes c ≠ [] := by
  unfold utf8Bytes
  simp only
  split_ifs <;> simp

theorem escapeChar_not_sep (c x : Char) (h : x ∈ escapeChar c) : x ≠ '&' ∧ x ≠ '=' := by
  unfold escapeChar at h
  split_ifs at h with h1 h2
  · rw [List.mem_singleton] at h
    subst h
    exact ⟨(unreserved_not_sep x h1).1, (unreserved_not_sep x h1).2.1⟩
  · rw [List.mem_singleton] at h
    subst h
    exact ⟨by decide, by decide⟩
  · rw [List.mem_flatMap] at h
    obtain ⟨b, -, hx⟩ := h
    have hall : ∀ y ∈ "0123456789ABCDEF".data, y ≠ '&' ∧ y ≠ '=' := by decide
    simp only [List.mem_cons, List.mem_singleton, List.not_mem_nil, or_false] at hx
    rcases hx with hx | hx | hx
    · subst hx
      exact ⟨by decide, by decide⟩
    · rw [hx]
      exact hall _ (upperhex_mem _)
    · rw [hx]
      exact hall _ (upperhex_mem _)

theorem escapeChars_not_sep (l : List Char) (x : Char) (h : x ∈ escapeChars l) :
    x ≠ '&' ∧ x ≠ '=' := by
  unfold escapeChars at h
  rw [List.mem_flatMap] at h
  obtain ⟨c, -, hx⟩ := h
  exact escapeChar_not_sep c x hx

theorem escapeChars_cons (c : Char) (l : List Char) :
    escapeChars (c :: l) = escapeChar c ++ escapeChars l := by
  simp [escapeChars]

theorem escapeChars_eq_self (l : List Char)
    (h : ∀ x ∈ escapeChars l, unreserved x = true) : escapeChars l = l := by
  induction l with
  | nil => rfl
  | cons c t ih =>
    rw [escapeChars_cons] at h ⊢
    have ht : ∀ x ∈ escapeChars t, unreserved x = true :=
      fun x hx => h x (List.mem_append_right _ hx)
    rw [ih ht]
    have hc : ∀ x ∈ escapeChar c, unreserved x = true :=
      fun x hx => h x (List.mem_append_left _ hx)
    unfold escapeChar at hc ⊢
    split_ifs at hc ⊢ with h1 h2
    · rfl
    · exact absurd (hc '+' (List.mem_singleton.mpr rfl)) (by decide)
    · exfalso
      obtain ⟨b, bs, hb⟩ := List.exists_cons_of_ne_nil (utf8Bytes_ne_nil c)
      rw [hb] at hc
      exact absurd (hc '%' (by simp)) (by decide)

theorem escapeChars_of_unreserved (l : List Char) (h : ∀ x ∈ l, unreserved x = true) :
    escapeChars l = l := by
  induction l with
  | nil => rfl
  | cons c t ih =>
    rw [escapeChars_cons, ih (fun x hx => h x (List.mem_cons_of_mem _ hx))]
    have hc := h c (List.mem_cons_self _ _)
    simp [escapeChar, hc]

theorem sep_prefix_unique {α : Type} (x : α) :
    ∀ (w a b : List α), x ∉ a → x ∉ w → (w ++ [x]) <+: (a ++ x :: b) → a = w := by
  intro w
  induction w with
  | nil =>
    intro a b ha _ h
    cases a with
    | nil => rfl
    | cons y a1 =>
      obtain ⟨t, ht⟩ := h
      simp only [List.nil_append, List.cons_append, List.cons.injEq] at ht
      exact absurd (ht.1 ▸ List.mem_cons_self _ _) ha
  | cons z w1 ih =>
    intro a b ha hw h
    cases a with
    | nil =>
      obtain ⟨t, ht⟩ := h
      simp only [List.nil_append, List.cons_append, List.cons.injEq] at ht
      exact absurd (ht.1 ▸ List.mem_cons_self _ _) hw
    | cons y a1 =>
      obtain ⟨t, ht⟩ := h
      simp only [List.cons_append, List.cons.injEq] at ht
      have hrec := ih a1 b (fun hm => ha (List.mem_cons_of_mem _ hm))
        (fun hm => hw (List.mem_cons_of_mem _ hm)) ⟨t, ht.2⟩
      rw [hrec, ht.1]

theorem filter_flatMap_of_unique {α β : Type} (P : β → Bool) (g : α → List β) (a : α) :
    ∀ l : List α, l.Nodup → a ∈ l → (∀ k ∈ l, k ≠ a → ∀ y ∈ g k, P y = false) →
      (l.flatMap g).filter P = (g a).filter P := by
  have hnil : ∀ t : List α, (∀ k ∈ t, k ≠ a → ∀ y ∈ g k, P y = false) → a ∉ t →
      (t.flatMap g).filter P = [] := by
    intro t ht hat
    rw [List.filter_eq_nil_iff]
    intro y hy
    rw [List.mem_flatMap] at hy
    obtain ⟨k, hk, hyk⟩ := hy
    have hne : k ≠ a := fun hka => hat (hka ▸ hk)
    simp [ht k hk hne y hyk]
  intro l
  induction l with
  | nil => intro _ ha; cases ha
  | cons k t ih =>
    intro hnd ha hother
    rw [List.flatMap_cons, List.filter_append]
    rw [List.nodup_cons] at hnd
    by_cases hka : k = a
    · subst hka
      rw [hnil t (fun k1 hk1 => hother k1 (List.mem_cons_of_mem _ hk1)) hnd.1,
        List.append_nil]
    · have hat : a ∈ t := by
        rcases List.mem_cons.mp ha with h | h
        · exact absurd h.symm hka
        · exact h
      have hk0 : (g k).filter P = [] := by
        rw [List.filter_eq_nil_iff]
        intro y hy
        simp [hother k (List.mem_cons_self _ _) hka y hy]
      rw [hk0, List.nil_append]
      exact ih hnd.2 hat (fun k1 hk1 => hother k1 (List.mem_cons_of_mem _ hk1))

theorem sortedKeys_nodup (v : Values) : v.sortedKeys.Nodup := by
  unfold Values.sortedKeys Values.keys
  exact (List.perm_insertionSort _ _).nodup_iff.mpr (List.nodup_dedup _)

theorem mem_sortedKeys (v : Values) (k : String) : k ∈ v.sortedKeys ↔ k ∈ v.map Prod.fst := by
  unfold Values.sortedKeys Values.keys
  rw [(List.perm_insertionSort _ _).mem_iff, List.mem_dedup]

theorem segments_not_amp (v : Values) : ∀ seg ∈ v.segments, '&' ∉ seg := by
  intro seg hseg hamp
  unfold Values.segments at hseg
  rw [List.mem_flatMap] at hseg
  obtain ⟨k, -, hk⟩ := hseg
  rw [List.mem_map] at hk
  obtain ⟨x, -, hx⟩ := hk
  subst hx
  rcases List.mem_append.mp hamp with h | h
  · exact (escapeChars_not_sep _ _ h).1 rfl
  · rcases List.mem_cons.mp h with h | h
    · exact absurd h (by decide)
    · exact (escapeChars_not_sep _ _ h).1 rfl

/-- The components of the encoded query that start with `name=`, for a key `name`
made of unreserved characters that the map binds to the single value `value`:
there is exactly one, `name=` followed by the escaped value. -/
theorem segments_of_key (v : Values) (name value : String)
    (hname : ∀ x ∈ name.data, unreserved x = true)
    (hlook : v.lookup name = [value]) (hmem : name ∈ v.map Prod.fst) :
    (v.Encode.data.splitOn '&').filter (fun seg => (name.data ++ ['=']).isPrefixOf seg)
      = [name.data ++ '=' :: (QueryEscape value).data] := by
  have hne : v.segments ≠ [] := by
    intro h0
    have hk : name ∈ v.sortedKeys := (mem_sortedKeys v name).mpr hmem
    have hs : (escapeChars name.data ++ '=' :: escapeChars value.data) ∈ v.segments := by
      unfold Values.segments
      rw [List.mem_flatMap]
      exact ⟨name, hk, by rw [hlook]; simp⟩
    rw [h0] at hs
    cases hs
  have hsplit : v.Encode.data.splitOn '&' = v.segments := by
    unfold Values.Encode
    exact List.splitOn_intercalate _ _ (segments_not_amp v) hne
  have hesc : escapeChars name.data = name.data := escapeChars_of_unreserved name.data hname
  rw [hsplit]
  unfold Values.segments
  rw [filter_flatMap_of_unique _ _ name v.sortedKeys (sortedKeys_nodup v)
    ((mem_sortedKeys v name).mpr hmem)]
  · rw [hlook, hesc]
    simp [QueryEscape]
  · intro k _ hkn y hy
    rw [List.mem_map] at hy
    obtain ⟨x, -, hx⟩ := hy
    subst hx
    by_contra hP
    rw [Bool.not_eq_false] at hP
    rw [List.isPrefixOf_iff_prefix] at hP
    have hk := sep_prefix_unique '=' name.data (escapeChars k.data) (escapeChars x.data)
      (fun hm => (escapeChars_not_sep _ _ hm).2 rfl)
      (fun hm => (unreserved_not_sep _ (hname _ hm)).2.1 rfl) hP
    have hself := escapeChars_eq_self k.data (by rw [hk]; exact hname)
    rw [hself] at hk
    exact hkn (String.ext hk)

end QueryLemmas

theorem authQuery_eq {E : Type} (c : Client E) (query : Option Values) :
    c.authQuery query
      = ("password", [c.password]) :: ("userName", [c.userName]) ::
          ((query.getD []).filter (fun e : String × List String => e.1 ≠ "userName")).filter
            (fun e : String × List String => e.1 ≠ "password") := by
  cases query <;> simp [Client.authQuery, Values.Set, List.filter_cons]

/-- C6: for every caller-supplied query (nil, or one that already binds `userName`
or `password`), the URL built by `doRequest` is the base address, the endpoint, a
question mark and the encoded query, in which `userName` and `password` are bound
to exactly the configured credentials: exactly one component of the query string
starts with `userName=`, and it is `userName=` followed by the escaped user name
(likewise for `password`). Every request built by `doRequest` carries that URL.
Every request built by `doJSONRequestNoAuth` carries the base address followed by
the endpoint and nothing else, so it has no question mark unless one of the two
has. -/
theorem query_auth_injects_credentials {E : Type} (c : Client E) (endpoint : String)
    (query : Option Values) :
    c.doRequestURL endpoint query
      = c.baseURL ++ endpoint ++ "?" ++ (c.authQuery query).Encode ∧
    (c.authQuery query).lookup "userName" = [c.userName] ∧
    (c.authQuery query).lookup "password" = [c.password] ∧
    ((c.authQuery query).Encode.data.splitOn '&').filter
        (fun seg => ("userName".data ++ ['=']).isPrefixOf seg)
      = ["userName".data ++ '=' :: (QueryEscape c.userName).data] ∧
    ((c.authQuery query).Encode.data.splitOn '&').filter
        (fun seg => ("password".data ++ ['=']).isPrefixOf seg)
      = ["password".data ++ '=' :: (QueryEscape c.password).data] ∧
    (∀ (B T : Type) (env : Env E B T) (ctx : Context) (method : String) (body : Option B)
        (req : Request) (trace : List Event),
      c.doRequestBuild env ctx method endpoint query body = .ok (req, trace) →
      req.URL = c.doRequestURL endpoint query) ∧
    (∀ (B T : Type) (env : Env E B T) (ctx : Context) (body : Option B)
        (req : Request) (trace : List Event),
      c.doJSONRequestNoAuthBuild env ctx endpoint body = .ok (req, trace) →
      req.URL = c.baseURL ++ endpoint ∧
      ('?' ∉ c.baseURL.data → '?' ∉ endpoint.data → '?' ∉ req.URL.data)) := by
  have hq := authQuery_eq c query
  have hu : (c.authQuery query).lookup "userName" = [c.userName] := by
    rw [hq]
    simp [Values.lookup]
  have hp : (c.authQuery query).lookup "password" = [c.password] := by
    rw [hq]
    simp [Values.lookup]
  have hmu : "userName" ∈ (c.authQuery query).map Prod.fst := by
    rw [hq]
    simp
  have hmp : "password" ∈ (c.authQuery query).map Prod.fst := by
    rw [hq]
    simp
  have hlen : (c.authQuery query).len > 0 := by
    unfold Values.len Values.keys
    exact List.length_pos_of_mem (List.mem_dedup.mpr hmp)
  refine ⟨?_, hu, hp, ?_, ?_, ?_, ?_⟩
  · simp only [Client.doRequestURL, hlen, if_true]
  · exact segments_of_key (c.authQuery query) "userName" c.userName (by decide) hu hmu
  · exact segments_of_key (c.authQuery query) "password" c.password (by decide) hp hmp
  · intro B T env ctx method body req trace h
    obtain ⟨_, _, _, _, hreq, _⟩ := doRequestBuild_ok env c ctx method endpoint query body req
      trace h
    rw [hreq]
  · intro B T env ctx body req trace h
    obtain ⟨_, _, _, _, hreq, _⟩ := doJSONRequestNoAuthBuild_ok env c ctx endpoint body req
      trace h
    rw [hreq]
    refine ⟨rfl, fun hb he hm => ?_⟩
    simp only [String.data_append, List.mem_append] at hm
    exact hm.elim hb he

/-- C6, witness: a caller-supplied query that already binds `userName` is sent with
the configured user name only. -/
theorem query_auth_injects_credentials_witness :
    (cannedClient 200 "").doRequestURL "/rest/register.do"
        (some [("userName", ["intruder"]), ("amount", ["1"])])
      = "https://alfa.rbsuat.com/payment/rest/register.do?amount=1&password=your-password&userName=your-username" ∧
    (((cannedClient 200 "").authQuery
          (some [("userName", ["intruder"]), ("amount", ["1"])])).Encode.data.splitOn '&').filter
        (fun seg => ("userName".data ++ ['=']).isPrefixOf seg)
      = ["userName".data ++ '=' :: (QueryEscape "your-username").data] :=
  ⟨by decide,
   (query_auth_injects_credentials (cannedClient 200 "") "/rest/register.do"
      (some [("userName", ["intruder"]), ("amount", ["1"])])).2.2.2.1⟩

/-! ## The parameter map of `Orders.Register` -/

section RegisterParamsLemmas

theorem lookup_filter_ne (v : Values) (k key : String) :
    Values.lookup (v.filter (fun e => e.1 ≠ k)) key
      = if key = k then [] else Values.lookup v key := by
  induction v with
  | nil => simp [Values.lookup]
  | cons e t ih =>
    obtain ⟨k1, vs⟩ := e
    by_cases h1 : k1 = k
    · subst h1
      rw [List.filter_cons_of_neg (by simp), ih]
      by_cases h2 : key = k1
      · simp [h2]
      · have h3 : ¬ k1 = key := fun h => h2 h.symm
        simp [h2, h3, Values.lookup]
    · rw [List.filter_cons_of_pos (by simpa using h1)]
      simp only [Values.lookup, ih]
      by_cases h2 : k1 = key
      · subst h2
        simp [h1]
      · simp [h2]

theorem lookup_Set (v : Values) (k x key : String) :
    Values.lookup (Values.Set v k x) key = if key = k then [x] else Values.lookup v key := by
  unfold Values.Set
  simp only [Values.lookup, lookup_filter_ne]
  by_cases h : key = k
  · simp [h]
  · have h2 : ¬ k = key := fun h3 => h h3.symm
    simp [h, h2]

theorem lookup_ite_Set (c : Prop) [Decidable c] (v : Values) (k x key : String) :
    Values.lookup (if c then Values.Set v k x else v) key
      = if key = k ∧ c then [x] else Values.lookup v key := by
  by_cases h : c <;> by_cases h2 : key = k <;> simp [h, h2, lookup_Set]

theorem lookup_nil (key : String) : Values.lookup [] key = [] := rfl

theorem Has_iff_lookup (v : Values) (key : String) (hv : ∀ e ∈ v, e.2 ≠ []) :
    Values.Has v key = true ↔ Values.lookup v key ≠ [] := by
  induction v with
  | nil => simp [Values.Has, Values.lookup]
  | cons e t ih =>
    obtain ⟨k1, vs⟩ := e
    have ht := ih (fun e he => hv e (List.mem_cons_of_mem _ he))
    have hvs : vs ≠ [] := hv (k1, vs) (List.mem_cons_self _ _)
    unfold Values.Has at ht ⊢
    simp only [List.any_cons, Values.lookup, Bool.or_eq_true, decide_eq_true_eq, ht]
    by_cases h : k1 = key <;> simp [h, hvs]

theorem valued_Set (v : Values) (k x : String) (hv : ∀ e ∈ v, e.2 ≠ []) :
    ∀ e ∈ Values.Set v k x, e.2 ≠ [] := by
  intro e he
  unfold Values.Set at he
  rcases List.mem_cons.mp he with h | h
  · subst h
    simp
  · exact hv e (List.mem_of_mem_filter h)

theorem valued_ite_Set (c : Prop) [Decidable c] (v : Values) (k x : String)
    (hv : ∀ e ∈ v, e.2 ≠ []) : ∀ e ∈ (if c then Values.Set v k x else v), e.2 ≠ [] := by
  split_ifs
  · exact valued_Set v k x hv
  · exact hv

theorem registerParams_valued (req : RegisterOrderRequest) :
    ∀ e ∈ OrderService.RegisterParams req, e.2 ≠ [] := by
  unfold OrderService.RegisterParams
  cases req.TaxSystem <;>
  · simp only []
    repeat (first
      | exact fun _ h => absurd h (List.not_mem_nil _)
      | apply valued_ite_Set
      | apply valued_Set)

theorem toDigitsCore_ne_nil (b : Nat) :
    ∀ (f n : Nat) (ds : List Char), (f ≠ 0 ∨ ds ≠ []) → Nat.toDigitsCore b f n ds ≠ [] := by
  intro f
  induction f with
  | zero =>
    intro n ds h
    rcases h with h | h
    · exact absurd rfl h
    · simpa [Nat.toDigitsCore] using h
  | succ f ih =>
    intro n ds _
    simp only [Nat.toDigitsCore]
    split_ifs
    · simp
    · exact ih _ _ (Or.inr (by simp))

theorem FormatInt_ne_empty (n : Int) : FormatInt n ≠ "" := by
  have hrepr : ∀ m : Nat, (Nat.repr m).data ≠ [] := by
    intro m
    simp only [Nat.repr, Nat.toDigits, List.asString]
    exact toDigitsCore_ne_nil 10 (m + 1) m [] (Or.inl (by simp))
  unfold FormatInt
  split_ifs
  · intro h
    have h2 := congrArg String.data h
    simp at h2
  · intro h
    exact hrepr _ (congrArg String.data h)

theorem registerParams_lookup (req : RegisterOrderRequest) (key : String) :
    (OrderService.RegisterParams req).lookup key = registerReferenceWithNumbers req key := by
  unfold OrderService.RegisterParams registerReferenceWithNumbers registerReference
    optionalParam positiveParam
  by_cases hk : key ∈ ["orderNumber", "amount", "returnUrl", "failUrl", "description",
      "language", "pageView", "clientId", "merchantLogin", "sessionTimeoutSecs",
      "expirationDate", "bindingId", "features", "email", "phone", "currency",
      "dynamicCallbackUrl", "feeInput", "taxSystem"]
  · simp only [List.mem_cons, List.mem_singleton, List.not_mem_nil, or_false] at hk
    rcases hk with rfl | rfl | rfl | rfl | rfl | rfl | rfl | rfl | rfl | rfl | rfl | rfl | rfl |
      rfl | rfl | rfl | rfl | rfl | rfl <;>
    cases req.TaxSystem <;>
    simp only [lookup_ite_Set, lookup_Set, lookup_nil] <;>
    simp
  · simp only [List.mem_cons, List.mem_singleton, List.not_mem_nil, or_false, not_or] at hk
    cases req.TaxSystem <;>
    simp only [lookup_ite_Set, lookup_Set, lookup_nil] <;>
    simp [hk]

theorem registerReference_no_empty (req : RegisterOrderRequest) (key : String)
    (h1 : key ≠ "orderNumber") (h2 : key ≠ "returnUrl") :
    "" ∉ registerReferenceWithNumbers req key := by
  have hf : ∀ n : Int, ("" = FormatInt n) = False :=
    fun n => eq_false (fun h => FormatInt_ne_empty n h.symm)
  have hopt : ∀ s : String, "" ∉ optionalParam s := by
    intro s
    unfold optionalParam
    split_ifs with h
    · simpa using fun h3 : "" = s => h h3.symm
    · simp
  have hpos : ∀ n : Int, "" ∉ positiveParam n := by
    intro n
    unfold positiveParam
    split_ifs <;> simp [hf]
  unfold registerReferenceWithNumbers registerReference
  by_cases hk : key ∈ ["amount", "failUrl", "description",
      "language", "pageView", "clientId", "merchantLogin", "sessionTimeoutSecs",
      "expirationDate", "bindingId", "features", "email", "phone", "currency",
      "dynamicCallbackUrl", "feeInput", "taxSystem"]
  · simp only [List.mem_cons, List.mem_singleton, List.not_mem_nil, or_false] at hk
    rcases hk with rfl | rfl | rfl | rfl | rfl | rfl | rfl | rfl | rfl | rfl | rfl | rfl | rfl |
      rfl | rfl | rfl | rfl <;>
    cases req.TaxSystem <;>
    simp [hf, hopt, hpos]
  · simp only [List.mem_cons, List.mem_singleton, List.not_mem_nil, or_false, not_or] at hk
    simp [hk, h1, h2]

end RegisterParamsLemmas

/-- C11, counterexample: for a request with `SessionTimeoutSecs` set to 600 the
parameter map of `Orders.Register` binds the key `sessionTimeoutSecs`, which the
described map does not have. -/
theorem register_sends_sessionTimeoutSecs :
    (OrderService.RegisterParams { OrderNumber := "ORDER-12345", SessionTimeoutSecs := 600 }).lookup
        "sessionTimeoutSecs" = ["600"] ∧
    registerReference { OrderNumber := "ORDER-12345", SessionTimeoutSecs := 600 }
        "sessionTimeoutSecs" = [] := by
  decide

/-- C11, amended: for every request and every key, the parameter map built by
`Orders.Register` binds the key to exactly the values of the described map
completed with `sessionTimeoutSecs` and `feeInput` (each present, in decimal, iff
the field is positive); the key is in the map iff that description gives it a
value; and no key other than `orderNumber` and `returnUrl` is ever bound to the
empty string. -/
theorem register_params_reference (req : RegisterOrderRequest) (key : String) :
    (OrderService.RegisterParams req).lookup key = registerReferenceWithNumbers req key ∧
    ((OrderService.RegisterParams req).Has key = true
      ↔ registerReferenceWithNumbers req key ≠ []) ∧
    (key ≠ "orderNumber" → key ≠ "returnUrl" →
      "" ∉ (OrderService.RegisterParams req).lookup key) := by
  have hl := registerParams_lookup req key
  refine ⟨hl, ?_, ?_⟩
  · rw [← hl]
    exact Has_iff_lookup _ key (registerParams_valued req)
  · intro h1 h2
    rw [hl]
    exact registerReference_no_empty req key h1 h2

/-! ## Construction: the base address -/

section ConstructionLemmas

theorem dropWhile_head_not {α : Type} (p : α → Bool) (l : List α) :
    ∀ x, (l.dropWhile p).head? = some x → p x = false := by
  induction l with
  | nil => intro x h; simp at h
  | cons a t ih =>
    intro x h
    by_cases hp : p a = true
    · rw [List.dropWhile_cons_of_pos hp] at h
      exact ih x h
    · rw [List.dropWhile_cons_of_neg hp] at h
      simp only [List.head?_cons, Option.some.injEq] at h
      subst h
      simpa using hp

theorem dropWhile_takeWhile_all {α : Type} (p : α → Bool) (l : List α) :
    l = l.takeWhile p ++ l.dropWhile p ∧ ∀ x ∈ l.takeWhile p, p x = true :=
  ⟨(List.takeWhile_append_dropWhile p l).symm, fun _ hx => List.mem_takeWhile_imp hx⟩

theorem TrimRight_slash_last (s : String) : (TrimRight s "/").data.getLast? ≠ some '/' := by
  unfold TrimRight
  intro h
  rw [List.getLast?_reverse] at h
  have hp := dropWhile_head_not (fun c => "/".data.contains c) s.data.reverse '/' h
  revert hp
  decide

theorem TrimRight_slash_spec (s : String) :
    ∃ n, s.data = (TrimRight s "/").data ++ List.replicate n '/' := by
  obtain ⟨hsplit, hall⟩ := dropWhile_takeWhile_all (fun c => "/".data.contains c) s.data.reverse
  refine ⟨(s.data.reverse.takeWhile (fun c => "/".data.contains c)).length, ?_⟩
  have hrep : (s.data.reverse.takeWhile (fun c => "/".data.contains c)).reverse
      = List.replicate (s.data.reverse.takeWhile (fun c => "/".data.contains c)).length '/' := by
    rw [List.eq_replicate_iff]
    refine ⟨by simp, fun x hx => ?_⟩
    have hx2 := hall x (List.mem_reverse.mp hx)
    simpa using hx2
  have hrev := congrArg List.reverse hsplit
  rw [List.reverse_reverse, List.reverse_append, hrep] at hrev
  exact hrev

theorem TrimRight_of_last (s : String) (h : s.data.getLast? ≠ some '/') :
    TrimRight s "/" = s := by
  unfold TrimRight
  have hrev : s.data.reverse.dropWhile (fun c => "/".data.contains c) = s.data.reverse := by
    cases hl : s.data.reverse with
    | nil => rfl
    | cons a t =>
      have ha : s.data.getLast? = some a := by
        rw [← List.head?_reverse, hl]
        rfl
      have hne : a ≠ '/' := fun hc => h (hc ▸ ha)
      rw [List.dropWhile_cons_of_neg]
      simpa using hne
  rw [hrev, List.reverse_reverse]

theorem apply_baseURL_last {E : Type} (c : Client E) (opt : ClientOption E)
    (h : c.baseURL.data.getLast? ≠ some '/') :
    (ClientOption.apply c opt).baseURL.data.getLast? ≠ some '/' := by
  cases opt with
  | WithBaseURL baseURL => exact TrimRight_slash_last baseURL
  | WithHTTPClient httpClient => exact h
  | WithTimeout timeout => exact h

theorem foldl_apply_baseURL_last {E : Type} (opts : List (ClientOption E)) :
    ∀ c : Client E, c.baseURL.data.getLast? ≠ some '/' →
      (opts.foldl ClientOption.apply c).baseURL.data.getLast? ≠ some '/' := by
  induction opts with
  | nil => intro c h; exact h
  | cons opt rest ih =>
    intro c h
    exact ih _ (apply_baseURL_last c opt h)

end ConstructionLemmas

/-- C16: for every list of options, the base address of the client returned by
`NewClient` does not end with `/`; `WithBaseURL` stores its argument without its
trailing `/` characters (the argument is the stored value followed by some number
of `/`), and stripping is idempotent. -/
theorem newClient_baseURL_no_trailing_slash {E : Type}
    (transport : Request → Except E (Response E)) (userName password : String)
    (opts : List (ClientOption E)) (c : Client E) (baseURL : String) :
    (NewClient transport userName password opts).baseURL.data.getLast? ≠ some '/' ∧
    (ClientOption.apply c (.WithBaseURL baseURL)).baseURL = TrimRight baseURL "/" ∧
    (∃ n, baseURL.data = (TrimRight baseURL "/").data ++ List.replicate n '/') ∧
    (TrimRight baseURL "/").data.getLast? ≠ some '/' ∧
    TrimRight (TrimRight baseURL "/") "/" = TrimRight baseURL "/" :=
  ⟨foldl_apply_baseURL_last opts _ (show DefaultBaseURL.data.getLast? ≠ some '/' by decide), rfl, TrimRight_slash_spec baseURL,
    TrimRight_slash_last baseURL, TrimRight_of_last _ (TrimRight_slash_last baseURL)⟩

/-- C16, witness: the production address given with trailing separators, after
another base address option; the last one wins and is stored stripped. -/
theorem newClient_baseURL_no_trailing_slash_witness :
    (NewClient (fun _ => Except.error "no network") "your-username" "your-password"
        [ClientOption.WithBaseURL "https://example.test/", ClientOption.WithTimeout 5,
          ClientOption.WithBaseURL "https://pay.alfabank.ru/payment///"]).baseURL
      = "https://pay.alfabank.ru/payment" ∧
    (NewClient (fun _ => Except.error "no network") "your-username" "your-password"
        [ClientOption.WithBaseURL "https://example.test/", ClientOption.WithTimeout 5,
          ClientOption.WithBaseURL "https://pay.alfabank.ru/payment///"]).baseURL.data.getLast?
      ≠ some '/' :=
  ⟨by decide,
    (newClient_baseURL_no_trailing_slash (fun _ => Except.error "no network") "your-username"
      "your-password"
      [ClientOption.WithBaseURL "https://example.test/", ClientOption.WithTimeout 5,
        ClientOption.WithBaseURL "https://pay.alfabank.ru/payment///"]
      (scriptedClient (.error "no network")) "/").1⟩

/-! ## Failures before and during the exchange -/

theorem roundTrip_transport {E B T : Type} (env : Env E B T) (c : Client E) (req : Request)
    (result : Option T) (trace : List Event) (e : E) (hdo : c.httpClient.Do req = .error e) :
    c.roundTrip env req result trace
      = ⟨some (Error.wrapError "request failed" e), result, trace ++ [Event.httpDo req]⟩ := by
  simp only [Client.roundTrip, hdo]

theorem roundTrip_read_failure {E B T : Type} (env : Env E B T) (c : Client E) (req : Request)
    (result : Option T) (trace : List Event) (resp : Response E) (e : E)
    (hdo : c.httpClient.Do req = .ok resp) (hread : resp.Body = .error e) :
    c.roundTrip env req result trace
      = ⟨some (Error.wrapError "failed to read response body" e), result,
          trace ++ [Event.httpDo req, Event.readAll]⟩ := by
  simp only [Client.roundTrip, hdo, hread]

/-- C17: when the JSON body fails to serialize, Dispatch (in either mode) returns
the serializer's error wrapped as a construction failure, the only call made is
the one to the serializer (the HTTP capability is not invoked) and the result
target is untouched. -/
theorem dispatch_marshal_failure_is_local {E B T : Type} (env : Env E B T) (c : Client E)
    (ctx : Context) (mode : AuthMode) (method endpoint : String) (query : Option Values)
    (b : B) (result : Option T) (e : E) (hmarshal : env.Marshal b = .error e) :
    (c.Dispatch env ctx mode method endpoint query (some b) result).err
      = some (Error.wrapError "failed to marshal request body" e) ∧
    ((c.Dispatch env ctx mode method endpoint query (some b) result).err.bind Error.Unwrap)
      = some e ∧
    ((c.Dispatch env ctx mode method endpoint query (some b) result).err.bind Error.classify)
      = some FailureClass.construction ∧
    (c.Dispatch env ctx mode method endpoint query (some b) result).trace = [Event.marshal] ∧
    httpCalls (c.Dispatch env ctx mode method endpoint query (some b) result).trace = 0 ∧
    (c.Dispatch env ctx mode method endpoint query (some b) result).result = result := by
  have hb : c.DispatchBuild env ctx mode method endpoint query (some b)
      = .error (Error.wrapError "failed to marshal request body" e, [Event.marshal]) := by
    cases mode <;>
      simp only [Client.DispatchBuild, Client.doRequestBuild, Client.doJSONRequestNoAuthBuild,
        marshalBody, hmarshal]
  rw [Dispatch_of_build_error env c ctx mode method endpoint query (some b) result _ _ hb]
  exact ⟨rfl, rfl, rfl, rfl, rfl, rfl⟩

/-- C17, witness: a body that is not well-formed JSON text is refused by the
serializer; nothing is sent. -/
theorem dispatch_marshal_failure_is_local_witness :
    ((cannedClient 200 "").Dispatch rawEnv ⟨0⟩ .bodyAuthenticatedOrNone MethodPost
        "/applepay/payment.do" none (some "\x7b") (some RegisterOrderResponse.zero)).err
      = some (Error.wrapError "failed to marshal request body" JSONError.SyntaxError) ∧
    httpCalls ((cannedClient 200 "").Dispatch rawEnv ⟨0⟩ .bodyAuthenticatedOrNone MethodPost
        "/applepay/payment.do" none (some "\x7b") (some RegisterOrderResponse.zero)).trace = 0 :=
  have h := dispatch_marshal_failure_is_local rawEnv (cannedClient 200 "") ⟨0⟩
    .bodyAuthenticatedOrNone MethodPost "/applepay/payment.do" none "\x7b"
    (some RegisterOrderResponse.zero) JSONError.SyntaxError rfl
  ⟨h.1, h.2.2.2.2.1⟩

/-- C18: when the HTTP capability returns an error instead of a response, Dispatch
(in either mode) returns that error wrapped as `request failed`: unwrapping gives
the error back, the value is not an `APIError`, its class is the transport class,
which is neither the decode nor the construction class, and the result target is
untouched. -/
theorem dispatch_transport_failure {E B T : Type} (env : Env E B T) (c : Client E)
    (ctx : Context) (mode : AuthMode) (method endpoint : String) (query : Option Values)
    (body : Option B) (result : Option T) (req : Request) (trace : List Event) (e : E)
    (hbuild : c.DispatchBuild env ctx mode method endpoint query body = .ok (req, trace))
    (hdo : c.httpClient.Do req = .error e) :
    (c.Dispatch env ctx mode method endpoint query body result).err
      = some (Error.wrapError "request failed" e) ∧
    ((c.Dispatch env ctx mode method endpoint query body result).err.bind Error.Unwrap)
      = some e ∧
    ((c.Dispatch env ctx mode method endpoint query body result).err.map Error.isAPIError)
      = some false ∧
    ((c.Dispatch env ctx mode method endpoint query body result).err.bind Error.classify)
      = some FailureClass.transport ∧
    FailureClass.transport ≠ FailureClass.decode ∧
    FailureClass.transport ≠ FailureClass.construction ∧
    (c.Dispatch env ctx mode method endpoint query body result).result = result := by
  rw [Dispatch_eq_roundTrip env c ctx mode method endpoint query body result req trace hbuild,
    roundTrip_transport env c req result trace e hdo]
  exact ⟨rfl, rfl, rfl, rfl, by decide, by decide, rfl⟩

/-- C18, witness: the connection is refused. -/
theorem dispatch_transport_failure_witness :
    ((scriptedClient (.error "dial tcp: connection refused")).Dispatch textEnv ⟨0⟩
        .queryAuthenticated MethodPost "/rest/register.do" none none
        (some RegisterOrderResponse.zero)).err
      = some (Error.wrapError "request failed" "dial tcp: connection refused") ∧
    ((scriptedClient (.error "dial tcp: connection refused")).Dispatch textEnv ⟨0⟩
        .queryAuthenticated MethodPost "/rest/register.do" none none
        (some RegisterOrderResponse.zero)).result = some RegisterOrderResponse.zero :=
  have h := dispatch_transport_failure textEnv
    (scriptedClient (.error "dial tcp: connection refused")) ⟨0⟩ .queryAuthenticated MethodPost
    "/rest/register.do" none none (some RegisterOrderResponse.zero) _ _
    "dial tcp: connection refused" rfl rfl
  ⟨h.1, h.2.2.2.2.2.2⟩

/-! ## One call, one outcome -/

section CallCountLemmas

variable {E B T : Type}

theorem httpCalls_append (t1 t2 : List Event) :
    httpCalls (t1 ++ t2) = httpCalls t1 + httpCalls t2 := by
  simp [httpCalls, List.filter_append]

theorem DispatchBuild_trace_shape (env : Env E B T) (c : Client E) (ctx : Context)
    (mode : AuthMode) (method endpoint : String) (query : Option Values) (body : Option B)
    (req : Request) (trace : List Event)
    (h : c.DispatchBuild env ctx mode method endpoint query body = .ok (req, trace)) :
    trace = [Event.newRequest req.Method req.URL] ∨
    trace = [Event.marshal, Event.newRequest req.Method req.URL] := by
  cases mode with
  | queryAuthenticated =>
    obtain ⟨bodyReader, pre, hm, -, hreq, ht⟩ :=
      doRequestBuild_ok env c ctx method endpoint query body req trace h
    subst hreq
    rcases (marshalBody_trace env body bodyReader pre hm).1 with hp | hp <;>
      simp [ht, hp]
  | bodyAuthenticatedOrNone =>
    obtain ⟨bodyReader, pre, hm, -, hreq, ht⟩ :=
      doJSONRequestNoAuthBuild_ok env c ctx endpoint body req trace h
    subst hreq
    rcases (marshalBody_trace env body bodyReader pre hm).1 with hp | hp <;>
      simp [ht, hp]

theorem roundTrip_trace_shape (env : Env E B T) (c : Client E) (req : Request)
    (result : Option T) (trace : List Event) :
    ∃ tail, (c.roundTrip env req result trace).trace = trace ++ Event.httpDo req :: tail ∧
      httpCalls tail = 0 := by
  cases hdo : c.httpClient.Do req with
  | error e =>
    rw [roundTrip_transport env c req result trace e hdo]
    exact ⟨[], rfl, rfl⟩
  | ok resp =>
    cases hread : resp.Body with
    | error e =>
      rw [roundTrip_read_failure env c req result trace resp e hdo hread]
      exact ⟨[Event.readAll], rfl, rfl⟩
    | ok respBody =>
      by_cases hstatus : 400 ≤ resp.StatusCode
      · rw [roundTrip_gateway env c req result trace resp respBody hdo hread hstatus]
        exact ⟨[Event.readAll], rfl, rfl⟩
      · have hlt : resp.StatusCode < 400 := not_le.mp hstatus
        cases result with
        | none =>
          rw [roundTrip_no_decode env c req none trace resp respBody hdo hread hlt (Or.inr rfl)]
          exact ⟨[Event.readAll], rfl, rfl⟩
        | some target =>
          rcases Nat.eq_zero_or_pos respBody.length with hlen | hlen
          · rw [roundTrip_no_decode env c req (some target) trace resp respBody hdo hread hlt
              (Or.inl hlen)]
            exact ⟨[Event.readAll], rfl, rfl⟩
          · rw [roundTrip_decode env c req target trace resp respBody hdo hread hlt hlen]
            exact ⟨[Event.readAll, Event.unmarshal respBody], rfl, rfl⟩

theorem roundTrip_outcome (env : Env E B T) (c : Client E) (req : Request)
    (result : Option T) (trace : List Event) :
    (c.roundTrip env req result trace).err = none ∨
    (∃ a, (c.roundTrip env req result trace).err = some (Error.apiError a)) ∨
    (∃ cause, (c.roundTrip env req result trace).err
      = some (Error.wrapError "failed to decode response" cause)) ∨
    (∃ cause, (c.roundTrip env req result trace).err
        = some (Error.wrapError "request failed" cause) ∨
      (c.roundTrip env req result trace).err
        = some (Error.wrapError "failed to read response body" cause)) := by
  cases hdo : c.httpClient.Do req with
  | error e =>
    rw [roundTrip_transport env c req result trace e hdo]
    exact Or.inr (Or.inr (Or.inr ⟨e, Or.inl rfl⟩))
  | ok resp =>
    cases hread : resp.Body with
    | error e =>
      rw [roundTrip_read_failure env c req result trace resp e hdo hread]
      exact Or.inr (Or.inr (Or.inr ⟨e, Or.inr rfl⟩))
    | ok respBody =>
      by_cases hstatus : 400 ≤ resp.StatusCode
      · rw [roundTrip_gateway env c req result trace resp respBody hdo hread hstatus]
        exact Or.inr (Or.inl ⟨_, rfl⟩)
      · have hlt : resp.StatusCode < 400 := not_le.mp hstatus
        cases result with
        | none =>
          rw [roundTrip_no_decode env c req none trace resp respBody hdo hread hlt (Or.inr rfl)]
          exact Or.inl rfl
        | some target =>
          rcases Nat.eq_zero_or_pos respBody.length with hlen | hlen
          · rw [roundTrip_no_decode env c req (some target) trace resp respBody hdo hread hlt
              (Or.inl hlen)]
            exact Or.inl rfl
          · rw [roundTrip_decode env c req target trace resp respBody hdo hread hlt hlen]
            cases (env.Unmarshal respBody target).2 with
            | none => exact Or.inl rfl
            | some err => exact Or.inr (Or.inr (Or.inl ⟨err, rfl⟩))

theorem dispatch_calls_only_built (env : Env E B T) (c : Client E) (ctx : Context)
    (mode : AuthMode) (method endpoint : String) (query : Option Values) (body : Option B)
    (result : Option T) (req : Request) (trace : List Event)
    (hbuild : c.DispatchBuild env ctx mode method endpoint query body = .ok (req, trace)) :
    ∀ r, Event.httpDo r ∈ (c.Dispatch env ctx mode method endpoint query body result).trace →
      r = req := by
  rw [Dispatch_eq_roundTrip env c ctx mode method endpoint query body result req trace hbuild]
  obtain ⟨tail, htrace, htail⟩ := roundTrip_trace_shape env c req result trace
  have hpre : httpCalls trace = 0 := by
    rcases DispatchBuild_trace_shape env c ctx mode method endpoint query body req trace hbuild
      with h | h <;> rw [h] <;> rfl
  have hzero : ∀ (l : List Event) (r : Request), httpCalls l = 0 → Event.httpDo r ∉ l := by
    intro l r hl hmem
    unfold httpCalls at hl
    exact absurd hl (List.length_pos.mpr
      (List.ne_nil_of_mem (List.mem_filter.mpr ⟨hmem, rfl⟩))).ne'
  intro r hr
  rw [htrace] at hr
  rcases List.mem_append.mp hr with h | h
  · exact absurd h (hzero trace r hpre)
  · rcases List.mem_cons.mp h with h | h
    · exact Event.httpDo.inj h
    · exact absurd h (hzero tail r htail)

theorem query_auth_url {E : Type} (c : Client E) (endpoint : String) (query : Option Values) :
    c.doRequestURL endpoint query
      = c.baseURL ++ endpoint ++ "?" ++ (c.authQuery query).Encode := by
  have hmp : "password" ∈ (c.authQuery query).map Prod.fst := by
    rw [authQuery_eq]
    simp
  have hlen : (c.authQuery query).len > 0 := by
    unfold Values.len Values.keys
    exact List.length_pos_of_mem (List.mem_dedup.mpr hmp)
  simp only [Client.doRequestURL, hlen, if_true]

end CallCountLemmas

/-- C19: on every path on which the request was constructed, the HTTP capability is
invoked exactly once, with that request, and the dispatch ends in exactly one of
four outcomes: success (no error), a gateway error (an `APIError`), a decode
failure (the decoder's error wrapped as `failed to decode response`) or a transport
failure (the capability did not complete the exchange: the error of `Do` wrapped as
`request failed`, or the error of reading the body wrapped as
`failed to read response body`). An error value is of one of the three kinds of
failure and of no other. Which outcome it is follows the exchange: a transport
failure when `Do` returns an error or the body cannot be read, a gateway error when
the status is at least 400, success or a decode failure otherwise. -/
theorem dispatch_one_call_one_outcome {E B T : Type} (env : Env E B T) (c : Client E)
    (ctx : Context) (mode : AuthMode) (method endpoint : String) (query : Option Values)
    (body : Option B) (result : Option T) (req : Request) (trace : List Event)
    (hbuild : c.DispatchBuild env ctx mode method endpoint query body = .ok (req, trace)) :
    httpCalls (c.Dispatch env ctx mode method endpoint query body result).trace = 1 ∧
    (∀ r, Event.httpDo r ∈ (c.Dispatch env ctx mode method endpoint query body result).trace →
      r = req) ∧
    ((c.Dispatch env ctx mode method endpoint query body result).err = none ∨
      (∃ a, (c.Dispatch env ctx mode method endpoint query body result).err
        = some (Error.apiError a)) ∨
      (∃ cause, (c.Dispatch env ctx mode method endpoint query body result).err
        = some (Error.wrapError "failed to decode response" cause)) ∨
      (∃ cause, (c.Dispatch env ctx mode method endpoint query body result).err
          = some (Error.wrapError "request failed" cause) ∨
        (c.Dispatch env ctx mode method endpoint query body result).err
          = some (Error.wrapError "failed to read response body" cause))) ∧
    (∀ e, (c.Dispatch env ctx mode method endpoint query body result).err = some e →
      (e.isAPIError = true ∧ e.isDecodeFailure = false ∧ e.isTransportFailure = false) ∨
      (e.isAPIError = false ∧ e.isDecodeFailure = true ∧ e.isTransportFailure = false) ∨
      (e.isAPIError = false ∧ e.isDecodeFailure = false ∧ e.isTransportFailure = true)) ∧
    (∀ e, c.httpClient.Do req = .error e →
      (c.Dispatch env ctx mode method endpoint query body result).err
        = some (Error.wrapError "request failed" e)) ∧
    (∀ resp e, c.httpClient.Do req = .ok resp → resp.Body = .error e →
      (c.Dispatch env ctx mode method endpoint query body result).err
        = some (Error.wrapError "failed to read response body" e)) ∧
    (∀ resp respBody, c.httpClient.Do req = .ok resp → resp.Body = .ok respBody →
      400 ≤ resp.StatusCode →
      (c.Dispatch env ctx mode method endpoint query body result).err
        = some (Error.apiError ⟨resp.StatusCode, respBody⟩)) ∧
    (∀ resp respBody, c.httpClient.Do req = .ok resp → resp.Body = .ok respBody →
      resp.StatusCode < 400 →
      ((c.Dispatch env ctx mode method endpoint query body result).err = none ∨
        ∃ cause, (c.Dispatch env ctx mode method endpoint query body result).err
          = some (Error.wrapError "failed to decode response" cause))) := by
  rw [Dispatch_eq_roundTrip env c ctx mode method endpoint query body result req trace hbuild]
  obtain ⟨tail, htrace, htail⟩ := roundTrip_trace_shape env c req result trace
  have hpre : httpCalls trace = 0 := by
    rcases DispatchBuild_trace_shape env c ctx mode method endpoint query body req trace hbuild
      with h | h <;> rw [h] <;> rfl
  have hshape := roundTrip_outcome env c req result trace
  refine ⟨?_, ?_, hshape, ?_, ?_, ?_, ?_, ?_⟩
  · rw [htrace, httpCalls_append]
    have hcons : httpCalls (Event.httpDo req :: tail) = 1 + httpCalls tail := by
      simp [httpCalls, Nat.add_comm]
    rw [hcons, hpre, htail]
  · rw [← Dispatch_eq_roundTrip env c ctx mode method endpoint query body result req trace hbuild]
    exact dispatch_calls_only_built env c ctx mode method endpoint query body result req trace
      hbuild
  · intro e he
    rcases hshape with h | ⟨a, h⟩ | ⟨cause, h⟩ | ⟨cause, h | h⟩ <;> rw [h] at he
    · cases he
    · cases he
      exact Or.inl ⟨rfl, rfl, rfl⟩
    · cases he
      exact Or.inr (Or.inl ⟨rfl, rfl, rfl⟩)
    · cases he
      exact Or.inr (Or.inr ⟨rfl, rfl, rfl⟩)
    · cases he
      exact Or.inr (Or.inr ⟨rfl, rfl, rfl⟩)
  · intro e hdo
    rw [roundTrip_transport env c req result trace e hdo]
  · intro resp e hdo hread
    rw [roundTrip_read_failure env c req result trace resp e hdo hread]
  · intro resp respBody hdo hread hstatus
    rw [roundTrip_gateway env c req result trace resp respBody hdo hread hstatus]
  · intro resp respBody hdo hread hstatus
    cases result with
    | none =>
      rw [roundTrip_no_decode env c req none trace resp respBody hdo hread hstatus (Or.inr rfl)]
      exact Or.inl rfl
    | some target =>
      rcases Nat.eq_zero_or_pos respBody.length with hlen | hlen
      · rw [roundTrip_no_decode env c req (some target) trace resp respBody hdo hread hstatus
          (Or.inl hlen)]
        exact Or.inl rfl
      · rw [roundTrip_decode env c req target trace resp respBody hdo hread hstatus hlen]
        cases (env.Unmarshal respBody target).2 with
        | none => exact Or.inl rfl
        | some err => exact Or.inr ⟨err, rfl⟩

/-- C19, witness: after a gateway error (status 503) the capability has been invoked
exactly once; when the body of the response cannot be read the outcome is a
transport failure, after one call as well. -/
theorem dispatch_one_call_one_outcome_witness :
    httpCalls ((scriptedClient (.ok ⟨503, .ok "busy"⟩)).Dispatch textEnv ⟨0⟩
        .queryAuthenticated MethodPost "/rest/register.do" none none
        (some RegisterOrderResponse.zero)).trace = 1 ∧
    ((scriptedClient (.ok ⟨200, .error "unexpected EOF"⟩)).Dispatch textEnv ⟨0⟩
        .queryAuthenticated MethodPost "/rest/register.do" none none
        (some RegisterOrderResponse.zero)).err
      = some (Error.wrapError "failed to read response body" "unexpected EOF") ∧
    httpCalls ((scriptedClient (.ok ⟨200, .error "unexpected EOF"⟩)).Dispatch textEnv ⟨0⟩
        .queryAuthenticated MethodPost "/rest/register.do" none none
        (some RegisterOrderResponse.zero)).trace = 1 :=
  ⟨(dispatch_one_call_one_outcome textEnv (scriptedClient (.ok ⟨503, .ok "busy"⟩)) ⟨0⟩
      .queryAuthenticated MethodPost "/rest/register.do" none none
      (some RegisterOrderResponse.zero) _ _ rfl).1,
    (dispatch_one_call_one_outcome textEnv
      (scriptedClient (.ok ⟨200, .error "unexpected EOF"⟩)) ⟨0⟩
      .queryAuthenticated MethodPost "/rest/register.do" none none
      (some RegisterOrderResponse.zero) _ _ rfl).2.2.2.2.2.1 ⟨200, .error "unexpected EOF"⟩
      "unexpected EOF" rfl rfl,
    (dispatch_one_call_one_outcome textEnv
      (scriptedClient (.ok ⟨200, .error "unexpected EOF"⟩)) ⟨0⟩
      .queryAuthenticated MethodPost "/rest/register.do" none none
      (some RegisterOrderResponse.zero) _ _ rfl).1⟩

/-! ## Method and URL of every operation -/

/-- C20: for every operation of the table (every method of every service), every
request its helper builds has method `POST` (hence not `GET`, `PUT` or `DELETE`)
and the URL made of the configured base address followed by the operation's
endpoint literal (a path that starts with `/` and has no `?`), followed in the
query-authenticated helpers by `?` and the encoded query; that request is the only one handed to the HTTP capability. The
table row of `Orders.Register` is the dispatch `OrderService.Register` makes. -/
theorem operations_post_to_base_and_endpoint {E B T : Type} (env : Env E B T) (c : Client E)
    (ctx : Context) (op : Operation) (params : Option Values) (body : Option B)
    (result : Option T) (req : Request) (trace : List Event) (hop : op ∈ operations)
    (hbuild : c.helperBuild env ctx op.helper op.endpoint params body = .ok (req, trace)) :
    req.Method = "POST" ∧ req.Method ≠ "GET" ∧ req.Method ≠ "PUT" ∧ req.Method ≠ "DELETE" ∧
    (op.helper = .doFormRequest →
      req.URL = c.baseURL ++ op.endpoint ++ "?" ++ (c.authQuery params).Encode) ∧
    (op.helper = .doJSONRequest →
      req.URL = c.baseURL ++ op.endpoint ++ "?" ++ (c.authQuery none).Encode) ∧
    (op.helper = .doJSONRequestNoAuth → req.URL = c.baseURL ++ op.endpoint) ∧
    op.endpoint.data.head? = some '/' ∧ '?' ∉ op.endpoint.data ∧
    (∀ r, Event.httpDo r ∈
        (c.helperDispatch env ctx op.helper op.endpoint params body result).trace → r = req) ∧
    (∀ (env1 : Env E B RegisterOrderResponse) (s : OrderService E)
        (order : RegisterOrderRequest),
      (⟨"Orders", "Register", .doFormRequest, "/rest/register.do"⟩ : Operation) ∈ operations ∧
      (OrderService.Register env1 s ctx order).trace
        = (s.client.helperDispatch env1 ctx .doFormRequest "/rest/register.do"
            (some (OrderService.RegisterParams order)) none
            (some RegisterOrderResponse.zero)).trace) := by
  have hurl : ∀ q : Option Values,
      c.doRequestURL op.endpoint q = c.baseURL ++ op.endpoint ++ "?" ++ (c.authQuery q).Encode :=
    fun q => (query_auth_url c op.endpoint q)
  have hreg : ∀ (env1 : Env E B RegisterOrderResponse) (s : OrderService E)
      (order : RegisterOrderRequest),
      (⟨"Orders", "Register", .doFormRequest, "/rest/register.do"⟩ : Operation) ∈ operations ∧
      (OrderService.Register env1 s ctx order).trace
        = (s.client.helperDispatch env1 ctx .doFormRequest "/rest/register.do"
            (some (OrderService.RegisterParams order)) none
            (some RegisterOrderResponse.zero)).trace := by
    intro env1 s order
    refine ⟨by decide, ?_⟩
    simp only [OrderService.Register, Client.helperDispatch]
    cases (s.client.doFormRequest env1 ctx "/rest/register.do"
      (some (OrderService.RegisterParams order)) (some RegisterOrderResponse.zero)).err <;> rfl
  have htable : ∀ o ∈ operations, o.endpoint.data.head? = some '/' ∧ '?' ∉ o.endpoint.data := by
    decide
  obtain ⟨hslash, hquery⟩ := htable op hop
  rcases hh : op.helper with _ | _ | _
  · rw [hh] at hbuild
    have hb : c.DispatchBuild env ctx .queryAuthenticated MethodPost op.endpoint params none
        = .ok (req, trace) := hbuild
    obtain ⟨_, _, _, _, hreq, _⟩ :=
      doRequestBuild_ok env c ctx MethodPost op.endpoint params none req trace hbuild
    have hcalls := (dispatch_calls_only_built env c ctx .queryAuthenticated MethodPost
      op.endpoint params none result req trace hb)
    have hm : req.Method = "POST" := by rw [hreq]; rfl
    refine ⟨hm, by rw [hm]; decide, by rw [hm]; decide, by rw [hm]; decide, fun _ => by rw [hreq]; exact hurl params,
      (fun h => nomatch h), (fun h => nomatch h), hslash, hquery, hcalls, hreg⟩
  · rw [hh] at hbuild
    have hb : c.DispatchBuild env ctx .queryAuthenticated MethodPost op.endpoint none body
        = .ok (req, trace) := hbuild
    obtain ⟨_, _, _, _, hreq, _⟩ :=
      doRequestBuild_ok env c ctx MethodPost op.endpoint none body req trace hbuild
    have hcalls := (dispatch_calls_only_built env c ctx .queryAuthenticated MethodPost
      op.endpoint none body result req trace hb)
    have hm : req.Method = "POST" := by rw [hreq]; rfl
    refine ⟨hm, by rw [hm]; decide, by rw [hm]; decide, by rw [hm]; decide, (fun h => nomatch h), fun _ => by rw [hreq]; exact hurl none,
      (fun h => nomatch h), hslash, hquery, hcalls, hreg⟩
  · rw [hh] at hbuild
    have hb : c.DispatchBuild env ctx .bodyAuthenticatedOrNone MethodPost op.endpoint none body
        = .ok (req, trace) := hbuild
    obtain ⟨_, _, _, _, hreq, _⟩ :=
      doJSONRequestNoAuthBuild_ok env c ctx op.endpoint body req trace hbuild
    have hcalls := (dispatch_calls_only_built env c ctx .bodyAuthenticatedOrNone MethodPost
      op.endpoint none body result req trace hb)
    have hm : req.Method = "POST" := by rw [hreq]; rfl
    refine ⟨hm, by rw [hm]; decide, by rw [hm]; decide, by rw [hm]; decide, (fun h => nomatch h), (fun h => nomatch h),
      fun _ => by rw [hreq], hslash, hquery, hcalls, hreg⟩

/-- C20, witness: `Payments.Recurrent` of the table, with the body `{"a":"b"}`. -/
theorem operations_post_to_base_and_endpoint_witness :
    (⟨"Payments", "Recurrent", .doJSONRequestNoAuth, "/recurrentPayment.do"⟩ : Operation)
      ∈ operations ∧
    (cannedClient 200 "").helperBuild rawEnv ⟨0⟩ .doJSONRequestNoAuth "/recurrentPayment.do"
        none (some "\x7b\"a\":\"b\"\x7d")
      = .ok (⟨⟨0⟩, "POST", "https://alfa.rbsuat.com/payment/recurrentPayment.do",
          some "\x7b\"a\":\"b\"\x7d",
          [("Content-Type", "application/json"), ("Accept", "application/json")]⟩,
        [Event.marshal,
          Event.newRequest "POST" "https://alfa.rbsuat.com/payment/recurrentPayment.do"]) ∧
    MethodPost = "POST" :=
  ⟨by decide, rfl,
    (operations_post_to_base_and_endpoint rawEnv (cannedClient 200 "") ⟨0⟩
      ⟨"Payments", "Recurrent", .doJSONRequestNoAuth, "/recurrentPayment.do"⟩ none
      (some "\x7b\"a\":\"b\"\x7d") (some RegisterOrderResponse.zero)
      ⟨⟨0⟩, "POST", "https://alfa.rbsuat.com/payment/recurrentPayment.do",
        some "\x7b\"a\":\"b\"\x7d",
        [("Content-Type", "application/json"), ("Accept", "application/json")]⟩ _
      (by decide) rfl).1⟩

/-! ## The JSON body of a request record -/

section EncoderLemmas

theorem encodeFields_cons (ff : Float64 → Option String) (name : String) (omitempty : Bool)
    (t : GoType) (fields : List (String × Bool × GoType)) (v : GoValue) (vs : List GoValue) :
    encodeFields ff ((name, omitempty, t) :: fields) (v :: vs)
      = if omitempty && isEmptyValue v then encodeFields ff fields vs
        else
          match encode ff t v, encodeFields ff fields vs with
          | some j, some ms => some ((name, j) :: ms)
          | _, _ => none := by
  rw [encodeFields]

theorem encodeFields_kept (ff : Float64 → Option String) (name : String) (omitempty : Bool)
    (t : GoType) (fields : List (String × Bool × GoType)) (v : GoValue) (vs : List GoValue)
    (ms : List (String × JSON)) (hkeep : (omitempty && isEmptyValue v) = false)
    (h : encodeFields ff ((name, omitempty, t) :: fields) (v :: vs) = some ms) :
    ∃ j rest, encode ff t v = some j ∧ encodeFields ff fields vs = some rest ∧
      ms = (name, j) :: rest := by
  rw [encodeFields_cons, hkeep] at h
  simp only [Bool.false_eq_true, if_false] at h
  cases hj : encode ff t v with
  | none => rw [hj] at h; simp at h
  | some j =>
    cases hr : encodeFields ff fields vs with
    | none => rw [hj, hr] at h; simp at h
    | some rest =>
      rw [hj, hr] at h
      simp only [Option.some.injEq] at h
      exact ⟨j, rest, rfl, rfl, h.symm⟩

theorem encodeFields_length (ff : Float64 → Option String) :
    ∀ (fields : List (String × Bool × GoType)) (vs : List GoValue) (ms : List (String × JSON)),
      encodeFields ff fields vs = some ms → fields.length = vs.length
  | [], [], _, _ => rfl
  | [], _ :: _, _, h => by simp [encodeFields] at h
  | _ :: _, [], _, h => by simp [encodeFields] at h
  | (name, omitempty, t) :: fields, v :: vs, ms, h => by
    cases hkeep : (omitempty && isEmptyValue v) with
    | true =>
      rw [encodeFields_cons, hkeep] at h
      simp only [if_true] at h
      simp [encodeFields_length ff fields vs ms h]
    | false =>
      obtain ⟨j, rest, -, hr, -⟩ := encodeFields_kept ff name omitempty t fields v vs ms hkeep h
      simp [encodeFields_length ff fields vs rest hr]

theorem encodeFields_names (ff : Float64 → Option String) :
    ∀ (fields : List (String × Bool × GoType)) (vs : List GoValue) (ms : List (String × JSON)),
      encodeFields ff fields vs = some ms →
      ∀ name ∈ ms.map Prod.fst, name ∈ fields.map Prod.fst
  | [], [], ms, h => by
    simp only [encodeFields, Option.some.injEq] at h
    subst h
    intro name hn
    simp at hn
  | [], _ :: _, _, h => by simp [encodeFields] at h
  | _ :: _, [], _, h => by simp [encodeFields] at h
  | (name, omitempty, t) :: fields, v :: vs, ms, h => by
    intro key hkey
    cases hkeep : (omitempty && isEmptyValue v) with
    | true =>
      rw [encodeFields_cons, hkeep] at h
      simp only [if_true] at h
      exact List.mem_cons_of_mem _ (encodeFields_names ff fields vs ms h key hkey)
    | false =>
      obtain ⟨j, rest, -, hr, hms⟩ := encodeFields_kept ff name omitempty t fields v vs ms hkeep h
      subst hms
      simp only [List.map_cons, List.mem_cons] at hkey ⊢
      rcases hkey with hk | hk
      · exact Or.inl hk
      · exact Or.inr (encodeFields_names ff fields vs rest hr key hk)

/-- The members written for a struct, field by field: a field that is tagged
`omitempty` and empty has no member; every other field has exactly one member,
whose value is the encoding of the field. -/
theorem encodeFields_members (ff : Float64 → Option String) :
    ∀ (fields : List (String × Bool × GoType)) (vs : List GoValue) (ms : List (String × JSON)),
      (fields.map Prod.fst).Nodup → encodeFields ff fields vs = some ms →
      ∀ f v, (f, v) ∈ fields.zip vs →
        ((f.2.1 && isEmptyValue v) = true → f.1 ∉ ms.map Prod.fst) ∧
        ((f.2.1 && isEmptyValue v) = false →
          ∃ j, encode ff f.2.2 v = some j ∧ ∀ j', (f.1, j') ∈ ms ↔ j' = j)
  | [], _, _, _, _ => by
    intro f v hm
    simp at hm
  | _ :: _, [], _, _, h => by simp [encodeFields] at h
  | (name, omitempty, t) :: fields, v :: vs, ms, hnd, h => by
    intro f w hm
    simp only [List.map_cons, List.nodup_cons] at hnd
    simp only [List.zip_cons_cons, List.mem_cons, Prod.mk.injEq] at hm
    cases hkeep : (omitempty && isEmptyValue v) with
    | true =>
      have h' := h
      rw [encodeFields_cons, hkeep] at h'
      simp only [if_true] at h'
      rcases hm with ⟨hf, hw⟩ | hm
      · subst hf; subst hw
        refine ⟨fun _ hmem => hnd.1 (encodeFields_names ff fields vs ms h' _ hmem), ?_⟩
        intro hk
        rw [hkeep] at hk
        cases hk
      · exact encodeFields_members ff fields vs ms hnd.2 h' f w hm
    | false =>
      obtain ⟨j, rest, hj, hr, hms⟩ :=
        encodeFields_kept ff name omitempty t fields v vs ms hkeep h
      subst hms
      rcases hm with ⟨hf, hw⟩ | hm
      · subst hf; subst hw
        refine ⟨fun hk => ?_, fun _ => ⟨j, hj, fun j' => ?_⟩⟩
        · rw [hkeep] at hk
          cases hk
        · constructor
          · intro hmem
            simp only [List.mem_cons, Prod.mk.injEq, true_and] at hmem
            rcases hmem with hmem | hmem
            · exact hmem
            · exact absurd (encodeFields_names ff fields vs rest hr name
                (List.mem_map_of_mem Prod.fst hmem)) hnd.1
          · intro hj'
            subst hj'
            exact List.mem_cons_self _ _
      · have hne : f.1 ≠ name := by
          intro hfn
          apply hnd.1
          rw [← hfn]
          exact List.mem_map_of_mem Prod.fst (List.of_mem_zip hm).1
        obtain ⟨h1, h2⟩ := encodeFields_members ff fields vs rest hnd.2 hr f w hm
        refine ⟨fun hk hmem => ?_, fun hk => ?_⟩
        · simp only [List.map_cons, List.mem_cons] at hmem
          rcases hmem with hmem | hmem
          · exact hne hmem
          · exact h1 hk hmem
        · obtain ⟨j', hj', hiff⟩ := h2 hk
          refine ⟨j', hj', fun j'' => ?_⟩
          rw [← hiff j'']
          simp only [List.mem_cons, Prod.mk.injEq]
          constructor
          · rintro (⟨hfn, -⟩ | hmem)
            · exact absurd hfn hne
            · exact hmem
          · exact fun hmem => Or.inr hmem

theorem encodeFields_append (ff : Float64 → Option String) :
    ∀ (fields : List (String × Bool × GoType)) (vs : List GoValue)
      (more : List (String × Bool × GoType)) (ws : List GoValue)
      (ms ns : List (String × JSON)),
      encodeFields ff fields vs = some ms → encodeFields ff more ws = some ns →
      encodeFields ff (fields ++ more) (vs ++ ws) = some (ms ++ ns)
  | [], [], more, ws, ms, ns, h, h' => by
    simp only [encodeFields, Option.some.injEq] at h
    subst h
    simpa using h'
  | [], _ :: _, _, _, _, _, h, _ => by simp [encodeFields] at h
  | _ :: _, [], _, _, _, _, h, _ => by simp [encodeFields] at h
  | (name, omitempty, t) :: fields, v :: vs, more, ws, ms, ns, h, h' => by
    rw [List.cons_append, List.cons_append, encodeFields_cons]
    cases hkeep : (omitempty && isEmptyValue v) with
    | true =>
      rw [encodeFields_cons, hkeep] at h
      simp only [if_true] at h ⊢
      exact encodeFields_append ff fields vs more ws ms ns h h'
    | false =>
      obtain ⟨j, rest, hj, hr, hms⟩ :=
        encodeFields_kept ff name omitempty t fields v vs ms hkeep h
      subst hms
      simp only [Bool.false_eq_true, if_false]
      rw [hj, encodeFields_append ff fields vs more ws rest ns hr h']
      rfl

/-- A JSON-style call without query credentials whose body is serialized and whose
URL is accepted: the calls made are the serialization, the construction of a POST
request to the base address followed by the endpoint, and one HTTP call that
carries the serialized body and the two JSON headers. -/
theorem noAuth_trace_of_marshal {E B T : Type} (env : Env E B T) (c : Client E) (ctx : Context)
    (endpoint : String) (b : B) (result : Option T) (jsonBody : String)
    (hM : env.Marshal b = .ok jsonBody)
    (hN : env.NewRequestErr ctx MethodPost (c.baseURL ++ endpoint) = none) :
    ∃ tail, (c.doJSONRequestNoAuth env ctx endpoint (some b) result).trace
        = [Event.marshal, Event.newRequest "POST" (c.baseURL ++ endpoint),
            Event.httpDo ⟨ctx, "POST", c.baseURL ++ endpoint, some jsonBody,
              [("Content-Type", "application/json"), ("Accept", "application/json")]⟩] ++ tail ∧
      httpCalls tail = 0 := by
  have hb : c.doJSONRequestNoAuthBuild env ctx endpoint (some b)
      = .ok (⟨ctx, "POST", c.baseURL ++ endpoint, some jsonBody,
              [("Content-Type", "application/json"), ("Accept", "application/json")]⟩,
            [Event.marshal, Event.newRequest "POST" (c.baseURL ++ endpoint)]) := by
    simp only [Client.doJSONRequestNoAuthBuild, marshalBody, hM, hN]
    rfl
  obtain ⟨tail, ht, hc⟩ := roundTrip_trace_shape env c
    ⟨ctx, "POST", c.baseURL ++ endpoint, some jsonBody,
      [("Content-Type", "application/json"), ("Accept", "application/json")]⟩ result
    [Event.marshal, Event.newRequest "POST" (c.baseURL ++ endpoint)]
  refine ⟨tail, ?_, hc⟩
  simp only [Client.doJSONRequestNoAuth, hb]
  rw [ht]
  rfl

theorem reply_trace {E T : Type} (out : Outcome E T) :
    (match out.err with
      | some err => (⟨none, some err, out.trace⟩ : Reply E T)
      | none => ⟨out.result, none, out.trace⟩).trace = out.trace := by
  cases out.err <;> rfl

end EncoderLemmas

/-- C12, counterexample: an Apple Pay request whose order bundle has a cart with no
items set is sent with the member `"items":null`: `CartItems.Items` has no
`omitempty` tag, so the unset field is written, as `null`. -/
theorem applePay_unset_items_sent_as_null :
    (ApplePayService.Payment (jsonEnv zeroFloatOnly ignoreBody) ()
        ⟨scriptedClient (.error "no network")⟩ ⟨0⟩ (.ptr applePayEmptyCartRequest)).trace
      = [Event.marshal,
          Event.newRequest "POST" "https://alfa.rbsuat.com/payment/applepay/payment.do",
          Event.httpDo ⟨⟨0⟩, "POST", "https://alfa.rbsuat.com/payment/applepay/payment.do",
            some "\x7b\"merchant\":\"your-merchant-name\",\"orderNumber\":\"ORDER-AP-001\",\"paymentToken\":\"base64-encoded-apple-pay-token\",\"email\":\"customer@example.com\",\"amount\":150000,\"orderBundle\":\x7b\"cartItems\":\x7b\"items\":null\x7d\x7d\x7d",
            [("Content-Type", "application/json"), ("Accept", "application/json")]⟩] ∧
    hasType Schema.ApplePayPaymentRequest applePayEmptyCartRequest = true := by
  decide

/-- C12, amended: the body `ApplePay.Payment` sends is the compact text of one
object whose members are those of the request struct, and in every struct that is
encoded, at any depth, a field has a member exactly when it is not both tagged
`omitempty` and empty (false, 0, the empty string, a nil pointer, an empty map or
slice); the member is unique and its value is the encoding of the field. A field
without `omitempty` is therefore always written: an unset string as `""`, an
unset pointer or slice as `null`. -/
theorem applePay_body_omits_only_empty_omitempty_fields {T : Type}
    (ff : Float64 → Option String) (env : Env String Typed T) (zero : T)
    (s : ApplePayService String) (ctx : Context) (vs : List GoValue)
    (ms : List (String × JSON))
    (hM : env.Marshal = Marshal ff)
    (hN : env.NewRequestErr ctx MethodPost (s.client.baseURL ++ "/applepay/payment.do") = none)
    (henc : encodeFields ff Schema.ApplePayPaymentRequest.fields vs = some ms) :
    (∃ tail, (ApplePayService.Payment env zero s ctx (.ptr (.struct vs))).trace
        = [Event.marshal,
            Event.newRequest "POST" (s.client.baseURL ++ "/applepay/payment.do"),
            Event.httpDo ⟨ctx, "POST", s.client.baseURL ++ "/applepay/payment.do",
              some (String.mk (render (.object ms))),
              [("Content-Type", "application/json"), ("Accept", "application/json")]⟩] ++ tail ∧
      httpCalls tail = 0) ∧
    (∀ (fields : List (String × Bool × GoType)) (ws : List GoValue) (ns : List (String × JSON)),
      (fields.map Prod.fst).Nodup → encodeFields ff fields ws = some ns →
      encode ff (.struct fields) (.struct ws) = some (.object ns) ∧
      ∀ f v, (f, v) ∈ fields.zip ws →
        ((f.2.1 && isEmptyValue v) = true → f.1 ∉ ns.map Prod.fst) ∧
        ((f.2.1 && isEmptyValue v) = false →
          ∃ j, encode ff f.2.2 v = some j ∧ ∀ j', (f.1, j') ∈ ns ↔ j' = j)) ∧
    (Schema.ApplePayPaymentRequest.fields.map Prod.fst).Nodup ∧
    (∀ t, encode ff (.ptr t) .nil = some .null ∧ encode ff (.slice t) .nil = some .null) ∧
    encode ff .string (.string "") = some (.string "") := by
  refine ⟨?_, ?_, by decide, fun t => ⟨?_, ?_⟩, ?_⟩
  · have hbody : env.Marshal ⟨.ptr Schema.ApplePayPaymentRequest, .ptr (.struct vs)⟩
        = .ok (String.mk (render (.object ms))) := by
      have he : encode ff (.ptr Schema.ApplePayPaymentRequest) (.ptr (.struct vs))
          = some (.object ms) := by
        rw [encode]
        show encode ff (.struct Schema.ApplePayPaymentRequest.fields) (.struct vs) = _
        rw [encode, henc]
        rfl
      rw [hM]
      simp only [Marshal, he]
    obtain ⟨tail, ht, hc⟩ := noAuth_trace_of_marshal env s.client ctx "/applepay/payment.do"
      ⟨.ptr Schema.ApplePayPaymentRequest, .ptr (.struct vs)⟩ (some zero) _ hbody hN
    refine ⟨tail, ?_, hc⟩
    rw [← ht]
    exact reply_trace _
  · intro fields ws ns hnd h
    refine ⟨?_, encodeFields_members ff fields ws ns hnd h⟩
    rw [encode, h]
    rfl
  · rw [encode]
  · rw [encode]
  · rw [encode]

/-- C12, witness: the request of `Example_applePayPayment` is sent with exactly the
members merchant, orderNumber, paymentToken, email and amount. -/
theorem applePay_body_omits_only_empty_omitempty_fields_witness :
    ∃ tail, (ApplePayService.Payment (jsonEnv zeroFloatOnly ignoreBody) ()
        ⟨scriptedClient (.error "no network")⟩ ⟨0⟩ (.ptr applePayExampleRequest)).trace
      = [Event.marshal,
          Event.newRequest "POST" "https://alfa.rbsuat.com/payment/applepay/payment.do",
          Event.httpDo ⟨⟨0⟩, "POST", "https://alfa.rbsuat.com/payment/applepay/payment.do",
            some "\x7b\"merchant\":\"your-merchant-name\",\"orderNumber\":\"ORDER-AP-001\",\"paymentToken\":\"base64-encoded-apple-pay-token\",\"email\":\"customer@example.com\",\"amount\":150000\x7d",
            [("Content-Type", "application/json"), ("Accept", "application/json")]⟩] ++ tail ∧
      httpCalls tail = 0 :=
  (applePay_body_omits_only_empty_omitempty_fields zeroFloatOnly
    (jsonEnv zeroFloatOnly ignoreBody) () ⟨scriptedClient (.error "no network")⟩ ⟨0⟩
    (literalFields Schema.ApplePayPaymentRequest.fields
      [ ("merchant", .string "your-merchant-name"),
        ("orderNumber", .string "ORDER-AP-001"),
        ("paymentToken", .string "base64-encoded-apple-pay-token"),
        ("amount", .int 150000),
        ("email", .string "customer@example.com") ])
    [ ("merchant", .string "your-merchant-name"),
      ("orderNumber", .string "ORDER-AP-001"),
      ("paymentToken", .string "base64-encoded-apple-pay-token"),
      ("email", .string "customer@example.com"),
      ("amount", .number "150000") ]
    rfl rfl rfl).1

/-! ## Credentials in the body: `Payments.Recurrent` -/

theorem recurrent_body_encode {E : Type} (ff : Float64 → Option String) (s : PaymentService E)
    (vs : List GoValue) :
    encode ff (s.recurrentReqWithAuth (.ptr (.struct vs))).type
        (s.recurrentReqWithAuth (.ptr (.struct vs))).value
      = (encodeFields ff (Schema.RecurrentPaymentRequest.fields ++ recurrentAuthFields)
          (vs ++ [.string s.client.userName, .string s.client.password])).map JSON.object := by
  simp only [PaymentService.recurrentReqWithAuth]
  rw [encode, encode]

theorem recurrent_auth_encode (ff : Float64 → Option String) (userName password : String) :
    encodeFields ff recurrentAuthFields [.string userName, .string password]
      = some [("userName", .string userName), ("password", .string password)] := by
  simp [recurrentAuthFields, encodeFields, encode]

theorem encodeFields_append_none (ff : Float64 → Option String) :
    ∀ (fields : List (String × Bool × GoType)) (vs : List GoValue)
      (more : List (String × Bool × GoType)) (ws : List GoValue),
      fields.length = vs.length → encodeFields ff fields vs = none →
      encodeFields ff (fields ++ more) (vs ++ ws) = none
  | [], [], _, _, _, h => by simp [encodeFields] at h
  | [], _ :: _, _, _, hl, _ => by simp at hl
  | _ :: _, [], _, _, hl, _ => by simp at hl
  | (name, omitempty, t) :: fields, v :: vs, more, ws, hl, h => by
    simp only [List.length_cons, Nat.add_right_cancel_iff] at hl
    rw [List.cons_append, List.cons_append, encodeFields_cons]
    rw [encodeFields_cons] at h
    cases hkeep : (omitempty && isEmptyValue v) with
    | true =>
      rw [hkeep] at h
      simp only [if_true] at h ⊢
      exact encodeFields_append_none ff fields vs more ws hl h
    | false =>
      rw [hkeep] at h
      simp only [Bool.false_eq_true, if_false] at h ⊢
      cases hj : encode ff t v with
      | none => rfl
      | some j =>
        cases hr : encodeFields ff fields vs with
        | none => rw [encodeFields_append_none ff fields vs more ws hl hr]
        | some rest => rw [hj, hr] at h; simp at h

/-- C14: `Payments.Recurrent` puts the credentials in the JSON body and nowhere
else. For a request that can be serialized, exactly one HTTP call is made: a POST
to the base address followed by `/recurrentPayment.do`, with nothing appended,
with only the `Content-Type` and `Accept` headers, and with a body that is the
compact text of one object: the encoded fields of the request, then `userName` and
`password` with the client's credentials. No field of the request is named
`userName` or `password`. A request that cannot be serialized (a float that is not
finite in its bundle) is not sent at all. -/
theorem recurrent_credentials_in_body_only {T : Type} (ff : Float64 → Option String)
    (env : Env String Typed T) (zero : T) (s : PaymentService String) (ctx : Context)
    (vs : List GoValue)
    (hM : env.Marshal = Marshal ff)
    (hN : env.NewRequestErr ctx MethodPost (s.client.baseURL ++ "/recurrentPayment.do") = none)
    (hlen : vs.length = Schema.RecurrentPaymentRequest.fields.length) :
    (∀ ms, encodeFields ff Schema.RecurrentPaymentRequest.fields vs = some ms →
      (∃ tail, (PaymentService.Recurrent env zero s ctx (.ptr (.struct vs))).trace
          = [Event.marshal,
              Event.newRequest "POST" (s.client.baseURL ++ "/recurrentPayment.do"),
              Event.httpDo ⟨ctx, "POST", s.client.baseURL ++ "/recurrentPayment.do",
                some (String.mk (render (.object (ms ++
                  [("userName", .string s.client.userName),
                    ("password", .string s.client.password)])))),
                [("Content-Type", "application/json"), ("Accept", "application/json")]⟩]
            ++ tail ∧
        httpCalls tail = 0) ∧
      "userName" ∉ ms.map Prod.fst ∧ "password" ∉ ms.map Prod.fst) ∧
    (encodeFields ff Schema.RecurrentPaymentRequest.fields vs = none →
      (PaymentService.Recurrent env zero s ctx (.ptr (.struct vs))).trace = [Event.marshal] ∧
      (PaymentService.Recurrent env zero s ctx (.ptr (.struct vs))).err
        = some (.wrapError "failed to marshal request body" "json: unsupported value")) := by
  constructor
  · intro ms henc
    refine ⟨?_, ?_, ?_⟩
    · have hbody : env.Marshal (s.recurrentReqWithAuth (.ptr (.struct vs)))
          = .ok (String.mk (render (.object (ms ++
              [("userName", .string s.client.userName),
                ("password", .string s.client.password)])))) := by
        rw [hM]
        simp only [Marshal, recurrent_body_encode,
          encodeFields_append ff _ _ _ _ _ _ henc
            (recurrent_auth_encode ff s.client.userName s.client.password), Option.map_some']
      obtain ⟨tail, ht, hc⟩ := noAuth_trace_of_marshal env s.client ctx "/recurrentPayment.do"
        (s.recurrentReqWithAuth (.ptr (.struct vs))) (some zero) _ hbody hN
      refine ⟨tail, ?_, hc⟩
      rw [← ht]
      exact reply_trace _
    · intro hmem
      have := encodeFields_names ff _ _ _ henc _ hmem
      revert this
      decide
    · intro hmem
      have := encodeFields_names ff _ _ _ henc _ hmem
      revert this
      decide
  · intro hnone
    have hbody : env.Marshal (s.recurrentReqWithAuth (.ptr (.struct vs)))
        = .error "json: unsupported value" := by
      rw [hM]
      simp only [Marshal, recurrent_body_encode,
        encodeFields_append_none ff _ _ recurrentAuthFields
          [.string s.client.userName, .string s.client.password] hlen.symm hnone, Option.map_none']
    have hout : s.client.doJSONRequestNoAuth env ctx "/recurrentPayment.do"
        (some (s.recurrentReqWithAuth (.ptr (.struct vs)))) (some zero)
        = ⟨some (.wrapError "failed to marshal request body" "json: unsupported value"),
            some zero, [Event.marshal]⟩ := by
      simp only [Client.doJSONRequestNoAuth, Client.doJSONRequestNoAuthBuild, marshalBody, hbody]
    simp only [PaymentService.Recurrent, hout]
    exact ⟨trivial, trivial⟩

/-- C14, witness: the request of `Example_recurrentPayment`, sent by the client of
the example. -/
theorem recurrent_credentials_in_body_only_witness :
    ∃ tail, (PaymentService.Recurrent (jsonEnv zeroFloatOnly ignoreBody) ()
        ⟨scriptedClient (.error "no network")⟩ ⟨0⟩ (.ptr recurrentExampleRequest)).trace
      = [Event.marshal,
          Event.newRequest "POST" "https://alfa.rbsuat.com/payment/recurrentPayment.do",
          Event.httpDo ⟨⟨0⟩, "POST", "https://alfa.rbsuat.com/payment/recurrentPayment.do",
            some "\x7b\"orderNumber\":\"SUB-12345-202311\",\"bindingId\":\"saved-binding-id\",\"amount\":99900,\"description\":\"Monthly subscription payment\",\"userName\":\"your-username\",\"password\":\"your-password\"\x7d",
            [("Content-Type", "application/json"), ("Accept", "application/json")]⟩] ++ tail ∧
      httpCalls tail = 0 :=
  ((recurrent_credentials_in_body_only zeroFloatOnly
    (jsonEnv zeroFloatOnly ignoreBody) () ⟨scriptedClient (.error "no network")⟩ ⟨0⟩
    (literalFields Schema.RecurrentPaymentRequest.fields
      [ ("orderNumber", .string "SUB-12345-202311"),
        ("bindingId", .string "saved-binding-id"),
        ("amount", .int 99900),
        ("description", .string "Monthly subscription payment") ])
    rfl rfl rfl).1
    [ ("orderNumber", .string "SUB-12345-202311"),
      ("bindingId", .string "saved-binding-id"),
      ("amount", .number "99900"),
      ("description", .string "Monthly subscription payment") ]
    rfl).1

/-! ## The decoder never reads more than the text -/

section ScanLemmas

theorem skipWS_length (cs : List Char) : (skipWS cs).length ≤ cs.length := by
  induction cs with
  | nil => simp [skipWS]
  | cons c rest ih =>
    simp only [skipWS]
    split
    · exact Nat.le_succ_of_le ih
    · exact Nat.le_refl _

theorem takeDigits_append (cs : List Char) : (takeDigits cs).1 ++ (takeDigits cs).2 = cs := by
  induction cs with
  | nil => simp [takeDigits]
  | cons c rest ih =>
    simp only [takeDigits]
    split
    · simp [ih]
    · simp

theorem takeDigits_length (cs : List Char) : (takeDigits cs).2.length ≤ cs.length := by
  have h := congrArg List.length (takeDigits_append cs)
  simp only [List.length_append] at h
  omega

theorem scanUnits_weight :
    ∀ (n : Nat) (cs : List Char) (acc us : List StrUnit) (rest : List Char),
      cs.length ≤ n → scanUnits cs acc = some (us, rest) →
      ∃ new, us = acc.reverse ++ new ∧ rest.length + 1 + (new.map unitWeight).sum ≤ cs.length := by
  intro n
  induction n with
  | zero =>
    intro cs acc us rest hn h
    have : cs = [] := List.length_eq_zero.mp (Nat.le_zero.mp hn)
    subst this
    simp [scanUnits] at h
  | succ n ih =>
    intro cs acc us rest hn h
    unfold scanUnits at h
    split at h
    · cases h
    · simp only [Option.some.injEq, Prod.mk.injEq] at h
      obtain ⟨h1, h2⟩ := h
      subst h1; subst h2
      exact ⟨[], by simp, by simp⟩
    · rename_i a b c d rest'
      split at h
      · cases h
      · rename_i x hx
        simp only [List.length_cons] at hn
        obtain ⟨new, hnew, hlen⟩ := ih rest' _ us rest (by omega) h
        refine ⟨StrUnit.u16 x :: new, by simpa using hnew, ?_⟩
        simp only [List.map_cons, List.sum_cons, unitWeight, List.length_cons]
        omega
    · rename_i e rest' hnot
      split at h
      · cases h
      · rename_i c hc
        simp only [List.length_cons] at hn
        obtain ⟨new, hnew, hlen⟩ := ih rest' _ us rest (by omega) h
        refine ⟨StrUnit.lit c :: new, by simpa using hnew, ?_⟩
        simp only [List.map_cons, List.sum_cons, unitWeight, List.length_cons]
        split <;> omega
    · rename_i c rest' h1 h2 h3
      split at h
      · cases h
      · rename_i hc
        simp only [List.length_cons] at hn
        obtain ⟨new, hnew, hlen⟩ := ih rest' _ us rest (by omega) h
        refine ⟨StrUnit.lit c :: new, by simpa using hnew, ?_⟩
        have hq : ¬ (c = '"' ∨ c = '\\') := by
          rintro (hq | hq)
          · exact h1 hq
          · simp [hq] at hc
        simp only [List.map_cons, List.sum_cons, unitWeight, List.length_cons]
        simp only [Bool.or_eq_true, decide_eq_true_eq, hq, if_false]
        omega

theorem quoteCount_cons (c : Char) (l : List Char) :
    quoteCount (c :: l) = (if c = '"' || c = '\\' then 1 else 0) + quoteCount l := by
  simp only [quoteCount, List.filter_cons]
  split <;> simp [Nat.add_comm]

theorem quoteCount_cons_le (c : Char) (l : List Char) :
    quoteCount (c :: l) ≤ 1 + quoteCount l := by
  rw [quoteCount_cons]
  split <;> omega

theorem quoteCount_replacement (l : List Char) :
    quoteCount (Char.ofNat 0xFFFD :: l) = quoteCount l := by
  rw [quoteCount_cons]
  have : (Char.ofNat 0xFFFD = '"' || Char.ofNat 0xFFFD = '\\') = false := by decide
  rw [this]
  simp

theorem combineUnits_weight :
    ∀ (us : List StrUnit) (st : Option Nat),
      (combineUnits st us).length + quoteCount (combineUnits st us)
        ≤ (us.map unitWeight).sum + (if st.isSome then 1 else 0)
  | [], none => by simp [combineUnits, quoteCount]
  | [], some _ => by
    simp only [combineUnits, quoteCount_replacement]
    simp [quoteCount]
  | .lit c :: r, none => by
    have ih := combineUnits_weight r none
    simp only [Option.isSome_none, Bool.false_eq_true, if_false] at ih ⊢
    simp only [combineUnits, List.length_cons, List.map_cons, List.sum_cons, unitWeight,
      quoteCount_cons]
    by_cases hq : (c = '"' || c = '\\') = true
    · simp only [hq, if_true]; omega
    · rw [Bool.not_eq_true] at hq
      simp only [hq, Bool.false_eq_true, if_false]; omega
  | .lit c :: r, some _ => by
    have ih := combineUnits_weight r none
    simp only [Option.isSome_none, Bool.false_eq_true, if_false] at ih
    simp only [Option.isSome_some, if_true]
    simp only [combineUnits, quoteCount_replacement]
    simp only [List.length_cons, List.map_cons, List.sum_cons, unitWeight, quoteCount_cons]
    by_cases hq : (c = '"' || c = '\\') = true
    · simp only [hq, if_true]; omega
    · rw [Bool.not_eq_true] at hq
      simp only [hq, Bool.false_eq_true, if_false]; omega
  | .u16 x :: r, none => by
    have ih1 := combineUnits_weight r none
    have ih2 := combineUnits_weight r (some x)
    simp only [Option.isSome_none, Bool.false_eq_true, if_false] at ih1 ⊢
    simp only [Option.isSome_some, if_true] at ih2
    simp only [combineUnits, List.map_cons, List.sum_cons, unitWeight]
    split
    · omega
    · split
      · simp only [List.length_cons, quoteCount_replacement]
        omega
      · have := quoteCount_cons_le (Char.ofNat x) (combineUnits none r)
        simp only [List.length_cons]
        omega
  | .u16 x :: r, some hi => by
    have ih1 := combineUnits_weight r none
    have ih2 := combineUnits_weight r (some x)
    simp only [Option.isSome_none, Bool.false_eq_true, if_false] at ih1
    simp only [Option.isSome_some, if_true] at ih2 ⊢
    simp only [combineUnits, List.map_cons, List.sum_cons, unitWeight]
    split
    · have := quoteCount_cons_le (Char.ofNat ((hi - 0xD800) * 1024 + (x - 0xDC00) + 0x10000))
        (combineUnits none r)
      simp only [List.length_cons]
      omega
    · split
      · simp only [List.length_cons, quoteCount_replacement]
        omega
      · have := quoteCount_cons_le (Char.ofNat x) (combineUnits none r)
        simp only [List.length_cons, quoteCount_replacement]
        omega

/-- A string literal is read from at least as many characters as the string has,
plus its two quotes, plus one more for every double quote and backslash in the
string (each of which can only come from an escape). -/
theorem scanString_cost (cs : List Char) (s : String) (rest : List Char)
    (h : scanString cs = some (s, rest)) :
    rest.length + 1 + s.data.length + quoteCount s.data ≤ cs.length := by
  simp only [scanString, Option.map_eq_some'] at h
  obtain ⟨⟨us, rest'⟩, hscan, heq⟩ := h
  simp only [Prod.mk.injEq] at heq
  obtain ⟨hs, hr⟩ := heq
  subst hr
  obtain ⟨new, hnew, hlen⟩ := scanUnits_weight cs.length cs [] us rest' (Nat.le_refl _) hscan
  simp only [List.reverse_nil, List.nil_append] at hnew
  subst hnew
  have hw := combineUnits_weight us none
  simp only [Option.isSome_none, Bool.false_eq_true, if_false, Nat.add_zero] at hw
  rw [← hs]
  simp only
  omega

theorem scanNumber_stages (cs : List Char) :
    scanNumber cs =
      match numberInt (numberSign cs).2 with
      | none => none
      | some (ds, r1) =>
        match numberFrac r1 with
        | none => none
        | some (fs, r2) =>
          match numberExp r2 with
          | none => none
          | some (es, r3) => some ((numberSign cs).1 ++ ds ++ fs ++ es, r3) := rfl

theorem numberSign_append (cs : List Char) : (numberSign cs).1 ++ (numberSign cs).2 = cs := by
  unfold numberSign
  split <;> simp

theorem numberInt_append (cs ds r : List Char) (h : numberInt cs = some (ds, r)) :
    ds ++ r = cs := by
  unfold numberInt at h
  split at h
  · simp only [Option.some.injEq, Prod.mk.injEq] at h
    obtain ⟨rfl, rfl⟩ := h
    rfl
  · split at h
    · simp only [Option.some.injEq, Prod.mk.injEq] at h
      obtain ⟨rfl, rfl⟩ := h
      simp [takeDigits_append]
    · cases h
  · cases h

theorem numberFrac_append (cs ds r : List Char) (h : numberFrac cs = some (ds, r)) :
    ds ++ r = cs := by
  unfold numberFrac at h
  split at h
  · split at h
    · cases h
    · simp only [Option.some.injEq, Prod.mk.injEq] at h
      obtain ⟨rfl, rfl⟩ := h
      simp [takeDigits_append]
  · simp only [Option.some.injEq, Prod.mk.injEq] at h
    obtain ⟨rfl, rfl⟩ := h
    rfl

theorem numberExp_append (cs ds r : List Char) (h : numberExp cs = some (ds, r)) :
    ds ++ r = cs := by
  unfold numberExp at h
  split at h
  · split at h
    · simp only at h
      split at h
      · cases h
      · simp only [Option.some.injEq, Prod.mk.injEq] at h
        obtain ⟨rfl, rfl⟩ := h
        rw [List.append_assoc, takeDigits_append]
        split <;> simp
    · simp only [Option.some.injEq, Prod.mk.injEq] at h
      obtain ⟨rfl, rfl⟩ := h
      rfl
  · simp only [Option.some.injEq, Prod.mk.injEq] at h
    obtain ⟨rfl, rfl⟩ := h
    rfl

/-- A number literal is a prefix of the text it is read from. -/
theorem scanNumber_append (cs lit rest : List Char) (h : scanNumber cs = some (lit, rest)) :
    lit ++ rest = cs := by
  rw [scanNumber_stages] at h
  split at h
  · cases h
  · rename_i ds r1 hint
    split at h
    · cases h
    · rename_i fs r2 hfrac
      split at h
      · cases h
      · rename_i es r3 hexp
        simp only [Option.some.injEq, Prod.mk.injEq] at h
        obtain ⟨rfl, rfl⟩ := h
        have h1 := numberInt_append _ _ _ hint
        have h2 := numberFrac_append _ _ _ hfrac
        have h3 := numberExp_append _ _ _ hexp
        have h0 := numberSign_append cs
        simp only [List.append_assoc]
        rw [h3, h2, h1, h0]

end ScanLemmas

section ParseCost

theorem stringCost_le_textCost (v : JSON) : stringCost v ≤ textCost v := by
  cases v <;> simp [stringCost, textCost]

theorem parseValue_succ (fuel : Nat) (cs : List Char) :
    parseValue (fuel + 1) cs =
      match skipWS cs with
      | '"' :: rest => (scanString rest).map (fun p => (JSON.string p.1, p.2))
      | '\x7b' :: rest =>
        match skipWS rest with
        | '\x7d' :: r => some (JSON.object [], r)
        | r => parseMembers fuel r []
      | '[' :: rest =>
        match skipWS rest with
        | ']' :: r => some (JSON.array [], r)
        | r => parseElements fuel r []
      | 't' :: 'r' :: 'u' :: 'e' :: r => some (JSON.bool true, r)
      | 'f' :: 'a' :: 'l' :: 's' :: 'e' :: r => some (JSON.bool false, r)
      | 'n' :: 'u' :: 'l' :: 'l' :: r => some (JSON.null, r)
      | r => (scanNumber r).map (fun p => (JSON.number (String.mk p.1), p.2)) := rfl

theorem parseMembers_succ (fuel : Nat) (cs : List Char) (acc : List (String × JSON)) :
    parseMembers (fuel + 1) cs acc =
      match skipWS cs with
      | '"' :: rest =>
        match scanString rest with
        | none => none
        | some (key, r1) =>
          match skipWS r1 with
          | ':' :: r2 =>
            match parseValue fuel r2 with
            | none => none
            | some (v, r3) =>
              match skipWS r3 with
              | ',' :: r4 => parseMembers fuel r4 ((key, v) :: acc)
              | '\x7d' :: r4 => some (JSON.object ((key, v) :: acc).reverse, r4)
              | _ => none
          | _ => none
      | _ => none := rfl

theorem parseElements_succ (fuel : Nat) (cs : List Char) (acc : List JSON) :
    parseElements (fuel + 1) cs acc =
      match parseValue fuel cs with
      | none => none
      | some (v, r1) =>
        match skipWS r1 with
        | ',' :: r2 => parseElements fuel r2 (v :: acc)
        | ']' :: r2 => some (JSON.array (v :: acc).reverse, r2)
        | _ => none := rfl

theorem parseValue_zero (cs : List Char) : parseValue 0 cs = none := rfl

theorem parseMembers_zero (cs : List Char) (acc : List (String × JSON)) :
    parseMembers 0 cs acc = none := rfl

theorem parseElements_zero (cs : List Char) (acc : List JSON) :
    parseElements 0 cs acc = none := rfl

theorem parseCost_zero : ParseCostAt 0 := by
  refine ⟨?_, ?_, ?_⟩
  · intro cs v rest h
    simp [parseValue_zero] at h
  · intro cs acc j rest h
    simp [parseMembers_zero] at h
  · intro cs acc j rest h
    simp [parseElements_zero] at h

set_option maxHeartbeats 2000000 in
theorem parseCost_succ (fuel : Nat) (ih : ParseCostAt fuel) : ParseCostAt (fuel + 1) := by
  obtain ⟨ihv, ihm, ihe⟩ := ih
  refine ⟨?_, ?_, ?_⟩
  · intro cs v rest h
    have hws := skipWS_length cs
    rw [parseValue_succ] at h
    split at h
    · rename_i rest0 heq
      rw [heq] at hws
      simp only [Option.map_eq_some'] at h
      obtain ⟨⟨s, r⟩, hscan, hv⟩ := h
      simp only [Prod.mk.injEq] at hv
      obtain ⟨rfl, rfl⟩ := hv
      have := scanString_cost _ _ _ hscan
      simp only [textCost, stringCost, List.length_cons] at hws ⊢
      omega
    · rename_i rest0 heq
      rw [heq] at hws
      have hws0 := skipWS_length rest0
      simp only [List.length_cons] at hws
      split at h
      · rename_i r heq0
        rw [heq0] at hws0
        simp only [Option.some.injEq, Prod.mk.injEq] at h
        obtain ⟨rfl, rfl⟩ := h
        simp only [textCost, List.map_nil, List.sum_nil, List.length_cons] at hws0 ⊢
        omega
      · obtain ⟨new, hj, hlen⟩ := ihm _ _ _ _ h
        simp only [List.reverse_nil, List.nil_append] at hj
        subst hj
        simp only [textCost]
        omega
    · rename_i rest0 heq
      rw [heq] at hws
      have hws0 := skipWS_length rest0
      simp only [List.length_cons] at hws
      split at h
      · rename_i r heq0
        rw [heq0] at hws0
        simp only [Option.some.injEq, Prod.mk.injEq] at h
        obtain ⟨rfl, rfl⟩ := h
        simp only [textCost, List.length_cons] at hws0 ⊢
        omega
      · obtain ⟨⟨elems, hj⟩, hlen⟩ := ihe _ _ _ _ h
        subst hj
        simp only [textCost]
        omega
    · rename_i r heq
      rw [heq] at hws
      simp only [Option.some.injEq, Prod.mk.injEq] at h
      obtain ⟨rfl, rfl⟩ := h
      simp only [textCost, List.length_cons] at hws ⊢
      omega
    · rename_i r heq
      rw [heq] at hws
      simp only [Option.some.injEq, Prod.mk.injEq] at h
      obtain ⟨rfl, rfl⟩ := h
      simp only [textCost, List.length_cons] at hws ⊢
      omega
    · rename_i r heq
      rw [heq] at hws
      simp only [Option.some.injEq, Prod.mk.injEq] at h
      obtain ⟨rfl, rfl⟩ := h
      simp only [textCost, List.length_cons] at hws ⊢
      omega
    · simp only [Option.map_eq_some'] at h
      obtain ⟨⟨lit, r⟩, hscan, hv⟩ := h
      simp only [Prod.mk.injEq] at hv
      obtain ⟨rfl, rfl⟩ := hv
      have := congrArg List.length (scanNumber_append _ _ _ hscan)
      simp only [List.length_append] at this
      simp only [textCost]
      omega
  · intro cs acc j rest h
    have hws := skipWS_length cs
    rw [parseMembers_succ] at h
    split at h
    · rename_i rest0 heq
      rw [heq] at hws
      simp only [List.length_cons] at hws
      split at h
      · cases h
      · rename_i key r1 hscan
        have hkey := scanString_cost _ _ _ hscan
        have hws1 := skipWS_length r1
        split at h
        · rename_i r2 heq1
          rw [heq1] at hws1
          simp only [List.length_cons] at hws1
          split at h
          · cases h
          · rename_i v r3 hval
            have hv := ihv _ _ _ hval
            have hsc := stringCost_le_textCost v
            have hws3 := skipWS_length r3
            split at h
            · rename_i r4 heq3
              rw [heq3] at hws3
              simp only [List.length_cons] at hws3
              obtain ⟨new, hj, hlen⟩ := ihm _ _ _ _ h
              refine ⟨(key, v) :: new, ?_, ?_⟩
              · rw [hj]
                simp
              · simp only [List.map_cons, List.sum_cons, memberCost]
                omega
            · rename_i r4 heq3
              rw [heq3] at hws3
              simp only [List.length_cons] at hws3
              simp only [Option.some.injEq, Prod.mk.injEq] at h
              obtain ⟨rfl, rfl⟩ := h
              refine ⟨[(key, v)], by simp, ?_⟩
              simp only [List.map_cons, List.map_nil, List.sum_cons, List.sum_nil, memberCost]
              omega
            · cases h
        · cases h
    · cases h
  · intro cs acc j rest h
    rw [parseElements_succ] at h
    split at h
    · cases h
    · rename_i v r1 hval
      have hv := ihv _ _ _ hval
      have hws1 := skipWS_length r1
      split at h
      · rename_i r2 heq1
        rw [heq1] at hws1
        simp only [List.length_cons] at hws1
        obtain ⟨hj, hlen⟩ := ihe _ _ _ _ h
        exact ⟨hj, by omega⟩
      · rename_i r2 heq1
        rw [heq1] at hws1
        simp only [List.length_cons] at hws1
        simp only [Option.some.injEq, Prod.mk.injEq] at h
        obtain ⟨rfl, rfl⟩ := h
        exact ⟨⟨_, rfl⟩, by omega⟩
      · cases h

theorem parseCost (fuel : Nat) : ParseCostAt fuel := by
  induction fuel with
  | zero => exact parseCost_zero
  | succ n ih => exact parseCost_succ n ih

/-- A text that parses to an object is at least as long as the least text of its
members. -/
theorem parseJSON_object_cost (data : String) (members : List (String × JSON))
    (h : parseJSON data = some (.object members)) :
    1 + (members.map memberCost).sum ≤ data.data.length := by
  unfold parseJSON at h
  split at h
  · cases h
  · rename_i v rest hp
    split at h
    · simp only [Option.some.injEq] at h
      subst h
      have := (parseCost _).1 _ _ _ hp
      simp only [textCost] at this
      omega
    · cases h

end ParseCost

section AddParamsLemmas

theorem paramsJSONLoop_rest (es : List (String × String)) (acc : String) :
    (paramsJSONLoop es acc false).data = acc.data ++ es.flatMap (fun e => ',' :: entryText e) := by
  induction es generalizing acc with
  | nil => simp [paramsJSONLoop]
  | cons e es ih =>
    obtain ⟨k, v⟩ := e
    simp only [paramsJSONLoop, Bool.not_false, if_true, ih, String.data_append,
      List.flatMap_cons, entryText]
    simp [List.append_assoc]

theorem paramsJSONLoop_first (e : String × String) (es : List (String × String)) (acc : String) :
    (paramsJSONLoop (e :: es) acc true).data
      = acc.data ++ entryText e ++ es.flatMap (fun e => ',' :: entryText e) := by
  obtain ⟨k, v⟩ := e
  simp only [paramsJSONLoop, Bool.not_true, Bool.false_eq_true, if_false, paramsJSONLoop_rest,
    String.data_append, entryText]
  simp [List.append_assoc]

theorem intercalate_comma (x : List Char) (xs : List (List Char)) :
    List.intercalate [','] (x :: xs) = x ++ xs.flatMap (fun y => ',' :: y) := by
  induction xs generalizing x with
  | nil => simp [List.intercalate]
  | cons y ys ih =>
    have := ih y
    simp only [List.intercalate, List.intersperse, List.flatten_cons, List.flatMap_cons] at this ⊢
    rw [this]
    simp

/-- The text stored under `params`: the entries as they are, between quotes, with
colons and commas, in braces. -/
theorem paramsJSON_data (e : String × String) (es : List (String × String)) :
    (paramsJSON (e :: es)).data
      = '\x7b' :: List.intercalate [','] ((e :: es).map entryText) ++ ['\x7d'] := by
  simp only [paramsJSON, String.data_append, paramsJSONLoop_first, List.map_cons,
    intercalate_comma, List.flatMap_map]
  simp

theorem flatMap_entry_length (es : List (String × String)) :
    (es.flatMap (fun e => ',' :: entryText e)).length
      = (es.map (fun e => e.1.data.length + e.2.data.length + 6)).sum := by
  induction es with
  | nil => rfl
  | cons e es ih =>
    rw [List.flatMap_cons, List.length_append, ih]
    simp only [List.map_cons, List.sum_cons, entryText, List.length_cons, List.length_append,
      List.length_nil]
    omega

theorem paramsJSON_length (e : String × String) (es : List (String × String)) :
    (paramsJSON (e :: es)).data.length
      = 1 + ((e :: es).map (fun e => e.1.data.length + e.2.data.length + 6)).sum := by
  have h := flatMap_entry_length es
  simp only [paramsJSON, String.data_append, paramsJSONLoop_first, List.length_append, h,
    List.map_cons, List.sum_cons]
  simp only [entryText, List.length_cons, List.length_append, List.length_nil]
  omega

theorem quoteCount_pos (cs : List Char) (h : '"' ∈ cs ∨ '\\' ∈ cs) : 0 < quoteCount cs := by
  unfold quoteCount
  rw [List.length_pos_iff_exists_mem]
  rcases h with h | h
  · exact ⟨'"', List.mem_filter.mpr ⟨h, by decide⟩⟩
  · exact ⟨'\\', List.mem_filter.mpr ⟨h, by decide⟩⟩

theorem sum_map_le_of_subset {α : Type} (f : α → Nat) (l1 l2 : List α) (hnd : l1.Nodup)
    (hsub : l1 ⊆ l2) : (l1.map f).sum ≤ (l2.map f).sum := by
  classical
  obtain ⟨l, hperm, hsl⟩ := List.subperm_of_subset hnd hsub
  rw [← (hperm.map f).sum_eq]
  exact (hsl.map f).sum_le_sum (fun _ _ => Nat.zero_le _)

end AddParamsLemmas

/-! ## The hand-built JSON of `Orders.AddParams` -/

/-- C15, counterexample: a value with a backslash and a value with double quotes
for which the text stored under `params` is valid JSON. The value `a\nb` (with a
backslash) gives `{"note":"a\nb"}`, which is the JSON text of an object whose
member holds a line feed; the value `a","b":"c` gives `{"k":"a","b":"c"}`, the
JSON text of an object with two members. -/
theorem addParams_backslash_value_is_valid_json :
    (OrderService.AddParamsParams ⟨"order-1", some [("note", "a\\nb")], ""⟩).lookup "params"
      = ["\x7b\"note\":\"a\\nb\"\x7d"] ∧
    '\\' ∈ "a\\nb".data ∧
    parseJSON "\x7b\"note\":\"a\\nb\"\x7d" = some (.object [("note", .string "a\nb")]) ∧
    (OrderService.AddParamsParams ⟨"order-1", some [("k", "a\",\"b\":\"c")], ""⟩).lookup "params"
      = ["\x7b\"k\":\"a\",\"b\":\"c\"\x7d"] ∧
    '"' ∈ "a\",\"b\":\"c".data ∧
    parseJSON "\x7b\"k\":\"a\",\"b\":\"c\"\x7d"
      = some (.object [("k", .string "a"), ("b", .string "c")]) := by
  refine ⟨by decide, by decide, rfl, by decide, by decide, rfl⟩

/-- C15, amended: `Orders.AddParams` does not escape anything when it builds the
`params` JSON by hand. For a non-empty `Params` map the text stored under `params`
is the entries as they are, each key and value between double quotes, joined by
colons and commas inside braces. When a key or a value contains a double quote or
a backslash this text is never a JSON text of the map: either it is not valid JSON,
or it is the JSON text of an object that lacks an entry of `Params`. -/
theorem addParams_params_is_not_escaped (req : AddParamsRequest) (e : String × String)
    (es : List (String × String)) (hp : req.Params = some (e :: es))
    (hkeys : ((e :: es).map Prod.fst).Nodup) :
    (OrderService.AddParamsParams req).lookup "params" = [paramsJSON (e :: es)] ∧
    (paramsJSON (e :: es)).data
      = '\x7b' :: List.intercalate [','] ((e :: es).map entryText) ++ ['\x7d'] ∧
    ((∃ x ∈ e :: es, '"' ∈ x.1.data ∨ '\\' ∈ x.1.data ∨ '"' ∈ x.2.data ∨ '\\' ∈ x.2.data) →
      ∀ ms, parseJSON (paramsJSON (e :: es)) = some (.object ms) →
        ∃ x ∈ e :: es, (x.1, JSON.string x.2) ∉ ms) := by
  refine ⟨?_, paramsJSON_data e es, ?_⟩
  · simp only [OrderService.AddParamsParams, hp, StringMap.len, List.length_cons,
      Option.getD_some, lookup_ite_Set, lookup_Set, lookup_nil]
    simp
  · rintro ⟨x, hx, hq⟩ ms hparse
    by_contra hall
    simp only [not_exists, not_and, not_not] at hall
    have hcost := parseJSON_object_cost _ _ hparse
    rw [paramsJSON_length] at hcost
    have hnd : ((e :: es).map (fun x => (x.1, JSON.string x.2))).Nodup := by
      apply List.Nodup.of_map Prod.fst
      rw [List.map_map]
      exact hkeys
    have hsub : (e :: es).map (fun x => (x.1, JSON.string x.2)) ⊆ ms := by
      intro y hy
      obtain ⟨z, hz, rfl⟩ := List.mem_map.mp hy
      exact hall z hz
    have hsum := sum_map_le_of_subset memberCost _ ms hnd hsub
    rw [List.map_map] at hsum
    have hsplit : ((e :: es).map (memberCost ∘ fun x => (x.1, JSON.string x.2))).sum
        = ((e :: es).map (fun e => e.1.data.length + e.2.data.length + 6)).sum
          + ((e :: es).map (fun e => quoteCount e.1.data + quoteCount e.2.data)).sum := by
      generalize e :: es = l
      induction l with
      | nil => rfl
      | cons a l ih =>
        simp only [List.map_cons, List.sum_cons, ih, Function.comp, memberCost, stringCost]
        omega
    have hx1 : quoteCount x.1.data + quoteCount x.2.data
        ≤ ((e :: es).map (fun e => quoteCount e.1.data + quoteCount e.2.data)).sum :=
      List.single_le_sum (fun _ _ => Nat.zero_le _) _
        (List.mem_map_of_mem (fun e => quoteCount e.1.data + quoteCount e.2.data) hx)
    have hpos : 0 < quoteCount x.1.data + quoteCount x.2.data := by
      rcases hq with h | h | h | h
      · have := quoteCount_pos x.1.data (Or.inl h); omega
      · have := quoteCount_pos x.1.data (Or.inr h); omega
      · have := quoteCount_pos x.2.data (Or.inl h); omega
      · have := quoteCount_pos x.2.data (Or.inr h); omega
    omega

/-- C15, witness: for the value `say "hi"` the text stored under `params` is
`{"note":"say "hi""}`, which does not parse at all. -/
theorem addParams_params_is_not_escaped_witness :
    ((OrderService.AddParamsParams ⟨"order-1", some [("note", "say \"hi\"")], ""⟩).lookup "params"
        = ["\x7b\"note\":\"say \"hi\"\"\x7d"] ∧
      ∀ ms, parseJSON (paramsJSON [("note", "say \"hi\"")]) = some (.object ms) →
        ∃ x ∈ [("note", "say \"hi\"")], (x.1, JSON.string x.2) ∉ ms) ∧
    parseJSON (paramsJSON [("note", "say \"hi\"")]) = none :=
  ⟨⟨(addParams_params_is_not_escaped ⟨"order-1", some [("note", "say \"hi\"")], ""⟩
      ("note", "say \"hi\"") [] rfl (by decide)).1,
    (addParams_params_is_not_escaped ⟨"order-1", some [("note", "say \"hi\"")], ""⟩
      ("note", "say \"hi\"") [] rfl (by decide)).2.2
      ⟨("note", "say \"hi\""), List.mem_cons_self _ _, Or.inr (Or.inr (Or.inl (by decide)))⟩⟩,
   rfl⟩

section StringRoundTrip

theorem combineUnits_plain :
    ∀ (us : List StrUnit), (∀ u ∈ us, u.plain = true) → combineUnits none us = us.map unitChar
  | [], _ => rfl
  | .lit c :: r, h => by
    simp only [combineUnits, List.map_cons, unitChar]
    rw [combineUnits_plain r (fun u hu => h u (List.mem_cons_of_mem _ hu))]
  | .u16 x :: r, h => by
    have hx := h (.u16 x) (List.mem_cons_self _ _)
    simp only [StrUnit.plain, Bool.or_eq_true, decide_eq_true_eq] at hx
    have h1 : ¬ ((0xD800 ≤ x && x < 0xDC00) = true) := by
      simp only [Bool.and_eq_true, decide_eq_true_eq]
      omega
    have h2 : ¬ ((0xDC00 ≤ x && x < 0xE000) = true) := by
      simp only [Bool.and_eq_true, decide_eq_true_eq]
      omega
    rw [Bool.not_eq_true] at h1 h2
    simp only [combineUnits, h1, h2, Bool.false_eq_true, if_false, List.map_cons, unitChar]
    rw [combineUnits_plain r (fun u hu => h u (List.mem_cons_of_mem _ hu))]

theorem hexVal_lowerhex (n : Nat) (h : n < 16) : hexVal (lowerhex n) = some n := by
  interval_cases n <;> rfl

theorem scanUnits_quote (rest : List Char) (acc : List StrUnit) :
    scanUnits ('"' :: rest) acc = some (acc.reverse, rest) := by
  rw [scanUnits]

theorem scanUnits_simple (e c : Char) (rest : List Char) (acc : List StrUnit)
    (he : e ≠ 'u') (hs : simpleEscape e = some c) :
    scanUnits ('\\' :: e :: rest) acc = scanUnits rest (.lit c :: acc) := by
  conv_lhs => unfold scanUnits
  split
  · rename_i heq; cases heq
  · rename_i heq; cases heq
  · rename_i heq
    simp only [List.cons.injEq] at heq
    exact absurd heq.2.1 he
  · rename_i heq
    simp only [List.cons.injEq] at heq
    obtain ⟨_, rfl, rfl⟩ := heq
    rw [hs]
  · rename_i h1 h2 h3 heq
    simp only [List.cons.injEq] at heq
    obtain ⟨rfl, rfl⟩ := heq
    exact absurd rfl (h3 _ _ rfl)

theorem scanUnits_u16 (a b c d : Char) (n : Nat) (rest : List Char) (acc : List StrUnit)
    (h : hex4 a b c d = some n) :
    scanUnits ('\\' :: 'u' :: a :: b :: c :: d :: rest) acc = scanUnits rest (.u16 n :: acc) := by
  conv_lhs => unfold scanUnits
  split
  · rename_i heq; cases heq
  · rename_i heq; cases heq
  · rename_i heq
    simp only [List.cons.injEq] at heq
    obtain ⟨_, _, rfl, rfl, rfl, rfl, rfl⟩ := heq
    rw [h]
  · rename_i hnot heq
    simp only [List.cons.injEq] at heq
    obtain ⟨_, rfl, rfl⟩ := heq
    exact absurd rfl (hnot _ _ _ _ _ rfl)
  · rename_i h1 h2 h3 heq
    simp only [List.cons.injEq] at heq
    obtain ⟨rfl, rfl⟩ := heq
    exact absurd rfl (h3 _ _ rfl)

theorem scanUnits_lit (c : Char) (rest : List Char) (acc : List StrUnit)
    (h1 : c ≠ '"') (h2 : c ≠ '\\') (h3 : ¬ c.toNat < 0x20) :
    scanUnits (c :: rest) acc = scanUnits rest (.lit c :: acc) := by
  conv_lhs => unfold scanUnits
  split
  · rename_i heq; cases heq
  · rename_i heq
    simp only [List.cons.injEq] at heq
    exact absurd heq.1 h1
  · rename_i heq
    simp only [List.cons.injEq] at heq
    exact absurd heq.1 h2
  · rename_i heq
    simp only [List.cons.injEq] at heq
    exact absurd heq.1 h2
  · rename_i heq
    simp only [List.cons.injEq] at heq
    obtain ⟨⟨rfl, rfl⟩, rfl⟩ := heq
    simp [h2, h3]

theorem hex4_low (n : Nat) (h : n < 256) :
    hex4 '0' '0' (lowerhex (n / 16)) (lowerhex (n % 16)) = some n := by
  have h1 : hexVal '0' = some 0 := rfl
  have h2 := hexVal_lowerhex (n / 16) (by omega)
  have h3 := hexVal_lowerhex (n % 16) (Nat.mod_lt _ (by decide))
  simp only [hex4, h1, h2, h3, Option.some_bind, Option.map_some', Option.some.injEq]
  omega

/-- The three forms of the text the encoder writes for a character: a short escape
that stands for it, a `\u` escape of its code point, or the character itself, which
is then neither a quote, nor a backslash, nor a control character. -/
theorem escapeJSONChar_cases (c : Char) :
    (∃ e, escapeJSONChar c = ['\\', e] ∧ e ≠ 'u' ∧ simpleEscape e = some c) ∨
    (∃ a b x d, escapeJSONChar c = ['\\', 'u', a, b, x, d] ∧ hex4 a b x d = some c.toNat) ∨
    (escapeJSONChar c = [c] ∧ c ≠ '"' ∧ c ≠ '\\' ∧ ¬ c.toNat < 0x20) := by
  unfold escapeJSONChar
  by_cases h1 : c = '"'
  · rw [if_pos h1]; subst h1
    exact Or.inl ⟨'"', rfl, by decide, rfl⟩
  rw [if_neg h1]
  by_cases h2 : c = '\\'
  · rw [if_pos h2]; subst h2
    exact Or.inl ⟨'\\', rfl, by decide, rfl⟩
  rw [if_neg h2]
  by_cases h3 : c.toNat = 8
  · rw [if_pos h3]
    have hc : c = Char.ofNat 8 := by rw [← Char.ofNat_toNat c, h3]
    subst hc
    exact Or.inl ⟨'b', rfl, by decide, rfl⟩
  rw [if_neg h3]
  by_cases h4 : c.toNat = 12
  · rw [if_pos h4]
    have hc : c = Char.ofNat 12 := by rw [← Char.ofNat_toNat c, h4]
    subst hc
    exact Or.inl ⟨'f', rfl, by decide, rfl⟩
  rw [if_neg h4]
  by_cases h5 : c = '\n'
  · rw [if_pos h5]; subst h5
    exact Or.inl ⟨'n', rfl, by decide, rfl⟩
  rw [if_neg h5]
  by_cases h6 : c = '\r'
  · rw [if_pos h6]; subst h6
    exact Or.inl ⟨'r', rfl, by decide, rfl⟩
  rw [if_neg h6]
  by_cases h7 : c = '\t'
  · rw [if_pos h7]; subst h7
    exact Or.inl ⟨'t', rfl, by decide, rfl⟩
  rw [if_neg h7]
  by_cases h8 : (c.toNat < 0x20 || c = '<' || c = '>' || c = '&') = true
  · rw [if_pos h8]
    have hlt : c.toNat < 256 := by
      simp only [Bool.or_eq_true, decide_eq_true_eq] at h8
      rcases h8 with ((h | h) | h) | h
      · omega
      · subst h; decide
      · subst h; decide
      · subst h; decide
    exact Or.inr (Or.inl ⟨_, _, _, _, rfl, hex4_low c.toNat hlt⟩)
  rw [if_neg h8]
  by_cases h9 : c.toNat = 0x2028
  · rw [if_pos h9]
    exact Or.inr (Or.inl ⟨_, _, _, _, rfl, by rw [h9]; rfl⟩)
  rw [if_neg h9]
  by_cases h10 : c.toNat = 0x2029
  · rw [if_pos h10]
    exact Or.inr (Or.inl ⟨_, _, _, _, rfl, by rw [h10]; rfl⟩)
  rw [if_neg h10]
  simp only [Bool.or_eq_true, decide_eq_true_eq, not_or] at h8
  exact Or.inr (Or.inr ⟨rfl, h1, h2, h8.1.1.1⟩)

theorem char_not_surrogate (c : Char) : c.toNat < 0xD800 ∨ 0xE000 ≤ c.toNat := by
  have h := c.valid
  simp only [UInt32.isValidChar, Nat.isValidChar] at h
  show c.val.toNat < 0xD800 ∨ 0xE000 ≤ c.val.toNat
  omega

/-- The decoder reads the text the encoder writes for a character as one unit that
stands for the character. -/
theorem scanUnits_escape (c : Char) :
    ∃ u : StrUnit, u.plain = true ∧ unitChar u = c ∧
      ∀ (rest : List Char) (acc : List StrUnit),
        scanUnits (escapeJSONChar c ++ rest) acc = scanUnits rest (u :: acc) := by
  rcases escapeJSONChar_cases c with ⟨e, he, hu, hs⟩ | ⟨a, b, x, d, he, hh⟩ | ⟨he, h1, h2, h3⟩
  · refine ⟨.lit c, rfl, rfl, fun rest acc => ?_⟩
    rw [he]
    exact scanUnits_simple e c rest acc hu hs
  · refine ⟨.u16 c.toNat, ?_, ?_, fun rest acc => ?_⟩
    · have := char_not_surrogate c
      simp only [StrUnit.plain, Bool.or_eq_true, decide_eq_true_eq]
      exact this
    · simp [unitChar, Char.ofNat_toNat]
    · rw [he]
      exact scanUnits_u16 a b x d c.toNat rest acc hh
  · refine ⟨.lit c, rfl, rfl, fun rest acc => ?_⟩
    rw [he]
    exact scanUnits_lit c rest acc h1 h2 h3

theorem scanUnits_escaped (rest : List Char) :
    ∀ (cs : List Char), ∃ us : List StrUnit, (∀ u ∈ us, u.plain = true) ∧ us.map unitChar = cs ∧
      ∀ (acc : List StrUnit),
        scanUnits (cs.flatMap escapeJSONChar ++ '"' :: rest) acc = some (acc.reverse ++ us, rest)
  | [] => ⟨[], fun _ h => absurd h (List.not_mem_nil _), rfl, fun acc => by
      simp [scanUnits_quote]⟩
  | c :: cs => by
    obtain ⟨u, hp, hc, hscan⟩ := scanUnits_escape c
    obtain ⟨us, hps, hcs, hrest⟩ := scanUnits_escaped rest cs
    refine ⟨u :: us, ?_, ?_, fun acc => ?_⟩
    · intro w hw
      rcases List.mem_cons.mp hw with h | h
      · rw [h]; exact hp
      · exact hps w h
    · simp [hc, hcs]
    · rw [List.flatMap_cons, List.append_assoc, hscan, hrest]
      simp

/-- The decoder reads a string back from the text the encoder writes for it. -/
theorem scanString_renderString (s : String) (rest : List Char) :
    scanString (s.data.flatMap escapeJSONChar ++ '"' :: rest) = some (s, rest) := by
  obtain ⟨us, hplain, hchars, hscan⟩ := scanUnits_escaped rest s.data
  simp only [scanString, hscan, List.reverse_nil, List.nil_append, Option.map_some']
  rw [combineUnits_plain _ hplain, hchars]

end StringRoundTrip

section NumberRoundTrip

theorem digitChar_digit (k : Nat) (h : k < 10) :
    (Nat.digitChar k).isDigit = true ∧ (Nat.digitChar k).toNat - 48 = k ∧
      (0 < k → Nat.digitChar k ≠ '0') := by
  interval_cases k <;> decide

theorem digitsValue_foldl (ds : List Char) (a : Nat) :
    ds.foldl (fun acc c => acc * 10 + (c.toNat - 48)) a = a * 10 ^ ds.length + digitsValue ds := by
  induction ds generalizing a with
  | nil => simp [digitsValue]
  | cons c cs ih =>
    simp only [List.foldl_cons, digitsValue, List.length_cons]
    rw [ih, ih (0 * 10 + (c.toNat - 48))]
    ring

/-- The decimal digits of a number, as `Nat.toDigitsCore` writes them: a non-empty
run of digits without a leading zero (a single zero for zero) whose value is the
number. -/
theorem toDigitsCore_digits :
    ∀ (fuel n : Nat) (acc : List Char), n < fuel →
      ∃ ds, Nat.toDigitsCore 10 fuel n acc = ds ++ acc ∧ ds ≠ [] ∧
        (∀ c ∈ ds, c.isDigit = true) ∧ (0 < n → ds.head? ≠ some '0') ∧
        (n = 0 → ds = ['0']) ∧ digitsValue ds = n := by
  intro fuel
  induction fuel with
  | zero => intro n acc h; omega
  | succ fuel ih =>
    intro n acc hlt
    simp only [Nat.toDigitsCore]
    by_cases hz : n / 10 = 0
    · rw [if_pos hz]
      have hn : n < 10 := by omega
      have hmod : n % 10 = n := Nat.mod_eq_of_lt hn
      obtain ⟨h1, h2, h3⟩ := digitChar_digit n hn
      rw [hmod]
      refine ⟨[Nat.digitChar n], rfl, by simp, ?_, ?_, ?_, ?_⟩
      · intro c hc
        rw [List.mem_singleton.mp hc]; exact h1
      · intro hpos
        simp only [List.head?_cons, ne_eq, Option.some.injEq]
        exact h3 hpos
      · intro h0; subst h0; rfl
      · simp [digitsValue, h2]
    · rw [if_neg hz]
      obtain ⟨ds, hds, hne, hdig, hhead, -, hval⟩ :=
        ih (n / 10) (Nat.digitChar (n % 10) :: acc) (by omega)
      obtain ⟨h1, h2, -⟩ := digitChar_digit (n % 10) (Nat.mod_lt _ (by decide))
      refine ⟨ds ++ [Nat.digitChar (n % 10)], by simp [hds], by simp, ?_, ?_, ?_, ?_⟩
      · intro c hc
        rcases List.mem_append.mp hc with h | h
        · exact hdig c h
        · rw [List.mem_singleton.mp h]; exact h1
      · intro _
        cases ds with
        | nil => exact absurd rfl hne
        | cons d ds' =>
          simpa using hhead (by omega)
      · intro h0; omega
      · simp only [digitsValue, List.foldl_append, List.foldl_cons, List.foldl_nil]
        have := hval
        simp only [digitsValue] at this
        rw [this, h2]
        omega

theorem repr_digits (n : Nat) :
    (Nat.repr n).data ≠ [] ∧ (∀ c ∈ (Nat.repr n).data, c.isDigit = true) ∧
      (0 < n → (Nat.repr n).data.head? ≠ some '0') ∧ (n = 0 → (Nat.repr n).data = ['0']) ∧
      digitsValue (Nat.repr n).data = n := by
  obtain ⟨ds, hds, hne, hdig, hhead, hzero, hval⟩ := toDigitsCore_digits (n + 1) n [] (by omega)
  have : (Nat.repr n).data = ds := by
    simp only [Nat.repr, Nat.toDigits, List.asString, hds, List.append_nil]
  rw [this]
  exact ⟨hne, hdig, hhead, hzero, hval⟩

theorem takeDigits_run (ds rest : List Char) (hd : ∀ c ∈ ds, c.isDigit = true)
    (hr : ∀ c r, rest = c :: r → c.isDigit = false) : takeDigits (ds ++ rest) = (ds, rest) := by
  induction ds with
  | nil =>
    cases rest with
    | nil => rfl
    | cons c r => simp [takeDigits, hr c r rfl]
  | cons d ds ih =>
    have ih' := ih (fun c hc => hd c (List.mem_cons_of_mem _ hc))
    simp [takeDigits, hd d (List.mem_cons_self _ _), ih']

theorem delimited_head (rest : List Char) (h : delimited rest = true) :
    ∀ c r, rest = c :: r → c = ',' ∨ c = '\x7d' ∨ c = ']' := by
  intro c r hr
  subst hr
  simpa [delimited, or_assoc] using h

theorem numberFrac_delimited (rest : List Char) (h : delimited rest = true) :
    numberFrac rest = some ([], rest) := by
  unfold numberFrac
  split
  · rename_i r
    rcases delimited_head _ h _ _ rfl with h | h | h <;> exact absurd h (by decide)
  · rfl

theorem numberExp_delimited (rest : List Char) (h : delimited rest = true) :
    numberExp rest = some ([], rest) := by
  unfold numberExp
  split
  · rename_i c r
    have hc := delimited_head _ h c r rfl
    have : (c = 'e' || c = 'E') = false := by
      rcases hc with h | h | h <;> subst h <;> decide
    simp [this]
  · rfl

/-- A run of digits without a leading zero is a number literal. -/
theorem numberText_digits (ds : List Char) (hne : ds ≠ [])
    (hd : ∀ c ∈ ds, c.isDigit = true)
    (hz : ds.head? = some '0' → ds = ['0']) : NumberText ds := by
  obtain ⟨d, ds', rfl⟩ := List.exists_cons_of_ne_nil hne
  refine ⟨⟨d, ds', rfl, Or.inl (hd d (List.mem_cons_self _ _))⟩, fun rest hrest => ?_⟩
  have hrd : ∀ c r, rest = c :: r → c.isDigit = false := by
    intro c r hr
    rcases delimited_head _ hrest c r hr with h | h | h <;> subst h <;> decide
  have hminus : d ≠ '-' := by
    intro h
    have := hd d (List.mem_cons_self _ _)
    rw [h] at this
    exact absurd this (by decide)
  have hsign : numberSign (d :: ds' ++ rest) = ([], d :: ds' ++ rest) := by
    unfold numberSign
    split
    · rename_i heq
      simp only [List.cons_append, List.cons.injEq] at heq
      exact absurd heq.1 hminus
    · rfl
  have hint : numberInt (d :: ds' ++ rest) = some (d :: ds', rest) := by
    by_cases h0 : d = '0'
    · have := hz (by simp [h0])
      simp only [List.cons.injEq] at this
      obtain ⟨-, rfl⟩ := this
      subst h0
      rfl
    · unfold numberInt
      split
      · rename_i heq
        simp only [List.cons_append, List.cons.injEq] at heq
        exact absurd heq.1 h0
      · rename_i c r _ heq
        simp only [List.cons_append, List.cons.injEq] at heq
        obtain ⟨rfl, rfl⟩ := heq
        rw [if_pos (hd _ (List.mem_cons_self _ _)),
          takeDigits_run ds' rest (fun c hc => hd c (List.mem_cons_of_mem _ hc)) hrd]
      · rename_i heq
        simp at heq
  rw [scanNumber_stages, hsign]
  simp only [hint, numberFrac_delimited rest hrest, numberExp_delimited rest hrest]
  simp

theorem scanNumber_minus (cs lit rest : List Char) (hc : numberSign cs = ([], cs))
    (h : scanNumber cs = some (lit, rest)) :
    scanNumber ('-' :: cs) = some ('-' :: lit, rest) := by
  rw [scanNumber_stages] at h ⊢
  have hsign : numberSign ('-' :: cs) = (['-'], cs) := rfl
  rw [hsign]
  rw [hc] at h
  simp only at h ⊢
  generalize numberInt cs = oi at h ⊢
  cases oi with
  | none => cases h
  | some p =>
    obtain ⟨ds1, r1⟩ := p
    simp only at h ⊢
    generalize numberFrac r1 = ofr at h ⊢
    cases ofr with
    | none => cases h
    | some q =>
      obtain ⟨fs, r2⟩ := q
      simp only at h ⊢
      generalize numberExp r2 = oe at h ⊢
      cases oe with
      | none => cases h
      | some w =>
        obtain ⟨es, r3⟩ := w
        simp only [Option.some.injEq, Prod.mk.injEq] at h ⊢
        obtain ⟨h1, h2⟩ := h
        refine ⟨?_, h2⟩
        simp only [List.nil_append, List.cons_append, List.append_assoc] at h1 ⊢
        rw [h1]

/-- A minus sign before a run of digits without a leading zero is a number
literal. -/
theorem numberText_minus (ds : List Char) (h : NumberText ds)
    (hd : ∃ c r, ds = c :: r ∧ c.isDigit = true) : NumberText ('-' :: ds) := by
  refine ⟨⟨'-', ds, rfl, Or.inr rfl⟩, fun rest hrest => ?_⟩
  have hs := h.2 rest hrest
  obtain ⟨c, r, rfl, hc⟩ := hd
  have hminus : c ≠ '-' := by
    intro h
    rw [h] at hc
    exact absurd hc (by decide)
  have hsign : numberSign (c :: r ++ rest) = ([], c :: r ++ rest) := by
    unfold numberSign
    split
    · rename_i heq
      simp only [List.cons_append, List.cons.injEq] at heq
      exact absurd heq.1 hminus
    · rfl
  exact scanNumber_minus _ _ _ hsign hs

theorem formatInt_numberText (n : Int) : NumberText (FormatInt n).data := by
  have hnat : ∀ m : Nat, NumberText (Nat.repr m).data ∧
      ∃ c r, (Nat.repr m).data = c :: r ∧ c.isDigit = true := by
    intro m
    obtain ⟨hne, hdig, hhead, hzero, -⟩ := repr_digits m
    refine ⟨numberText_digits _ hne hdig ?_, ?_⟩
    · intro h0
      rcases Nat.eq_zero_or_pos m with h | h
      · exact hzero h
      · exact absurd h0 (hhead h)
    · obtain ⟨c, r, hcr⟩ := List.exists_cons_of_ne_nil hne
      exact ⟨c, r, hcr, hdig c (by rw [hcr]; exact List.mem_cons_self _ _)⟩
  unfold FormatInt
  split
  · obtain ⟨h1, h2⟩ := hnat n.natAbs
    have : ("-" ++ Nat.repr n.natAbs).data = '-' :: (Nat.repr n.natAbs).data := by
      simp [String.data_append]
    rw [this]
    exact numberText_minus _ h1 h2
  · exact (hnat n.natAbs).1

theorem parseInt64_minus (lit : String) (ds : List Char) (h : lit.data = '-' :: ds) :
    parseInt64 lit
      = if ds.isEmpty || !ds.all Char.isDigit then none
        else if digitsValue ds ≤ 2 ^ 63 then some (-(digitsValue ds : Int)) else none := by
  unfold parseInt64
  rw [h]
  rfl

theorem parseInt64_plain (lit : String) (h : ∀ ds, lit.data ≠ '-' :: ds) :
    parseInt64 lit
      = if lit.data.isEmpty || !lit.data.all Char.isDigit then none
        else if digitsValue lit.data < 2 ^ 63 then some (digitsValue lit.data : Int)
        else none := by
  unfold parseInt64
  split
  · rename_i ds heq
    exact absurd heq (h ds)
  · rfl

theorem parseInt64_formatInt (n : Int)
    (h : -9223372036854775808 ≤ n ∧ n ≤ 9223372036854775807) :
    parseInt64 (FormatInt n) = some n := by
  obtain ⟨hne, hdig, -, -, hval⟩ := repr_digits n.natAbs
  have hall : ((Nat.repr n.natAbs).data.isEmpty || !(Nat.repr n.natAbs).data.all Char.isDigit)
      = false := by
    have h1 : (Nat.repr n.natAbs).data.isEmpty = false := by
      cases hd : (Nat.repr n.natAbs).data with
      | nil => exact absurd hd hne
      | cons _ _ => rfl
    have h2 : (Nat.repr n.natAbs).data.all Char.isDigit = true :=
      List.all_eq_true.mpr hdig
    rw [h1, h2]; rfl
  by_cases hn : n < 0
  · have hf : FormatInt n = "-" ++ Nat.repr n.natAbs := by
      simp only [FormatInt, hn, if_true]
    have hd : (FormatInt n).data = '-' :: (Nat.repr n.natAbs).data := by
      rw [hf]
      simp [String.data_append]
    rw [parseInt64_minus _ _ hd, hall]
    simp only [Bool.false_eq_true, if_false, hval]
    have hle : n.natAbs ≤ 2 ^ 63 := by omega
    rw [if_pos hle]
    congr 1
    omega
  · have hf : FormatInt n = Nat.repr n.natAbs := by
      simp only [FormatInt, hn, if_false]
    obtain ⟨c, r, hcr⟩ := List.exists_cons_of_ne_nil hne
    have hc : c ≠ '-' := by
      intro hc
      have := hdig c (by rw [hcr]; exact List.mem_cons_self _ _)
      rw [hc] at this
      exact absurd this (by decide)
    have hplain : ∀ ds, (FormatInt n).data ≠ '-' :: ds := by
      intro ds heq
      rw [hf, hcr] at heq
      simp only [List.cons.injEq] at heq
      exact hc heq.1
    rw [parseInt64_plain _ hplain, hf, hall]
    simp only [Bool.false_eq_true, if_false, hval]
    have hlt : n.natAbs < 2 ^ 63 := by omega
    rw [if_pos hlt]
    congr 1
    omega

end NumberRoundTrip

section TextRoundTrip

theorem parseValue_string (fuel : Nat) (X : List Char) :
    parseValue (fuel + 1) ('"' :: X) = (scanString X).map (fun p => (JSON.string p.1, p.2)) :=
  rfl

theorem parseValue_null (fuel : Nat) (r : List Char) :
    parseValue (fuel + 1) ('n' :: 'u' :: 'l' :: 'l' :: r) = some (JSON.null, r) := rfl

theorem parseValue_true (fuel : Nat) (r : List Char) :
    parseValue (fuel + 1) ('t' :: 'r' :: 'u' :: 'e' :: r) = some (JSON.bool true, r) := rfl

theorem parseValue_false (fuel : Nat) (r : List Char) :
    parseValue (fuel + 1) ('f' :: 'a' :: 'l' :: 's' :: 'e' :: r) = some (JSON.bool false, r) :=
  rfl

theorem parseValue_empty_object (fuel : Nat) (r : List Char) :
    parseValue (fuel + 1) ('\x7b' :: '\x7d' :: r) = some (JSON.object [], r) := rfl

theorem parseValue_empty_array (fuel : Nat) (r : List Char) :
    parseValue (fuel + 1) ('[' :: ']' :: r) = some (JSON.array [], r) := rfl

theorem parseValue_members (fuel : Nat) (X : List Char) :
    parseValue (fuel + 1) ('\x7b' :: '"' :: X) = parseMembers fuel ('"' :: X) [] := rfl

theorem digit_cases (c : Char) (h : c.isDigit = true) :
    c ∈ ['0', '1', '2', '3', '4', '5', '6', '7', '8', '9'] := by
  have h1 : 48 ≤ c.toNat ∧ c.toNat ≤ 57 := by
    simp only [Char.isDigit, Bool.and_eq_true, decide_eq_true_eq] at h
    exact ⟨h.1, h.2⟩
  have hc : c = Char.ofNat c.toNat := (Char.ofNat_toNat c).symm
  obtain ⟨h48, h57⟩ := h1
  generalize c.toNat = n at hc h48 h57
  subst hc
  interval_cases n <;> decide

theorem parseValue_elements (fuel : Nat) (c : Char) (X : List Char) (hc : c ∈ valueStarts) :
    parseValue (fuel + 1) ('[' :: c :: X) = parseElements fuel (c :: X) [] := by
  simp only [valueStarts, List.mem_cons, List.mem_singleton, List.not_mem_nil, or_false] at hc
  rcases hc with h | h | h | h | h | h | h | h | h | h | h | h | h | h | h | h | h <;>
    subst h <;> rfl

theorem parseValue_number (fuel : Nat) (c : Char) (X : List Char)
    (hc : c.isDigit = true ∨ c = '-') :
    parseValue (fuel + 1) (c :: X)
      = (scanNumber (c :: X)).map (fun p => (JSON.number (String.mk p.1), p.2)) := by
  rcases hc with h | h
  · have := digit_cases c h
    simp only [List.mem_cons, List.mem_singleton, List.not_mem_nil, or_false] at this
    rcases this with h | h | h | h | h | h | h | h | h | h <;> subst h <;> rfl
  · subst h; rfl

theorem parseMembers_more (fuel : Nat) (X Y R : List Char) (acc : List (String × JSON))
    (key : String) (v : JSON)
    (hs : scanString X = some (key, ':' :: Y)) (hv : parseValue fuel Y = some (v, ',' :: R)) :
    parseMembers (fuel + 1) ('"' :: X) acc = parseMembers fuel R ((key, v) :: acc) := by
  rw [parseMembers_succ]
  have h1 : skipWS ('"' :: X) = '"' :: X := rfl
  rw [h1]
  simp only [hs]
  have h2 : skipWS (':' :: Y) = ':' :: Y := rfl
  rw [h2]
  simp only [hv]
  rfl

theorem parseMembers_last (fuel : Nat) (X Y R : List Char) (acc : List (String × JSON))
    (key : String) (v : JSON)
    (hs : scanString X = some (key, ':' :: Y)) (hv : parseValue fuel Y = some (v, '\x7d' :: R)) :
    parseMembers (fuel + 1) ('"' :: X) acc
      = some (JSON.object ((key, v) :: acc).reverse, R) := by
  rw [parseMembers_succ]
  have h1 : skipWS ('"' :: X) = '"' :: X := rfl
  rw [h1]
  simp only [hs]
  have h2 : skipWS (':' :: Y) = ':' :: Y := rfl
  rw [h2]
  simp only [hv]
  rfl

theorem parseElements_more (fuel : Nat) (cs R : List Char) (acc : List JSON) (v : JSON)
    (hv : parseValue fuel cs = some (v, ',' :: R)) :
    parseElements (fuel + 1) cs acc = parseElements fuel R (v :: acc) := by
  rw [parseElements_succ]
  simp only [hv]
  rfl

theorem parseElements_last (fuel : Nat) (cs R : List Char) (acc : List JSON) (v : JSON)
    (hv : parseValue fuel cs = some (v, ']' :: R)) :
    parseElements (fuel + 1) cs acc = some (JSON.array (v :: acc).reverse, R) := by
  rw [parseElements_succ]
  simp only [hv]
  rfl

theorem render_start (j : JSON) (hp : j.Plain) :
    ∃ c r, render j = c :: r ∧ c ∈ valueStarts := by
  cases j with
  | null => exact ⟨'n', _, rfl, by decide⟩
  | bool b => cases b <;> exact ⟨_, _, rfl, by decide⟩
  | number lit =>
    simp only [JSON.Plain] at hp
    obtain ⟨⟨c, r, hcr, hc⟩, -⟩ := hp
    refine ⟨c, r, by simp only [render]; exact hcr, ?_⟩
    rcases hc with h | h
    · have := digit_cases c h
      simp only [List.mem_cons, List.mem_singleton, List.not_mem_nil, or_false] at this
      rcases this with h | h | h | h | h | h | h | h | h | h <;> subst h <;> decide
    · subst h; decide
  | string s => exact ⟨'"', _, rfl, by decide⟩
  | array elems => exact ⟨'[', _, rfl, by decide⟩
  | object members => exact ⟨'\x7b', _, rfl, by decide⟩

theorem renderElems_cons (e : JSON) (es : List JSON) :
    renderElems (e :: es) = render e ++ (match es with
      | [] => []
      | k :: rest => ',' :: renderElems (k :: rest)) := by
  cases es with
  | nil => simp [renderElems]
  | cons k rest => simp [renderElems]

theorem renderMembers_cons (key : String) (v : JSON) (ms : List (String × JSON)) :
    renderMembers ((key, v) :: ms) = '"' :: (key.data.flatMap escapeJSONChar ++ '"' :: ':' ::
      (render v ++ (match ms with
        | [] => []
        | m :: rest => ',' :: renderMembers (m :: rest)))) := by
  cases ms with
  | nil => simp [renderMembers, renderString]
  | cons m rest => simp [renderMembers, renderString]

theorem readsBack_zero : ReadsBackAt 0 := by
  refine ⟨?_, ?_, ?_⟩
  · intro j rest hp hlen _
    obtain ⟨c, r, hcr, -⟩ := render_start j hp
    rw [hcr] at hlen
    simp at hlen
  · intro m ms acc rest _ hlen
    obtain ⟨key, v⟩ := m
    rw [renderMembers_cons] at hlen
    simp at hlen
  · intro e es acc rest hp hlen
    omega

theorem readsBack_succ (fuel : Nat) (ih : ReadsBackAt fuel) : ReadsBackAt (fuel + 1) := by
  obtain ⟨ihv, ihm, ihe⟩ := ih
  refine ⟨?_, ?_, ?_⟩
  · intro j rest hp hlen hrest
    cases j with
    | null => exact parseValue_null fuel rest
    | bool b =>
      cases b
      · exact parseValue_false fuel rest
      · exact parseValue_true fuel rest
    | number lit =>
      have hp' : NumberText lit.data := by simpa only [JSON.Plain] using hp
      obtain ⟨⟨c, r, hcr, hc⟩, hscan⟩ := hp'
      have hs := hscan rest hrest
      show parseValue (fuel + 1) (lit.data ++ rest) = _
      rw [hcr] at hs ⊢
      rw [List.cons_append, parseValue_number fuel c _ hc, ← List.cons_append, hs]
      simp only [Option.map_some']
      rw [← hcr]
    | string s =>
      have heq : render (.string s) ++ rest
          = '"' :: (s.data.flatMap escapeJSONChar ++ '"' :: rest) := by
        simp [render, renderString]
      rw [heq, parseValue_string, scanString_renderString]
      rfl
    | array elems =>
      cases elems with
      | nil => exact parseValue_empty_array fuel rest
      | cons e es =>
        have hp' : PlainAll (e :: es) := by simpa only [JSON.Plain] using hp
        obtain ⟨c, r, hcr, hc⟩ := render_start e hp'.1
        have hlen' : (renderElems (e :: es)).length + 1 ≤ fuel := by
          have : (render (.array (e :: es))).length = (renderElems (e :: es)).length + 2 := by
            simp [render]
          omega
        have hgo := ihe e es [] rest hp' hlen'
        have heq : render (.array (e :: es)) ++ rest
            = '[' :: (renderElems (e :: es) ++ ']' :: rest) := by
          simp [render]
        have hX : ∃ X, renderElems (e :: es) ++ ']' :: rest = c :: X :=
          ⟨_, by rw [renderElems_cons, hcr]; rfl⟩
        obtain ⟨X, hX⟩ := hX
        rw [heq, hX, parseValue_elements fuel c X hc, ← hX, hgo]
        rfl
    | object members =>
      cases members with
      | nil => exact parseValue_empty_object fuel rest
      | cons m ms =>
        obtain ⟨key, v⟩ := m
        have hp' : PlainMembers ((key, v) :: ms) := by simpa only [JSON.Plain] using hp
        have hlen' : (renderMembers ((key, v) :: ms)).length ≤ fuel := by
          have : (render (.object ((key, v) :: ms))).length
              = (renderMembers ((key, v) :: ms)).length + 2 := by
            simp [render]
          omega
        have hgo := ihm (key, v) ms [] rest hp' hlen'
        have heq : render (.object ((key, v) :: ms)) ++ rest
            = '\x7b' :: (renderMembers ((key, v) :: ms) ++ '\x7d' :: rest) := by
          simp [render]
        have hX : ∃ X, renderMembers ((key, v) :: ms) ++ '\x7d' :: rest = '"' :: X :=
          ⟨_, by rw [renderMembers_cons]; rfl⟩
        obtain ⟨X, hX⟩ := hX
        rw [heq, hX, parseValue_members, ← hX, hgo]
        rfl
  · intro m ms acc rest hp hlen
    obtain ⟨key, v⟩ := m
    have hpv : v.Plain := hp.1
    rw [renderMembers_cons] at hlen
    cases ms with
    | nil =>
      simp only [List.append_nil, List.length_cons, List.length_append] at hlen
      have hv := ihv v ('\x7d' :: rest) hpv (by omega) rfl
      have heq : renderMembers [(key, v)] ++ '\x7d' :: rest
          = '"' :: (key.data.flatMap escapeJSONChar ++ '"' :: ':' ::
              (render v ++ '\x7d' :: rest)) := by
        rw [renderMembers_cons]; simp
      rw [heq, parseMembers_last fuel _ _ rest acc key v
        (scanString_renderString key (':' :: (render v ++ '\x7d' :: rest))) hv]
      simp
    | cons m' ms' =>
      simp only [List.length_cons, List.length_append] at hlen
      have hpm : PlainMembers (m' :: ms') := hp.2
      have hv := ihv v (',' :: (renderMembers (m' :: ms') ++ '\x7d' :: rest)) hpv (by omega) rfl
      have hgo := ihm m' ms' ((key, v) :: acc) rest hpm (by omega)
      have heq : renderMembers ((key, v) :: m' :: ms') ++ '\x7d' :: rest
          = '"' :: (key.data.flatMap escapeJSONChar ++ '"' :: ':' ::
              (render v ++ ',' :: (renderMembers (m' :: ms') ++ '\x7d' :: rest))) := by
        rw [renderMembers_cons]; simp
      rw [heq, parseMembers_more fuel _ _ _ acc key v
        (scanString_renderString key (':' :: (render v ++ ',' ::
          (renderMembers (m' :: ms') ++ '\x7d' :: rest)))) hv, hgo]
      simp
  · intro e es acc rest hp hlen
    have hpe : e.Plain := hp.1
    obtain ⟨c, r, hcr, -⟩ := render_start e hpe
    rw [renderElems_cons] at hlen
    cases es with
    | nil =>
      simp only [List.append_nil] at hlen
      have hv := ihv e (']' :: rest) hpe (by omega) rfl
      have heq : renderElems [e] ++ ']' :: rest = render e ++ ']' :: rest := by
        rw [renderElems_cons]; simp
      rw [heq, parseElements_last fuel _ rest acc e hv]
      simp
    | cons e' es' =>
      simp only [List.length_cons, List.length_append] at hlen
      have hpr : PlainAll (e' :: es') := hp.2
      have hpos : 1 ≤ (render e).length := by rw [hcr]; simp
      have hv := ihv e (',' :: (renderElems (e' :: es') ++ ']' :: rest)) hpe (by omega) rfl
      have hgo := ihe e' es' (e :: acc) rest hpr (by omega)
      have heq : renderElems (e :: e' :: es') ++ ']' :: rest
          = render e ++ ',' :: (renderElems (e' :: es') ++ ']' :: rest) := by
        rw [renderElems_cons]; simp
      rw [heq, parseElements_more fuel _ _ acc e hv, hgo]
      simp

theorem readsBack (fuel : Nat) : ReadsBackAt fuel := by
  induction fuel with
  | zero => exact readsBack_zero
  | succ n ih => exact readsBack_succ n ih

/-- The decoder parses the text the encoder writes for a value back to the
value. -/
theorem parseJSON_render (j : JSON) (hp : j.Plain) :
    parseJSON (String.mk (render j)) = some j := by
  unfold parseJSON
  have h := (readsBack (2 * (render j).length + 2)).1 j [] hp (by omega) rfl
  rw [List.append_nil] at h
  simp only [h]
  rfl

end TextRoundTrip

section TreeRoundTrip

theorem decodeMembers_nil (pf : String → Option Float64) (path : String)
    (fields : List (String × Bool × GoType)) (vals : List GoValue) (saved : Option JSONError) :
    decodeMembers pf path fields [] vals saved = (vals, saved) := by
  rw [decodeMembers]

theorem decodeMembers_cons (pf : String → Option Float64) (path : String)
    (fields : List (String × Bool × GoType)) (key : String) (j : JSON)
    (rest : List (String × JSON)) (vals : List GoValue) (saved : Option JSONError) :
    decodeMembers pf path fields ((key, j) :: rest) vals saved
      = match fieldIndex fields key with
        | none => decodeMembers pf path fields rest vals saved
        | some i =>
          match fields.get? i, vals.get? i with
          | some f, some old =>
            decodeMembers pf path fields rest
              (vals.set i (store pf (fieldPath path f.1) f.2.2 j old).1)
              (match saved with
                | some e => some e
                | none => (store pf (fieldPath path f.1) f.2.2 j old).2)
          | _, _ => decodeMembers pf path fields rest vals saved := by
  rw [decodeMembers]
  rfl

theorem decodeElems_nil (pf : String → Option Float64) (path : String) (t : GoType)
    (olds : List GoValue) : decodeElems pf path t [] olds = ([], none) := by
  rw [decodeElems]

theorem decodeElems_cons (pf : String → Option Float64) (path : String) (t : GoType)
    (j : JSON) (js : List JSON) (olds : List GoValue) :
    decodeElems pf path t (j :: js) olds
      = ((store pf path t j (olds.headD t.zero)).1 :: (decodeElems pf path t js olds.tail).1,
          match (store pf path t j (olds.headD t.zero)).2 with
          | some e => some e
          | none => (decodeElems pf path t js olds.tail).2) := by
  rw [decodeElems]
  rfl

theorem findIdx_append_hit {α : Type} (p : α → Bool) (pre : List α) (a : α) (post : List α)
    (hpre : ∀ x ∈ pre, p x = false) (ha : p a = true) :
    (pre ++ a :: post).findIdx? p = some pre.length := by
  induction pre with
  | nil => simp [List.findIdx?_cons, ha]
  | cons x pre ih =>
    have hx := hpre x (List.mem_cons_self _ _)
    have ih' := ih (fun y hy => hpre y (List.mem_cons_of_mem _ hy))
    simp [List.findIdx?_cons, hx, ih']

theorem fieldIndex_hit (pre : List (String × Bool × GoType)) (f : String × Bool × GoType)
    (post : List (String × Bool × GoType)) (h : f.1 ∉ pre.map Prod.fst) :
    fieldIndex (pre ++ f :: post) f.1 = some pre.length := by
  unfold fieldIndex
  rw [findIdx_append_hit _ pre f post ?_ (by simp)]
  intro x hx
  simp only [decide_eq_false_iff_not]
  intro hxf
  exact h (hxf ▸ List.mem_map_of_mem Prod.fst hx)

theorem get?_append_length {α : Type} (l : List α) (a : α) (r : List α) :
    (l ++ a :: r).get? l.length = some a := by
  induction l with
  | nil => rfl
  | cons x l ih => simpa using ih

theorem set_append_length {α : Type} (l : List α) (a b : α) (r : List α) :
    (l ++ a :: r).set l.length b = l ++ b :: r := by
  induction l with
  | nil => rfl
  | cons x l ih => simp [ih]

theorem zeroFields_cons (name : String) (omitempty : Bool) (t : GoType)
    (fields : List (String × Bool × GoType)) :
    GoType.zeroFields ((name, omitempty, t) :: fields) = t.zero :: GoType.zeroFields fields := by
  rw [GoType.zeroFields]

theorem zeroFields_nil : GoType.zeroFields [] = [] := by
  rw [GoType.zeroFields]

/-- The members the encoder writes for a struct are stored back field by field:
the fields already passed keep their values, the fields still to come are at
their zero values. -/
theorem decodeMembers_fields (ff : Float64 → Option String) (pf : String → Option Float64)
    (path : String) :
    ∀ (fs : List (String × Bool × GoType)) (vs : List GoValue)
      (pre : List (String × Bool × GoType)) (pv : List GoValue),
      fs.length = vs.length → ((pre ++ fs).map Prod.fst).Nodup →
      pre.length = pv.length →
      (∀ f v, (f, v) ∈ fs.zip vs → FieldRoundTrips ff pf f v) →
      ∃ ms, encodeFields ff fs vs = some ms ∧ PlainMembers ms ∧
        decodeMembers pf path (pre ++ fs) ms (pv ++ GoType.zeroFields fs) none
          = (pv ++ vs, none)
  | [], [], pre, pv, _, _, _, _ => by
    refine ⟨[], by simp [encodeFields], by simp [PlainMembers], ?_⟩
    rw [decodeMembers_nil, zeroFields_nil]
  | [], _ :: _, _, _, hl, _, _, _ => by simp at hl
  | _ :: _, [], _, _, hl, _, _, _ => by simp at hl
  | (name, omitempty, t) :: fs, v :: vs, pre, pv, hl, hnd, hlen, hrt => by
    have hfv := hrt (name, omitempty, t) v (by simp)
    have hrest : ∀ f w, (f, w) ∈ fs.zip vs → FieldRoundTrips ff pf f w :=
      fun f w hm => hrt f w (by simp [hm])
    have hnd' : (((pre ++ [(name, omitempty, t)]) ++ fs).map Prod.fst).Nodup := by
      simpa using hnd
    have hlen' : (pre ++ [(name, omitempty, t)]).length = (pv ++ [v]).length := by
      simp [hlen]
    have hl' : fs.length = vs.length := by simpa using hl
    have hlist : pre ++ (name, omitempty, t) :: fs = (pre ++ [(name, omitempty, t)]) ++ fs := by
      simp
    obtain ⟨rest, hr, hp, hd⟩ := decodeMembers_fields ff pf path fs vs
      (pre ++ [(name, omitempty, t)]) (pv ++ [v]) hl' hnd' hlen' hrest
    cases hkeep : (omitempty && isEmptyValue v) with
    | true =>
      have hz : v = t.zero := by
        simpa only [FieldRoundTrips, hkeep, if_true] using hfv
      refine ⟨rest, ?_, hp, ?_⟩
      · rw [encodeFields_cons, hkeep]
        simpa using hr
      · rw [hlist, zeroFields_cons, ← hz]
        simpa using hd
    | false =>
      have hround : RoundTrips ff pf t v := by
        simpa only [FieldRoundTrips, hkeep, Bool.false_eq_true, if_false] using hfv
      obtain ⟨j, hj, hplain, hstore⟩ := hround
      refine ⟨(name, j) :: rest, ?_, ⟨hplain, hp⟩, ?_⟩
      · rw [encodeFields_cons, hkeep]
        simp only [Bool.false_eq_true, if_false, hj, hr]
      have hnot : name ∉ pre.map Prod.fst := by
        intro hmem
        rw [List.map_append, List.nodup_append] at hnd
        exact hnd.2.2 hmem (by simp)
      have hidx := fieldIndex_hit pre (name, omitempty, t) fs hnot
      have hget1 : (pre ++ (name, omitempty, t) :: fs).get? pre.length
          = some (name, omitempty, t) := get?_append_length _ _ _
      have hget2 : (pv ++ GoType.zeroFields ((name, omitempty, t) :: fs)).get? pre.length
          = some t.zero := by
        rw [zeroFields_cons, hlen]
        exact get?_append_length _ _ _
      have hset : (pv ++ GoType.zeroFields ((name, omitempty, t) :: fs)).set pre.length v
          = (pv ++ [v]) ++ GoType.zeroFields fs := by
        rw [zeroFields_cons, hlen, set_append_length]
        simp
      rw [decodeMembers_cons]
      simp only [hidx, hget1, hget2, hstore, hset]
      rw [hlist]
      simpa using hd

theorem encodeElems_nil (ff : Float64 → Option String) (t : GoType) :
    encodeElems ff t [] = some [] := by
  rw [encodeElems]

theorem encodeElems_cons (ff : Float64 → Option String) (t : GoType) (v : GoValue)
    (vs : List GoValue) :
    encodeElems ff t (v :: vs)
      = match encode ff t v, encodeElems ff t vs with
        | some j, some js => some (j :: js)
        | _, _ => none := by
  rw [encodeElems]

/-- The elements the encoder writes for a slice are stored back one by one into a
new slice. -/
theorem decodeElems_elems (ff : Float64 → Option String) (pf : String → Option Float64)
    (path : String) (t : GoType) :
    ∀ (vs : List GoValue), (∀ v ∈ vs, RoundTrips ff pf t v) →
      ∃ js, encodeElems ff t vs = some js ∧ PlainAll js ∧
        decodeElems pf path t js [] = (vs, none)
  | [], _ => ⟨[], encodeElems_nil ff t, by simp [PlainAll], decodeElems_nil pf path t []⟩
  | v :: vs, h => by
    obtain ⟨j, hj, hplain, hstore⟩ := h v (List.mem_cons_self _ _)
    obtain ⟨js, hjs, hpall, hdec⟩ :=
      decodeElems_elems ff pf path t vs (fun w hw => h w (List.mem_cons_of_mem _ hw))
    refine ⟨j :: js, ?_, ⟨hplain, hpall⟩, ?_⟩
    · rw [encodeElems_cons, hj, hjs]
    · rw [decodeElems_cons]
      simp only [List.headD_nil, List.tail_nil, hstore, hdec]

theorem keysAscend_pairwise :
    ∀ (m : List (String × String)), keysAscend m = true →
      m.Pairwise (fun a b => a.1.data < b.1.data)
  | [], _ => List.Pairwise.nil
  | [_], _ => List.pairwise_singleton _ _
  | a :: b :: rest, h => by
    simp only [keysAscend, Bool.and_eq_true, decide_eq_true_eq] at h
    have ih := keysAscend_pairwise (b :: rest) h.2
    refine List.Pairwise.cons ?_ ih
    intro c hc
    rcases List.mem_cons.mp hc with hcb | hcr
    · rw [hcb]; exact h.1
    · exact lt_trans h.1 ((List.pairwise_cons.mp ih).1 c hcr)

theorem sortedEntries_of_ascend (m : List (String × String)) (h : keysAscend m = true) :
    sortedEntries m = m := by
  unfold sortedEntries
  apply List.Sorted.insertionSort_eq
  exact (keysAscend_pairwise m h).imp (fun hab => le_of_lt hab)

theorem mapSet_last (m : List (String × String)) (k v : String)
    (h : ∀ e ∈ m, e.1.data < k.data) : mapSet m k v = m ++ [(k, v)] := by
  induction m with
  | nil => rfl
  | cons e m ih =>
    obtain ⟨k', v'⟩ := e
    have hlt : k'.data < k.data := h (k', v') (List.mem_cons_self _ _)
    have hne : k ≠ k' := by
      intro heq
      rw [heq] at hlt
      exact lt_irrefl _ hlt
    have hnlt : ¬ k.data < k'.data := fun h2 => lt_asymm hlt h2
    simp only [mapSet, hne, if_false, hnlt, List.cons_append]
    rw [ih (fun e he => h e (List.mem_cons_of_mem _ he))]

/-- The members the encoder writes for a map are stored back, key by key, into a
new map. -/
theorem decodeEntries_entries (path : String) :
    ∀ (rest pre : List (String × String)),
      (pre ++ rest).Pairwise (fun a b => a.1.data < b.1.data) →
      decodeEntries path (rest.map (fun e => (e.1, JSON.string e.2))) pre none
        = (pre ++ rest, none)
  | [], pre, _ => by simp [decodeEntries]
  | (k, v) :: rest, pre, h => by
    have hlast : ∀ e ∈ pre, e.1.data < k.data := by
      intro e he
      exact (List.pairwise_append.mp h).2.2 e he (k, v) (List.mem_cons_self _ _)
    have h' : ((pre ++ [(k, v)]) ++ rest).Pairwise (fun a b => a.1.data < b.1.data) := by
      simpa using h
    have ih := decodeEntries_entries path rest (pre ++ [(k, v)]) h'
    simp only [List.map_cons, decodeEntries, mapSet_last pre k v hlast, ih]
    simp

theorem plainMembers_strings (m : List (String × String)) :
    PlainMembers (m.map (fun e => (e.1, JSON.string e.2))) := by
  induction m with
  | nil => simp [PlainMembers]
  | cons e m ih =>
    simp only [List.map_cons, PlainMembers]
    exact ⟨by simp [JSON.Plain], ih⟩

theorem fieldsHaveType_length :
    ∀ (fields : List (String × Bool × GoType)) (vs : List GoValue),
      fieldsHaveType fields vs = true → fields.length = vs.length
  | [], [], _ => rfl
  | [], _ :: _, h => by simp [fieldsHaveType] at h
  | _ :: _, [], h => by simp [fieldsHaveType] at h
  | (_, _, _) :: fields, _ :: vs, h => by
    simp only [fieldsHaveType, Bool.and_eq_true] at h
    simp [fieldsHaveType_length fields vs h.2]

theorem encode_not_null (ff : Float64 → Option String) (t : GoType) (v : GoValue) (j : JSON)
    (ht : t.nullable = false) (h : encode ff t v = some j) : j.isNull = false := by
  cases t with
  | ptr _ => simp [GoType.nullable] at ht
  | slice _ => simp [GoType.nullable] at ht
  | stringMap => simp [GoType.nullable] at ht
  | string =>
    cases v <;> simp [encode] at h
    subst h; rfl
  | int =>
    cases v <;> simp [encode] at h
    subst h; rfl
  | bool =>
    cases v <;> simp [encode] at h
    subst h; rfl
  | float64 =>
    cases v <;> simp [encode] at h
    obtain ⟨_, _, rfl⟩ := h; rfl
  | struct fields =>
    cases v <;> simp [encode] at h
    obtain ⟨_, _, rfl⟩ := h; rfl

theorem indirect_of_not_nullable (t : GoType) (v : GoValue) (ht : t.nullable = false) :
    indirect t v = v ∧ t.base = t ∧ ∀ w, reference t w = w := by
  cases t <;> first
    | (simp [GoType.nullable] at ht; done)
    | exact ⟨rfl, rfl, fun _ => rfl⟩

theorem zero_of_isZeroValue (t : GoType) (v : GoValue) (hty : hasType t v = true)
    (hz : isZeroValue v = true) : v = t.zero := by
  cases v with
  | string s =>
    cases t <;> simp [hasType] at hty
    have : s.data = [] := by simpa [isZeroValue] using hz
    have hs : s = "" := by
      cases s
      simp only at this
      subst this
      rfl
    rw [hs, GoType.zero]
  | int n =>
    cases t <;> simp [hasType] at hty
    have : n = 0 := by simpa [isZeroValue] using hz
    rw [this, GoType.zero]
  | bool b =>
    cases t <;> simp [hasType] at hty
    have : b = false := by simpa [isZeroValue] using hz
    rw [this, GoType.zero]
  | float64 f =>
    cases t <;> simp [hasType] at hty
    have : f.bits = 0 := by simpa [isZeroValue] using hz
    cases f
    simp only at this
    subst this
    rw [GoType.zero]
  | nil =>
    cases t <;> simp [hasType] at hty <;> rw [GoType.zero]
  | ptr _ => simp [isZeroValue] at hz
  | slice _ => simp [isZeroValue] at hz
  | stringMap m =>
    cases t <;> simp [hasType] at hty
    cases m with
    | none => rw [GoType.zero]
    | some _ => simp [isZeroValue] at hz
  | struct _ => simp [isZeroValue] at hz

end TreeRoundTrip

section ValueRoundTrip

theorem store_not_null (pf : String → Option Float64) (path : String) (t : GoType) (j : JSON)
    (old : GoValue) (h : j.isNull = false) :
    store pf path t j old
      = (reference t (decodeBase pf path t.base j (indirect t old)).1,
          (decodeBase pf path t.base j (indirect t old)).2) := by
  simp [store, h]

theorem store_plain (pf : String → Option Float64) (path : String) (t : GoType) (j : JSON)
    (old : GoValue) (ht : t.nullable = false) (h : j.isNull = false) :
    store pf path t j old = decodeBase pf path t j old := by
  obtain ⟨h1, h2, h3⟩ := indirect_of_not_nullable t old ht
  rw [store_not_null pf path t j old h, h1, h2, h3]

mutual
/-- Every canonical value of a well-formed type is written and read back. -/
theorem roundTrips_value (ff : Float64 → Option String) (pf : String → Option Float64)
    (hc : FloatCodec ff pf) :
    ∀ (v : GoValue) (t : GoType), t.wf = true → hasType t v = true →
      canonical ff t v = true → RoundTrips ff pf t v
  | .string s, t, _, hty, _ => by
    cases t with
    | string =>
      refine ⟨.string s, by rw [encode], by simp [JSON.Plain], fun path => ?_⟩
      rw [store_plain pf path .string (.string s) _ rfl rfl, decodeBase]
    | _ => simp [hasType] at hty
  | .int n, t, _, hty, _ => by
    cases t with
    | int =>
      have hr : -9223372036854775808 ≤ n ∧ n ≤ 9223372036854775807 := by
        simpa [hasType] using hty
      refine ⟨.number (FormatInt n), by rw [encode], ?_, fun path => ?_⟩
      · simp only [JSON.Plain]
        exact formatInt_numberText n
      · rw [store_plain pf path .int (.number (FormatInt n)) _ rfl rfl, decodeBase,
          parseInt64_formatInt n hr]
    | _ => simp [hasType] at hty
  | .bool b, t, _, hty, _ => by
    cases t with
    | bool =>
      refine ⟨.bool b, by rw [encode], by simp [JSON.Plain], fun path => ?_⟩
      rw [store_plain pf path .bool (.bool b) _ rfl rfl, decodeBase]
    | _ => simp [hasType] at hty
  | .float64 f, t, _, hty, hcan => by
    cases t with
    | float64 =>
      have hsome : (ff f).isSome = true := by simpa [canonical] using hcan
      obtain ⟨lit, hlit⟩ := Option.isSome_iff_exists.mp hsome
      obtain ⟨hnum, hpf⟩ := hc f lit hlit
      refine ⟨.number lit, by rw [encode, hlit]; rfl, ?_, fun path => ?_⟩
      · simp only [JSON.Plain]
        exact hnum
      · rw [store_plain pf path .float64 (.number lit) _ rfl rfl, decodeBase, hpf]
    | _ => simp [hasType] at hty
  | .nil, t, _, hty, _ => by
    cases t with
    | ptr t' =>
      refine ⟨.null, by rw [encode], by simp [JSON.Plain], fun path => ?_⟩
      simp [store, JSON.isNull, storeNull]
    | slice t' =>
      refine ⟨.null, by rw [encode], by simp [JSON.Plain], fun path => ?_⟩
      simp [store, JSON.isNull, storeNull]
    | _ => simp [hasType] at hty
  | .ptr v, t, hwf, hty, hcan => by
    cases t with
    | ptr t' =>
      have hwf' : t'.nullable = false ∧ t'.wf = true := by
        simpa [GoType.wf] using hwf
      have hty' : hasType t' v = true := by simpa [hasType] using hty
      have hcan' : canonical ff t' v = true := by simpa [canonical] using hcan
      obtain ⟨j, hj, hplain, hstore⟩ := roundTrips_value ff pf hc v t' hwf'.2 hty' hcan'
      have hnn := encode_not_null ff t' v j hwf'.1 hj
      refine ⟨j, by rw [encode]; exact hj, hplain, fun path => ?_⟩
      have h1 := hstore path
      obtain ⟨i1, i2, i3⟩ := indirect_of_not_nullable t' t'.zero hwf'.1
      rw [store_not_null pf path _ _ _ hnn, i1, i2, i3] at h1
      rw [store_not_null pf path _ _ _ hnn]
      have hb : (GoType.ptr t').base = t' := by rw [GoType.base]; exact i2
      have hi : indirect (.ptr t') (GoType.ptr t').zero = t'.zero := by
        have : indirect (.ptr t') (GoType.ptr t').zero = t'.base.zero := rfl
        rw [this, i2]
      have hr : ∀ w, reference (.ptr t') w = .ptr w := by
        intro w; rw [reference, i3]
      rw [hb, hi, hr]
      rw [Prod.ext_iff] at h1 ⊢
      exact ⟨by rw [h1.1], h1.2⟩
    | _ => simp [hasType] at hty
  | .slice vs, t, hwf, hty, hcan => by
    cases t with
    | slice t' =>
      have hwf' : t'.wf = true := by simpa [GoType.wf] using hwf
      have hty' : allHaveType t' vs = true := by simpa [hasType] using hty
      have hcan' : canonicalElems ff t' vs = true := by simpa [canonical] using hcan
      have hall := roundTrips_elems ff pf hc vs t' hwf' hty' hcan'
      obtain ⟨js, hjs, -, -⟩ := decodeElems_elems ff pf "" t' vs hall
      refine ⟨.array js, by rw [encode, hjs]; rfl, ?_, fun path => ?_⟩
      · obtain ⟨js', hjs', hp, -⟩ := decodeElems_elems ff pf "" t' vs hall
        rw [hjs] at hjs'
        simp only [Option.some.injEq] at hjs'
        subst hjs'
        simpa only [JSON.Plain] using hp
      · obtain ⟨js', hjs', -, hd⟩ := decodeElems_elems ff pf path t' vs hall
        rw [hjs] at hjs'
        simp only [Option.some.injEq] at hjs'
        subst hjs'
        rw [store_not_null pf path (.slice t') (.array js) _ rfl]
        have hb : (GoType.slice t').base = .slice t' := rfl
        have hi : indirect (.slice t') (GoType.slice t').zero = .nil := rfl
        rw [hb, hi, decodeBase]
        have he : GoValue.nil.elems = [] := rfl
        rw [he, hd]
        rfl
    | _ => simp [hasType] at hty
  | .stringMap m, t, _, hty, hcan => by
    cases t with
    | stringMap =>
      cases m with
      | none =>
        refine ⟨.null, by rw [encode], by simp [JSON.Plain], fun path => ?_⟩
        simp [store, JSON.isNull, storeNull, GoType.zero]
      | some m =>
        have hasc : keysAscend m = true := by simpa [canonical] using hcan
        refine ⟨.object (m.map (fun e => (e.1, JSON.string e.2))),
          by rw [encode, sortedEntries_of_ascend m hasc], ?_, fun path => ?_⟩
        · simp only [JSON.Plain]
          exact plainMembers_strings m
        · rw [store_not_null pf path .stringMap
            (.object (m.map (fun e => (e.1, JSON.string e.2)))) _ rfl]
          have hb : GoType.stringMap.base = .stringMap := rfl
          have hi : indirect .stringMap (GoType.zero .stringMap) = GoType.zero .stringMap := rfl
          rw [hb, hi, decodeBase]
          have he : (GoType.zero .stringMap).entries = [] := rfl
          rw [he, decodeEntries_entries path m []
            (by simpa using keysAscend_pairwise m hasc)]
          rfl
    | _ => simp [hasType] at hty
  | .struct vs, t, hwf, hty, hcan => by
    cases t with
    | struct fields =>
      have hwf' : (fields.map Prod.fst).Nodup ∧ GoType.wfFields fields = true := by
        simpa [GoType.wf] using hwf
      have hty' : fieldsHaveType fields vs = true := by simpa [hasType] using hty
      have hcan' : canonicalFields ff fields vs = true := by simpa [canonical] using hcan
      have hall := roundTrips_fields ff pf hc vs fields hwf'.2 hty' hcan'
      have hl := fieldsHaveType_length fields vs hty'
      obtain ⟨ms, hms, hp, -⟩ := decodeMembers_fields ff pf "" fields vs [] [] hl
        (by simpa using hwf'.1) rfl hall
      refine ⟨.object ms, by rw [encode, hms]; rfl, by simpa only [JSON.Plain] using hp,
        fun path => ?_⟩
      obtain ⟨ms', hms', -, hd⟩ := decodeMembers_fields ff pf path fields vs [] [] hl
        (by simpa using hwf'.1) rfl hall
      rw [hms] at hms'
      simp only [Option.some.injEq] at hms'
      subst hms'
      rw [store_plain pf path (.struct fields) (.object ms) _ rfl rfl, decodeBase]
      have hz : (GoType.zero (.struct fields)).fields = GoType.zeroFields fields := by
        rw [GoType.zero]; rfl
      simp only [List.nil_append] at hd
      rw [hz, hd]
    | _ => simp [hasType] at hty
/-- Every element of a canonical slice is written and read back. -/
theorem roundTrips_elems (ff : Float64 → Option String) (pf : String → Option Float64)
    (hc : FloatCodec ff pf) :
    ∀ (vs : List GoValue) (t : GoType), t.wf = true → allHaveType t vs = true →
      canonicalElems ff t vs = true → ∀ v ∈ vs, RoundTrips ff pf t v
  | [], _, _, _, _ => fun _ h => absurd h (List.not_mem_nil _)
  | v :: vs, t, hwf, hty, hcan => by
    simp only [allHaveType, Bool.and_eq_true] at hty
    simp only [canonicalElems, Bool.and_eq_true] at hcan
    intro w hw
    rcases List.mem_cons.mp hw with h | h
    · rw [h]; exact roundTrips_value ff pf hc v t hwf hty.1 hcan.1
    · exact roundTrips_elems ff pf hc vs t hwf hty.2 hcan.2 w h
/-- Every field of a canonical struct is written and read back. -/
theorem roundTrips_fields (ff : Float64 → Option String) (pf : String → Option Float64)
    (hc : FloatCodec ff pf) :
    ∀ (vs : List GoValue) (fields : List (String × Bool × GoType)),
      GoType.wfFields fields = true → fieldsHaveType fields vs = true →
      canonicalFields ff fields vs = true →
      ∀ f v, (f, v) ∈ fields.zip vs → FieldRoundTrips ff pf f v
  | [], fields, _, _, _ => by
    intro f v hm
    simp at hm
  | v :: vs, [], _, _, _ => by
    intro f w hm
    simp at hm
  | v :: vs, (name, omitempty, t) :: fields, hwf, hty, hcan => by
    simp only [GoType.wfFields, Bool.and_eq_true] at hwf
    simp only [fieldsHaveType, Bool.and_eq_true] at hty
    simp only [canonicalFields, Bool.and_eq_true] at hcan
    intro f w hm
    simp only [List.zip_cons_cons, List.mem_cons, Prod.mk.injEq] at hm
    rcases hm with ⟨hf, hw⟩ | hm
    · subst hf; subst hw
      unfold FieldRoundTrips
      by_cases hkeep : (omitempty && isEmptyValue w) = true
      · simp only [hkeep, if_true]
        have hz : isZeroValue w = true := by
          have := hcan.1.1
          simpa [hkeep] using this
        exact zero_of_isZeroValue t w hty.1 hz
      · simp only [hkeep, if_false]
        exact roundTrips_value ff pf hc w t hwf.1 hty.1 hcan.1.2
    · exact roundTrips_fields ff pf hc vs fields hwf.2 hty.2 hcan.2 f w hm
end

end ValueRoundTrip

section JSONStyleCalls

theorem queryAuth_trace_of_marshal {E B T : Type} (env : Env E B T) (c : Client E)
    (ctx : Context) (endpoint : String) (b : B) (result : Option T) (jsonBody : String)
    (hM : env.Marshal b = .ok jsonBody)
    (hN : env.NewRequestErr ctx MethodPost (c.doRequestURL endpoint none) = none) :
    ∃ tail, (c.doJSONRequest env ctx endpoint (some b) result).trace
        = [Event.marshal, Event.newRequest "POST" (c.doRequestURL endpoint none),
            Event.httpDo ⟨ctx, "POST", c.doRequestURL endpoint none, some jsonBody,
              [("Content-Type", "application/json"), ("Accept", "application/json")]⟩] ++ tail ∧
      httpCalls tail = 0 := by
  have hb : c.doRequestBuild env ctx MethodPost endpoint none (some b)
      = .ok (⟨ctx, "POST", c.doRequestURL endpoint none, some jsonBody,
              [("Content-Type", "application/json"), ("Accept", "application/json")]⟩,
            [Event.marshal, Event.newRequest "POST" (c.doRequestURL endpoint none)]) := by
    simp only [Client.doRequestBuild, marshalBody, hM, hN]
    rfl
  obtain ⟨tail, ht, hc⟩ := roundTrip_trace_shape env c
    ⟨ctx, "POST", c.doRequestURL endpoint none, some jsonBody,
      [("Content-Type", "application/json"), ("Accept", "application/json")]⟩ result
    [Event.marshal, Event.newRequest "POST" (c.doRequestURL endpoint none)]
  refine ⟨tail, ?_, hc⟩
  simp only [Client.doJSONRequest, Client.doRequest, hb]
  rw [ht]
  rfl

/-- A JSON helper whose body is serialized and whose URL is accepted makes one HTTP
call, to that URL, which carries the serialized body and
`Content-Type: application/json`. -/
theorem helper_trace_of_marshal {E B T : Type} (env : Env E B T) (c : Client E)
    (ctx : Context) (helper : Helper) (endpoint : String) (b : B) (result : Option T)
    (jsonBody : String) (hh : helper ≠ .doFormRequest)
    (hM : env.Marshal b = .ok jsonBody)
    (hN : env.NewRequestErr ctx MethodPost (c.helperURL helper endpoint none) = none) :
    ∃ tail, (c.helperDispatch env ctx helper endpoint none (some b) result).trace
        = [Event.marshal, Event.newRequest "POST" (c.helperURL helper endpoint none),
            Event.httpDo ⟨ctx, "POST", c.helperURL helper endpoint none, some jsonBody,
              [("Content-Type", "application/json"), ("Accept", "application/json")]⟩] ++ tail ∧
      httpCalls tail = 0 := by
  cases helper with
  | doFormRequest => exact absurd rfl hh
  | doJSONRequest =>
    exact queryAuth_trace_of_marshal env c ctx endpoint b result jsonBody hM hN
  | doJSONRequestNoAuth =>
    exact noAuth_trace_of_marshal env c ctx endpoint b result jsonBody hM hN

theorem decodeMembers_append (pf : String → Option Float64) (path : String)
    (fields : List (String × Bool × GoType)) :
    ∀ (ms ns : List (String × JSON)) (vals : List GoValue) (saved : Option JSONError),
      decodeMembers pf path fields (ms ++ ns) vals saved
        = decodeMembers pf path fields ns (decodeMembers pf path fields ms vals saved).1
            (decodeMembers pf path fields ms vals saved).2
  | [], ns, vals, saved => by
    rw [List.nil_append, decodeMembers_nil]
  | (key, j) :: ms, ns, vals, saved => by
    rw [List.cons_append, decodeMembers_cons, decodeMembers_cons]
    cases fieldIndex fields key with
    | none =>
      simp only
      exact decodeMembers_append pf path fields ms ns vals saved
    | some i =>
      simp only
      cases fields.get? i with
      | none =>
        simp only
        exact decodeMembers_append pf path fields ms ns vals saved
      | some f =>
        cases vals.get? i with
        | none =>
          simp only
          exact decodeMembers_append pf path fields ms ns vals saved
        | some old =>
          simp only
          exact decodeMembers_append pf path fields ms ns _ _

theorem plainMembers_append :
    ∀ (ms ns : List (String × JSON)), PlainMembers ms → PlainMembers ns →
      PlainMembers (ms ++ ns)
  | [], _, _, h => h
  | (_, _) :: ms, ns, h1, h2 => ⟨h1.1, plainMembers_append ms ns h1.2 h2⟩

theorem zeroFloat_codec : FloatCodec zeroFloatOnly zeroFloatReader := by
  intro f lit h
  unfold zeroFloatOnly at h
  split at h
  · rename_i hb
    simp only [Option.some.injEq] at h
    subst h
    refine ⟨numberText_digits ['0'] (by simp) (by decide) (fun _ => rfl), ?_⟩
    cases f
    simp only at hb
    subst hb
    rfl
  · cases h

/-- The body of a JSON-style call for a canonical request, and what it decodes
to. -/
theorem jsonBody_round_trips {E : Type} (ff : Float64 → Option String)
    (pf : String → Option Float64) (hc : FloatCodec ff pf) (c : Client E) (op : Operation)
    (t : GoType) (v : GoValue) (hop : (op, t) ∈ jsonStyleOperations)
    (hty : hasType t v = true) (hcan : canonical ff t v = true) :
    ∃ body, Marshal ff (c.jsonBody op t (.ptr v)) = .ok body ∧
      Unmarshal pf t body t.zero = (v, none) := by
  have hwf : t.wf = true := by
    simp only [jsonStyleOperations, List.mem_cons, Prod.mk.injEq, List.mem_singleton,
      List.not_mem_nil, or_false] at hop
    rcases hop with h | h | h | h | h | h | h | h | h | h | h | h <;>
      (obtain ⟨-, rfl⟩ := h; decide)
  obtain ⟨j, hj, hplain, hstore⟩ := roundTrips_value ff pf hc v t hwf hty hcan
  by_cases hrec : op.service = "Payments" ∧ op.name = "Recurrent"
  · have ht : t = Schema.RecurrentPaymentRequest := by
      simp only [jsonStyleOperations, List.mem_cons, Prod.mk.injEq, List.mem_singleton,
        List.not_mem_nil, or_false] at hop
      rcases hop with h | h | h | h | h | h | h | h | h | h | h | h <;>
        obtain ⟨rfl, rfl⟩ := h <;> first | rfl | (exact absurd hrec (by decide))
    subst ht
    cases v with
    | struct vs =>
      have hfields : ∃ ms, encodeFields ff Schema.RecurrentPaymentRequest.fields vs = some ms ∧
          j = .object ms := by
        have : encode ff Schema.RecurrentPaymentRequest (.struct vs)
            = (encodeFields ff Schema.RecurrentPaymentRequest.fields vs).map JSON.object := by
          show encode ff (.struct Schema.RecurrentPaymentRequest.fields) (.struct vs) = _
          rw [encode]
        rw [this] at hj
        cases hms : encodeFields ff Schema.RecurrentPaymentRequest.fields vs with
        | none => rw [hms] at hj; cases hj
        | some ms =>
          rw [hms] at hj
          simp only [Option.map_some', Option.some.injEq] at hj
          exact ⟨ms, rfl, hj.symm⟩
      obtain ⟨ms, hms, rfl⟩ := hfields
      have hauth := recurrent_auth_encode ff c.userName c.password
      have hbody : encode ff (c.jsonBody
            ⟨"Payments", "Recurrent", op.helper, op.endpoint⟩ Schema.RecurrentPaymentRequest
            (.ptr (.struct vs))).type
          (c.jsonBody ⟨"Payments", "Recurrent", op.helper, op.endpoint⟩
            Schema.RecurrentPaymentRequest (.ptr (.struct vs))).value
          = some (.object (ms ++ [("userName", .string c.userName),
              ("password", .string c.password)])) := by
        have hb := recurrent_body_encode ff (PaymentService.mk c) vs
        simp only [Client.jsonBody, and_self, if_true]
        rw [hb, encodeFields_append ff _ _ _ _ _ _ hms hauth]
        rfl
      have hop' : op = ⟨"Payments", "Recurrent", op.helper, op.endpoint⟩ := by
        cases op
        simp only at hrec
        obtain ⟨rfl, rfl⟩ := hrec
        rfl
      rw [hop']
      refine ⟨String.mk (render (.object (ms ++ [("userName", .string c.userName),
        ("password", .string c.password)]))), ?_, ?_⟩
      · simp only [Marshal, hbody]
      · have hp : (JSON.object (ms ++ [("userName", JSON.string c.userName),
            ("password", JSON.string c.password)])).Plain := by
          simp only [JSON.Plain] at hplain ⊢
          exact plainMembers_append _ _ hplain
            ⟨by simp [JSON.Plain], by simp [JSON.Plain], trivial⟩
        simp only [Unmarshal, parseJSON_render _ hp]
        have h0 := hstore ""
        have hnn : Schema.RecurrentPaymentRequest.nullable = false := rfl
        rw [store_plain pf "" Schema.RecurrentPaymentRequest (.object ms) _ hnn rfl] at h0
        rw [store_plain pf "" Schema.RecurrentPaymentRequest
          (.object (ms ++ [("userName", JSON.string c.userName),
            ("password", JSON.string c.password)])) _ hnn rfl]
        have hfs : Schema.RecurrentPaymentRequest
            = .struct Schema.RecurrentPaymentRequest.fields := rfl
        rw [hfs, decodeBase] at h0 ⊢
        rw [Prod.ext_iff] at h0
        simp only at h0
        have hd : decodeMembers pf "" Schema.RecurrentPaymentRequest.fields ms
            (GoType.zero (.struct Schema.RecurrentPaymentRequest.fields)).fields none
            = (vs, none) := by
          rw [Prod.ext_iff]
          exact ⟨GoValue.struct.inj h0.1, h0.2⟩
        rw [decodeMembers_append, hd]
        simp only
        have hskip : decodeMembers pf "" Schema.RecurrentPaymentRequest.fields
            [("userName", JSON.string c.userName), ("password", JSON.string c.password)]
            vs none = (vs, none) := by
          rw [decodeMembers_cons]
          have h1 : fieldIndex Schema.RecurrentPaymentRequest.fields "userName" = none := by
            decide
          rw [h1]
          simp only
          rw [decodeMembers_cons]
          have h2 : fieldIndex Schema.RecurrentPaymentRequest.fields "password" = none := by
            decide
          rw [h2]
          simp only
          rw [decodeMembers_nil]
        rw [hskip]
    | _ => simp [Schema.RecurrentPaymentRequest, hasType] at hty
  · refine ⟨String.mk (render j), ?_, ?_⟩
    · have he : encode ff (.ptr t) (.ptr v) = some j := by
        rw [encode]; exact hj
      simp only [Client.jsonBody, hrec, if_false, Marshal, he]
    · simp only [Unmarshal, parseJSON_render j hplain]
      exact hstore ""

end JSONStyleCalls

/-! ## The round trip of a JSON body -/

/-- C13, counterexample: the request of `Example_googlePayPayment` with an
`AdditionalParameters` map that is empty and not nil is sent without the key
`additionalParameters`; decoding the body gives the request with a nil map, which
is another value. -/
theorem googlePay_empty_map_is_not_read_back :
    (∃ tail, ((scriptedClient (.error "no network")).jsonCall
          (jsonEnv zeroFloatOnly ignoreBody) ⟨0⟩
          ⟨"GooglePay", "Payment", .doJSONRequestNoAuth, "/google/payment.do"⟩
          Schema.GooglePayRequest (.ptr googlePayEmptyMapRequest) (some ())).trace
        = [Event.marshal,
            Event.newRequest "POST" "https://alfa.rbsuat.com/payment/google/payment.do",
            Event.httpDo ⟨⟨0⟩, "POST", "https://alfa.rbsuat.com/payment/google/payment.do",
              some "\x7b\"merchant\":\"your-merchant-name\",\"orderNumber\":\"ORDER-GP-001\",\"paymentToken\":\"base64-encoded-google-pay-token\",\"amount\":200000,\"ip\":\"192.168.1.1\",\"returnUrl\":\"https://your-site.com/payment/success\"\x7d",
              [("Content-Type", "application/json"), ("Accept", "application/json")]⟩]
          ++ tail) ∧
    Unmarshal zeroFloatReader Schema.GooglePayRequest
        "\x7b\"merchant\":\"your-merchant-name\",\"orderNumber\":\"ORDER-GP-001\",\"paymentToken\":\"base64-encoded-google-pay-token\",\"amount\":200000,\"ip\":\"192.168.1.1\",\"returnUrl\":\"https://your-site.com/payment/success\"\x7d"
        Schema.GooglePayRequest.zero
      = (googlePayExampleRequest, none) ∧
    googlePayExampleRequest ≠ googlePayEmptyMapRequest ∧
    hasType Schema.GooglePayRequest googlePayEmptyMapRequest = true := by
  refine ⟨⟨_, rfl⟩, rfl, ?_, by decide⟩
  intro h
  have := congrArg (fun v => (v.fields.get? 8).map isZeroValue) h
  revert this
  decide

/-- C13, amended: for every JSON-style operation and every request record that is
canonical (its strings are valid UTF-8, as every string of this development is;
every float can be written; and every field tagged `omitempty` that is empty holds
the zero value of its type, so that it is neither an empty map or slice that is not
nil nor the negative zero), whenever the request constructor accepts the URL the
helper built, the call makes one HTTP call, to that URL, which carries
`Content-Type: application/json` and, as its body, the text `json.Marshal` gives
for what the operation hands to its helper; `json.Unmarshal` stores that body into
a zero request record as the original request, without an error. For
`Payments.Recurrent` the body also holds the credentials, which the decoder of the
request skips. The JSON-style operations are the operations of the table that do
not go through `doFormRequest`, and the calls each of them makes, for every request
pointer, are those of the dispatch at its row. -/
theorem json_style_body_is_read_back {T : Type} (ff : Float64 → Option String)
    (pf : String → Option Float64) (env : Env String Typed T) (c : Client String)
    (ctx : Context) (op : Operation) (t : GoType) (v : GoValue) (result : Option T)
    (hop : (op, t) ∈ jsonStyleOperations)
    (hM : env.Marshal = Marshal ff)
    (hN : env.NewRequestErr ctx MethodPost (c.helperURL op.helper op.endpoint none) = none)
    (hc : FloatCodec ff pf)
    (hty : hasType t v = true) (hcan : canonical ff t v = true) :
    (∃ body tail,
      Marshal ff (c.jsonBody op t (.ptr v)) = .ok body ∧
      (c.jsonCall env ctx op t (.ptr v) result).trace
        = [Event.marshal, Event.newRequest "POST" (c.helperURL op.helper op.endpoint none),
            Event.httpDo ⟨ctx, "POST", c.helperURL op.helper op.endpoint none, some body,
              [("Content-Type", "application/json"), ("Accept", "application/json")]⟩] ++ tail ∧
      httpCalls tail = 0 ∧
      Unmarshal pf t body t.zero = (v, none)) ∧
    operations.filter (fun o => decide (o.helper ≠ .doFormRequest))
      = jsonStyleOperations.map Prod.fst ∧
    (∀ (zero : T) (req : GoValue),
      (c.jsonCall env ctx
          ⟨"ApplePay", "Payment", .doJSONRequestNoAuth, "/applepay/payment.do"⟩
          Schema.ApplePayPaymentRequest req (some zero)).trace
        = (ApplePayService.Payment env zero ⟨c⟩ ctx req).trace ∧
      (c.jsonCall env ctx
          ⟨"GooglePay", "Payment", .doJSONRequestNoAuth, "/google/payment.do"⟩
          Schema.GooglePayRequest req (some zero)).trace
        = (GooglePayService.Payment env zero ⟨c⟩ ctx req).trace ∧
      (c.jsonCall env ctx
          ⟨"MirPay", "Payment", .doJSONRequestNoAuth, "/mir/payment.do"⟩
          Schema.MirPayPaymentRequest req (some zero)).trace
        = (MirPayService.Payment env zero ⟨c⟩ ctx req).trace ∧
      (c.jsonCall env ctx
          ⟨"MirPay", "DirectPayment", .doJSONRequestNoAuth, "/mir/paymentDirect.do"⟩
          Schema.MirPayPaymentRequest req (some zero)).trace
        = (MirPayService.DirectPayment env zero ⟨c⟩ ctx req).trace ∧
      (c.jsonCall env ctx
          ⟨"Payments", "Recurrent", .doJSONRequestNoAuth, "/recurrentPayment.do"⟩
          Schema.RecurrentPaymentRequest req (some zero)).trace
        = (PaymentService.Recurrent env zero ⟨c⟩ ctx req).trace ∧
      (c.jsonCall env ctx
          ⟨"SamsungPay", "Payment", .doJSONRequestNoAuth, "/samsung/payment.do"⟩
          Schema.SamsungPayPaymentRequest req (some zero)).trace
        = (SamsungPayService.Payment env zero ⟨c⟩ ctx req).trace ∧
      (c.jsonCall env ctx
          ⟨"SamsungPay", "DirectPayment", .doJSONRequestNoAuth, "/samsung/paymentDirect.do"⟩
          Schema.SamsungPayPaymentRequest req (some zero)).trace
        = (SamsungPayService.DirectPayment env zero ⟨c⟩ ctx req).trace ∧
      (c.jsonCall env ctx
          ⟨"SBP", "B2BPerform", .doJSONRequest, "/rest/sbp/b2b/perform.do"⟩
          Schema.SBPB2BPerformRequest req (some zero)).trace
        = (SBPService.B2BPerform env zero ⟨c⟩ ctx req).trace ∧
      (c.jsonCall env ctx
          ⟨"SBP", "B2CPerformPayout", .doJSONRequest, "/rest/sbp/b2c/performPayout.do"⟩
          Schema.SBPB2CPayoutRequest req (some zero)).trace
        = (SBPService.B2CPerformPayout env zero ⟨c⟩ ctx req).trace ∧
      (c.jsonCall env ctx
          ⟨"YandexPay", "Payment", .doJSONRequestNoAuth, "/yandex/payment.do"⟩
          Schema.YandexPayRequest req (some zero)).trace
        = (YandexPayService.Payment env zero ⟨c⟩ ctx req).trace ∧
      (c.jsonCall env ctx
          ⟨"YandexPay", "DirectPayment", .doJSONRequestNoAuth, "/yandex/paymentDirect.do"⟩
          Schema.YandexPayRequest req (some zero)).trace
        = (YandexPayService.DirectPayment env zero ⟨c⟩ ctx req).trace ∧
      (c.jsonCall env ctx
          ⟨"YandexPay", "InstantPayment", .doJSONRequestNoAuth, "/yandex/instantPayment.do"⟩
          Schema.YandexPayRequest req (some zero)).trace
        = (YandexPayService.InstantPayment env zero ⟨c⟩ ctx req).trace) := by
  refine ⟨?_, by decide, fun _ _ =>
    ⟨(reply_trace _).symm, (reply_trace _).symm, (reply_trace _).symm, (reply_trace _).symm,
      (reply_trace _).symm, (reply_trace _).symm, (reply_trace _).symm, (reply_trace _).symm,
      (reply_trace _).symm, (reply_trace _).symm, (reply_trace _).symm,
      (reply_trace _).symm⟩⟩
  obtain ⟨body, hbody, hdec⟩ := jsonBody_round_trips ff pf hc c op t v hop hty hcan
  have hh : op.helper ≠ .doFormRequest := by
    simp only [jsonStyleOperations, List.mem_cons, Prod.mk.injEq, List.mem_singleton,
      List.not_mem_nil, or_false] at hop
    rcases hop with h | h | h | h | h | h | h | h | h | h | h | h <;>
      (obtain ⟨rfl, -⟩ := h; decide)
  obtain ⟨tail, ht, hcalls⟩ := helper_trace_of_marshal env c ctx op.helper op.endpoint
    (c.jsonBody op t (.ptr v)) result body hh (by rw [hM]; exact hbody) hN
  exact ⟨body, tail, hbody, ht, hcalls, hdec⟩

/-- C13, witness: the request of `Example_googlePayPayment` is read back from the
body of the call, which goes to the wallet endpoint under the base address. -/
theorem json_style_body_is_read_back_witness :
    ∃ body tail,
      Marshal zeroFloatOnly ((scriptedClient (.error "no network")).jsonBody
          ⟨"GooglePay", "Payment", .doJSONRequestNoAuth, "/google/payment.do"⟩
          Schema.GooglePayRequest (.ptr googlePayExampleRequest)) = .ok body ∧
      ((scriptedClient (.error "no network")).jsonCall (jsonEnv zeroFloatOnly ignoreBody) ⟨0⟩
          ⟨"GooglePay", "Payment", .doJSONRequestNoAuth, "/google/payment.do"⟩
          Schema.GooglePayRequest (.ptr googlePayExampleRequest) (some ())).trace
        = [Event.marshal,
            Event.newRequest "POST" "https://alfa.rbsuat.com/payment/google/payment.do",
            Event.httpDo ⟨⟨0⟩, "POST", "https://alfa.rbsuat.com/payment/google/payment.do",
              some body,
              [("Content-Type", "application/json"), ("Accept", "application/json")]⟩] ++ tail ∧
      httpCalls tail = 0 ∧
      Unmarshal zeroFloatReader Schema.GooglePayRequest body Schema.GooglePayRequest.zero
        = (googlePayExampleRequest, none) :=
  (json_style_body_is_read_back zeroFloatOnly zeroFloatReader
    (jsonEnv zeroFloatOnly ignoreBody) (scriptedClient (.error "no network")) ⟨0⟩
    ⟨"GooglePay", "Payment", .doJSONRequestNoAuth, "/google/payment.do"⟩
    Schema.GooglePayRequest googlePayExampleRequest (some ())
    (List.mem_cons_of_mem _ (List.mem_cons_self _ _)) rfl rfl zeroFloat_codec
    (by decide) (by decide)).1

/-! ## Register and RegisterPreAuth -/

/-- The request `doFormRequest` builds when the request constructor accepts it: the
caller's context, POST, the base address, the endpoint and the encoded query with
the credentials, no body, and the `Accept` header alone. -/
theorem doFormRequest_build {E B T : Type} (env : Env E B T) (c : Client E) (ctx : Context)
    (endpoint : String) (params : Option Values)
    (hN : env.NewRequestErr ctx MethodPost (c.doRequestURL endpoint params) = none) :
    c.helperBuild env ctx .doFormRequest endpoint params none
      = .ok (⟨ctx, "POST", c.baseURL ++ endpoint ++ "?" ++ (c.authQuery params).Encode, none,
              [("Accept", "application/json")]⟩,
             [Event.newRequest "POST"
               (c.baseURL ++ endpoint ++ "?" ++ (c.authQuery params).Encode)]) := by
  unfold Client.helperBuild Client.doRequestBuild marshalBody
  simp only [hN]
  rw [query_auth_url]
  rfl

/-- C26: for every request record, `Register` and `RegisterPreAuth` build the same
parameter map, and each is the common closing sequence of a form-style operation
(one `doFormRequest` into a fresh `RegisterOrderResponse`, then the two returns) on
that map; the endpoint is the only argument that differs. The requests they build
are equal in context, method, body and headers, and their URLs differ in the
endpoint alone: the base address before it and the encoded query after it are the
same. -/
theorem register_and_registerPreAuth_differ_in_endpoint_only {E B : Type}
    (env : Env E B RegisterOrderResponse) (s : OrderService E) (ctx : Context)
    (req : RegisterOrderRequest) :
    OrderService.RegisterPreAuthParams req = OrderService.RegisterParams req ∧
    s.Register env ctx req
      = s.client.call env ctx .doFormRequest "/rest/register.do"
          (some (OrderService.RegisterParams req)) none RegisterOrderResponse.zero ∧
    s.RegisterPreAuth env ctx req
      = s.client.call env ctx .doFormRequest "/rest/registerPreAuth.do"
          (some (OrderService.RegisterParams req)) none RegisterOrderResponse.zero ∧
    (env.NewRequestErr ctx MethodPost
        (s.client.helperURL .doFormRequest "/rest/register.do"
          (some (OrderService.RegisterParams req))) = none →
      env.NewRequestErr ctx MethodPost
        (s.client.helperURL .doFormRequest "/rest/registerPreAuth.do"
          (some (OrderService.RegisterPreAuthParams req))) = none →
      ∃ query : String,
        s.client.helperBuild env ctx .doFormRequest "/rest/register.do"
            (some (OrderService.RegisterParams req)) none
          = .ok (⟨ctx, "POST", s.client.baseURL ++ "/rest/register.do" ++ "?" ++ query, none,
                  [("Accept", "application/json")]⟩,
                 [Event.newRequest "POST"
                   (s.client.baseURL ++ "/rest/register.do" ++ "?" ++ query)]) ∧
        s.client.helperBuild env ctx .doFormRequest "/rest/registerPreAuth.do"
            (some (OrderService.RegisterPreAuthParams req)) none
          = .ok (⟨ctx, "POST", s.client.baseURL ++ "/rest/registerPreAuth.do" ++ "?" ++ query,
                  none, [("Accept", "application/json")]⟩,
                 [Event.newRequest "POST"
                   (s.client.baseURL ++ "/rest/registerPreAuth.do" ++ "?" ++ query)])) := by
  have hp : OrderService.RegisterPreAuthParams req = OrderService.RegisterParams req := rfl
  refine ⟨hp, rfl, rfl, fun hN hP => ⟨(s.client.authQuery
    (some (OrderService.RegisterParams req))).Encode, ?_, ?_⟩⟩
  · exact doFormRequest_build env s.client ctx _ _ hN
  · rw [hp] at hP ⊢
    exact doFormRequest_build env s.client ctx _ _ hP

/-- C26, witness: the request of the order-with-cart example, sent through both
operations; the two URLs differ in the endpoint alone. -/
theorem register_and_registerPreAuth_differ_in_endpoint_only_witness :
    (OrderService.Register registerEnv ⟨cannedClient 200 ""⟩ ⟨0⟩ orderWithCartRequest).trace
      = [Event.newRequest "POST"
          "https://alfa.rbsuat.com/payment/rest/register.do?amount=250000&email=customer%40example.com&orderNumber=ORDER-CART-001&password=your-password&returnUrl=https%3A%2F%2Fyour-site.com%2Fpayment%2Fsuccess&userName=your-username",
         Event.httpDo ⟨⟨0⟩, "POST",
          "https://alfa.rbsuat.com/payment/rest/register.do?amount=250000&email=customer%40example.com&orderNumber=ORDER-CART-001&password=your-password&returnUrl=https%3A%2F%2Fyour-site.com%2Fpayment%2Fsuccess&userName=your-username",
          none, [("Accept", "application/json")]⟩,
         Event.readAll] ∧
    (OrderService.RegisterPreAuth registerEnv ⟨cannedClient 200 ""⟩ ⟨0⟩
        orderWithCartRequest).trace
      = [Event.newRequest "POST"
          "https://alfa.rbsuat.com/payment/rest/registerPreAuth.do?amount=250000&email=customer%40example.com&orderNumber=ORDER-CART-001&password=your-password&returnUrl=https%3A%2F%2Fyour-site.com%2Fpayment%2Fsuccess&userName=your-username",
         Event.httpDo ⟨⟨0⟩, "POST",
          "https://alfa.rbsuat.com/payment/rest/registerPreAuth.do?amount=250000&email=customer%40example.com&orderNumber=ORDER-CART-001&password=your-password&returnUrl=https%3A%2F%2Fyour-site.com%2Fpayment%2Fsuccess&userName=your-username",
          none, [("Accept", "application/json")]⟩,
         Event.readAll] ∧
    (∃ query : String,
      (cannedClient 200 "").helperBuild registerEnv ⟨0⟩ .doFormRequest "/rest/register.do"
          (some (OrderService.RegisterParams orderWithCartRequest)) none
        = .ok (⟨⟨0⟩, "POST",
                (cannedClient 200 "").baseURL ++ "/rest/register.do" ++ "?" ++ query, none,
                [("Accept", "application/json")]⟩,
               [Event.newRequest "POST"
                 ((cannedClient 200 "").baseURL ++ "/rest/register.do" ++ "?" ++ query)]) ∧
      (cannedClient 200 "").helperBuild registerEnv ⟨0⟩ .doFormRequest
          "/rest/registerPreAuth.do"
          (some (OrderService.RegisterPreAuthParams orderWithCartRequest)) none
        = .ok (⟨⟨0⟩, "POST",
                (cannedClient 200 "").baseURL ++ "/rest/registerPreAuth.do" ++ "?" ++ query,
                none, [("Accept", "application/json")]⟩,
               [Event.newRequest "POST"
                 ((cannedClient 200 "").baseURL ++ "/rest/registerPreAuth.do" ++ "?"
                   ++ query)])) :=
  have h := register_and_registerPreAuth_differ_in_endpoint_only registerEnv
    ⟨cannedClient 200 ""⟩ ⟨0⟩ orderWithCartRequest
  ⟨h.2.1 ▸ (by decide), h.2.2.1 ▸ (by decide), h.2.2.2 rfl rfl⟩
/-! ## NewClient: the order of the options -/

section OptionOrderLemmas

theorem foldl_apply_append {E : Type} (c : Client E) (opts rest : List (ClientOption E)) :
    (opts ++ rest).foldl ClientOption.apply c
      = rest.foldl ClientOption.apply (opts.foldl ClientOption.apply c) :=
  List.foldl_append _ _ _ _

theorem foldl_apply_keeps_baseURL {E : Type} (rest : List (ClientOption E))
    (hrest : ∀ o ∈ rest, ∀ b, o ≠ ClientOption.WithBaseURL b) :
    ∀ c : Client E, (rest.foldl ClientOption.apply c).baseURL = c.baseURL := by
  induction rest with
  | nil => intro c; rfl
  | cons o tl ih =>
    intro c
    rw [List.foldl_cons, ih (fun o2 h2 => hrest o2 (List.mem_cons_of_mem _ h2))]
    cases o with
    | WithBaseURL b => exact absurd rfl (hrest _ (List.mem_cons_self _ _) b)
    | WithHTTPClient h => rfl
    | WithTimeout t => rfl

end OptionOrderLemmas

/-- C28: `NewClient` applies its options from left to right. With
`WithTimeout(t), WithHTTPClient(h)` the client holds `h` and so the timeout of `h`;
with `WithHTTPClient(h), WithTimeout(t)` it holds `h` with the timeout `t`. Without
options the timeout is 30 seconds and the base address is `DefaultBaseURL`. Of
several `WithBaseURL` options the last one decides the base address (stored without
its trailing slashes), whatever options stand before it and whatever other options
stand after it. -/
theorem newClient_applies_options_in_order {E : Type}
    (transport : Request → Except E (Response E)) (userName password : String)
    (t : Int) (h : HTTPClient E) (opts rest : List (ClientOption E)) (baseURL : String)
    (hrest : ∀ o ∈ rest, ∀ b, o ≠ ClientOption.WithBaseURL b) :
    (NewClient transport userName password
        [.WithTimeout t, .WithHTTPClient h]).httpClient.Timeout = h.Timeout ∧
    (NewClient transport userName password [.WithTimeout t, .WithHTTPClient h]).httpClient = h ∧
    (NewClient transport userName password
        [.WithHTTPClient h, .WithTimeout t]).httpClient.Timeout = t ∧
    (NewClient transport userName password [.WithHTTPClient h, .WithTimeout t]).httpClient
      = { h with Timeout := t } ∧
    (NewClient transport userName password []).httpClient.Timeout = 30 * 1000000000 ∧
    (NewClient transport userName password []).baseURL = DefaultBaseURL ∧
    (NewClient transport userName password (opts ++ .WithBaseURL baseURL :: rest)).baseURL
      = TrimRight baseURL "/" := by
  refine ⟨rfl, rfl, rfl, rfl, rfl, rfl, ?_⟩
  unfold NewClient
  rw [foldl_apply_append, List.foldl_cons, foldl_apply_keeps_baseURL rest hrest]
  rfl

/-- C28, witness: two base addresses around a timeout option; the later address is
the one the client holds. -/
theorem newClient_applies_options_in_order_witness :
    (NewClient (fun _ => Except.error "no network") "your-username" "your-password"
        [.WithBaseURL "https://example.test", .WithBaseURL "https://pay.alfabank.ru/payment",
          .WithTimeout 5]).baseURL
      = "https://pay.alfabank.ru/payment" ∧
    (NewClient (fun _ => Except.error "no network") "your-username" "your-password"
        [.WithTimeout 5, .WithHTTPClient ⟨7, fun _ => Except.error "offline"⟩]).httpClient.Timeout
      = 7 ∧
    (NewClient (fun _ => Except.error "no network") "your-username" "your-password"
        [.WithHTTPClient ⟨7, fun _ => Except.error "offline"⟩, .WithTimeout 5]).httpClient.Timeout
      = 5 :=
  have hw := newClient_applies_options_in_order (fun _ => Except.error "no network")
    "your-username" "your-password" 5 ⟨7, fun _ => Except.error "offline"⟩
    [.WithBaseURL "https://example.test"] [.WithTimeout 5] "https://pay.alfabank.ru/payment"
    (by
      intro o ho b hb
      rw [List.mem_singleton] at ho
      rw [ho] at hb
      cases hb)
  ⟨hw.2.2.2.2.2.2.trans (by decide), hw.1, hw.2.2.1⟩
/-! ## InstantRefund -/

/-- C23, the code at the failing input: `InstantRefund` puts `orderId` into its
parameter set for every argument, the empty order id included. Called as
`InstantRefund(ctx, "", 5000)` it sends `orderId=` in the query string of its one
request to `/rest/instantRefund.do`, whatever the decoder of the response is. -/
theorem instantRefund_always_sends_orderId :
    (∀ (orderID : String) (amount : Int),
      (RefundService.InstantRefundParams orderID amount).Has "orderId" = true ∧
      (RefundService.InstantRefundParams orderID amount).lookup "orderId" = [orderID]) ∧
    (RefundService.InstantRefundParams "" 5000).keys = ["amount", "orderId"] ∧
    (∀ unmarshal : String → BaseResponse → BaseResponse × Option JSONError,
      (RefundService.InstantRefund
          (⟨(fun b => nomatch b), fun _ _ _ => none, unmarshal⟩ :
            Env JSONError Empty BaseResponse)
          ⟨cannedClient 200 ""⟩ ⟨0⟩ "" 5000).trace
        = [Event.newRequest "POST"
            "https://alfa.rbsuat.com/payment/rest/instantRefund.do?amount=5000&orderId=&password=your-password&userName=your-username",
           Event.httpDo ⟨⟨0⟩, "POST",
            "https://alfa.rbsuat.com/payment/rest/instantRefund.do?amount=5000&orderId=&password=your-password&userName=your-username",
            none, [("Accept", "application/json")]⟩,
           Event.readAll]) := by
  refine ⟨fun orderID amount => ⟨?_, ?_⟩, by decide, fun unmarshal => ?_⟩
  · simp [RefundService.InstantRefundParams, Values.Has, Values.Set]
  · simp [RefundService.InstantRefundParams, lookup_Set, lookup_nil]
  · rfl
/-! ## The body is read before the status is inspected -/

/-- C24, counterexample: a response with status 503 whose body cannot be read. No
Gateway Error is produced for it, in either mode: the error returned is the read
failure. -/
theorem dispatch_status_503_with_unreadable_body_is_no_gateway_error :
    ((scriptedClient (.ok ⟨503, .error "connection reset by peer"⟩)).Dispatch textEnv ⟨0⟩
        .queryAuthenticated MethodPost "/rest/refund.do" none none
        (some RegisterOrderResponse.zero)).err
      = some (Error.wrapError "failed to read response body" "connection reset by peer") ∧
    ((scriptedClient (.ok ⟨503, .error "connection reset by peer"⟩)).Dispatch textEnv ⟨0⟩
        .bodyAuthenticatedOrNone MethodPost "/google/payment.do" none none
        (some RegisterOrderResponse.zero)).err
      = some (Error.wrapError "failed to read response body" "connection reset by peer") ∧
    (Error.wrapError "failed to read response body" "connection reset by peer" :
      Error String).isAPIError = false := by
  decide

/-- C24, amended: Dispatch (in either mode) reads the body of every response before
it looks at the status: the read is the call that follows the outbound call,
whatever the status. For a response with status at least 400 whose body is read,
the error is the Gateway Error with that status and with the whole body as its
message, and the decoder is not called; when the read fails, the error is the read
failure and not a Gateway Error. So a Gateway Error is produced for a response with
status at least 400 exactly when its body is read. -/
theorem dispatch_gateway_error_carries_whole_body {E B T : Type} (env : Env E B T)
    (c : Client E) (ctx : Context) (mode : AuthMode) (method endpoint : String)
    (query : Option Values) (body : Option B) (result : Option T) (req : Request)
    (trace : List Event) (resp : Response E)
    (hbuild : c.DispatchBuild env ctx mode method endpoint query body = .ok (req, trace))
    (hdo : c.httpClient.Do req = .ok resp) (hstatus : 400 ≤ resp.StatusCode) :
    (c.Dispatch env ctx mode method endpoint query body result).trace
      = trace ++ [Event.httpDo req, Event.readAll] ∧
    (∀ respBody, resp.Body = .ok respBody →
      (c.Dispatch env ctx mode method endpoint query body result).err
        = some (Error.apiError ⟨resp.StatusCode, respBody⟩) ∧
      (APIError.mk resp.StatusCode respBody).Message = respBody) ∧
    (∀ e, resp.Body = .error e →
      (c.Dispatch env ctx mode method endpoint query body result).err
        = some (Error.wrapError "failed to read response body" e)) ∧
    ((∃ a, (c.Dispatch env ctx mode method endpoint query body result).err
        = some (Error.apiError a)) ↔ ∃ respBody, resp.Body = .ok respBody) := by
  rw [Dispatch_eq_roundTrip env c ctx mode method endpoint query body result req trace hbuild]
  cases hread : resp.Body with
  | error e =>
    rw [roundTrip_read_failure env c req result trace resp e hdo hread]
    refine ⟨rfl, (fun respBody h => nomatch h), fun e2 h => ?_, ?_⟩
    · cases h
      rfl
    · constructor
      · rintro ⟨a, ha⟩
        cases ha
      · rintro ⟨respBody, h⟩
        cases h
  | ok respBody =>
    rw [roundTrip_gateway env c req result trace resp respBody hdo hread hstatus]
    refine ⟨rfl, fun respBody2 h => ?_, (fun e h => nomatch h), ?_⟩
    · cases h
      exact ⟨rfl, rfl⟩
    · exact ⟨fun _ => ⟨respBody, rfl⟩, fun _ => ⟨_, rfl⟩⟩

/-- C24, witness: status 503 with the body `Service Unavailable`, which is not JSON,
in both modes. -/
theorem dispatch_gateway_error_carries_whole_body_witness :
    ((scriptedClient (.ok ⟨503, .ok "Service Unavailable"⟩)).Dispatch textEnv ⟨0⟩
        .queryAuthenticated MethodPost "/rest/refund.do" none none
        (some RegisterOrderResponse.zero)).err
      = some (Error.apiError ⟨503, "Service Unavailable"⟩) ∧
    ((scriptedClient (.ok ⟨503, .ok "Service Unavailable"⟩)).Dispatch textEnv ⟨0⟩
        .bodyAuthenticatedOrNone MethodPost "/google/payment.do" none none
        (some RegisterOrderResponse.zero)).err
      = some (Error.apiError ⟨503, "Service Unavailable"⟩) :=
  ⟨((dispatch_gateway_error_carries_whole_body textEnv
      (scriptedClient (.ok ⟨503, .ok "Service Unavailable"⟩)) ⟨0⟩ .queryAuthenticated
      MethodPost "/rest/refund.do" none none (some RegisterOrderResponse.zero) _ _
      ⟨503, .ok "Service Unavailable"⟩ rfl rfl (by decide)).2.1 "Service Unavailable" rfl).1,
   ((dispatch_gateway_error_carries_whole_body textEnv
      (scriptedClient (.ok ⟨503, .ok "Service Unavailable"⟩)) ⟨0⟩ .bodyAuthenticatedOrNone
      MethodPost "/google/payment.do" none none (some RegisterOrderResponse.zero) _ _
      ⟨503, .ok "Service Unavailable"⟩ rfl rfl (by decide)).2.1 "Service Unavailable" rfl).1⟩
/-! ## What a domain operation returns -/

section CallLemmas

variable {E B T : Type}

theorem helperDispatch_of_build_error (env : Env E B T) (c : Client E) (ctx : Context)
    (helper : Helper) (endpoint : String) (params : Option Values) (body : Option B)
    (result : Option T) (err : Error E) (trace : List Event)
    (h : c.helperBuild env ctx helper endpoint params body = .error (err, trace)) :
    c.helperDispatch env ctx helper endpoint params body result = ⟨some err, result, trace⟩ := by
  cases helper with
  | doFormRequest =>
    exact Dispatch_of_build_error env c ctx .queryAuthenticated MethodPost endpoint params none
      result err trace h
  | doJSONRequest =>
    exact Dispatch_of_build_error env c ctx .queryAuthenticated MethodPost endpoint none body
      result err trace h
  | doJSONRequestNoAuth =>
    exact Dispatch_of_build_error env c ctx .bodyAuthenticatedOrNone MethodPost endpoint none
      body result err trace h

theorem helperDispatch_of_build (env : Env E B T) (c : Client E) (ctx : Context)
    (helper : Helper) (endpoint : String) (params : Option Values) (body : Option B)
    (result : Option T) (req : Request) (trace : List Event)
    (h : c.helperBuild env ctx helper endpoint params body = .ok (req, trace)) :
    c.helperDispatch env ctx helper endpoint params body result
      = c.roundTrip env req result trace := by
  cases helper with
  | doFormRequest =>
    exact Dispatch_eq_roundTrip env c ctx .queryAuthenticated MethodPost endpoint params none
      result req trace h
  | doJSONRequest =>
    exact Dispatch_eq_roundTrip env c ctx .queryAuthenticated MethodPost endpoint none body
      result req trace h
  | doJSONRequestNoAuth =>
    exact Dispatch_eq_roundTrip env c ctx .bodyAuthenticatedOrNone MethodPost endpoint none
      body result req trace h

theorem roundTrip_result_isSome (env : Env E B T) (c : Client E) (req : Request) (target : T)
    (trace : List Event) : (c.roundTrip env req (some target) trace).result.isSome = true := by
  unfold Client.roundTrip
  split
  · rfl
  · split
    · rfl
    · split
      · rfl
      · simp only
        split
        · split <;> rfl
        · rfl

theorem helperDispatch_result_isSome (env : Env E B T) (c : Client E) (ctx : Context)
    (helper : Helper) (endpoint : String) (params : Option Values) (body : Option B)
    (target : T) :
    (c.helperDispatch env ctx helper endpoint params body (some target)).result.isSome
      = true := by
  cases hb : c.helperBuild env ctx helper endpoint params body with
  | error p =>
    obtain ⟨err, trace⟩ := p
    rw [helperDispatch_of_build_error env c ctx helper endpoint params body _ err trace hb]
    rfl
  | ok p =>
    obtain ⟨req, trace⟩ := p
    rw [helperDispatch_of_build env c ctx helper endpoint params body _ req trace hb]
    exact roundTrip_result_isSome env c req target trace

end CallLemmas
section OperationInstances

variable {E B T : Type}

/-! Each of the operations below is the closing sequence `Client.call` at its helper, its
endpoint and the parameters or body it has built. -/

theorem Register_eq_call (env : Env E B RegisterOrderResponse) (s : OrderService E)
    (ctx : Context) (req : RegisterOrderRequest) :
    s.Register env ctx req = s.client.call env ctx .doFormRequest "/rest/register.do"
      (some (OrderService.RegisterParams req)) none RegisterOrderResponse.zero := rfl

theorem RegisterPreAuth_eq_call (env : Env E B RegisterOrderResponse) (s : OrderService E)
    (ctx : Context) (req : RegisterOrderRequest) :
    s.RegisterPreAuth env ctx req = s.client.call env ctx .doFormRequest
      "/rest/registerPreAuth.do" (some (OrderService.RegisterPreAuthParams req)) none
      RegisterOrderResponse.zero := rfl

theorem AddParams_eq_call (env : Env E B BaseResponse) (s : OrderService E) (ctx : Context)
    (req : AddParamsRequest) :
    s.AddParams env ctx req = s.client.call env ctx .doFormRequest "/rest/addParams.do"
      (some (OrderService.AddParamsParams req)) none BaseResponse.zero := rfl

theorem InstantRefund_eq_call (env : Env E B BaseResponse) (s : RefundService E)
    (ctx : Context) (orderID : String) (amount : Int) :
    s.InstantRefund env ctx orderID amount = s.client.call env ctx .doFormRequest
      "/rest/instantRefund.do" (some (RefundService.InstantRefundParams orderID amount)) none
      BaseResponse.zero := rfl

theorem Deposit_eq_call (env : Env E B BaseResponse) (s : PaymentService E) (ctx : Context)
    (req : DepositRequest) :
    s.Deposit env ctx req = s.client.call env ctx .doFormRequest "/rest/deposit.do"
      (some (PaymentService.DepositParams req)) none BaseResponse.zero := rfl

theorem Reverse_eq_call (env : Env E B BaseResponse) (s : PaymentService E) (ctx : Context)
    (req : ReverseRequest) :
    s.Reverse env ctx req = s.client.call env ctx .doFormRequest "/rest/reverse.do"
      (some (PaymentService.ReverseParams req)) none BaseResponse.zero := rfl

theorem GetExtended_eq_call (env : Env E B T) (zero : T) (s : StatusService E) (ctx : Context)
    (req : GetOrderStatusRequest) :
    s.GetExtended env zero ctx req = s.client.call env ctx .doFormRequest
      "/rest/getOrderStatusExtended.do" (some (StatusService.GetExtendedParams req)) none
      zero := rfl

theorem GetByOrderID_eq_call (env : Env E B T) (zero : T) (s : StatusService E)
    (ctx : Context) (orderID : String) :
    s.GetByOrderID env zero ctx orderID = s.client.call env ctx .doFormRequest
      "/rest/getOrderStatusExtended.do"
      (some (StatusService.GetExtendedParams { OrderID := orderID })) none zero := rfl

theorem GetByOrderNumber_eq_call (env : Env E B T) (zero : T) (s : StatusService E)
    (ctx : Context) (orderNumber : String) :
    s.GetByOrderNumber env zero ctx orderNumber = s.client.call env ctx .doFormRequest
      "/rest/getOrderStatusExtended.do"
      (some (StatusService.GetExtendedParams { OrderNumber := orderNumber })) none zero := rfl

theorem GetLastOrders_eq_call (env : Env E B T) (zero : T) (s : StatusService E)
    (ctx : Context) (req : GetLastOrdersRequest) :
    s.GetLastOrders env zero ctx req = s.client.call env ctx .doFormRequest
      "/rest/getLastOrdersForMerchants.do" (some (StatusService.GetLastOrdersParams req)) none
      zero := rfl

theorem GetQR_eq_call (env : Env E B T) (zero : T) (s : SBPService E) (ctx : Context)
    (req : SBPGetQRRequest) :
    s.GetQR env zero ctx req = s.client.call env ctx .doFormRequest
      "/rest/sbp/c2b/qr/dynamic/get.do" (some (SBPService.GetQRParams req)) none zero := rfl

theorem B2BPerform_eq_call (env : Env E Typed T) (zero : T) (s : SBPService E) (ctx : Context)
    (req : GoValue) :
    s.B2BPerform env zero ctx req = s.client.call env ctx .doJSONRequest
      "/rest/sbp/b2b/perform.do" none (some ⟨.ptr Schema.SBPB2BPerformRequest, req⟩)
      zero := rfl

theorem B2CPerformPayout_eq_call (env : Env E Typed T) (zero : T) (s : SBPService E)
    (ctx : Context) (req : GoValue) :
    s.B2CPerformPayout env zero ctx req = s.client.call env ctx .doJSONRequest
      "/rest/sbp/b2c/performPayout.do" none (some ⟨.ptr Schema.SBPB2CPayoutRequest, req⟩)
      zero := rfl

theorem ApplePay_Payment_eq_call (env : Env E Typed T) (zero : T) (s : ApplePayService E)
    (ctx : Context) (req : GoValue) :
    s.Payment env zero ctx req = s.client.call env ctx .doJSONRequestNoAuth
      "/applepay/payment.do" none (some ⟨.ptr Schema.ApplePayPaymentRequest, req⟩)
      zero := rfl

theorem Recurrent_eq_call (env : Env E Typed T) (zero : T) (s : PaymentService E)
    (ctx : Context) (req : GoValue) :
    s.Recurrent env zero ctx req = s.client.call env ctx .doJSONRequestNoAuth
      "/recurrentPayment.do" none (some (s.recurrentReqWithAuth req)) zero := rfl

theorem call_cases (env : Env E B T) (c : Client E) (ctx : Context) (helper : Helper)
    (endpoint : String) (params : Option Values) (body : Option B) (zero : T) :
    ((c.helperDispatch env ctx helper endpoint params body (some zero)).err = none ∧
      c.call env ctx helper endpoint params body zero
        = ⟨(c.helperDispatch env ctx helper endpoint params body (some zero)).result, none,
            (c.helperDispatch env ctx helper endpoint params body (some zero)).trace⟩) ∨
    (∃ err, (c.helperDispatch env ctx helper endpoint params body (some zero)).err = some err ∧
      c.call env ctx helper endpoint params body zero
        = ⟨none, some err,
            (c.helperDispatch env ctx helper endpoint params body (some zero)).trace⟩) := by
  unfold Client.call
  generalize c.helperDispatch env ctx helper endpoint params body (some zero) = out
  obtain ⟨err, result, trace⟩ := out
  cases err with
  | none => exact Or.inl ⟨rfl, rfl⟩
  | some err => exact Or.inr ⟨err, rfl, rfl⟩

theorem call_resp_none_iff (env : Env E B T) (c : Client E) (ctx : Context) (helper : Helper)
    (endpoint : String) (params : Option Values) (body : Option B) (zero : T) :
    (c.call env ctx helper endpoint params body zero).resp = none ↔
      (c.call env ctx helper endpoint params body zero).err ≠ none := by
  have hsome := helperDispatch_result_isSome env c ctx helper endpoint params body zero
  rcases call_cases env c ctx helper endpoint params body zero with ⟨he, hc⟩ | ⟨err, he, hc⟩
  · rw [Option.isSome_iff_exists] at hsome
    obtain ⟨t, ht⟩ := hsome
    rw [hc, ht]
    simp
  · rw [hc]
    simp

end OperationInstances

theorem call_returns {E B T : Type} (env : Env E B T) (c : Client E) (ctx : Context)
    (helper : Helper) (endpoint : String) (params : Option Values) (body : Option B)
    (zero : T) :
    c.ReturnsResponseOrError env ctx helper endpoint params body zero
      (c.call env ctx helper endpoint params body zero) := by
  have hsome := helperDispatch_result_isSome env c ctx helper endpoint params body zero
  have hempty : ∀ req trace resp,
      c.helperBuild env ctx helper endpoint params body = .ok (req, trace) →
      c.httpClient.Do req = .ok resp → resp.Body = .ok "" → resp.StatusCode < 400 →
      c.helperDispatch env ctx helper endpoint params body (some zero)
        = ⟨none, some zero, trace ++ [.httpDo req, .readAll]⟩ := by
    intro req trace resp hb hdo hread hstatus
    rw [helperDispatch_of_build env c ctx helper endpoint params body _ req trace hb]
    exact roundTrip_no_decode env c req (some zero) trace resp "" hdo hread hstatus (Or.inl rfl)
  unfold Client.ReturnsResponseOrError
  refine ⟨call_resp_none_iff env c ctx helper endpoint params body zero, ?_⟩
  rcases call_cases env c ctx helper endpoint params body zero with ⟨he, hc⟩ | ⟨err, he, hc⟩
  · rw [Option.isSome_iff_exists] at hsome
    obtain ⟨t, ht⟩ := hsome
    rw [hc, he, ht]
    refine ⟨rfl, rfl, (fun err h => nomatch h), fun _ => ⟨t, rfl, rfl⟩, ?_⟩
    intro req trace resp hb hdo hread hstatus
    have hz := hempty req trace resp hb hdo hread hstatus
    rw [hz] at ht
    cases ht
    exact ⟨rfl, rfl⟩
  · rw [hc, he]
    refine ⟨rfl, rfl, fun err2 h => ⟨rfl, h⟩, (fun h => nomatch h), ?_⟩
    intro req trace resp hb hdo hread hstatus
    rw [hempty req trace resp hb hdo hread hstatus] at he
    cases he

/-- C27: every operation of every service (the 43 methods of the table, each with
the helper, the endpoint and the parameters or body of its own dispatch call)
returns exactly one of its two results. For each of them, whatever the library
functions, the client, the context and the arguments: the response is nil exactly
when the error is not nil; the error is the one its dispatch returned, unchanged,
and the calls made are those of that dispatch; with an error of the dispatch the
response is nil, also when the decoder had already written part of the target;
without one the response is not nil and is the target the dispatch wrote into the
fresh response; and for an answer with a status below 400 and an empty body the
response is the zero value of the response type. -/
theorem operation_returns_response_or_error (E B T : Type) :
    (∀ (env : Env E Typed T) (zero : T) (s : ApplePayService E) (ctx : Context)
        (req : GoValue),
      s.client.ReturnsResponseOrError env ctx .doJSONRequestNoAuth "/applepay/payment.do"
        none (some ⟨.ptr Schema.ApplePayPaymentRequest, req⟩) zero
        (s.Payment env zero ctx req)) ∧
    (∀ (env : Env E B T) (zero : T) (s : BindingService E) (ctx : Context)
        (req : GetBindingsRequest),
      s.client.ReturnsResponseOrError env ctx .doFormRequest "/rest/getBindings.do"
        (some (BindingService.GetBindingsParams req)) none zero
        (s.GetBindings env zero ctx req)) ∧
    (∀ (env : Env E B T) (zero : T) (s : BindingService E) (ctx : Context)
        (req : GetBindingsRequest),
      s.client.ReturnsResponseOrError env ctx .doFormRequest "/rest/getAllBindings.do"
        (some (BindingService.GetAllBindingsParams req)) none zero
        (s.GetAllBindings env zero ctx req)) ∧
    (∀ (env : Env E B BaseResponse) (s : BindingService E) (ctx : Context)
        (req : BindingRequest),
      s.client.ReturnsResponseOrError env ctx .doFormRequest "/rest/bindCard.do"
        (some (BindingService.ActivateParams req)) none BaseResponse.zero
        (s.Activate env ctx req)) ∧
    (∀ (env : Env E B BaseResponse) (s : BindingService E) (ctx : Context)
        (req : UnbindRequest),
      s.client.ReturnsResponseOrError env ctx .doFormRequest "/rest/unBindCard.do"
        (some (BindingService.DeactivateParams req)) none BaseResponse.zero
        (s.Deactivate env ctx req)) ∧
    (∀ (env : Env E B BaseResponse) (s : BindingService E) (ctx : Context)
        (req : ExtendBindingRequest),
      s.client.ReturnsResponseOrError env ctx .doFormRequest "/rest/extendBinding.do"
        (some (BindingService.ExtendParams req)) none BaseResponse.zero
        (s.Extend env ctx req)) ∧
    (∀ (env : Env E B T) (zero : T) (s : BindingService E) (ctx : Context)
        (bindingID pan : String),
      s.client.ReturnsResponseOrError env ctx .doFormRequest "/rest/getBindingsByCardOrId.do"
        (some (BindingService.GetByCardOrIDParams bindingID pan)) none zero
        (s.GetByCardOrID env zero ctx bindingID pan)) ∧
    (∀ (env : Env E Typed T) (zero : T) (s : GooglePayService E) (ctx : Context)
        (req : GoValue),
      s.client.ReturnsResponseOrError env ctx .doJSONRequestNoAuth "/google/payment.do"
        none (some ⟨.ptr Schema.GooglePayRequest, req⟩) zero
        (s.Payment env zero ctx req)) ∧
    (∀ (env : Env E Typed T) (zero : T) (s : MirPayService E) (ctx : Context)
        (req : GoValue),
      s.client.ReturnsResponseOrError env ctx .doJSONRequestNoAuth "/mir/payment.do"
        none (some ⟨.ptr Schema.MirPayPaymentRequest, req⟩) zero
        (s.Payment env zero ctx req)) ∧
    (∀ (env : Env E Typed T) (zero : T) (s : MirPayService E) (ctx : Context)
        (req : GoValue),
      s.client.ReturnsResponseOrError env ctx .doJSONRequestNoAuth "/mir/paymentDirect.do"
        none (some ⟨.ptr Schema.MirPayPaymentRequest, req⟩) zero
        (s.DirectPayment env zero ctx req)) ∧
    (∀ (env : Env E B RegisterOrderResponse) (s : OrderService E) (ctx : Context)
        (req : RegisterOrderRequest),
      s.client.ReturnsResponseOrError env ctx .doFormRequest "/rest/register.do"
        (some (OrderService.RegisterParams req)) none RegisterOrderResponse.zero
        (s.Register env ctx req)) ∧
    (∀ (env : Env E B RegisterOrderResponse) (s : OrderService E) (ctx : Context)
        (req : RegisterOrderRequest),
      s.client.ReturnsResponseOrError env ctx .doFormRequest "/rest/registerPreAuth.do"
        (some (OrderService.RegisterPreAuthParams req)) none RegisterOrderResponse.zero
        (s.RegisterPreAuth env ctx req)) ∧
    (∀ (env : Env E B BaseResponse) (s : OrderService E) (ctx : Context)
        (req : DeclineRequest),
      s.client.ReturnsResponseOrError env ctx .doFormRequest "/rest/decline.do"
        (some (OrderService.DeclineParams req)) none BaseResponse.zero
        (s.Decline env ctx req)) ∧
    (∀ (env : Env E B BaseResponse) (s : OrderService E) (ctx : Context)
        (req : AddParamsRequest),
      s.client.ReturnsResponseOrError env ctx .doFormRequest "/rest/addParams.do"
        (some (OrderService.AddParamsParams req)) none BaseResponse.zero
        (s.AddParams env ctx req)) ∧
    (∀ (env : Env E B BaseResponse) (s : PaymentService E) (ctx : Context)
        (req : DepositRequest),
      s.client.ReturnsResponseOrError env ctx .doFormRequest "/rest/deposit.do"
        (some (PaymentService.DepositParams req)) none BaseResponse.zero
        (s.Deposit env ctx req)) ∧
    (∀ (env : Env E B BaseResponse) (s : PaymentService E) (ctx : Context)
        (req : ReverseRequest),
      s.client.ReturnsResponseOrError env ctx .doFormRequest "/rest/reverse.do"
        (some (PaymentService.ReverseParams req)) none BaseResponse.zero
        (s.Reverse env ctx req)) ∧
    (∀ (env : Env E B T) (zero : T) (s : PaymentService E) (ctx : Context)
        (req : PaymentOrderBindingRequest),
      s.client.ReturnsResponseOrError env ctx .doFormRequest "/rest/paymentOrderBinding.do"
        (some (PaymentService.PayWithBindingParams req)) none zero
        (s.PayWithBinding env zero ctx req)) ∧
    (∀ (env : Env E B T) (zero : T) (s : PaymentService E) (ctx : Context)
        (req : InstantPaymentRequest),
      s.client.ReturnsResponseOrError env ctx .doFormRequest "/rest/instantPayment.do"
        (some (PaymentService.InstantParams req)) none zero
        (s.Instant env zero ctx req)) ∧
    (∀ (env : Env E Typed T) (zero : T) (s : PaymentService E) (ctx : Context)
        (req : GoValue),
      s.client.ReturnsResponseOrError env ctx .doJSONRequestNoAuth "/recurrentPayment.do"
        none (some (s.recurrentReqWithAuth req)) zero
        (s.Recurrent env zero ctx req)) ∧
    (∀ (env : Env E B T) (zero : T) (s : PaymentService E) (ctx : Context)
        (req : Finish3DSPaymentRequest),
      s.client.ReturnsResponseOrError env ctx .doFormRequest "/rest/finish3dsPayment.do"
        (some (PaymentService.Finish3DSParams req)) none zero
        (s.Finish3DS env zero ctx req)) ∧
    (∀ (env : Env E B BaseResponse) (s : RefundService E) (ctx : Context)
        (req : RefundRequest),
      s.client.ReturnsResponseOrError env ctx .doFormRequest "/rest/refund.do"
        (some (RefundService.RefundParams req)) none BaseResponse.zero
        (s.Refund env ctx req)) ∧
    (∀ (env : Env E B BaseResponse) (s : RefundService E) (ctx : Context)
        (orderID : String) (amount : Int),
      s.client.ReturnsResponseOrError env ctx .doFormRequest "/rest/instantRefund.do"
        (some (RefundService.InstantRefundParams orderID amount)) none BaseResponse.zero
        (s.InstantRefund env ctx orderID amount)) ∧
    (∀ (env : Env E Typed T) (zero : T) (s : SamsungPayService E) (ctx : Context)
        (req : GoValue),
      s.client.ReturnsResponseOrError env ctx .doJSONRequestNoAuth "/samsung/payment.do"
        none (some ⟨.ptr Schema.SamsungPayPaymentRequest, req⟩) zero
        (s.Payment env zero ctx req)) ∧
    (∀ (env : Env E Typed T) (zero : T) (s : SamsungPayService E) (ctx : Context)
        (req : GoValue),
      s.client.ReturnsResponseOrError env ctx .doJSONRequestNoAuth "/samsung/paymentDirect.do"
        none (some ⟨.ptr Schema.SamsungPayPaymentRequest, req⟩) zero
        (s.DirectPayment env zero ctx req)) ∧
    (∀ (env : Env E B T) (zero : T) (s : SBPService E) (ctx : Context)
        (req : SBPGetQRRequest),
      s.client.ReturnsResponseOrError env ctx .doFormRequest "/rest/sbp/c2b/qr/dynamic/get.do"
        (some (SBPService.GetQRParams req)) none zero
        (s.GetQR env zero ctx req)) ∧
    (∀ (env : Env E B T) (zero : T) (s : SBPService E) (ctx : Context)
        (mdOrder : String),
      s.client.ReturnsResponseOrError env ctx .doFormRequest "/rest/sbp/c2b/qr/status.do"
        (some (SBPService.GetQRStatusParams mdOrder)) none zero
        (s.GetQRStatus env zero ctx mdOrder)) ∧
    (∀ (env : Env E B BaseResponse) (s : SBPService E) (ctx : Context)
        (mdOrder : String),
      s.client.ReturnsResponseOrError env ctx .doFormRequest "/rest/sbp/c2b/qr/dynamic/reject.do"
        (some (SBPService.RejectQRParams mdOrder)) none BaseResponse.zero
        (s.RejectQR env ctx mdOrder)) ∧
    (∀ (env : Env E B T) (zero : T) (s : SBPService E) (ctx : Context)
        (mdOrder : String),
      s.client.ReturnsResponseOrError env ctx .doFormRequest "/rest/sbp/c2b/bind.do"
        (some (SBPService.BindParams mdOrder)) none zero
        (s.Bind env zero ctx mdOrder)) ∧
    (∀ (env : Env E B BaseResponse) (s : SBPService E) (ctx : Context)
        (bindingID : String),
      s.client.ReturnsResponseOrError env ctx .doFormRequest "/rest/sbp/c2b/unBind.do"
        (some (SBPService.UnbindParams bindingID)) none BaseResponse.zero
        (s.Unbind env ctx bindingID)) ∧
    (∀ (env : Env E B T) (zero : T) (s : SBPService E) (ctx : Context)
        (clientID : String),
      s.client.ReturnsResponseOrError env ctx .doFormRequest "/rest/sbp/c2b/getBindings.do"
        (some (SBPService.GetBindingsParams clientID)) none zero
        (s.GetBindings env zero ctx clientID)) ∧
    (∀ (env : Env E B T) (zero : T) (s : SBPService E) (ctx : Context)
        (orderID : String),
      s.client.ReturnsResponseOrError env ctx .doFormRequest "/rest/sbp/b2b/getPayload.do"
        (some (SBPService.B2BGetPayloadParams orderID)) none zero
        (s.B2BGetPayload env zero ctx orderID)) ∧
    (∀ (env : Env E Typed T) (zero : T) (s : SBPService E) (ctx : Context)
        (req : GoValue),
      s.client.ReturnsResponseOrError env ctx .doJSONRequest "/rest/sbp/b2b/perform.do"
        none (some ⟨.ptr Schema.SBPB2BPerformRequest, req⟩) zero
        (s.B2BPerform env zero ctx req)) ∧
    (∀ (env : Env E Typed T) (zero : T) (s : SBPService E) (ctx : Context)
        (req : GoValue),
      s.client.ReturnsResponseOrError env ctx .doJSONRequest "/rest/sbp/b2c/performPayout.do"
        none (some ⟨.ptr Schema.SBPB2CPayoutRequest, req⟩) zero
        (s.B2CPerformPayout env zero ctx req)) ∧
    (∀ (env : Env E B T) (zero : T) (s : SBPService E) (ctx : Context)
        (orderID : String),
      s.client.ReturnsResponseOrError env ctx .doFormRequest "/rest/sbp/b2c/checkPayout.do"
        (some (SBPService.B2CCheckPayoutParams orderID)) none zero
        (s.B2CCheckPayout env zero ctx orderID)) ∧
    (∀ (env : Env E B T) (zero : T) (s : SBPService E) (ctx : Context)
        (orderID : String),
      s.client.ReturnsResponseOrError env ctx .doFormRequest "/rest/sbp/b2c/getPayoutStatus.do"
        (some (SBPService.B2CGetPayoutStatusParams orderID)) none zero
        (s.B2CGetPayoutStatus env zero ctx orderID)) ∧
    (∀ (env : Env E B T) (zero : T) (s : StatusService E) (ctx : Context)
        (req : GetOrderStatusRequest),
      s.client.ReturnsResponseOrError env ctx .doFormRequest "/rest/getOrderStatusExtended.do"
        (some (StatusService.GetExtendedParams req)) none zero
        (s.GetExtended env zero ctx req)) ∧
    (∀ (env : Env E B T) (zero : T) (s : StatusService E) (ctx : Context)
        (orderID : String),
      s.client.ReturnsResponseOrError env ctx .doFormRequest "/rest/getOrderStatusExtended.do"
        (some (StatusService.GetExtendedParams { OrderID := orderID })) none zero
        (s.GetByOrderID env zero ctx orderID)) ∧
    (∀ (env : Env E B T) (zero : T) (s : StatusService E) (ctx : Context)
        (orderNumber : String),
      s.client.ReturnsResponseOrError env ctx .doFormRequest "/rest/getOrderStatusExtended.do"
        (some (StatusService.GetExtendedParams { OrderNumber := orderNumber })) none zero
        (s.GetByOrderNumber env zero ctx orderNumber)) ∧
    (∀ (env : Env E B T) (zero : T) (s : StatusService E) (ctx : Context)
        (req : GetLastOrdersRequest),
      s.client.ReturnsResponseOrError env ctx .doFormRequest "/rest/getLastOrdersForMerchants.do"
        (some (StatusService.GetLastOrdersParams req)) none zero
        (s.GetLastOrders env zero ctx req)) ∧
    (∀ (env : Env E B T) (zero : T) (s : StatusService E) (ctx : Context)
        (req : VerifyEnrollmentRequest),
      s.client.ReturnsResponseOrError env ctx .doFormRequest "/rest/verifyEnrollment.do"
        (some (StatusService.VerifyEnrollmentParams req)) none zero
        (s.VerifyEnrollment env zero ctx req)) ∧
    (∀ (env : Env E Typed T) (zero : T) (s : YandexPayService E) (ctx : Context)
        (req : GoValue),
      s.client.ReturnsResponseOrError env ctx .doJSONRequestNoAuth "/yandex/payment.do"
        none (some ⟨.ptr Schema.YandexPayRequest, req⟩) zero
        (s.Payment env zero ctx req)) ∧
    (∀ (env : Env E Typed T) (zero : T) (s : YandexPayService E) (ctx : Context)
        (req : GoValue),
      s.client.ReturnsResponseOrError env ctx .doJSONRequestNoAuth "/yandex/paymentDirect.do"
        none (some ⟨.ptr Schema.YandexPayRequest, req⟩) zero
        (s.DirectPayment env zero ctx req)) ∧
    (∀ (env : Env E Typed T) (zero : T) (s : YandexPayService E) (ctx : Context)
        (req : GoValue),
      s.client.ReturnsResponseOrError env ctx .doJSONRequestNoAuth "/yandex/instantPayment.do"
        none (some ⟨.ptr Schema.YandexPayRequest, req⟩) zero
        (s.InstantPayment env zero ctx req)) :=
  ⟨fun env _ s ctx _ => call_returns env s.client ctx _ _ _ _ _,
    fun env _ s ctx _ => call_returns env s.client ctx _ _ _ _ _,
    fun env _ s ctx _ => call_returns env s.client ctx _ _ _ _ _,
    fun env s ctx _ => call_returns env s.client ctx _ _ _ _ _,
    fun env s ctx _ => call_returns env s.client ctx _ _ _ _ _,
    fun env s ctx _ => call_returns env s.client ctx _ _ _ _ _,
    fun env _ s ctx _ _ => call_returns env s.client ctx _ _ _ _ _,
    fun env _ s ctx _ => call_returns env s.client ctx _ _ _ _ _,
    fun env _ s ctx _ => call_returns env s.client ctx _ _ _ _ _,
    fun env _ s ctx _ => call_returns env s.client ctx _ _ _ _ _,
    fun env s ctx _ => call_returns env s.client ctx _ _ _ _ _,
    fun env s ctx _ => call_returns env s.client ctx _ _ _ _ _,
    fun env s ctx _ => call_returns env s.client ctx _ _ _ _ _,
    fun env s ctx _ => call_returns env s.client ctx _ _ _ _ _,
    fun env s ctx _ => call_returns env s.client ctx _ _ _ _ _,
    fun env s ctx _ => call_returns env s.client ctx _ _ _ _ _,
    fun env _ s ctx _ => call_returns env s.client ctx _ _ _ _ _,
    fun env _ s ctx _ => call_returns env s.client ctx _ _ _ _ _,
    fun env _ s ctx _ => call_returns env s.client ctx _ _ _ _ _,
    fun env _ s ctx _ => call_returns env s.client ctx _ _ _ _ _,
    fun env s ctx _ => call_returns env s.client ctx _ _ _ _ _,
    fun env s ctx _ _ => call_returns env s.client ctx _ _ _ _ _,
    fun env _ s ctx _ => call_returns env s.client ctx _ _ _ _ _,
    fun env _ s ctx _ => call_returns env s.client ctx _ _ _ _ _,
    fun env _ s ctx _ => call_returns env s.client ctx _ _ _ _ _,
    fun env _ s ctx _ => call_returns env s.client ctx _ _ _ _ _,
    fun env s ctx _ => call_returns env s.client ctx _ _ _ _ _,
    fun env _ s ctx _ => call_returns env s.client ctx _ _ _ _ _,
    fun env s ctx _ => call_returns env s.client ctx _ _ _ _ _,
    fun env _ s ctx _ => call_returns env s.client ctx _ _ _ _ _,
    fun env _ s ctx _ => call_returns env s.client ctx _ _ _ _ _,
    fun env _ s ctx _ => call_returns env s.client ctx _ _ _ _ _,
    fun env _ s ctx _ => call_returns env s.client ctx _ _ _ _ _,
    fun env _ s ctx _ => call_returns env s.client ctx _ _ _ _ _,
    fun env _ s ctx _ => call_returns env s.client ctx _ _ _ _ _,
    fun env _ s ctx _ => call_returns env s.client ctx _ _ _ _ _,
    fun env _ s ctx _ => call_returns env s.client ctx _ _ _ _ _,
    fun env _ s ctx _ => call_returns env s.client ctx _ _ _ _ _,
    fun env _ s ctx _ => call_returns env s.client ctx _ _ _ _ _,
    fun env _ s ctx _ => call_returns env s.client ctx _ _ _ _ _,
    fun env _ s ctx _ => call_returns env s.client ctx _ _ _ _ _,
    fun env _ s ctx _ => call_returns env s.client ctx _ _ _ _ _,
    fun env _ s ctx _ => call_returns env s.client ctx _ _ _ _ _⟩

/-- C27, witness: `Register` against a gateway that answers 200 with an empty body
returns the zero response and no error; against one that answers 200 with
`{"orderId":"abc","errorCode":5}` the decoder fails after writing `orderId`, and
`Register` returns the decode failure with a nil response. -/
theorem operation_returns_response_or_error_witness :
    (OrderService.Register registerEnv ⟨cannedClient 200 ""⟩ ⟨0⟩ orderWithCartRequest).resp
      = some RegisterOrderResponse.zero ∧
    (OrderService.Register registerEnv ⟨cannedClient 200 ""⟩ ⟨0⟩ orderWithCartRequest).err
      = none ∧
    ((cannedClient 200 "\x7b\"orderId\":\"abc\",\"errorCode\":5\x7d").helperDispatch registerEnv
        ⟨0⟩ .doFormRequest "/rest/register.do"
        (some (OrderService.RegisterParams orderWithCartRequest)) none
        (some RegisterOrderResponse.zero)).result
      = some ⟨⟨"", "", ""⟩, "abc", ""⟩ ∧
    (OrderService.Register registerEnv
        ⟨cannedClient 200 "\x7b\"orderId\":\"abc\",\"errorCode\":5\x7d"⟩ ⟨0⟩
        orderWithCartRequest).resp = none ∧
    (OrderService.Register registerEnv
        ⟨cannedClient 200 "\x7b\"orderId\":\"abc\",\"errorCode\":5\x7d"⟩ ⟨0⟩
        orderWithCartRequest).err
      = some (Error.wrapError "failed to decode response"
          (JSONError.UnmarshalTypeError "number" "errorCode")) :=
  have h1 := ((operation_returns_response_or_error JSONError Empty Unit).2.2.2.2.2.2.2.2.2.2.1
    registerEnv ⟨cannedClient 200 ""⟩ ⟨0⟩ orderWithCartRequest).2.2.2.2.2 _ _ ⟨200, .ok ""⟩
    rfl rfl rfl (by decide)
  have h2 := ((operation_returns_response_or_error JSONError Empty Unit).2.2.2.2.2.2.2.2.2.2.1
    registerEnv ⟨cannedClient 200 "\x7b\"orderId\":\"abc\",\"errorCode\":5\x7d"⟩ ⟨0⟩
    orderWithCartRequest).2.2.2.1
    (Error.wrapError "failed to decode response"
      (JSONError.UnmarshalTypeError "number" "errorCode")) (by decide)
  ⟨h1.1, h1.2, by decide, h2.1, h2.2⟩

/-! ## Optional numeric parameters -/

section OptionalNumberLemmas

theorem sentWhenPositive_of_lookup (params : Values) (key : String) (field : Int)
    (hv : ∀ e ∈ params, e.2 ≠ [])
    (hl : params.lookup key = if 0 < field then [FormatInt field] else []) :
    SentWhenPositive params key field := by
  refine ⟨?_, ?_, ?_⟩
  · rw [Has_iff_lookup params key hv, hl]
    by_cases h : 0 < field <;> simp [h]
  · intro h
    rw [hl, if_pos h]
  · intro h hmax
    exact parseInt64_formatInt field ⟨by omega, hmax⟩

theorem depositParams_valued (req : DepositRequest) :
    ∀ e ∈ PaymentService.DepositParams req, e.2 ≠ [] := by
  unfold PaymentService.DepositParams
  simp only []
  repeat (first
    | exact fun _ h => absurd h (List.not_mem_nil _)
    | apply valued_ite_Set
    | apply valued_Set)

theorem reverseParams_valued (req : ReverseRequest) :
    ∀ e ∈ PaymentService.ReverseParams req, e.2 ≠ [] := by
  unfold PaymentService.ReverseParams
  simp only []
  repeat (first
    | exact fun _ h => absurd h (List.not_mem_nil _)
    | apply valued_ite_Set
    | apply valued_Set)

theorem getLastOrdersParams_valued (req : GetLastOrdersRequest) :
    ∀ e ∈ StatusService.GetLastOrdersParams req, e.2 ≠ [] := by
  unfold StatusService.GetLastOrdersParams
  simp only []
  repeat (first
    | exact fun _ h => absurd h (List.not_mem_nil _)
    | apply valued_ite_Set
    | apply valued_Set)

theorem getQRParams_valued (req : SBPGetQRRequest) :
    ∀ e ∈ SBPService.GetQRParams req, e.2 ≠ [] := by
  unfold SBPService.GetQRParams
  simp only []
  repeat (first
    | exact fun _ h => absurd h (List.not_mem_nil _)
    | apply valued_ite_Set
    | apply valued_Set)

end OptionalNumberLemmas

/-- C25, counterexample: `Reverse` with the amount -100. The field is not zero, yet
the parameter set has no `amount` key. -/
theorem reverse_skips_negative_amount :
    ({ OrderID := "70906e55-7114-41d6-8332-4609dc6590f4", Amount := -100 } :
      ReverseRequest).Amount ≠ 0 ∧
    (PaymentService.ReverseParams
      { OrderID := "70906e55-7114-41d6-8332-4609dc6590f4", Amount := -100 }).Has "amount"
      = false := by
  decide

/-- C25, amended: for `sessionTimeoutSecs` and `feeInput` (Register), `amount`
(Reverse), `depositType` (Deposit), `page` and `size` (GetLastOrders), `qrHeight`
and `qrWidth` (SBP GetQR), the key is in the parameter set if and only if the field
is greater than zero; when present it is bound to the decimal rendering of the
field alone, and that rendering parses back to the field's value. -/
theorem optional_numbers_sent_when_positive (reg : RegisterOrderRequest)
    (rev : ReverseRequest) (dep : DepositRequest) (last : GetLastOrdersRequest)
    (qr : SBPGetQRRequest) :
    SentWhenPositive (OrderService.RegisterParams reg) "sessionTimeoutSecs"
      reg.SessionTimeoutSecs ∧
    SentWhenPositive (OrderService.RegisterParams reg) "feeInput" reg.FeeInput ∧
    SentWhenPositive (PaymentService.ReverseParams rev) "amount" rev.Amount ∧
    SentWhenPositive (PaymentService.DepositParams dep) "depositType" dep.DepositType ∧
    SentWhenPositive (StatusService.GetLastOrdersParams last) "page" last.Page ∧
    SentWhenPositive (StatusService.GetLastOrdersParams last) "size" last.Size ∧
    SentWhenPositive (SBPService.GetQRParams qr) "qrHeight" qr.QRHeight ∧
    SentWhenPositive (SBPService.GetQRParams qr) "qrWidth" qr.QRWidth := by
  refine ⟨?_, ?_, ?_, ?_, ?_, ?_, ?_, ?_⟩
  · apply sentWhenPositive_of_lookup _ _ _ (registerParams_valued reg)
    rw [registerParams_lookup]
    simp [registerReferenceWithNumbers, registerReference, positiveParam]
  · apply sentWhenPositive_of_lookup _ _ _ (registerParams_valued reg)
    rw [registerParams_lookup]
    simp [registerReferenceWithNumbers, registerReference, positiveParam]
  · apply sentWhenPositive_of_lookup _ _ _ (reverseParams_valued rev)
    unfold PaymentService.ReverseParams
    simp only [lookup_ite_Set, lookup_Set, lookup_nil]
    simp
  · apply sentWhenPositive_of_lookup _ _ _ (depositParams_valued dep)
    unfold PaymentService.DepositParams
    simp only [lookup_ite_Set, lookup_Set, lookup_nil]
    simp
  · apply sentWhenPositive_of_lookup _ _ _ (getLastOrdersParams_valued last)
    unfold StatusService.GetLastOrdersParams
    simp only [lookup_ite_Set, lookup_Set, lookup_nil]
    simp
  · apply sentWhenPositive_of_lookup _ _ _ (getLastOrdersParams_valued last)
    unfold StatusService.GetLastOrdersParams
    simp only [lookup_ite_Set, lookup_Set, lookup_nil]
    simp
  · apply sentWhenPositive_of_lookup _ _ _ (getQRParams_valued qr)
    unfold SBPService.GetQRParams
    simp only [lookup_ite_Set, lookup_Set, lookup_nil]
    simp
  · apply sentWhenPositive_of_lookup _ _ _ (getQRParams_valued qr)
    unfold SBPService.GetQRParams
    simp only [lookup_ite_Set, lookup_Set, lookup_nil]
    simp

/-! ## The SBP operations that send a JSON body with the credentials in the query -/

section NameLemmas

mutual
theorem encode_names (ff : Float64 → Option String) :
    ∀ (v : GoValue) (t : GoType) (j : JSON), t.mapFree = true → encode ff t v = some j →
      ∀ k ∈ j.names, k ∈ t.names
  | .string s, t, j, _, h => by
    cases t <;> simp [encode] at h
    subst h
    simp [JSON.names]
  | .int n, t, j, _, h => by
    cases t <;> simp [encode] at h
    subst h
    simp [JSON.names]
  | .bool b, t, j, _, h => by
    cases t <;> simp [encode] at h
    subst h
    simp [JSON.names]
  | .float64 f, t, j, _, h => by
    cases t <;> simp [encode] at h
    obtain ⟨lit, -, hj⟩ := h
    subst hj
    simp [JSON.names]
  | .nil, t, j, _, h => by
    cases t <;> simp [encode] at h <;>
    · subst h
      simp [JSON.names]
  | .ptr v, t, j, hm, h => by
    cases t with
    | ptr t' =>
      rw [encode] at h
      rw [GoType.mapFree] at hm
      rw [GoType.names]
      exact encode_names ff v t' j hm h
    | _ => simp [encode] at h
  | .slice vs, t, j, hm, h => by
    cases t with
    | slice t' =>
      rw [encode] at h
      rw [GoType.mapFree] at hm
      rw [GoType.names]
      cases he : encodeElems ff t' vs with
      | none => rw [he] at h; simp at h
      | some js =>
        rw [he] at h
        simp only [Option.map_some', Option.some.injEq] at h
        subst h
        rw [JSON.names]
        exact encodeElems_names ff vs t' js hm he
    | _ => simp [encode] at h
  | .stringMap m, t, j, hm, h => by
    cases t with
    | stringMap => simp [GoType.mapFree] at hm
    | _ => cases m <;> simp [encode] at h
  | .struct vs, t, j, hm, h => by
    cases t with
    | struct fields =>
      rw [encode] at h
      rw [GoType.mapFree] at hm
      rw [GoType.names]
      cases he : encodeFields ff fields vs with
      | none => rw [he] at h; simp at h
      | some ms =>
        rw [he] at h
        simp only [Option.map_some', Option.some.injEq] at h
        subst h
        rw [JSON.names]
        exact encodeFields_names_deep ff vs fields ms hm he
    | _ => simp [encode] at h
theorem encodeElems_names (ff : Float64 → Option String) :
    ∀ (vs : List GoValue) (t : GoType) (js : List JSON), t.mapFree = true →
      encodeElems ff t vs = some js → ∀ k ∈ JSON.namesOfElems js, k ∈ t.names
  | [], t, js, _, h => by
    rw [encodeElems] at h
    simp only [Option.some.injEq] at h
    subst h
    simp [JSON.namesOfElems]
  | v :: vs, t, js, hm, h => by
    rw [encodeElems] at h
    cases h1 : encode ff t v with
    | none => rw [h1] at h; simp at h
    | some j =>
      cases h2 : encodeElems ff t vs with
      | none => rw [h1, h2] at h; simp at h
      | some rest =>
        rw [h1, h2] at h
        simp only [Option.some.injEq] at h
        subst h
        intro k hk
        rw [JSON.namesOfElems, List.mem_append] at hk
        rcases hk with hk | hk
        · exact encode_names ff v t j hm h1 k hk
        · exact encodeElems_names ff vs t rest hm h2 k hk
theorem encodeFields_names_deep (ff : Float64 → Option String) :
    ∀ (vs : List GoValue) (fields : List (String × Bool × GoType)) (ms : List (String × JSON)),
      GoType.mapFreeFields fields = true → encodeFields ff fields vs = some ms →
      ∀ k ∈ JSON.namesOfMembers ms, k ∈ GoType.namesOfFields fields
  | [], fields, ms, _, h => by
    cases fields with
    | nil =>
      simp only [encodeFields, Option.some.injEq] at h
      subst h
      simp [JSON.namesOfMembers]
    | cons f fs => simp [encodeFields] at h
  | v :: vs, fields, ms, hm, h => by
    cases fields with
    | nil => simp [encodeFields] at h
    | cons f fs =>
      obtain ⟨name, omitempty, t⟩ := f
      rw [GoType.mapFreeFields, Bool.and_eq_true] at hm
      intro k hk
      rw [GoType.namesOfFields]
      cases hkeep : (omitempty && isEmptyValue v) with
      | true =>
        rw [encodeFields_cons, hkeep] at h
        simp only [if_true] at h
        have := encodeFields_names_deep ff vs fs ms hm.2 h k hk
        simp [this]
      | false =>
        obtain ⟨j, rest, hj, hr, hms⟩ :=
          encodeFields_kept ff name omitempty t fs v vs ms hkeep h
        subst hms
        rw [JSON.namesOfMembers] at hk
        rcases List.mem_cons.mp hk with hk | hk
        · simp [hk]
        · rcases List.mem_append.mp hk with hk | hk
          · have := encode_names ff v t j hm.1 hj k hk
            simp [this]
          · have := encodeFields_names_deep ff vs fs rest hm.2 hr k hk
            simp [this]
end

end NameLemmas
section CredentialQueryLemmas

theorem authQuery_none_Encode {E : Type} (c : Client E) :
    (c.authQuery none).Encode
      = "password=" ++ QueryEscape c.password ++ "&userName=" ++ QueryEscape c.userName := by
  have hq : c.authQuery none = [("password", [c.password]), ("userName", [c.userName])] := by
    rw [authQuery_eq]
    rfl
  have hk : Values.sortedKeys [("password", [c.password]), ("userName", [c.userName])]
      = ["password", "userName"] := by
    unfold Values.sortedKeys Values.keys
    simp only [List.map_cons, List.map_nil]
    decide
  have hp : escapeChars "password".data = "password".data :=
    escapeChars_of_unreserved _ (by decide)
  have hu : escapeChars "userName".data = "userName".data :=
    escapeChars_of_unreserved _ (by decide)
  rw [hq]
  unfold Values.Encode Values.segments
  rw [hk]
  apply String.ext
  simp only [List.flatMap_cons, List.flatMap_nil, Values.lookup, hp, hu]
  simp [QueryEscape, List.intercalate]

end CredentialQueryLemmas
section EncodeTotalLemmas

mutual
theorem encode_total (ff : Float64 → Option String) :
    ∀ (v : GoValue) (t : GoType), t.floatFree = true → hasType t v = true →
      ∃ j, encode ff t v = some j
  | .string s, t, _, hty => by
    cases t <;> simp [hasType] at hty
    exact ⟨_, by rw [encode]⟩
  | .int n, t, _, hty => by
    cases t <;> simp [hasType] at hty
    exact ⟨_, by rw [encode]⟩
  | .bool b, t, _, hty => by
    cases t <;> simp [hasType] at hty
    exact ⟨_, by rw [encode]⟩
  | .float64 f, t, hf, hty => by
    cases t <;> simp [hasType] at hty
    simp [GoType.floatFree] at hf
  | .nil, t, _, hty => by
    cases t <;> simp [hasType] at hty <;> exact ⟨_, by rw [encode]⟩
  | .ptr v, t, hf, hty => by
    cases t with
    | ptr t' =>
      rw [GoType.floatFree] at hf
      rw [hasType] at hty
      obtain ⟨j, hj⟩ := encode_total ff v t' hf hty
      exact ⟨j, by rw [encode]; exact hj⟩
    | _ => simp [hasType] at hty
  | .slice vs, t, hf, hty => by
    cases t with
    | slice t' =>
      rw [GoType.floatFree] at hf
      rw [hasType] at hty
      obtain ⟨js, hjs⟩ := encodeElems_total ff vs t' hf hty
      exact ⟨.array js, by rw [encode, hjs]; rfl⟩
    | _ => simp [hasType] at hty
  | .stringMap m, t, _, hty => by
    cases t <;> simp [hasType] at hty
    cases m <;> exact ⟨_, by rw [encode]⟩
  | .struct vs, t, hf, hty => by
    cases t with
    | struct fields =>
      rw [GoType.floatFree] at hf
      rw [hasType] at hty
      obtain ⟨ms, hms⟩ := encodeFields_total ff vs fields hf hty
      exact ⟨.object ms, by rw [encode, hms]; rfl⟩
    | _ => simp [hasType] at hty
theorem encodeElems_total (ff : Float64 → Option String) :
    ∀ (vs : List GoValue) (t : GoType), t.floatFree = true → allHaveType t vs = true →
      ∃ js, encodeElems ff t vs = some js
  | [], t, _, _ => ⟨[], by rw [encodeElems]⟩
  | v :: vs, t, hf, hty => by
    rw [allHaveType, Bool.and_eq_true] at hty
    obtain ⟨j, hj⟩ := encode_total ff v t hf hty.1
    obtain ⟨js, hjs⟩ := encodeElems_total ff vs t hf hty.2
    exact ⟨j :: js, by rw [encodeElems, hj, hjs]⟩
theorem encodeFields_total (ff : Float64 → Option String) :
    ∀ (vs : List GoValue) (fields : List (String × Bool × GoType)),
      GoType.floatFreeFields fields = true → fieldsHaveType fields vs = true →
      ∃ ms, encodeFields ff fields vs = some ms
  | [], fields, _, hty => by
    cases fields with
    | nil => exact ⟨[], by rw [encodeFields]⟩
    | cons f fs => simp [fieldsHaveType] at hty
  | v :: vs, fields, hf, hty => by
    cases fields with
    | nil => simp [fieldsHaveType] at hty
    | cons f fs =>
      obtain ⟨name, omitempty, t⟩ := f
      rw [GoType.floatFreeFields, Bool.and_eq_true] at hf
      rw [fieldsHaveType, Bool.and_eq_true] at hty
      obtain ⟨j, hj⟩ := encode_total ff v t hf.1 hty.1
      obtain ⟨ms, hms⟩ := encodeFields_total ff vs fs hf.2 hty.2
      rw [encodeFields_cons, hj, hms]
      by_cases hk : (omitempty && isEmptyValue v) = true
      · exact ⟨ms, by rw [if_pos hk]⟩
      · exact ⟨(name, j) :: ms, by rw [if_neg hk]⟩
end

end EncodeTotalLemmas

/-- C30: `B2BPerform` and `B2CPerformPayout` go through `doJSONRequest`. For every
request record (a nil pointer or a pointer to a value of the record type) the body
is serialized, and whenever the request constructor accepts the URL `doRequest`
built for the operation, exactly one HTTP call is made: a POST to the base address, the
endpoint, `?` and the query `password=...&userName=...` with the client's
credentials (escaped), with the headers `Content-Type: application/json` and
`Accept`, and with the compact JSON text of the record as its body. No member of
that text, at any depth, is named `userName` or `password`: the text is written
from the record alone. -/
theorem sbp_json_operations_use_both_conventions {T : Type} (ff : Float64 → Option String)
    (env : Env String Typed T) (zero : T) (s : SBPService String) (ctx : Context)
    (b2b b2c : GoValue) (hM : env.Marshal = Marshal ff)
    (hNb : env.NewRequestErr ctx MethodPost
      (s.client.helperURL .doJSONRequest "/rest/sbp/b2b/perform.do" none) = none)
    (hNc : env.NewRequestErr ctx MethodPost
      (s.client.helperURL .doJSONRequest "/rest/sbp/b2c/performPayout.do" none) = none)
    (hb2b : hasType (.ptr Schema.SBPB2BPerformRequest) b2b = true)
    (hb2c : hasType (.ptr Schema.SBPB2CPayoutRequest) b2c = true) :
    (∃ j tail, encode ff (.ptr Schema.SBPB2BPerformRequest) b2b = some j ∧
      (s.B2BPerform env zero ctx b2b).trace
        = [Event.marshal,
            Event.newRequest "POST"
              (s.client.baseURL ++ "/rest/sbp/b2b/perform.do" ++ "?" ++
                ("password=" ++ QueryEscape s.client.password ++ "&userName=" ++
                  QueryEscape s.client.userName)),
            Event.httpDo ⟨ctx, "POST",
              s.client.baseURL ++ "/rest/sbp/b2b/perform.do" ++ "?" ++
                ("password=" ++ QueryEscape s.client.password ++ "&userName=" ++
                  QueryEscape s.client.userName),
              some (String.mk (render j)),
              [("Content-Type", "application/json"), ("Accept", "application/json")]⟩]
          ++ tail ∧
      httpCalls tail = 0 ∧ "userName" ∉ j.names ∧ "password" ∉ j.names) ∧
    (∃ j tail, encode ff (.ptr Schema.SBPB2CPayoutRequest) b2c = some j ∧
      (s.B2CPerformPayout env zero ctx b2c).trace
        = [Event.marshal,
            Event.newRequest "POST"
              (s.client.baseURL ++ "/rest/sbp/b2c/performPayout.do" ++ "?" ++
                ("password=" ++ QueryEscape s.client.password ++ "&userName=" ++
                  QueryEscape s.client.userName)),
            Event.httpDo ⟨ctx, "POST",
              s.client.baseURL ++ "/rest/sbp/b2c/performPayout.do" ++ "?" ++
                ("password=" ++ QueryEscape s.client.password ++ "&userName=" ++
                  QueryEscape s.client.userName),
              some (String.mk (render j)),
              [("Content-Type", "application/json"), ("Accept", "application/json")]⟩]
          ++ tail ∧
      httpCalls tail = 0 ∧ "userName" ∉ j.names ∧ "password" ∉ j.names) := by
  have key : ∀ (t : GoType) (endpoint : String) (req : GoValue),
      t.floatFree = true → t.mapFree = true → "userName" ∉ t.names → "password" ∉ t.names →
      hasType (.ptr t) req = true →
      env.NewRequestErr ctx MethodPost (s.client.doRequestURL endpoint none) = none →
      ∃ j tail, encode ff (.ptr t) req = some j ∧
        (s.client.doJSONRequest env ctx endpoint (some ⟨.ptr t, req⟩) (some zero)).trace
          = [Event.marshal,
              Event.newRequest "POST"
                (s.client.baseURL ++ endpoint ++ "?" ++
                  ("password=" ++ QueryEscape s.client.password ++ "&userName=" ++
                    QueryEscape s.client.userName)),
              Event.httpDo ⟨ctx, "POST",
                s.client.baseURL ++ endpoint ++ "?" ++
                  ("password=" ++ QueryEscape s.client.password ++ "&userName=" ++
                    QueryEscape s.client.userName),
                some (String.mk (render j)),
                [("Content-Type", "application/json"), ("Accept", "application/json")]⟩]
            ++ tail ∧
        httpCalls tail = 0 ∧ "userName" ∉ j.names ∧ "password" ∉ j.names := by
    intro t endpoint req hf hm hu hp hty hN
    obtain ⟨j, hj⟩ := encode_total ff req (.ptr t) hf hty
    have hbody : env.Marshal ⟨.ptr t, req⟩ = .ok (String.mk (render j)) := by
      rw [hM]
      simp only [Marshal, hj]
    obtain ⟨tail, ht, hc⟩ := queryAuth_trace_of_marshal env s.client ctx endpoint
      ⟨.ptr t, req⟩ (some zero) _ hbody hN
    have hurl : s.client.doRequestURL endpoint none
        = s.client.baseURL ++ endpoint ++ "?" ++
            ("password=" ++ QueryEscape s.client.password ++ "&userName=" ++
              QueryEscape s.client.userName) := by
      rw [query_auth_url, authQuery_none_Encode]
    rw [hurl] at ht
    have hnames := encode_names ff req (.ptr t) j hm hj
    exact ⟨j, tail, hj, ht, hc, fun h => hu (hnames _ h), fun h => hp (hnames _ h)⟩
  constructor
  · obtain ⟨j, tail, hj, ht, hrest⟩ := key Schema.SBPB2BPerformRequest
      "/rest/sbp/b2b/perform.do" b2b (by decide) (by decide) (by decide) (by decide) hb2b hNb
    refine ⟨j, tail, hj, ?_, hrest⟩
    rw [← ht]
    exact reply_trace _
  · obtain ⟨j, tail, hj, ht, hrest⟩ := key Schema.SBPB2CPayoutRequest
      "/rest/sbp/b2c/performPayout.do" b2c (by decide) (by decide) (by decide) (by decide) hb2c
      hNc
    refine ⟨j, tail, hj, ?_, hrest⟩
    rw [← ht]
    exact reply_trace _

/-- C30, witness: a B2B payment and a B2C payout sent by the client of the examples
(`NewClient("your-username", "your-password")`). The calls of the B2B payment are
shown in full. -/
theorem sbp_json_operations_use_both_conventions_witness :
    (SBPService.B2BPerform (jsonEnv zeroFloatOnly ignoreBody) ()
        ⟨scriptedClient (.error "no network")⟩ ⟨0⟩ (.ptr sbpB2BRequest)).trace
      = [Event.marshal,
          Event.newRequest "POST"
            "https://alfa.rbsuat.com/payment/rest/sbp/b2b/perform.do?password=your-password&userName=your-username",
          Event.httpDo ⟨⟨0⟩, "POST",
            "https://alfa.rbsuat.com/payment/rest/sbp/b2b/perform.do?password=your-password&userName=your-username",
            some "\x7b\"orderId\":\"70906e55-7114-41d6-8332-4609dc6590f4\",\"amount\":150000,\"senderParams\":\x7b\"bankId\":\"100000000008\",\"inn\":\"7728168971\"\x7d\x7d",
            [("Content-Type", "application/json"), ("Accept", "application/json")]⟩] ∧
    (∃ j tail, encode zeroFloatOnly (.ptr Schema.SBPB2CPayoutRequest) (.ptr sbpB2CRequest)
        = some j ∧
      (SBPService.B2CPerformPayout (jsonEnv zeroFloatOnly ignoreBody) ()
          ⟨scriptedClient (.error "no network")⟩ ⟨0⟩ (.ptr sbpB2CRequest)).trace
        = [Event.marshal,
            Event.newRequest "POST"
              ((scriptedClient (.error "no network")).baseURL ++ "/rest/sbp/b2c/performPayout.do"
                ++ "?" ++ ("password=" ++ QueryEscape "your-password" ++ "&userName=" ++
                  QueryEscape "your-username")),
            Event.httpDo ⟨⟨0⟩, "POST",
              (scriptedClient (.error "no network")).baseURL ++ "/rest/sbp/b2c/performPayout.do"
                ++ "?" ++ ("password=" ++ QueryEscape "your-password" ++ "&userName=" ++
                  QueryEscape "your-username"),
              some (String.mk (render j)),
              [("Content-Type", "application/json"), ("Accept", "application/json")]⟩]
          ++ tail ∧
      httpCalls tail = 0 ∧ "userName" ∉ j.names ∧ "password" ∉ j.names) :=
  ⟨by decide,
    (sbp_json_operations_use_both_conventions zeroFloatOnly (jsonEnv zeroFloatOnly ignoreBody)
      () ⟨scriptedClient (.error "no network")⟩ ⟨0⟩ (.ptr sbpB2BRequest) (.ptr sbpB2CRequest)
      rfl rfl rfl (by decide) (by decide)).2⟩

/-! ## AddParams on clean keys and values -/

section CleanParamsLemmas

theorem scanUnits_clean (cs rest : List Char) (acc : List StrUnit)
    (h : ∀ c ∈ cs, c ≠ '"' ∧ c ≠ '\\' ∧ 0x20 ≤ c.toNat) :
    scanUnits (cs ++ '"' :: rest) acc = some (acc.reverse ++ cs.map StrUnit.lit, rest) := by
  induction cs generalizing acc with
  | nil => simp [scanUnits_quote]
  | cons c cs ih =>
    obtain ⟨h1, h2, h3⟩ := h c (List.mem_cons_self _ _)
    rw [List.cons_append, scanUnits_lit c _ acc h1 h2 (by omega),
      ih _ (fun x hx => h x (List.mem_cons_of_mem _ hx))]
    simp

theorem cleanText_chars (s : String) (h : cleanText s = true) :
    ∀ c ∈ s.data, c ≠ '"' ∧ c ≠ '\\' ∧ 0x20 ≤ c.toNat := by
  intro c hc
  unfold cleanText at h
  rw [List.all_eq_true] at h
  have hx := h c hc
  simp only [Bool.and_eq_true, decide_eq_true_eq, ne_eq, decide_not, Bool.not_eq_true',
    decide_eq_false_iff_not] at hx
  exact ⟨hx.1.1, hx.1.2, hx.2⟩

theorem scanString_clean (s : String) (rest : List Char) (h : cleanText s = true) :
    scanString (s.data ++ '"' :: rest) = some (s, rest) := by
  unfold scanString
  rw [scanUnits_clean s.data rest [] (cleanText_chars s h)]
  simp only [List.reverse_nil, List.nil_append, Option.map_some']
  rw [combineUnits_plain _ (by simp [StrUnit.plain])]
  have hm : (s.data.map StrUnit.lit).map unitChar = s.data := by
    rw [List.map_map]
    exact (List.map_congr_left (fun c _ => rfl)).trans (List.map_id _)
  rw [hm]

/-- The text of the entries after the first, with the closing brace. -/
theorem parseMembers_entries :
    ∀ (es : List (String × String)) (e : String × String) (acc : List (String × JSON))
      (fuel : Nat) (R : List Char), es.length + 2 ≤ fuel →
      (∀ x ∈ e :: es, cleanText x.1 = true ∧ cleanText x.2 = true) →
      parseMembers fuel (entryText e ++ (es.flatMap (fun y => ',' :: entryText y)
          ++ '\x7d' :: R)) acc
        = some (JSON.object (acc.reverse ++ (e :: es).map (fun x => (x.1, JSON.string x.2))), R)
  | [], e, acc, fuel, R, hf, hc => by
    obtain ⟨fuel, rfl⟩ : ∃ f, fuel = f + 2 := ⟨fuel - 2, by simp at hf; omega⟩
    obtain ⟨hk, hv⟩ := hc e (List.mem_cons_self _ _)
    have hs : scanString (e.1.data ++ '"' :: ':' :: '"' :: (e.2.data ++ '"' :: '\x7d' :: R))
        = some (e.1, ':' :: '"' :: (e.2.data ++ '"' :: '\x7d' :: R)) :=
      scanString_clean e.1 _ hk
    have hval : parseValue (fuel + 1) ('"' :: (e.2.data ++ '"' :: '\x7d' :: R))
        = some (JSON.string e.2, '\x7d' :: R) := by
      rw [parseValue_string, scanString_clean e.2 _ hv]
      rfl
    have htext : entryText e ++ ((([] : List (String × String)).flatMap
        (fun y => ',' :: entryText y)) ++ '\x7d' :: R)
        = '"' :: (e.1.data ++ '"' :: ':' :: '"' :: (e.2.data ++ '"' :: '\x7d' :: R)) := by
      simp [entryText]
    rw [htext, parseMembers_last (fuel + 1) _ _ R acc e.1 (JSON.string e.2) hs hval]
    simp
  | e2 :: es, e, acc, fuel, R, hf, hc => by
    obtain ⟨fuel, rfl⟩ : ∃ f, fuel = f + 2 := ⟨fuel - 2, by simp at hf; omega⟩
    obtain ⟨hk, hv⟩ := hc e (List.mem_cons_self _ _)
    have hs : scanString (e.1.data ++ '"' :: ':' :: '"' :: (e.2.data ++ '"' :: ',' ::
        (entryText e2 ++ (es.flatMap (fun y => ',' :: entryText y) ++ '\x7d' :: R))))
        = some (e.1, ':' :: '"' :: (e.2.data ++ '"' :: ',' ::
            (entryText e2 ++ (es.flatMap (fun y => ',' :: entryText y) ++ '\x7d' :: R)))) :=
      scanString_clean e.1 _ hk
    have hval : parseValue (fuel + 1) ('"' :: (e.2.data ++ '"' :: ',' ::
        (entryText e2 ++ (es.flatMap (fun y => ',' :: entryText y) ++ '\x7d' :: R))))
        = some (JSON.string e.2, ',' ::
            (entryText e2 ++ (es.flatMap (fun y => ',' :: entryText y) ++ '\x7d' :: R))) := by
      rw [parseValue_string, scanString_clean e.2 _ hv]
      rfl
    have htext : entryText e ++ ((e2 :: es).flatMap (fun y => ',' :: entryText y)
          ++ '\x7d' :: R)
        = '"' :: (e.1.data ++ '"' :: ':' :: '"' :: (e.2.data ++ '"' :: ',' ::
            (entryText e2 ++ (es.flatMap (fun y => ',' :: entryText y) ++ '\x7d' :: R)))) := by
      simp [entryText]
    rw [htext, parseMembers_more (fuel + 1) _ _ _ acc e.1 (JSON.string e.2) hs hval,
      parseMembers_entries es e2 _ (fuel + 1) R (by simp at hf ⊢; omega)
        (fun x hx => hc x (List.mem_cons_of_mem _ hx))]
    simp

theorem length_le_sum_add (l : List (String × String)) :
    l.length ≤ (l.map (fun e => e.1.data.length + e.2.data.length + 6)).sum := by
  induction l with
  | nil => simp
  | cons a l ih =>
    simp only [List.length_cons, List.map_cons, List.sum_cons]
    omega

/-- The text `AddParams` writes for clean entries is the JSON text of the object
with these entries, in the order in which they were visited. -/
theorem parseJSON_paramsJSON (e : String × String) (es : List (String × String))
    (hc : ∀ x ∈ e :: es, cleanText x.1 = true ∧ cleanText x.2 = true) :
    parseJSON (paramsJSON (e :: es))
      = some (JSON.object ((e :: es).map (fun x => (x.1, JSON.string x.2)))) := by
  have hlen := paramsJSON_length e es
  have hsum := length_le_sum_add (e :: es)
  have hdata : (paramsJSON (e :: es)).data
      = '\x7b' :: (entryText e ++ (es.flatMap (fun y => ',' :: entryText y) ++ '\x7d' :: [])) := by
    rw [paramsJSON_data, List.map_cons, intercalate_comma, List.flatMap_map]
    simp
  have hquote : entryText e ++ (es.flatMap (fun y => ',' :: entryText y) ++ '\x7d' :: [])
      = '"' :: (e.1.data ++ '"' :: ':' :: '"' :: (e.2.data ++ '"' ::
          (es.flatMap (fun y => ',' :: entryText y) ++ '\x7d' :: []))) := by
    simp [entryText]
  unfold parseJSON
  obtain ⟨f, hf⟩ : ∃ f, 2 * (paramsJSON (e :: es)).data.length + 2 = f + 1 := ⟨_, rfl⟩
  rw [hf, hdata, hquote, parseValue_members, ← hquote,
    parseMembers_entries es e [] f [] (by rw [List.length_cons] at hsum; omega) hc]
  rfl

end CleanParamsLemmas
section MapDecodeLemmas

theorem data_ne_of_ne (a b : String) (h : a ≠ b) : a.data ≠ b.data :=
  fun hd => h (String.ext hd)

theorem mapSet_fresh (m : List (String × String)) (k v : String)
    (hs : m.Pairwise (fun a b => a.1.data < b.1.data)) (hk : k ∉ m.map Prod.fst) :
    (mapSet m k v).Perm ((k, v) :: m) ∧
    (mapSet m k v).Pairwise (fun a b => a.1.data < b.1.data) := by
  induction m with
  | nil => exact ⟨List.Perm.refl _, List.pairwise_singleton _ _⟩
  | cons e m ih =>
    obtain ⟨k', v'⟩ := e
    have hne : k ≠ k' := fun h => hk (by simp [h])
    have hk2 : k ∉ m.map Prod.fst := fun h => hk (by simp only [List.map_cons]; exact List.mem_cons_of_mem _ h)
    obtain ⟨hhead, htail⟩ := List.pairwise_cons.mp hs
    by_cases hlt : k.data < k'.data
    · simp only [mapSet, hne, if_false, hlt, if_true]
      refine ⟨List.Perm.refl _, List.pairwise_cons.mpr ⟨?_, hs⟩⟩
      intro x hx
      rcases List.mem_cons.mp hx with rfl | hx
      · exact hlt
      · exact lt_trans hlt (hhead x hx)
    · simp only [mapSet, hne, if_false, hlt]
      obtain ⟨hp, hsorted⟩ := ih htail hk2
      have hgt : k'.data < k.data :=
        lt_of_le_of_ne (not_lt.mp hlt) (fun h => data_ne_of_ne k k' hne h.symm)
      refine ⟨(hp.cons (k', v')).trans (List.Perm.swap _ _ _), List.pairwise_cons.mpr ⟨?_, hsorted⟩⟩
      intro x hx
      rcases List.mem_cons.mp (hp.subset hx) with rfl | hx
      · exact hgt
      · exact hhead x hx

theorem decodeEntries_fresh (path : String) :
    ∀ (es pre : List (String × String)),
      pre.Pairwise (fun a b => a.1.data < b.1.data) → ((pre ++ es).map Prod.fst).Nodup →
      ∃ m, decodeEntries path (es.map (fun e => (e.1, JSON.string e.2))) pre none = (m, none) ∧
        m.Perm (pre ++ es) ∧ m.Pairwise (fun a b => a.1.data < b.1.data)
  | [], pre, hs, _ => ⟨pre, by simp [decodeEntries], by simp, hs⟩
  | (k, v) :: es, pre, hs, hnd => by
    have hk : k ∉ pre.map Prod.fst := by
      intro h
      rw [List.map_append, List.nodup_append] at hnd
      exact hnd.2.2 h (by simp)
    obtain ⟨hp, hsorted⟩ := mapSet_fresh pre k v hs hk
    have hperm : (mapSet pre k v ++ es).Perm (pre ++ (k, v) :: es) :=
      (hp.append_right es).trans (List.perm_middle.symm)
    have hnd2 : ((mapSet pre k v ++ es).map Prod.fst).Nodup :=
      ((hperm.map Prod.fst).nodup_iff).mpr hnd
    obtain ⟨m, hm, hpm, hsm⟩ := decodeEntries_fresh path es (mapSet pre k v) hsorted hnd2
    refine ⟨m, ?_, hpm.trans hperm, hsm⟩
    simp only [List.map_cons, decodeEntries]
    exact hm

theorem keysAscend_of_pairwise :
    ∀ (m : List (String × String)), m.Pairwise (fun a b => a.1.data < b.1.data) →
      keysAscend m = true
  | [], _ => rfl
  | [_], _ => rfl
  | a :: b :: rest, h => by
    obtain ⟨h1, h2⟩ := List.pairwise_cons.mp h
    simp only [keysAscend, Bool.and_eq_true, decide_eq_true_eq]
    exact ⟨h1 b (List.mem_cons_self _ _), keysAscend_of_pairwise (b :: rest) h2⟩

theorem ascending_perm_unique (m1 m2 : List (String × String)) (hp : m1.Perm m2)
    (h1 : m1.Pairwise (fun a b => a.1.data < b.1.data))
    (h2 : m2.Pairwise (fun a b => a.1.data < b.1.data)) : m1 = m2 := by
  haveI : IsAntisymm (String × String) (fun a b => a.1.data < b.1.data) :=
    ⟨fun _ _ hab hba => absurd hab (lt_asymm hba)⟩
  exact List.eq_of_perm_of_sorted hp h1 h2

theorem unmarshal_paramsJSON (pf : String → Option Float64) (e : String × String)
    (es : List (String × String)) (hkeys : ((e :: es).map Prod.fst).Nodup)
    (hc : ∀ x ∈ e :: es, cleanText x.1 = true ∧ cleanText x.2 = true) :
    ∃ m, Unmarshal pf .stringMap (paramsJSON (e :: es)) (.stringMap none)
        = (.stringMap (some m), none) ∧
      m.Perm (e :: es) ∧ m.Pairwise (fun a b => a.1.data < b.1.data) := by
  obtain ⟨m, hm, hp, hs⟩ := decodeEntries_fresh "" (e :: es) [] List.Pairwise.nil
    (by simpa using hkeys)
  refine ⟨m, ?_, by simpa using hp, hs⟩
  unfold Unmarshal
  rw [parseJSON_paramsJSON e es hc]
  simp only []
  rw [store_not_null pf "" .stringMap
    (JSON.object ((e :: es).map (fun x => (x.1, JSON.string x.2)))) (.stringMap none) rfl]
  simp only [GoType.base, indirect, reference, decodeBase, GoValue.entries, hm]

end MapDecodeLemmas

section GoStringLemmas

theorem goBytes_append (s t : String) : goBytes (s ++ t) = goBytes s ++ goBytes t := by
  simp [goBytes, String.data_append, List.flatMap_append]

theorem decodeRunes_utf8Bytes (c : Char) (rest : List Nat) :
    decodeRunes (utf8Bytes c ++ rest) 0 = c :: decodeRunes rest 0 := by
  have hv : c.toNat < 0xD800 ∨ (0xDFFF < c.toNat ∧ c.toNat < 0x110000) := c.valid
  have hc : Char.ofNat c.toNat = c := Char.ofNat_toNat c
  unfold utf8Bytes
  simp only []
  generalize c.toNat = n at hv hc ⊢
  by_cases h1 : n < 0x80
  · rw [if_pos h1]
    simp only [List.cons_append, List.nil_append]
    simp only [decodeRunes, decodeRune, if_pos h1, hc, Nat.sub_self]
  · rw [if_neg h1]
    by_cases h2 : n < 0x800
    · rw [if_pos h2]
      have a1 : ¬ (0xC0 + n / 64 < 0x80) := by omega
      have a2 : ¬ (0xC0 + n / 64 < 0xC2) := by omega
      have a3 : 0xC0 + n / 64 < 0xE0 := by omega
      have a4 : ¬ (0x80 + n % 64 < 0x80 ∨ 0xBF < 0x80 + n % 64) := by omega
      have a5 : (0xC0 + n / 64) % 32 * 64 + (0x80 + n % 64) % 64 = n := by omega
      simp only [List.cons_append, List.nil_append]
      simp only [decodeRunes, decodeRune, if_neg a1,
        if_neg a2, if_pos a3, if_neg a4, a5, hc]
    · rw [if_neg h2]
      by_cases h3 : n < 0x10000
      · rw [if_pos h3]
        have a1 : ¬ (0xE0 + n / 4096 < 0x80) := by omega
        have a2 : ¬ (0xE0 + n / 4096 < 0xC2) := by omega
        have a3 : ¬ (0xE0 + n / 4096 < 0xE0) := by omega
        have a4 : 0xE0 + n / 4096 < 0xF0 := by omega
        have a5 : ¬ (0x80 + n / 64 % 64 < (if 0xE0 + n / 4096 = 0xE0 then 0xA0 else 0x80) ∨
            (if 0xE0 + n / 4096 = 0xED then 0x9F else 0xBF) < 0x80 + n / 64 % 64) := by
          split_ifs <;> omega
        have a6 : ¬ (0x80 + n % 64 < 0x80 ∨ 0xBF < 0x80 + n % 64) := by omega
        have a7 : (0xE0 + n / 4096) % 16 * 4096 + (0x80 + n / 64 % 64) % 64 * 64
            + (0x80 + n % 64) % 64 = n := by omega
        simp only [List.cons_append, List.nil_append]
        simp only [decodeRunes, decodeRune, if_neg a1,
          if_neg a2, if_neg a3, if_pos a4, if_neg a5, if_neg a6, a7, hc]
      · rw [if_neg h3]
        have a1 : ¬ (0xF0 + n / 262144 < 0x80) := by omega
        have a2 : ¬ (0xF0 + n / 262144 < 0xC2) := by omega
        have a3 : ¬ (0xF0 + n / 262144 < 0xE0) := by omega
        have a4 : ¬ (0xF0 + n / 262144 < 0xF0) := by omega
        have a5 : 0xF0 + n / 262144 < 0xF5 := by omega
        have a6 : ¬ (0x80 + n / 4096 % 64
              < (if 0xF0 + n / 262144 = 0xF0 then 0x90 else 0x80) ∨
            (if 0xF0 + n / 262144 = 0xF4 then 0x8F else 0xBF) < 0x80 + n / 4096 % 64) := by
          split_ifs <;> omega
        have a7 : ¬ (0x80 + n / 64 % 64 < 0x80 ∨ 0xBF < 0x80 + n / 64 % 64) := by omega
        have a8 : ¬ (0x80 + n % 64 < 0x80 ∨ 0xBF < 0x80 + n % 64) := by omega
        have a9 : (0xF0 + n / 262144) % 8 * 262144 + (0x80 + n / 4096 % 64) % 64 * 4096
            + (0x80 + n / 64 % 64) % 64 * 64 + (0x80 + n % 64) % 64 = n := by omega
        simp only [List.cons_append, List.nil_append]
        simp only [decodeRunes, decodeRune, if_neg a1,
          if_neg a2, if_neg a3, if_neg a4, if_pos a5, if_neg a6, if_neg a7, if_neg a8, a9, hc]

theorem decodeRunes_goBytes (l : List Char) : decodeRunes (l.flatMap utf8Bytes) 0 = l := by
  induction l with
  | nil => rfl
  | cons c t ih => rw [List.flatMap_cons, decodeRunes_utf8Bytes, ih]

theorem goText_goBytes (s : String) : goText (goBytes s) = s := by
  unfold goText goBytes
  rw [decodeRunes_goBytes]

theorem paramsJSONBytesLoop_goBytes (es : List (String × String)) :
    ∀ (acc : String) (first : Bool),
      paramsJSONBytesLoop (es.map (fun x => (goBytes x.1, goBytes x.2))) (goBytes acc) first
        = goBytes (paramsJSONLoop es acc first) := by
  induction es with
  | nil => intro acc first; rfl
  | cons e t ih =>
    intro acc first
    obtain ⟨k, v⟩ := e
    simp only [List.map_cons, paramsJSONBytesLoop, paramsJSONLoop]
    rw [← ih]
    congr 1
    cases first <;> simp [goBytes_append, List.append_assoc]

theorem paramsJSONBytes_goBytes (es : List (String × String)) :
    paramsJSONBytes (es.map (fun x => (goBytes x.1, goBytes x.2))) = goBytes (paramsJSON es) := by
  unfold paramsJSONBytes paramsJSON
  rw [goBytes_append, paramsJSONBytesLoop_goBytes]

end GoStringLemmas

section AddParamsLemmas

theorem mem_keys_iff_Has (v : Values) (key : String) :
    key ∈ v.map Prod.fst ↔ v.Has key = true := by
  unfold Values.Has
  rw [List.any_eq_true, List.mem_map]
  constructor
  · rintro ⟨e, he, rfl⟩
    exact ⟨e, he, by simp⟩
  · rintro ⟨e, he, h⟩
    exact ⟨e, he, by simpa using h⟩

theorem mem_keys_of_lookup (v : Values) (key : String) (h : v.lookup key ≠ []) :
    key ∈ v.map Prod.fst := by
  induction v with
  | nil => exact absurd rfl h
  | cons a t ih =>
    obtain ⟨k, vs⟩ := a
    by_cases hk : k = key
    · rw [List.map_cons, hk]
      exact List.mem_cons_self _ _
    · rw [Values.lookup, if_neg hk] at h
      exact List.mem_cons_of_mem _ (ih h)

theorem Has_Set (v : Values) (k x key : String) :
    (v.Set k x).Has key = (decide (k = key) || v.Has key) := by
  unfold Values.Set Values.Has
  rw [List.any_cons, List.any_filter]
  by_cases h : k = key
  · simp [h]
  · simp only [h, decide_False, Bool.false_or]
    congr 1
    funext e
    by_cases he : e.1 = key
    · have hkk : ¬ key = k := fun h2 => h h2.symm
      simp [he, hkk]
    · simp [he]

theorem Has_authQuery {E : Type} (c : Client E) (params : Values) (key : String)
    (h1 : key ≠ "userName") (h2 : key ≠ "password") :
    (c.authQuery (some params)).Has key = params.Has key := by
  unfold Client.authQuery
  simp only [Has_Set]
  have a1 : ¬ ("userName" = key) := fun h => h1 h.symm
  have a2 : ¬ ("password" = key) := fun h => h2 h.symm
  simp [a1, a2]

theorem lookup_authQuery {E : Type} (c : Client E) (params : Values) (key : String)
    (h1 : key ≠ "userName") (h2 : key ≠ "password") :
    (c.authQuery (some params)).lookup key = params.lookup key := by
  unfold Client.authQuery
  simp only [lookup_Set, h1, h2, if_false]

/-- The encoded query has no component that starts with `name=` when the map does
not bind the key `name` (made of unreserved characters). -/
theorem segments_without_key (v : Values) (name : String)
    (hname : ∀ x ∈ name.data, unreserved x = true) (hmem : name ∉ v.map Prod.fst) :
    (v.Encode.data.splitOn '&').filter (fun seg => (name.data ++ ['=']).isPrefixOf seg)
      = [] := by
  rw [List.filter_eq_nil_iff]
  intro seg hseg
  by_cases hne : v.segments = []
  · have hdata : v.Encode.data = [] := by
      unfold Values.Encode
      rw [hne]
      rfl
    rw [hdata, List.splitOn_nil, List.mem_singleton] at hseg
    subst hseg
    cases hd : name.data <;> simp [List.isPrefixOf]
  · have hsplit : v.Encode.data.splitOn '&' = v.segments := by
      unfold Values.Encode
      exact List.splitOn_intercalate _ _ (segments_not_amp v) hne
    rw [hsplit] at hseg
    unfold Values.segments at hseg
    rw [List.mem_flatMap] at hseg
    obtain ⟨k, hk, hy⟩ := hseg
    rw [List.mem_map] at hy
    obtain ⟨x, -, hx⟩ := hy
    subst hx
    intro hP
    rw [List.isPrefixOf_iff_prefix] at hP
    have hk2 := sep_prefix_unique '=' name.data (escapeChars k.data) (escapeChars x.data)
      (fun hm => (escapeChars_not_sep _ _ hm).2 rfl)
      (fun hm => (unreserved_not_sep _ (hname _ hm)).2.1 rfl) hP
    have hself := escapeChars_eq_self k.data (by rw [hk2]; exact hname)
    rw [hself] at hk2
    have hkn : k = name := String.ext hk2
    rw [hkn] at hk
    exact hmem ((mem_sortedKeys v name).mp hk)

/-- What `doFormRequest` hands to the HTTP capability: nothing but the request it
built, and exactly that request, once, when the request constructor accepts the
URL. -/
theorem doFormRequest_trace {E B T : Type} (env : Env E B T) (c : Client E) (ctx : Context)
    (endpoint : String) (params : Option Values) (result : Option T) :
    (env.NewRequestErr ctx MethodPost (c.doRequestURL endpoint params) = none →
      ∃ tail, (c.doFormRequest env ctx endpoint params result).trace
          = [Event.newRequest "POST"
              (c.baseURL ++ endpoint ++ "?" ++ (c.authQuery params).Encode),
             Event.httpDo ⟨ctx, "POST",
              c.baseURL ++ endpoint ++ "?" ++ (c.authQuery params).Encode, none,
              [("Accept", "application/json")]⟩] ++ tail ∧
        httpCalls tail = 0) ∧
    (∀ r, Event.httpDo r ∈ (c.doFormRequest env ctx endpoint params result).trace →
      r = ⟨ctx, "POST", c.baseURL ++ endpoint ++ "?" ++ (c.authQuery params).Encode, none,
            [("Accept", "application/json")]⟩) := by
  have hfirst : env.NewRequestErr ctx MethodPost (c.doRequestURL endpoint params) = none →
      ∃ tail, (c.doFormRequest env ctx endpoint params result).trace
          = [Event.newRequest "POST"
              (c.baseURL ++ endpoint ++ "?" ++ (c.authQuery params).Encode),
             Event.httpDo ⟨ctx, "POST",
              c.baseURL ++ endpoint ++ "?" ++ (c.authQuery params).Encode, none,
              [("Accept", "application/json")]⟩] ++ tail ∧
        httpCalls tail = 0 := by
    intro hN
    have hb := doFormRequest_build env c ctx endpoint params hN
    have hd := helperDispatch_of_build env c ctx .doFormRequest endpoint params none result
      _ _ hb
    obtain ⟨tail, ht, hc⟩ := roundTrip_trace_shape env c
      ⟨ctx, "POST", c.baseURL ++ endpoint ++ "?" ++ (c.authQuery params).Encode, none,
        [("Accept", "application/json")]⟩ result
      [Event.newRequest "POST" (c.baseURL ++ endpoint ++ "?" ++ (c.authQuery params).Encode)]
    refine ⟨tail, ?_, hc⟩
    have hd2 : c.doFormRequest env ctx endpoint params result
        = c.roundTrip env ⟨ctx, "POST",
            c.baseURL ++ endpoint ++ "?" ++ (c.authQuery params).Encode, none,
            [("Accept", "application/json")]⟩ result
          [Event.newRequest "POST"
            (c.baseURL ++ endpoint ++ "?" ++ (c.authQuery params).Encode)] := hd
    rw [hd2, ht]
    rfl
  refine ⟨hfirst, ?_⟩
  intro r hr
  cases hN : env.NewRequestErr ctx MethodPost (c.doRequestURL endpoint params) with
  | none =>
    obtain ⟨tail, ht, hc⟩ := hfirst hN
    rw [ht] at hr
    have hzero : Event.httpDo r ∉ tail := by
      intro hmem
      unfold httpCalls at hc
      exact absurd hc (List.length_pos.mpr
        (List.ne_nil_of_mem (List.mem_filter.mpr ⟨hmem, rfl⟩))).ne'
    simp only [List.cons_append, List.nil_append, List.mem_cons, Event.httpDo.injEq] at hr
    rcases hr with h | h | h
    · exact nomatch h
    · exact h
    · exact absurd h hzero
  | some err =>
    have htr : (c.doFormRequest env ctx endpoint params result).trace
        = [Event.newRequest MethodPost (c.doRequestURL endpoint params)] := by
      simp only [Client.doFormRequest, Client.doRequest, Client.doRequestBuild, marshalBody, hN]
      rfl
    rw [htr] at hr
    simp at hr

end AddParamsLemmas

/-- C29, counterexample: `Params` is `map[string]string{"k": "\xff"}`. The key and
the value have no double quote, no backslash and no control character, but the
value is not valid UTF-8. The loop of `AddParams` writes the nine bytes
`{"k":"\xff"}`; `json.Unmarshal` reads them without an error as the map that binds
`k` to U+FFFD, whose bytes are EF BF BD: not the value of `Params`. -/
theorem addParams_invalid_utf8_value_is_not_read_back :
    cleanBytes (goBytes "k") = true ∧ cleanBytes [0xFF] = true ∧
    paramsJSONBytes [(goBytes "k", [0xFF])]
      = [0x7B, 0x22, 0x6B, 0x22, 0x3A, 0x22, 0xFF, 0x22, 0x7D] ∧
    UnmarshalBytes zeroFloatReader .stringMap (paramsJSONBytes [(goBytes "k", [0xFF])])
        (.stringMap none)
      = (.stringMap (some [("k", "\uFFFD")]), none) ∧
    goBytes "\uFFFD" = [0xEF, 0xBF, 0xBD] ∧
    goBytes "\uFFFD" ≠ [0xFF] := by
  exact ⟨by decide, by decide, by decide, rfl, by decide, by decide⟩

/-- C29, amended: `Orders.AddParams` on well-behaved input, where every key and
value is valid UTF-8 (a `String`). When `Params` is nil or empty, every request the
operation hands to the HTTP capability has the URL of the parameter set without
`params`: the set does not bind the key, and no component of the encoded query
starts with `params=`. When `Params` is not empty, its keys are distinct (it is a
map), every key and value is free of double quotes, backslashes and control
characters, and the request constructor accepts the URL built, the operation makes
one HTTP call, a POST to the base address, `/rest/addParams.do`, `?` and the
encoded query, in which exactly one component starts with `params=`: the escaped
text the loop wrote. That text is valid JSON for the object whose members are the
entries of `Params` in the order visited; `json.Unmarshal` into a
`map[string]string` returns no error and the map with exactly these entries (held
in the order of the keys), from the text and from its bytes alike. For every order
in which the entries are visited the operation binds `params` to the text of that
order, and the map read back is the same. -/
theorem addParams_clean_params_read_back {E B : Type} (pf : String → Option Float64)
    (env : Env E B BaseResponse) (s : OrderService E) (ctx : Context)
    (orderID language : String) (e : String × String) (es : List (String × String))
    (hkeys : ((e :: es).map Prod.fst).Nodup)
    (hc : ∀ x ∈ e :: es, cleanText x.1 = true ∧ cleanText x.2 = true)
    (hN : env.NewRequestErr ctx MethodPost
      (s.client.helperURL .doFormRequest "/rest/addParams.do"
        (some (OrderService.AddParamsParams ⟨orderID, some (e :: es), language⟩))) = none) :
    (∀ ps : StringMap, ps.len = 0 →
      (OrderService.AddParamsParams ⟨orderID, ps, language⟩).Has "params" = false ∧
      ((s.client.authQuery
          (some (OrderService.AddParamsParams ⟨orderID, ps, language⟩))).Encode.data.splitOn
          '&').filter (fun seg => "params=".data.isPrefixOf seg) = [] ∧
      ∀ r, Event.httpDo r ∈ (s.AddParams env ctx ⟨orderID, ps, language⟩).trace →
        r = ⟨ctx, "POST",
          s.client.baseURL ++ "/rest/addParams.do" ++ "?" ++
            (s.client.authQuery
              (some (OrderService.AddParamsParams ⟨orderID, ps, language⟩))).Encode,
          none, [("Accept", "application/json")]⟩) ∧
    (∃ tail, (s.AddParams env ctx ⟨orderID, some (e :: es), language⟩).trace
        = [Event.newRequest "POST"
            (s.client.baseURL ++ "/rest/addParams.do" ++ "?" ++
              (s.client.authQuery (some (OrderService.AddParamsParams
                ⟨orderID, some (e :: es), language⟩))).Encode),
           Event.httpDo ⟨ctx, "POST",
            s.client.baseURL ++ "/rest/addParams.do" ++ "?" ++
              (s.client.authQuery (some (OrderService.AddParamsParams
                ⟨orderID, some (e :: es), language⟩))).Encode,
            none, [("Accept", "application/json")]⟩] ++ tail ∧
      httpCalls tail = 0) ∧
    ((s.client.authQuery (some (OrderService.AddParamsParams
          ⟨orderID, some (e :: es), language⟩))).Encode.data.splitOn '&').filter
        (fun seg => "params=".data.isPrefixOf seg)
      = ["params=".data ++ (QueryEscape (paramsJSON (e :: es))).data] ∧
    parseJSON (paramsJSON (e :: es))
      = some (JSON.object ((e :: es).map (fun x => (x.1, JSON.string x.2)))) ∧
    (∃ m, Unmarshal pf .stringMap (paramsJSON (e :: es)) (.stringMap none)
        = (.stringMap (some m), none) ∧
      UnmarshalBytes pf .stringMap
          (paramsJSONBytes ((e :: es).map (fun x => (goBytes x.1, goBytes x.2))))
          (.stringMap none)
        = (.stringMap (some m), none) ∧
      m.Perm (e :: es) ∧ keysAscend m = true ∧
      ∀ visited : List (String × String), visited.Perm (e :: es) →
        (OrderService.AddParamsParams ⟨orderID, some visited, language⟩).lookup "params"
          = [paramsJSON visited] ∧
        Unmarshal pf .stringMap (paramsJSON visited) (.stringMap none)
          = (.stringMap (some m), none)) := by
  have hname : ∀ x ∈ "params".data, unreserved x = true := by decide
  have hlook : ∀ visited : List (String × String), visited ≠ [] →
      (OrderService.AddParamsParams ⟨orderID, some visited, language⟩).lookup "params"
        = [paramsJSON visited] := by
    intro visited hv
    have hlen : 0 < visited.length := List.length_pos.mpr hv
    simp only [OrderService.AddParamsParams, StringMap.len, Option.getD_some, lookup_ite_Set,
      lookup_Set, lookup_nil]
    simp [hlen]
  refine ⟨?_, ?_, ?_, parseJSON_paramsJSON e es hc, ?_⟩
  · intro ps hps
    have hhas : (OrderService.AddParamsParams ⟨orderID, ps, language⟩).Has "params" = false := by
      by_cases hl : language = "" <;>
        simp [OrderService.AddParamsParams, hps, Values.Has, Values.Set, hl]
    refine ⟨hhas, ?_, ?_⟩
    · apply segments_without_key _ "params" hname
      rw [mem_keys_iff_Has, Has_authQuery _ _ _ (by decide) (by decide), hhas]
      exact Bool.false_ne_true
    · intro r hr
      have ht : (s.AddParams env ctx ⟨orderID, ps, language⟩).trace
          = (s.client.doFormRequest env ctx "/rest/addParams.do"
              (some (OrderService.AddParamsParams ⟨orderID, ps, language⟩))
              (some (⟨"", "", ""⟩ : BaseResponse))).trace := reply_trace _
      rw [ht] at hr
      exact (doFormRequest_trace env s.client ctx "/rest/addParams.do" _ _).2 r hr
  · obtain ⟨tail, ht, hcalls⟩ := (doFormRequest_trace env s.client ctx "/rest/addParams.do"
      (some (OrderService.AddParamsParams ⟨orderID, some (e :: es), language⟩))
      (some (⟨"", "", ""⟩ : BaseResponse))).1 hN
    refine ⟨tail, ?_, hcalls⟩
    rw [← ht]
    exact reply_trace _
  · have hl := hlook (e :: es) (List.cons_ne_nil _ _)
    have hl2 : (s.client.authQuery (some (OrderService.AddParamsParams
        ⟨orderID, some (e :: es), language⟩))).lookup "params" = [paramsJSON (e :: es)] := by
      rw [lookup_authQuery _ _ _ (by decide) (by decide), hl]
    have hmem : "params" ∈ (s.client.authQuery (some (OrderService.AddParamsParams
        ⟨orderID, some (e :: es), language⟩))).map Prod.fst := by
      apply mem_keys_of_lookup
      rw [hl2]
      exact List.cons_ne_nil _ _
    exact segments_of_key _ "params" _ hname hl2 hmem
  · obtain ⟨m, hm, hp, hs⟩ := unmarshal_paramsJSON pf e es hkeys hc
    refine ⟨m, hm, ?_, hp, keysAscend_of_pairwise m hs, ?_⟩
    · unfold UnmarshalBytes
      rw [paramsJSONBytes_goBytes, goText_goBytes, hm]
    · intro visited hv
      cases visited with
      | nil => exact absurd hv.length_eq (by simp)
      | cons e2 es2 =>
        have hkeys2 : (((e2 :: es2)).map Prod.fst).Nodup :=
          ((hv.map Prod.fst).nodup_iff).mpr hkeys
        have hc2 : ∀ x ∈ e2 :: es2, cleanText x.1 = true ∧ cleanText x.2 = true :=
          fun x hx => hc x (hv.subset hx)
        obtain ⟨m2, hm2, hp2, hs2⟩ := unmarshal_paramsJSON pf e2 es2 hkeys2 hc2
        refine ⟨hlook _ (List.cons_ne_nil _ _), ?_⟩
        rw [hm2, ascending_perm_unique m2 m ((hp2.trans hv).trans hp.symm) hs2 hs]

/-- C29, witness: two parameters, sent by the client of the examples against a
gateway that answers 200 with an empty body, and visited in either order. -/
theorem addParams_clean_params_read_back_witness :
    (OrderService.AddParams
        (⟨(fun b => nomatch b), fun _ _ _ => none, fun _ t => (t, none)⟩ :
          Env JSONError Empty BaseResponse)
        ⟨cannedClient 200 ""⟩ ⟨0⟩
        ⟨"order-1", some [("source", "mobile app"), ("campaign", "spring-2024")], ""⟩).trace
      = [Event.newRequest "POST"
          "https://alfa.rbsuat.com/payment/rest/addParams.do?orderId=order-1&params=%7B%22source%22%3A%22mobile+app%22%2C%22campaign%22%3A%22spring-2024%22%7D&password=your-password&userName=your-username",
         Event.httpDo ⟨⟨0⟩, "POST",
          "https://alfa.rbsuat.com/payment/rest/addParams.do?orderId=order-1&params=%7B%22source%22%3A%22mobile+app%22%2C%22campaign%22%3A%22spring-2024%22%7D&password=your-password&userName=your-username",
          none, [("Accept", "application/json")]⟩,
         Event.readAll] ∧
    Unmarshal zeroFloatReader .stringMap
        "\x7b\"source\":\"mobile app\",\"campaign\":\"spring-2024\"\x7d" (.stringMap none)
      = (.stringMap (some [("campaign", "spring-2024"), ("source", "mobile app")]), none) ∧
    Unmarshal zeroFloatReader .stringMap
        "\x7b\"campaign\":\"spring-2024\",\"source\":\"mobile app\"\x7d" (.stringMap none)
      = (.stringMap (some [("campaign", "spring-2024"), ("source", "mobile app")]), none) ∧
    (∃ m, Unmarshal zeroFloatReader .stringMap
          (paramsJSON [("source", "mobile app"), ("campaign", "spring-2024")]) (.stringMap none)
        = (.stringMap (some m), none) ∧
      UnmarshalBytes zeroFloatReader .stringMap
          (paramsJSONBytes ([("source", "mobile app"), ("campaign", "spring-2024")].map
            (fun x => (goBytes x.1, goBytes x.2))))
          (.stringMap none)
        = (.stringMap (some m), none) ∧
      m.Perm [("source", "mobile app"), ("campaign", "spring-2024")] ∧ keysAscend m = true ∧
      ∀ visited : List (String × String),
        visited.Perm [("source", "mobile app"), ("campaign", "spring-2024")] →
        (OrderService.AddParamsParams ⟨"order-1", some visited, ""⟩).lookup "params"
          = [paramsJSON visited] ∧
        Unmarshal zeroFloatReader .stringMap (paramsJSON visited) (.stringMap none)
          = (.stringMap (some m), none)) :=
  have h := addParams_clean_params_read_back zeroFloatReader
    (⟨(fun b => nomatch b), fun _ _ _ => none, fun _ t => (t, none)⟩ :
      Env JSONError Empty BaseResponse)
    ⟨cannedClient 200 ""⟩ ⟨0⟩
    "order-1" "" ("source", "mobile app") [("campaign", "spring-2024")] (by decide) (by decide)
    rfl
  ⟨rfl, rfl, rfl, h.2.2.2.2⟩

/-! ## The configuration after a call -/

section FrameLemmas

variable {E B T : Type}

theorem roundTripM_run (env : Env E B T) (req : Request) (result : Option T)
    (trace : List Event) (c : Client E) :
    (Client.roundTripM env req result trace).run c = (c.roundTrip env req result trace, c) := by
  unfold Client.roundTripM Client.roundTrip
  simp only [StateT.run, bind, StateT.bind, get, getThe, MonadStateOf.get, StateT.get, pure,
    StateT.pure]
  cases c.httpClient.Do req with
  | error err => rfl
  | ok resp =>
    simp only []
    cases resp.Body with
    | error err => rfl
    | ok respBody =>
      simp only []
      split
      · rfl
      · cases result with
        | none => rfl
        | some target =>
          simp only []
          split
          · rcases hu : env.Unmarshal respBody target with ⟨t, _ | err⟩ <;> rfl
          · rfl

theorem sendM_run (env : Env E B T) (ctx : Context) (method fullURL : String)
    (header : Header) (body : Option B) (result : Option T) (c : Client E) :
    (match marshalBody env body with
      | .error err =>
        (StateT.pure ⟨some (Error.wrapError "failed to marshal request body" err), result,
          [Event.marshal]⟩ : StateM (Client E) (Outcome E T))
      | .ok (bodyReader, trace) =>
        match env.NewRequestErr ctx method fullURL with
        | some err =>
          StateT.pure ⟨some (Error.wrapError "failed to create request" err), result,
            trace ++ [Event.newRequest method fullURL]⟩
        | none =>
          Client.roundTripM env ⟨ctx, method, fullURL, bodyReader, header⟩ result
            (trace ++ [Event.newRequest method fullURL])) c
      = (match (match marshalBody env body with
          | .error err =>
            (Except.error (Error.wrapError "failed to marshal request body" err, [Event.marshal]) :
              Except (Error E × List Event) (Request × List Event))
          | .ok (bodyReader, trace) =>
            match env.NewRequestErr ctx method fullURL with
            | some err =>
              Except.error (Error.wrapError "failed to create request" err,
                trace ++ [Event.newRequest method fullURL])
            | none =>
              Except.ok (⟨ctx, method, fullURL, bodyReader, header⟩,
                trace ++ [Event.newRequest method fullURL])) with
        | .error (err, trace) => ⟨some err, result, trace⟩
        | .ok (req, trace) => c.roundTrip env req result trace, c) := by
  cases marshalBody env body with
  | error err => rfl
  | ok p =>
    obtain ⟨bodyReader, trace⟩ := p
    simp only []
    cases env.NewRequestErr ctx method fullURL with
    | some err => rfl
    | none => exact roundTripM_run env _ result _ c

theorem doRequestM_run (env : Env E B T) (ctx : Context) (method endpoint : String)
    (query : Option Values) (body : Option B) (result : Option T) (c : Client E) :
    (Client.doRequestM env ctx method endpoint query body result).run c
      = (c.doRequest env ctx method endpoint query body result, c) := by
  unfold Client.doRequestM Client.doRequest Client.doRequestBuild Client.doRequestURL
    Client.authQuery
  simp only [StateT.run, bind, StateT.bind, get, getThe, MonadStateOf.get, StateT.get, pure]
  exact sendM_run env ctx method _ _ body result c

theorem doJSONRequestNoAuthM_run (env : Env E B T) (ctx : Context) (endpoint : String)
    (body : Option B) (result : Option T) (c : Client E) :
    (Client.doJSONRequestNoAuthM env ctx endpoint body result).run c
      = (c.doJSONRequestNoAuth env ctx endpoint body result, c) := by
  unfold Client.doJSONRequestNoAuthM Client.doJSONRequestNoAuth Client.doJSONRequestNoAuthBuild
  simp only [StateT.run, bind, StateT.bind, get, getThe, MonadStateOf.get, StateT.get, pure]
  exact sendM_run env ctx MethodPost _ _ body result c

theorem helperDispatchM_run (env : Env E B T) (ctx : Context) (helper : Helper)
    (endpoint : String) (params : Option Values) (body : Option B) (result : Option T)
    (c : Client E) :
    (Client.helperDispatchM env ctx helper endpoint params body result).run c
      = (c.helperDispatch env ctx helper endpoint params body result, c) := by
  cases helper with
  | doFormRequest => exact doRequestM_run env ctx MethodPost endpoint params none result c
  | doJSONRequest => exact doRequestM_run env ctx MethodPost endpoint none body result c
  | doJSONRequestNoAuth => exact doJSONRequestNoAuthM_run env ctx endpoint body result c

theorem callM_run (env : Env E B T) (ctx : Context) (helper : Helper) (endpoint : String)
    (params : Option Values) (body : Option B) (zero : T) (c : Client E) :
    (Client.callM env ctx helper endpoint params body zero).run c
      = (c.call env ctx helper endpoint params body zero, c) := by
  have h := helperDispatchM_run env ctx helper endpoint params body (some zero) c
  unfold Client.callM Client.call
  simp only [StateT.run, bind, StateT.bind] at h ⊢
  rw [h]
  simp only []
  cases (c.helperDispatch env ctx helper endpoint params body (some zero)).err <;> rfl

theorem RecurrentM_run {E T : Type} (env : Env E Typed T) (zero : T) (ctx : Context)
    (req : GoValue) (c : Client E) :
    (PaymentService.RecurrentM env zero ctx req).run c
      = (PaymentService.Recurrent env zero ⟨c⟩ ctx req, c) := by
  have h := callM_run env ctx .doJSONRequestNoAuth "/recurrentPayment.do" none
    (some ((PaymentService.mk c).recurrentReqWithAuth req)) zero c
  unfold PaymentService.RecurrentM
  simp only [StateT.run, bind, StateT.bind, get, getThe, MonadStateOf.get, StateT.get, pure,
    StateT.pure] at h ⊢
  rw [h]
  rfl

end FrameLemmas

/-- C21: a domain operation leaves the client record as it found it. For every
helper, endpoint, parameters, body and response type, every behaviour of the
collaborators (so every outcome: marshal or construction failure, transport
failure, body-read failure, gateway error, decode failure, success) and every
client, the record after the call is the record before it: the same base address,
user name, password and HTTP capability. What the call returns is what the
operation computes from the unchanged record. `Payments.Recurrent`, which reads
the credentials itself, is included. -/
theorem configuration_is_not_mutated {E B T : Type} (env : Env E B T) (ctx : Context)
    (helper : Helper) (endpoint : String) (params : Option Values) (body : Option B)
    (zero : T) (c : Client E) (typedEnv : Env E Typed T) (req : GoValue) :
    ((Client.callM env ctx helper endpoint params body zero).run c).2 = c ∧
    ((Client.callM env ctx helper endpoint params body zero).run c).2.baseURL = c.baseURL ∧
    ((Client.callM env ctx helper endpoint params body zero).run c).2.userName = c.userName ∧
    ((Client.callM env ctx helper endpoint params body zero).run c).2.password = c.password ∧
    ((Client.callM env ctx helper endpoint params body zero).run c).2.httpClient
      = c.httpClient ∧
    ((Client.callM env ctx helper endpoint params body zero).run c).1
      = c.call env ctx helper endpoint params body zero ∧
    (∀ result, ((Client.helperDispatchM env ctx helper endpoint params body result).run c).2
      = c) ∧
    ((PaymentService.RecurrentM typedEnv zero ctx req).run c).2 = c ∧
    ((PaymentService.RecurrentM typedEnv zero ctx req).run c).1
      = PaymentService.Recurrent typedEnv zero ⟨c⟩ ctx req := by
  rw [callM_run, RecurrentM_run]
  refine ⟨rfl, rfl, rfl, rfl, rfl, rfl, fun result => ?_, rfl, rfl⟩
  rw [helperDispatchM_run]

/-! ## The context of the outbound request -/

/-- The request a dispatch hands to the HTTP capability carries the context the
caller gave: `http.NewRequestWithContext(ctx, ...)` is the only constructor used
(client.go 122 and 183). When the capability gives up on that context and returns
its error, the dispatch returns it wrapped as `request failed` and makes no further
call. -/
theorem request_carries_caller_context {E B T : Type} (env : Env E B T) (c : Client E)
    (ctx : Context) (mode : AuthMode) (method endpoint : String) (query : Option Values)
    (body : Option B) (result : Option T) (req : Request) (trace : List Event)
    (hbuild : c.DispatchBuild env ctx mode method endpoint query body = .ok (req, trace)) :
    req.ctx = ctx ∧
    (∀ r, Event.httpDo r ∈ (c.Dispatch env ctx mode method endpoint query body result).trace →
      r.ctx = ctx) ∧
    (∀ e, c.httpClient.Do req = .error e →
      c.Dispatch env ctx mode method endpoint query body result
        = ⟨some (Error.wrapError "request failed" e), result, trace ++ [Event.httpDo req]⟩) := by
  have hctx : req.ctx = ctx := by
    cases mode with
    | queryAuthenticated =>
      obtain ⟨_, _, _, _, hreq, _⟩ :=
        doRequestBuild_ok env c ctx method endpoint query body req trace hbuild
      rw [hreq]
    | bodyAuthenticatedOrNone =>
      obtain ⟨_, _, _, _, hreq, _⟩ :=
        doJSONRequestNoAuthBuild_ok env c ctx endpoint body req trace hbuild
      rw [hreq]
  refine ⟨hctx, fun r hr => ?_, fun e he => ?_⟩
  · rw [dispatch_calls_only_built env c ctx mode method endpoint query body result req trace
      hbuild r hr]
    exact hctx
  · rw [Dispatch_eq_roundTrip env c ctx mode method endpoint query body result req trace hbuild]
    exact roundTrip_transport env c req result trace e he

/-- C25, witness: the QR request of `Example_sbpQRPayment` (height and width 300)
and the same request with the height left at zero. -/
theorem optional_numbers_sent_when_positive_witness :
    (SBPService.GetQRParams
        { MDOrder := "70906e55-7114-41d6-8332-4609dc6590f4", QRHeight := 300, QRWidth := 300,
          QRFormat := "image" }).lookup "qrHeight" = ["300"] ∧
    parseInt64 "300" = some 300 ∧
    (SBPService.GetQRParams
        { MDOrder := "70906e55-7114-41d6-8332-4609dc6590f4", QRWidth := 300,
          QRFormat := "image" }).Has "qrHeight" = false :=
  have h := (optional_numbers_sent_when_positive {} {} {} {}
    { MDOrder := "70906e55-7114-41d6-8332-4609dc6590f4", QRHeight := 300, QRWidth := 300,
      QRFormat := "image" }).2.2.2.2.2.2.1
  have h0 := (optional_numbers_sent_when_positive {} {} {} {}
    { MDOrder := "70906e55-7114-41d6-8332-4609dc6590f4", QRWidth := 300,
      QRFormat := "image" }).2.2.2.2.2.2.1
  ⟨h.2.1 (by decide), h.2.2 (by decide) (by decide),
    Bool.eq_false_iff.mpr (fun hh => absurd (h0.1.mp hh) (by decide))⟩

end Alfapay
